import Mathlib

/-!
Vitruvio batch actor: tiles, grid, dispatch and result queues.

A shallow embedding of `VitruvioBatchActor.cpp` (with the token type of
`VitruvioModule.h`).  Engine objects that the C++ code reaches through pointers
(`UTile*`, `UVitruvioComponent*`, token shared pointers, callback proxies) are
numbered, and the objects themselves live in heaps inside `State`.  Effects on
the outside world (attribute pushes, notifications, delegate broadcasts,
component destruction) are recorded in `State.log`.

Numbers: `FVector` coordinates and the grid dimension are finite doubles, held
as the rationals they denote; the division in `GetPosition` rounds the exact
quotient to the nearest double (`roundDouble`), and the conversion to `int` is
that of x86-64 (`staticCastInt`).  Containers: `TSet` and `TMap` are
insertion-ordered lists; futures are a list of continuations that have not run
yet (`pendingGenerate`, `pendingEvaluate`).
-/

namespace Vitruvio

/-! Section: Identifiers of engine objects. -/

/-- Identity of a `UVitruvioComponent*`. -/
abbrev ComponentId := Nat
/-- Identity of a `UTile*`. -/
abbrev TileId := Nat
/-- Identity of a token object behind a `TSharedPtr<FInvalidationToken>`. -/
abbrev TokenId := Nat
/-- Identity of a `UGenerateCompletedCallbackProxy*`. -/
abbrev CallbackId := Nat
/-- Identity of an evaluated attribute map (`FAttributeMapPtr`). -/
abbrev AttributeMapId := Nat
/-- Identity of a material. -/
abbrev MaterialId := Nat
/-- Identity of a transform value. -/
abbrev TransformId := Nat
/-- Identity of a replacement asset. -/
abbrev AssetId := Nat

/-! Section: Containers. -/

/-- Lookup `TMap::Find`: the value stored under a key. -/
def TMapFind {κ ν : Type} [DecidableEq κ] : List (κ × ν) → κ → Option ν
  | [], _ => none
  | (k, v) :: rest, key => if k = key then some v else TMapFind rest key

/-- Replaces the value of an existing key, in place. -/
def TMapReplace {κ ν : Type} [DecidableEq κ] : List (κ × ν) → κ → ν → List (κ × ν)
  | [], _, _ => []
  | (k, v) :: rest, key, val =>
    if k = key then (k, val) :: rest else (k, v) :: TMapReplace rest key val

/-- Insertion `TMap::Add`: a key holds one value; adding an existing key replaces its value. -/
def TMapAdd {κ ν : Type} [DecidableEq κ] (m : List (κ × ν)) (key : κ) (val : ν) : List (κ × ν) :=
  match TMapFind m key with
  | some _ => TMapReplace m key val
  | none => m ++ [(key, val)]

/-- The values of a map, `TMap::GenerateValueArray`. -/
def GenerateValueArray {κ ν : Type} (m : List (κ × ν)) : List ν :=
  m.map Prod.snd

/-- Membership test `TSet::Contains`. -/
def TSetContains {α : Type} [DecidableEq α] (s : List α) (a : α) : Bool :=
  decide (a ∈ s)

/-- Insertion `TSet::Add`: no effect when the element is present. -/
def TSetAdd {α : Type} [DecidableEq α] (s : List α) (a : α) : List α :=
  if a ∈ s then s else s ++ [a]

/-- Removal `TSet::Remove`. -/
def TSetRemove {α : Type} [DecidableEq α] (s : List α) (a : α) : List α :=
  s.filter (fun b => decide (b ≠ a))

/-- Applies `f` to the object at address `i` of a heap; no effect on an address
that holds no object. -/
def modifyAt {α : Type} (f : α → α) : Nat → List α → List α
  | _, [] => []
  | 0, x :: xs => f x :: xs
  | n + 1, x :: xs => x :: modifyAt f n xs

/-! Section: Data. -/

/-- A tile coordinate, `FIntPoint`. -/
structure FIntPoint where
  X : Int
  Y : Int
deriving DecidableEq, Repr, Inhabited

/-- A position `FVector`; each coordinate is a finite double, held as the rational it denotes. -/
structure FVector where
  X : ℚ
  Y : ℚ
  Z : ℚ
deriving DecidableEq, Repr, Inhabited

/-- The parts of a `UVitruvioComponent` that the batch actor reads or writes. -/
structure UVitruvioComponent where
  /-- Value of `GetOwner()->GetTransform().GetLocation()`. -/
  Location : FVector
  /-- Value of `HasValidInputData()`. -/
  bHasValidInputData : Bool
  /-- Value of `InitialShape->GetPolygon()`. -/
  Polygon : Nat
  /-- The attribute store `Attributes`, named by the map last written to it. -/
  Attributes : AttributeMapId
  /-- Value of `GetRandomSeed()`. -/
  RandomSeed : Int
  /-- Value of `GetRpk()`. -/
  Rpk : Nat
  bAttributesReady : Bool
deriving DecidableEq, Repr, Inhabited

/-- Initial shape `FInitialShape` (VitruvioModule.h). -/
structure FInitialShape where
  Offset : FVector
  Polygon : Nat
  Attributes : AttributeMapId
  RandomSeed : Int
  RulePackage : Nat
deriving DecidableEq, Repr, Inhabited

/-- A `UStaticMesh`: its identity and its material slots. -/
structure UStaticMesh where
  Id : Nat
  Materials : List MaterialId
deriving DecidableEq, Repr, Inhabited

/-- Mesh `FVitruvioMesh` (VitruvioMesh.h): identifier and built static mesh. -/
structure FVitruvioMesh where
  Identifier : String
  StaticMesh : Option UStaticMesh
deriving DecidableEq, Repr, Inhabited

/-- One instance group of a converted generate result, `FInstance`. -/
structure FInstance where
  Name : String
  InstanceMesh : FVitruvioMesh
  OverrideMaterials : List MaterialId
  Transforms : List TransformId
deriving DecidableEq, Repr, Inhabited

/-- Result `FGenerateResultDescription` (VitruvioModule.h), without the reports. -/
structure FGenerateResultDescription where
  GeneratedModel : Option FVitruvioMesh
  Instances : List (Nat × List TransformId)
  InstanceMeshes : List (String × FVitruvioMesh)
  InstanceNames : List (String × String)
  EvaluatedAttributes : List AttributeMapId
deriving DecidableEq, Repr, Inhabited

/-- What `BuildGenerateResult` returns, `FConvertedGenerateResult`. -/
structure FConvertedGenerateResult where
  ShapeMesh : Option FVitruvioMesh
  Instances : List FInstance
deriving DecidableEq, Repr, Inhabited

/-- Instance component `UGeneratedModelHISMComponent` (GeneratedModelHISMComponent.h). -/
structure UGeneratedModelHISMComponent where
  Name : String
  StaticMesh : Option UStaticMesh
  MeshIdentifier : String
  /-- per-instance transforms, in `AddInstance` order -/
  PerInstance : List TransformId
  /-- material slots written by `SetMaterial` -/
  OverrideMaterials : List (Option MaterialId)
deriving DecidableEq, Repr, Inhabited

/-- Model component `UGeneratedModelStaticMeshComponent`: primary mesh, material overrides and
attached instance components. -/
structure UGeneratedModelStaticMeshComponent where
  Name : String
  StaticMesh : Option UStaticMesh
  OverrideMaterials : List (Option MaterialId)
  /-- Result of `GetChildrenComponents(true, ...)`. -/
  Children : List UGeneratedModelHISMComponent
  /-- set by `DestroyComponent`; `IsValid` is its negation -/
  bDestroyed : Bool
deriving DecidableEq, Repr, Inhabited

/-- Tile `UTile`. A new tile has every flag false, no token, no model component. -/
structure UTile where
  VitruvioComponents : List ComponentId
  Location : FIntPoint
  bMarkedForGenerate : Bool
  bMarkedForEvaluateAttributes : Bool
  bIsGenerating : Bool
  bIsEvaluatingAttributes : Bool
  GenerateToken : Option TokenId
  EvalAttributesToken : Option TokenId
  GeneratedModelComponent : Option UGeneratedModelStaticMeshComponent
  GenerateCallbackProxies : List (ComponentId × CallbackId)
  EvaluateAttributesCallbackProxies : List (ComponentId × CallbackId)
deriving DecidableEq, Repr, Inhabited

/-- Grid `FGrid`: tiles by coordinate and the reverse index. -/
structure FGrid where
  Tiles : List (FIntPoint × TileId)
  TilesByComponent : List (ComponentId × TileId)
deriving DecidableEq, Repr, Inhabited

/-- Queue item `FBatchGenerateQueueItem`. -/
structure FBatchGenerateQueueItem where
  GenerateResultDescription : FGenerateResultDescription
  Tile : TileId
  VitruvioComponents : List ComponentId
deriving DecidableEq, Repr, Inhabited

/-- Queue item `FEvaluateAttributesQueueItem`. -/
structure FEvaluateAttributesQueueItem where
  AttributeMaps : List AttributeMapId
  Tile : TileId
  VitruvioComponents : List ComponentId
deriving DecidableEq, Repr, Inhabited

/-- A continuation attached with `Result.Next(...)` that has not run yet: the
token of its result and the values its lambda captured, with the initial shapes
that were handed to the service. -/
structure FPendingJob where
  Token : TokenId
  Tile : TileId
  InitialShapeVitruvioComponents : List ComponentId
  InitialShapes : List FInitialShape
deriving DecidableEq, Repr, Inhabited

/-- Effects on objects outside the batch actor, in the order they happen. -/
inductive Event where
  /-- Call `attrs->UpdateUnrealAttributeMap(Component->Attributes, Component)`. -/
  | UpdateUnrealAttributeMap (c : ComponentId) (a : AttributeMapId)
  /-- Call `Component->NotifyAttributesChanged()`. -/
  | NotifyAttributesChanged (c : ComponentId)
  /-- Call `CallbackProxy->OnGenerateCompletedBlueprint.Broadcast()` of a tile callback. -/
  | OnGenerateCompletedBlueprint (cb : CallbackId)
  /-- Call `CallbackProxy->OnGenerateCompleted.Broadcast()` of a tile callback. -/
  | OnGenerateCompleted (cb : CallbackId)
  /-- Call `CallbackProxy->SetReadyToDestroy()`. -/
  | SetReadyToDestroy (cb : CallbackId)
  /-- Call `GenerateAllCallbackProxy->OnGenerateCompleted.Broadcast()`. -/
  | GenerateAllCompleted (cb : CallbackId)
  /-- Call `DestroyComponent(true)` on the component of that name. -/
  | DestroyComponent (name : String)
  /-- Creation and registration of the instance component of that name. -/
  | RegisterComponent (name : String)
deriving DecidableEq, Repr, Inhabited

/-- The batch actor with the objects it points to. -/
structure State where
  /-- heap of `UVitruvioComponent` objects -/
  components : List UVitruvioComponent
  /-- heap of `UTile` objects -/
  tiles : List UTile
  /-- tokens whose `bIsInvalid` is true -/
  invalidTokens : List TokenId
  /-- number of tokens created so far; the next token gets this identity -/
  numTokens : Nat
  Grid : FGrid
  GridDimension : ℚ × ℚ
  VitruvioComponents : List ComponentId
  NumModelComponents : Nat
  GenerateQueue : List FBatchGenerateQueueItem
  AttributeEvaluationQueue : List FEvaluateAttributesQueueItem
  GenerateAllCallbackProxy : Option CallbackId
  EvaluateAllCallbackProxy : Option CallbackId
  MaterialReplacement : Option AssetId
  InstanceReplacement : Option AssetId
  MaterialIdentifiers : List (MaterialId × String)
  UniqueMaterialIdentifiers : List (String × Nat)
  /-- continuations of generate futures that have not run -/
  pendingGenerate : List FPendingJob
  /-- continuations of attribute-evaluation futures that have not run -/
  pendingEvaluate : List FPendingJob
  log : List Event
deriving DecidableEq, Repr, Inhabited

/-- Functions that `ProcessGenerateQueue` calls and that are defined elsewhere in
the plugin. `NameMap` arguments and the model component are passed back because
the C++ functions receive them by reference or pointer. -/
structure Externals where
  BuildGenerateResult : FGenerateResultDescription → List (MaterialId × String) → List (String × Nat) →
    FConvertedGenerateResult × List (MaterialId × String) × List (String × Nat)
  ApplyMaterialReplacements : UGeneratedModelStaticMeshComponent → List (MaterialId × String) →
    Option AssetId → UGeneratedModelStaticMeshComponent
  ApplyInstanceReplacements : UGeneratedModelStaticMeshComponent → List FInstance → Option AssetId →
    List (String × Nat) → List FInstance × UGeneratedModelStaticMeshComponent × List (String × Nat)
  UniqueComponentName : String → List (String × Nat) → String × List (String × Nat)

/-! Section: Heap access. -/

/-- The tile at an address of the tile heap; an address without object reads as a new tile. -/
def tileAt (tiles : List UTile) (t : TileId) : UTile :=
  tiles.getD t default

/-- Reads the tile behind a `UTile*`. -/
def getTile (s : State) (t : TileId) : UTile :=
  tileAt s.tiles t

/-- Writes through a `UTile*`. -/
def modifyTile (s : State) (t : TileId) (f : UTile → UTile) : State :=
  { s with tiles := modifyAt f t s.tiles }

/-- Reads the component behind a `UVitruvioComponent*`. -/
def getComponent (s : State) (c : ComponentId) : UVitruvioComponent :=
  s.components.getD c default

/-! Section: FInvalidationToken. -/

/-- Method `FInvalidationToken::Invalidate`. -/
def FInvalidationToken.Invalidate (s : State) (tok : TokenId) : State :=
  { s with invalidTokens := tok :: s.invalidTokens }

/-- Method `FInvalidationToken::IsInvalid`. -/
def FInvalidationToken.IsInvalid (s : State) (tok : TokenId) : Bool :=
  decide (tok ∈ s.invalidTokens)

/-- Invalidates the token a tile field points to, when it points to one. -/
def invalidateIfSet (s : State) (tok : Option TokenId) : State :=
  match tok with
  | some t => FInvalidationToken.Invalidate s t
  | none => s

/-! Section: UTile. -/

/-- Method `UTile::MarkForAttributeEvaluation`. -/
def UTile.MarkForAttributeEvaluation (t : UTile) (VitruvioComponent : ComponentId)
    (CallbackProxy : Option CallbackId) : UTile :=
  let t := { t with bMarkedForEvaluateAttributes := true }
  match CallbackProxy with
  | some cb =>
    { t with EvaluateAttributesCallbackProxies :=
        TMapAdd t.EvaluateAttributesCallbackProxies VitruvioComponent cb }
  | none => t

/-- Method `UTile::UnmarkForAttributeEvaluation`. -/
def UTile.UnmarkForAttributeEvaluation (t : UTile) : UTile :=
  { t with bMarkedForEvaluateAttributes := false, EvaluateAttributesCallbackProxies := [] }

/-- Method `UTile::MarkForGenerate`. -/
def UTile.MarkForGenerate (t : UTile) (VitruvioComponent : ComponentId)
    (CallbackProxy : Option CallbackId) : UTile :=
  let t := if t.bMarkedForEvaluateAttributes then t.UnmarkForAttributeEvaluation else t
  let t := { t with bMarkedForGenerate := true }
  match CallbackProxy with
  | some cb =>
    { t with GenerateCallbackProxies := TMapAdd t.GenerateCallbackProxies VitruvioComponent cb }
  | none => t

/-- Method `UTile::UnmarkForGenerate`. -/
def UTile.UnmarkForGenerate (t : UTile) : UTile :=
  { t with bMarkedForGenerate := false, GenerateCallbackProxies := [] }

/-- Method `UTile::Add`. -/
def UTile.Add (t : UTile) (VitruvioComponent : ComponentId) : UTile :=
  { t with VitruvioComponents := TSetAdd t.VitruvioComponents VitruvioComponent }

/-- Method `UTile::Remove`. -/
def UTile.Remove (t : UTile) (VitruvioComponent : ComponentId) : UTile :=
  { t with VitruvioComponents := TSetRemove t.VitruvioComponents VitruvioComponent }

/-- Method `UTile::Contains`. -/
def UTile.Contains (t : UTile) (VitruvioComponent : ComponentId) : Bool :=
  TSetContains t.VitruvioComponents VitruvioComponent

/-- The initial shape built from one component in `UTile::GetInitialShapes`. -/
def makeInitialShape (c : UVitruvioComponent) : FInitialShape :=
  { Offset := c.Location, Polygon := c.Polygon, Attributes := c.Attributes,
    RandomSeed := c.RandomSeed, RulePackage := c.Rpk }

/-- The loop of `UTile::GetInitialShapes` over the tile's components. -/
def GetInitialShapesLoop (s : State) : List ComponentId → List FInitialShape × List ComponentId
  | [] => ([], [])
  | VitruvioComponent :: rest =>
    let (InitialShapes, ValidVitruvioComponents) := GetInitialShapesLoop s rest
    if !(getComponent s VitruvioComponent).bHasValidInputData then
      (InitialShapes, ValidVitruvioComponents)
    else
      (makeInitialShape (getComponent s VitruvioComponent) :: InitialShapes,
        VitruvioComponent :: ValidVitruvioComponents)

/-- Method `UTile::GetInitialShapes`: the initial shapes and the components they come from. -/
def UTile.GetInitialShapes (s : State) (t : UTile) : List FInitialShape × List ComponentId :=
  GetInitialShapesLoop s t.VitruvioComponents

/-! Section: FGrid. -/

/-- Method `FGrid::MarkForAttributeEvaluation`. -/
def FGrid.MarkForAttributeEvaluation (s : State) (VitruvioComponent : ComponentId)
    (CallbackProxy : Option CallbackId) : State :=
  match TMapFind s.Grid.TilesByComponent VitruvioComponent with
  | some Tile => modifyTile s Tile (fun t => t.MarkForAttributeEvaluation VitruvioComponent CallbackProxy)
  | none => s

/-- Method `FGrid::MarkAllForAttributeEvaluation`. -/
def FGrid.MarkAllForAttributeEvaluation (s : State) : State :=
  s.Grid.TilesByComponent.foldl
    (fun acc e => modifyTile acc e.2 (fun t => t.MarkForGenerate e.1 none)) s

/-- Method `FGrid::MarkForGenerate`. -/
def FGrid.MarkForGenerate (s : State) (VitruvioComponent : ComponentId)
    (CallbackProxy : Option CallbackId) : State :=
  match TMapFind s.Grid.TilesByComponent VitruvioComponent with
  | some Tile => modifyTile s Tile (fun t => t.MarkForGenerate VitruvioComponent CallbackProxy)
  | none => s

/-- Method `FGrid::MarkAllForGenerate`. -/
def FGrid.MarkAllForGenerate (s : State) : State :=
  s.Grid.TilesByComponent.foldl
    (fun acc e => modifyTile acc e.2 (fun t => t.MarkForGenerate e.1 none)) s

/-- Two to the power `e`, as a rational (`1 <<< n` is `2 ^ n`). -/
def twoPow (e : ℤ) : ℚ :=
  if 0 ≤ e then ((1 <<< e.toNat : ℕ) : ℚ) else 1 / ((1 <<< (-e).toNat : ℕ) : ℚ)

/-- Floor of the binary logarithm of `n` for `1 ≤ n ≤ fuel`. -/
def floorLog2 : Nat → Nat → Nat
  | 0, _ => 0
  | fuel + 1, n => if 2 ≤ n then floorLog2 fuel (n / 2) + 1 else 0

/-- The binade of a rational `q` other than zero: the `e` with `2^e ≤ |q| < 2^(e+1)`. -/
def binade (q : ℚ) : ℤ :=
  let e0 : ℤ := (floorLog2 q.num.natAbs q.num.natAbs : ℤ) - (floorLog2 q.den q.den : ℤ)
  if twoPow e0 ≤ |q| then e0 else e0 - 1

/-- Rounding of a rational to the nearest integer, a tie going to the even one. -/
def roundTiesToEven (r : ℚ) : ℤ :=
  if r - Int.floor r < 1 / 2 then Int.floor r
  else if 1 / 2 < r - Int.floor r then Int.floor r + 1
  else if Int.floor r % 2 = 0 then Int.floor r else Int.floor r + 1

/-- The unit in the last place of the doubles around `q`: 53 significant bits, and the exponent
of the subnormal range where `|q| < 2^-1022`. -/
def ulp (q : ℚ) : ℚ := twoPow (max (binade q) (-1022) - 52)

/-- The double (IEEE 754 binary64) that an arithmetic operation with exact result `q` returns in
the default rounding mode, round to nearest with ties to even; `none` stands for an infinity
(overflow).  A zero result of either sign is `0`. -/
def roundDouble (q : ℚ) : Option ℚ :=
  if q = 0 then some 0
  else if |(roundTiesToEven (q / ulp q) : ℚ) * ulp q| < twoPow 1024 then
    some ((roundTiesToEven (q / ulp q) : ℚ) * ulp q)
  else none

/-- The `/` of two finite doubles; `none` stands for a result that is not finite (an infinity,
or the NaN of `0 / 0`). -/
def divDouble (x d : ℚ) : Option ℚ :=
  if d = 0 then none else roundDouble (x / d)

/-- Function `FMath::Floor` on a double: the greatest whole number not above it, as a double. -/
def FMath.Floor (v : Option ℚ) : Option ℚ := v.map (fun r => ((Int.floor r : ℤ) : ℚ))

/-- The conversion `static_cast<int>` of a double: truncation toward zero when the result fits
a 32-bit `int`, from `-2147483648 = -2^31` to `2147483647`; otherwise (also for an infinity or
NaN) the value `-2^31` that the x86-64 conversion instruction returns. -/
def staticCastInt (v : Option ℚ) : ℤ :=
  match v with
  | none => -2147483648
  | some r =>
    if -2147483648 ≤ (if 0 ≤ r then Int.floor r else Int.ceil r) ∧
        (if 0 ≤ r then Int.floor r else Int.ceil r) < 2147483648 then
      (if 0 ≤ r then Int.floor r else Int.ceil r)
    else -2147483648

/-- Method `AVitruvioBatchActor::GetPosition`. -/
def AVitruvioBatchActor.GetPosition (s : State) (VitruvioComponent : ComponentId) : FIntPoint :=
  let Position := (getComponent s VitruvioComponent).Location
  { X := staticCastInt (FMath.Floor (divDouble Position.X s.GridDimension.1)),
    Y := staticCastInt (FMath.Floor (divDouble Position.Y s.GridDimension.2)) }

/-- The tile lookup or creation at the start of `FGrid::Register`. -/
def FGrid.FindOrAddTile (s : State) (Position : FIntPoint) : State × TileId :=
  match TMapFind s.Grid.Tiles Position with
  | some Tile => (s, Tile)
  | none =>
    let Tile := s.tiles.length
    ({ s with
        tiles := s.tiles ++ [{ (default : UTile) with Location := Position }],
        Grid := { s.Grid with Tiles := TMapAdd s.Grid.Tiles Position Tile } }, Tile)

/-- Method `FGrid::Register`. -/
def FGrid.Register (s : State) (VitruvioComponent : ComponentId) (bGenerateModel : Bool) : State :=
  let Position := AVitruvioBatchActor.GetPosition s VitruvioComponent
  let (s, Tile) := FGrid.FindOrAddTile s Position
  if !(getTile s Tile).Contains VitruvioComponent then
    let s := modifyTile s Tile (fun t => t.Add VitruvioComponent)
    let s := if bGenerateModel then
        modifyTile s Tile (fun t => t.MarkForGenerate VitruvioComponent none)
      else s
    { s with Grid := { s.Grid with
        TilesByComponent := TMapAdd s.Grid.TilesByComponent VitruvioComponent Tile } }
  else s

/-- Method `FGrid::RegisterAll`. -/
def FGrid.RegisterAll (s : State) (VitruvioComponents : List ComponentId) (bGenerateModel : Bool) : State :=
  VitruvioComponents.foldl (fun acc c => FGrid.Register acc c bGenerateModel) s

/-- Method `FGrid::Unregister`. -/
def FGrid.Unregister (s : State) (VitruvioComponent : ComponentId) : State :=
  match TMapFind s.Grid.TilesByComponent VitruvioComponent with
  | some Tile =>
    let s := match (getTile s Tile).GenerateToken with
      | some tok =>
        modifyTile (FInvalidationToken.Invalidate s tok) Tile (fun t => { t with GenerateToken := none })
      | none => s
    let s := modifyTile s Tile (fun t => t.Remove VitruvioComponent)
    modifyTile s Tile (fun t => t.MarkForGenerate VitruvioComponent none)
  | none => s

/-- Destroys the children of a model component: one `DestroyComponent` each. -/
def destroyChildren (log : List Event) (mc : UGeneratedModelStaticMeshComponent) :
    List Event × UGeneratedModelStaticMeshComponent :=
  (log ++ mc.Children.map (fun ch => Event.DestroyComponent ch.Name), { mc with Children := [] })

/-- The body of the loop of `FGrid::Clear` for one entry of the reverse index. -/
def FGrid.ClearTile (s : State) (Tile : TileId) : State :=
  match (getTile s Tile).GeneratedModelComponent with
  | some mc =>
    if !mc.bDestroyed then
      let (log, mc) := destroyChildren s.log mc
      let s := { s with log := log ++ [Event.DestroyComponent mc.Name] }
      modifyTile s Tile (fun t =>
        { t with GeneratedModelComponent := some { mc with bDestroyed := true } })
    else s
  | none => s

/-- Method `FGrid::Clear`. -/
def FGrid.Clear (s : State) : State :=
  let s := s.Grid.TilesByComponent.foldl (fun acc e => FGrid.ClearTile acc e.2) s
  { s with Grid := { Tiles := [], TilesByComponent := [] } }

/-- Method `FGrid::GetTilesMarkedForGenerate`. -/
def FGrid.GetTilesMarkedForGenerate (s : State) : List TileId :=
  (GenerateValueArray s.Grid.Tiles).filter (fun Tile => (getTile s Tile).bMarkedForGenerate)

/-- Method `FGrid::GetTilesMarkedForAttributeEvaluation`. -/
def FGrid.GetTilesMarkedForAttributeEvaluation (s : State) : List TileId :=
  (GenerateValueArray s.Grid.Tiles).filter (fun Tile => (getTile s Tile).bMarkedForEvaluateAttributes)

/-- Method `FGrid::UnmarkAllForGenerate`. -/
def FGrid.UnmarkAllForGenerate (s : State) : State :=
  s.Grid.Tiles.foldl (fun acc e => modifyTile acc e.2 UTile.UnmarkForGenerate) s

/-- Method `FGrid::UnmarkAllForAttributeEvaluation`. -/
def FGrid.UnmarkAllForAttributeEvaluation (s : State) : State :=
  s.Grid.Tiles.foldl (fun acc e => modifyTile acc e.2 UTile.UnmarkForAttributeEvaluation) s

/-! Section: AVitruvioBatchActor, dispatch. -/

/-- Modelled from the spec: `VitruvioModule::BatchGenerateAsync` and
`VitruvioModule::BatchEvaluateRuleAttributesAsync` are declared in VitruvioModule.h and defined
outside the sources at hand. Per the spec they return `(token, future)` with the token created at
dispatch time; the token is a new object, so it gets the next unused identity (its `bIsInvalid`
starts false by the member initialiser in VitruvioModule.h). The future is represented by the
continuation that the caller appends to the pending list. -/
def VitruvioModule.NewToken (s : State) : State × TokenId :=
  ({ s with numTokens := s.numTokens + 1 }, s.numTokens)

/-- The block "Initialize and cleanup the model component" of `ProcessTiles`. -/
def AVitruvioBatchActor.PrepareModelComponent (s : State) (Tile : TileId) : State :=
  match (getTile s Tile).GeneratedModelComponent with
  | some VitruvioModelComponent =>
    let (log, mc) := destroyChildren s.log { VitruvioModelComponent with StaticMesh := none }
    modifyTile { s with log := log } Tile (fun t => { t with GeneratedModelComponent := some mc })
  | none =>
    let TileName := toString s.NumModelComponents
    let mc : UGeneratedModelStaticMeshComponent :=
      { Name := "GeneratedModel" ++ TileName, StaticMesh := none, OverrideMaterials := [],
        Children := [], bDestroyed := false }
    modifyTile { s with NumModelComponents := s.NumModelComponents + 1 } Tile
      (fun t => { t with GeneratedModelComponent := some mc })

/-- The body of the first loop of `ProcessTiles`, for one tile marked for generate. -/
def AVitruvioBatchActor.DispatchGenerate (s : State) (Tile : TileId) : State :=
  let s := AVitruvioBatchActor.PrepareModelComponent s Tile
  let (InitialShapes, InitialShapeVitruvioComponents) := (getTile s Tile).GetInitialShapes s
  if !InitialShapes.isEmpty then
    let s := invalidateIfSet s (getTile s Tile).EvalAttributesToken
    let s := invalidateIfSet s (getTile s Tile).GenerateToken
    let (s, Token) := VitruvioModule.NewToken s
    let s := modifyTile s Tile (fun t => { t with GenerateToken := some Token, bIsGenerating := true })
    { s with pendingGenerate := s.pendingGenerate ++
        [{ Token := Token, Tile := Tile,
           InitialShapeVitruvioComponents := InitialShapeVitruvioComponents,
           InitialShapes := InitialShapes }] }
  else s

/-- The body of the second loop of `ProcessTiles`, for one tile marked for attribute evaluation. -/
def AVitruvioBatchActor.DispatchEvaluate (s : State) (Tile : TileId) : State :=
  let (InitialShapes, InitialShapeVitruvioComponents) := (getTile s Tile).GetInitialShapes s
  if !InitialShapes.isEmpty then
    let s := invalidateIfSet s (getTile s Tile).EvalAttributesToken
    let (s, Token) := VitruvioModule.NewToken s
    let s := modifyTile s Tile
      (fun t => { t with EvalAttributesToken := some Token, bIsEvaluatingAttributes := true })
    { s with pendingEvaluate := s.pendingEvaluate ++
        [{ Token := Token, Tile := Tile,
           InitialShapeVitruvioComponents := InitialShapeVitruvioComponents,
           InitialShapes := InitialShapes }] }
  else s

/-- The first loop of `ProcessTiles` (generate dispatch). -/
def AVitruvioBatchActor.ProcessTilesGenerate (s : State) : State :=
  (FGrid.GetTilesMarkedForGenerate s).foldl AVitruvioBatchActor.DispatchGenerate s

/-- The second loop of `ProcessTiles` (attribute-evaluation dispatch). -/
def AVitruvioBatchActor.ProcessTilesEvaluate (s : State) : State :=
  (FGrid.GetTilesMarkedForAttributeEvaluation s).foldl AVitruvioBatchActor.DispatchEvaluate s

/-- Method `AVitruvioBatchActor::ProcessTiles`. -/
def AVitruvioBatchActor.ProcessTiles (s : State) : State :=
  let s := AVitruvioBatchActor.ProcessTilesGenerate s
  let s := AVitruvioBatchActor.ProcessTilesEvaluate s
  let s := FGrid.UnmarkAllForGenerate s
  FGrid.UnmarkAllForAttributeEvaluation s

/-- The continuation attached to the generate future in `ProcessTiles`, run with the value the
service produced. The batch actor is alive (`WeakThis.IsValid()`), since it is the state. -/
def AVitruvioBatchActor.GenerateContinuation (s : State) (job : FPendingJob)
    (Value : FGenerateResultDescription) : State :=
  if FInvalidationToken.IsInvalid s job.Token then s
  else
    let s := modifyTile s job.Tile (fun t => { t with GenerateToken := none })
    { s with GenerateQueue := s.GenerateQueue ++
        [{ GenerateResultDescription := Value, Tile := job.Tile,
           VitruvioComponents := job.InitialShapeVitruvioComponents }] }

/-- The continuation attached to the attribute-evaluation future in `ProcessTiles`. -/
def AVitruvioBatchActor.EvaluateContinuation (s : State) (job : FPendingJob)
    (Value : List AttributeMapId) : State :=
  if FInvalidationToken.IsInvalid s job.Token then s
  else
    let s := modifyTile s job.Tile (fun t => { t with EvalAttributesToken := none })
    { s with AttributeEvaluationQueue := s.AttributeEvaluationQueue ++
        [{ AttributeMaps := Value, Tile := job.Tile,
           VitruvioComponents := job.InitialShapeVitruvioComponents }] }

/-- The service resolves the generate future at position `i` of the pending list: the
continuation leaves the list and runs. -/
def resolveGenerate (s : State) (i : Nat) (Value : FGenerateResultDescription) : State :=
  match s.pendingGenerate[i]? with
  | some job =>
    AVitruvioBatchActor.GenerateContinuation
      { s with pendingGenerate := s.pendingGenerate.eraseIdx i } job Value
  | none => s

/-- The service resolves the attribute-evaluation future at position `i` of the pending list. -/
def resolveEvaluate (s : State) (i : Nat) (Value : List AttributeMapId) : State :=
  match s.pendingEvaluate[i]? with
  | some job =>
    AVitruvioBatchActor.EvaluateContinuation
      { s with pendingEvaluate := s.pendingEvaluate.eraseIdx i } job Value
  | none => s

/-! Section: AVitruvioBatchActor, result queues. -/

/-- One round of the attribute loop of a drain: the maps are written to the component's
attribute store, `bAttributesReady` is set and the component is notified. -/
def UpdateAttributes (s : State) (VitruvioComponent : ComponentId) (a : AttributeMapId) : State :=
  { s with
    components := modifyAt (fun c => { c with Attributes := a, bAttributesReady := true })
      VitruvioComponent s.components,
    log := s.log ++ [Event.UpdateUnrealAttributeMap VitruvioComponent a,
      Event.NotifyAttributesChanged VitruvioComponent] }

/-- The attribute loop of both drains, over the components from `ComponentIndex` on. Reading
`EvaluatedAttributes[ComponentIndex]` outside the array has no result. -/
def PushEvaluatedAttributes (EvaluatedAttributes : List AttributeMapId) :
    List ComponentId → Nat → State → Option State
  | [], _, s => some s
  | VitruvioComponent :: rest, ComponentIndex, s =>
    match EvaluatedAttributes[ComponentIndex]? with
    | some a =>
      PushEvaluatedAttributes EvaluatedAttributes rest (ComponentIndex + 1)
        (UpdateAttributes s VitruvioComponent a)
    | none => none

/-- Engine call `UMeshComponent::SetMaterial`: the slot array grows to hold the index. -/
def SetMaterial (slots : List (Option MaterialId)) (i : Nat) (m : Option MaterialId) :
    List (Option MaterialId) :=
  (slots ++ List.replicate (i + 1 - slots.length) none).set i m

/-- The loop "Reset Material replacements" of `ProcessGenerateQueue`. -/
def ResetMaterials (mc : UGeneratedModelStaticMeshComponent) : UGeneratedModelStaticMeshComponent :=
  match mc.StaticMesh with
  | some mesh =>
    (List.range mesh.Materials.length).foldl
      (fun acc MaterialIndex =>
        { acc with OverrideMaterials :=
            SetMaterial acc.OverrideMaterials MaterialIndex mesh.Materials[MaterialIndex]? }) mc
  | none => mc

/-- The instance component built for one instance group in `ProcessGenerateQueue`. -/
def MakeInstancedComponent (UniqueName : String) (Instance : FInstance) :
    UGeneratedModelHISMComponent :=
  { Name := UniqueName,
    StaticMesh := Instance.InstanceMesh.StaticMesh,
    MeshIdentifier := Instance.InstanceMesh.Identifier,
    PerInstance := Instance.Transforms.foldl (fun acc Transform => acc ++ [Transform]) [],
    OverrideMaterials := (List.range Instance.OverrideMaterials.length).foldl
      (fun acc MaterialIndex => SetMaterial acc MaterialIndex Instance.OverrideMaterials[MaterialIndex]?)
      [] }

/-- The body of the loop over `ConvertedResult.Instances` in `ProcessGenerateQueue`; the
accumulator is the log, the model component and the name map. -/
def CreateInstance (E : Externals) (Replaced : List FInstance)
    (acc : List Event × UGeneratedModelStaticMeshComponent × List (String × Nat))
    (Instance : FInstance) :
    List Event × UGeneratedModelStaticMeshComponent × List (String × Nat) :=
  if Instance ∈ Replaced then acc
  else
    let (UniqueName, NameMap) := E.UniqueComponentName Instance.Name acc.2.2
    let InstancedComponent := MakeInstancedComponent UniqueName Instance
    (acc.1 ++ [Event.RegisterComponent UniqueName],
      { acc.2.1 with Children := acc.2.1.Children ++ [InstancedComponent] }, NameMap)

/-- The broadcasts of the loop over `Item.Tile->GenerateCallbackProxies`. -/
def fireCallbacks (proxies : List (ComponentId × CallbackId)) : List Event :=
  proxies.flatMap (fun e =>
    [Event.OnGenerateCompletedBlueprint e.2, Event.OnGenerateCompleted e.2,
      Event.SetReadyToDestroy e.2])

/-- The part of `ProcessGenerateQueue` from `if (ConvertedResult.ShapeMesh)` to the end of the
loop over the instances: the primary mesh is assigned when the result has one, the old instance
components are destroyed, and one instance component is created for each instance group that is
not replaced. Returns the log and the model component. -/
def AVitruvioBatchActor.ApplyConvertedResult (E : Externals) (s : State)
    (VitruvioModelComponent : UGeneratedModelStaticMeshComponent)
    (ConvertedResult : FConvertedGenerateResult) :
    List Event × UGeneratedModelStaticMeshComponent :=
  let mc := match ConvertedResult.ShapeMesh with
    | some ShapeMesh =>
      E.ApplyMaterialReplacements
        (ResetMaterials { VitruvioModelComponent with StaticMesh := ShapeMesh.StaticMesh })
        s.MaterialIdentifiers s.MaterialReplacement
    | none => VitruvioModelComponent
  let (log, mc) := destroyChildren s.log mc
  let (Replaced, mc, NameMap) :=
    E.ApplyInstanceReplacements mc ConvertedResult.Instances s.InstanceReplacement []
  let (log, mc, _) := ConvertedResult.Instances.foldl (CreateInstance E Replaced) (log, mc, NameMap)
  (log, mc)

/-- The branch of `ProcessGenerateQueue` taken with a dequeued item. It has no result when an
array is read out of bounds or the model component pointer of the tile is null. -/
def AVitruvioBatchActor.MergeGenerateItem (E : Externals) (s : State)
    (Item : FBatchGenerateQueueItem) : Option State :=
  match PushEvaluatedAttributes Item.GenerateResultDescription.EvaluatedAttributes
      Item.VitruvioComponents 0 s with
  | none => none
  | some s =>
    match (getTile s Item.Tile).GeneratedModelComponent with
    | none => none
    | some VitruvioModelComponent =>
      let (ConvertedResult, MaterialIdentifiers, UniqueMaterialIdentifiers) :=
        E.BuildGenerateResult Item.GenerateResultDescription s.MaterialIdentifiers
          s.UniqueMaterialIdentifiers
      let s := { s with MaterialIdentifiers := MaterialIdentifiers,
                        UniqueMaterialIdentifiers := UniqueMaterialIdentifiers }
      let (log, mc) :=
        AVitruvioBatchActor.ApplyConvertedResult E s VitruvioModelComponent ConvertedResult
      let s := modifyTile { s with log := log } Item.Tile
        (fun t => { t with GeneratedModelComponent := some mc })
      let s := { s with log := s.log ++ fireCallbacks (getTile s Item.Tile).GenerateCallbackProxies }
      some (modifyTile s Item.Tile
        (fun t => { t with GenerateCallbackProxies := [], bIsGenerating := false }))

/-- The last block of `ProcessGenerateQueue`: the generate-all callback. -/
def AVitruvioBatchActor.CheckAllGenerated (s : State) : State :=
  match s.GenerateAllCallbackProxy with
  | some cb =>
    let bAllGenerated :=
      (GenerateValueArray s.Grid.Tiles).all (fun Tile => !(getTile s Tile).bIsGenerating)
    if bAllGenerated then
      { s with log := s.log ++ [Event.GenerateAllCompleted cb], GenerateAllCallbackProxy := none }
    else s
  | none => s

/-- Method `AVitruvioBatchActor::ProcessGenerateQueue`. -/
def AVitruvioBatchActor.ProcessGenerateQueue (E : Externals) (s : State) : Option State :=
  let merged := match s.GenerateQueue with
    | Item :: rest => AVitruvioBatchActor.MergeGenerateItem E { s with GenerateQueue := rest } Item
    | [] => some s
  merged.map AVitruvioBatchActor.CheckAllGenerated

/-- Method `AVitruvioBatchActor::ProcessAttributeEvaluationQueue`. -/
def AVitruvioBatchActor.ProcessAttributeEvaluationQueue (s : State) : Option State :=
  match s.AttributeEvaluationQueue with
  | Item :: rest =>
    PushEvaluatedAttributes Item.AttributeMaps Item.VitruvioComponents 0
      { s with AttributeEvaluationQueue := rest }
  | [] => some s

/-- Method `AVitruvioBatchActor::Tick`: one cycle. -/
def AVitruvioBatchActor.Tick (E : Externals) (s : State) : Option State :=
  (AVitruvioBatchActor.ProcessAttributeEvaluationQueue (AVitruvioBatchActor.ProcessTiles s)).bind
    (AVitruvioBatchActor.ProcessGenerateQueue E)

/-! Section: AVitruvioBatchActor, administrative operations. -/

/-- Method `AVitruvioBatchActor::RegisterVitruvioComponent`. -/
def AVitruvioBatchActor.RegisterVitruvioComponent (s : State) (VitruvioComponent : ComponentId)
    (bGenerateModel : Bool) : State :=
  if TSetContains s.VitruvioComponents VitruvioComponent then s
  else
    FGrid.Register
      { s with VitruvioComponents := TSetAdd s.VitruvioComponents VitruvioComponent }
      VitruvioComponent bGenerateModel

/-- Method `AVitruvioBatchActor::UnregisterVitruvioComponent`. -/
def AVitruvioBatchActor.UnregisterVitruvioComponent (s : State) (VitruvioComponent : ComponentId) :
    State :=
  FGrid.Unregister
    { s with VitruvioComponents := TSetRemove s.VitruvioComponents VitruvioComponent }
    VitruvioComponent

/-- Method `AVitruvioBatchActor::UnregisterAllVitruvioComponents`. -/
def AVitruvioBatchActor.UnregisterAllVitruvioComponents (s : State) : State :=
  { FGrid.Clear s with VitruvioComponents := [] }

/-- Method `AVitruvioBatchActor::EvaluateAttributes`. -/
def AVitruvioBatchActor.EvaluateAttributes (s : State) (VitruvioComponent : ComponentId)
    (CallbackProxy : Option CallbackId) : State :=
  FGrid.MarkForAttributeEvaluation s VitruvioComponent CallbackProxy

/-- Method `AVitruvioBatchActor::EvaluateAllAttributes`. -/
def AVitruvioBatchActor.EvaluateAllAttributes (s : State) (CallbackProxy : Option CallbackId) :
    State :=
  FGrid.MarkAllForAttributeEvaluation { s with EvaluateAllCallbackProxy := CallbackProxy }

/-- Method `AVitruvioBatchActor::Generate`. -/
def AVitruvioBatchActor.Generate (s : State) (VitruvioComponent : ComponentId)
    (CallbackProxy : Option CallbackId) : State :=
  FGrid.MarkForGenerate s VitruvioComponent CallbackProxy

/-- Method `AVitruvioBatchActor::GenerateAll`. -/
def AVitruvioBatchActor.GenerateAll (s : State) (CallbackProxy : Option CallbackId) : State :=
  FGrid.MarkAllForGenerate { s with GenerateAllCallbackProxy := CallbackProxy }

/-- Method `AVitruvioBatchActor::SetMaterialReplacementAsset`; `GenerateAll()` is called without
an argument, that is with a null callback. -/
def AVitruvioBatchActor.SetMaterialReplacementAsset (s : State) (Asset : Option AssetId) : State :=
  AVitruvioBatchActor.GenerateAll { s with MaterialReplacement := Asset } none

/-- Method `AVitruvioBatchActor::SetInstanceReplacementAsset`. -/
def AVitruvioBatchActor.SetInstanceReplacementAsset (s : State) (Asset : Option AssetId) : State :=
  AVitruvioBatchActor.GenerateAll { s with InstanceReplacement := Asset } none

/-! Section: runs of the batch actor. -/

/-- The batch actor after construction, with no component in the world. -/
def State.empty (GridDimension : ℚ × ℚ) : State :=
  { components := [], tiles := [], invalidTokens := [], numTokens := 0,
    Grid := { Tiles := [], TilesByComponent := [] }, GridDimension := GridDimension,
    VitruvioComponents := [], NumModelComponents := 0, GenerateQueue := [],
    AttributeEvaluationQueue := [], GenerateAllCallbackProxy := none,
    EvaluateAllCallbackProxy := none, MaterialReplacement := none, InstanceReplacement := none,
    MaterialIdentifiers := [], UniqueMaterialIdentifiers := [], pendingGenerate := [],
    pendingEvaluate := [], log := [] }

/-- What can happen to the batch actor: calls of its public methods, a cycle, the resolution of
a pending future by the service, and changes that the world makes to components. -/
inductive Op where
  /-- A component object comes into existence. -/
  | spawn (c : UVitruvioComponent)
  /-- The world changes location or input data of a component. -/
  | edit (c : ComponentId) (data : UVitruvioComponent)
  | register (c : ComponentId) (bGenerateModel : Bool)
  | unregister (c : ComponentId)
  | unregisterAll
  | evaluateAttributes (c : ComponentId) (cb : Option CallbackId)
  | evaluateAllAttributes (cb : Option CallbackId)
  | generate (c : ComponentId) (cb : Option CallbackId)
  | generateAll (cb : Option CallbackId)
  | setMaterialReplacementAsset (a : Option AssetId)
  | setInstanceReplacementAsset (a : Option AssetId)
  | tick
  | resolveGenerate (i : Nat) (Value : FGenerateResultDescription)
  | resolveEvaluate (i : Nat) (Value : List AttributeMapId)
deriving DecidableEq, Repr

/-- One step of a run; a cycle that fails has no successor state. -/
def step (E : Externals) (s : State) : Op → Option State
  | Op.spawn c => some { s with components := s.components ++ [c] }
  | Op.edit c data => some { s with components := modifyAt (fun _ => data) c s.components }
  | Op.register c b => some (AVitruvioBatchActor.RegisterVitruvioComponent s c b)
  | Op.unregister c => some (AVitruvioBatchActor.UnregisterVitruvioComponent s c)
  | Op.unregisterAll => some (AVitruvioBatchActor.UnregisterAllVitruvioComponents s)
  | Op.evaluateAttributes c cb => some (AVitruvioBatchActor.EvaluateAttributes s c cb)
  | Op.evaluateAllAttributes cb => some (AVitruvioBatchActor.EvaluateAllAttributes s cb)
  | Op.generate c cb => some (AVitruvioBatchActor.Generate s c cb)
  | Op.generateAll cb => some (AVitruvioBatchActor.GenerateAll s cb)
  | Op.setMaterialReplacementAsset a => some (AVitruvioBatchActor.SetMaterialReplacementAsset s a)
  | Op.setInstanceReplacementAsset a => some (AVitruvioBatchActor.SetInstanceReplacementAsset s a)
  | Op.tick => AVitruvioBatchActor.Tick E s
  | Op.resolveGenerate i Value => some (resolveGenerate s i Value)
  | Op.resolveEvaluate i Value => some (resolveEvaluate s i Value)

/-- A run: the steps one after the other. -/
def run (E : Externals) : State → List Op → Option State
  | s, [] => some s
  | s, op :: rest => (step E s op).bind (fun s1 => run E s1 rest)

/-- States the batch actor can be in: those a run reaches from the constructed actor. -/
def Reachable (E : Externals) (s : State) : Prop :=
  ∃ (GridDimension : ℚ × ℚ) (ops : List Op), run E (State.empty GridDimension) ops = some s

/-- Externals without replacement rules: the converted result takes the primary mesh of the
description, no instance group is substituted, and component names are kept. -/
def Externals.plain : Externals :=
  { BuildGenerateResult := fun d mi umi => ({ ShapeMesh := d.GeneratedModel, Instances := [] }, mi, umi),
    ApplyMaterialReplacements := fun mc _ _ => mc,
    ApplyInstanceReplacements := fun mc _ _ nm => ([], mc, nm),
    UniqueComponentName := fun n nm => (n, nm) }

/-! Section: views of the state used to state and prove the claims. -/

/-- Whether an effect is the broadcast of the generate-all callback. -/
def isGenerateAll : Event → Bool
  | Event.GenerateAllCompleted _ => true
  | _ => false

/-- The part of the state outside the tiles that dispatch, completion and drains act on. -/
structure Control where
  invalidTokens : List TokenId
  numTokens : Nat
  pendingGenerate : List FPendingJob
  pendingEvaluate : List FPendingJob
  Grid : FGrid
  GenerateQueue : List FBatchGenerateQueueItem
  AttributeEvaluationQueue : List FEvaluateAttributesQueueItem
  GenerateAllCallbackProxy : Option CallbackId
  components : List UVitruvioComponent
  numTiles : Nat
  /-- the generate-all broadcasts in the log -/
  generateAllLog : List Event

/-- The control part of a state. -/
def State.control (s : State) : Control :=
  { invalidTokens := s.invalidTokens, numTokens := s.numTokens,
    pendingGenerate := s.pendingGenerate, pendingEvaluate := s.pendingEvaluate,
    Grid := s.Grid, GenerateQueue := s.GenerateQueue,
    AttributeEvaluationQueue := s.AttributeEvaluationQueue,
    GenerateAllCallbackProxy := s.GenerateAllCallbackProxy, components := s.components,
    numTiles := s.tiles.length, generateAllLog := s.log.filter isGenerateAll }

/-- The tiles of the grid, in map order. -/
def gridTiles (s : State) : List TileId :=
  GenerateValueArray s.Grid.Tiles

/-- The components of a tile that have valid input data, in the tile's order. -/
def validComponents (s : State) (T : TileId) : List ComponentId :=
  (getTile s T).VitruvioComponents.filter (fun c => (getComponent s c).bHasValidInputData)

/-- The initial shapes of a list of components. -/
def shapesOf (s : State) (cs : List ComponentId) : List FInitialShape :=
  cs.map (fun c => makeInitialShape (getComponent s c))

/-- Two tiles store the same tokens. -/
def UTile.SameTokens (t t2 : UTile) : Prop :=
  t2.GenerateToken = t.GenerateToken ∧ t2.EvalAttributesToken = t.EvalAttributesToken

/-- A model component that exists is still there. -/
def UTile.ModelKept (t t2 : UTile) : Prop :=
  t.GeneratedModelComponent.isSome = true → t2.GeneratedModelComponent.isSome = true

/-- Two tiles have the same members and the same dirty marks. -/
def UTile.SameBatch (t t2 : UTile) : Prop :=
  t2.VitruvioComponents = t.VitruvioComponents ∧
  t2.bMarkedForGenerate = t.bMarkedForGenerate ∧
  t2.bMarkedForEvaluateAttributes = t.bMarkedForEvaluateAttributes

/-- Two tiles differ at most in their model component. -/
def UTile.SameButModel (t t2 : UTile) : Prop :=
  t2.VitruvioComponents = t.VitruvioComponents ∧ t2.Location = t.Location ∧
  t2.bMarkedForGenerate = t.bMarkedForGenerate ∧
  t2.bMarkedForEvaluateAttributes = t.bMarkedForEvaluateAttributes ∧
  t2.bIsGenerating = t.bIsGenerating ∧ t2.bIsEvaluatingAttributes = t.bIsEvaluatingAttributes ∧
  t2.GenerateToken = t.GenerateToken ∧ t2.EvalAttributesToken = t.EvalAttributesToken ∧
  t2.GenerateCallbackProxies = t.GenerateCallbackProxies ∧
  t2.EvaluateAttributesCallbackProxies = t.EvaluateAttributesCallbackProxies

/-- A relation between tiles holds at every address of two states. -/
def TileRel (R : UTile → UTile → Prop) (s s2 : State) : Prop :=
  ∀ T : TileId, R (getTile s T) (getTile s2 T)

/-- The continuation that a dispatch registers for a tile: the next token, the tile, its valid
components and their initial shapes. -/
def dispatchedJob (s : State) (T : TileId) : FPendingJob :=
  { Token := s.numTokens, Tile := T,
    InitialShapeVitruvioComponents := validComponents s T,
    InitialShapes := shapesOf s (validComponents s T) }

/-- The effects of the attribute loop of a drain: each component, in order, gets the attribute
map at its own index and is notified. -/
def attributePushes (cs : List ComponentId) (attrs : List AttributeMapId) : List Event :=
  (cs.zip attrs).flatMap
    (fun p => [Event.UpdateUnrealAttributeMap p.1 p.2, Event.NotifyAttributesChanged p.1])

/-- The generate-all broadcasts that have happened. -/
def generateAllBroadcasts (s : State) : List Event :=
  s.log.filter isGenerateAll

/-- Every queued item can be merged: it has an attribute map for each of its components, and the
tile of a generate item has a model component. -/
def QueuesWellFormed (s : State) : Prop :=
  (∀ Item ∈ s.GenerateQueue,
    Item.VitruvioComponents.length ≤ Item.GenerateResultDescription.EvaluatedAttributes.length ∧
    (getTile s Item.Tile).GeneratedModelComponent.isSome = true) ∧
  (∀ Item ∈ s.AttributeEvaluationQueue, Item.VitruvioComponents.length ≤ Item.AttributeMaps.length)

/-- Whether an operation is a generate-all request that carries a callback. -/
def requestsGenerateAllCallback : Op → Bool
  | Op.generateAll (some _) => true
  | _ => false

/-- Two states agree on everything that concerns tokens: which tokens are invalid, how many
were created, which continuations are pending, and which tokens each tile stores. -/
structure SameTokenState (s s2 : State) : Prop where
  invalidTokens : s2.invalidTokens = s.invalidTokens
  numTokens : s2.numTokens = s.numTokens
  pendingGenerate : s2.pendingGenerate = s.pendingGenerate
  pendingEvaluate : s2.pendingEvaluate = s.pendingEvaluate
  tiles : TileRel UTile.SameTokens s s2

/-- The token discipline of the batch actor. A pending continuation whose token is not
invalidated belongs to a tile that stores exactly that token (for its operation kind); pending
continuations of one kind have pairwise different tokens; tokens in use were created before; and
the grid only points to tiles that exist. -/
structure TokenInvariant (s : State) : Prop where
  generate : ∀ job ∈ s.pendingGenerate, FInvalidationToken.IsInvalid s job.Token = false →
    (getTile s job.Tile).GenerateToken = some job.Token
  evaluate : ∀ job ∈ s.pendingEvaluate, FInvalidationToken.IsInvalid s job.Token = false →
    (getTile s job.Tile).EvalAttributesToken = some job.Token
  nodupGenerate : (s.pendingGenerate.map (fun job => job.Token)).Nodup
  nodupEvaluate : (s.pendingEvaluate.map (fun job => job.Token)).Nodup
  boundGenerate : ∀ job ∈ s.pendingGenerate, job.Token < s.numTokens
  boundEvaluate : ∀ job ∈ s.pendingEvaluate, job.Token < s.numTokens
  boundInvalid : ∀ tok ∈ s.invalidTokens, tok < s.numTokens
  boundStored : ∀ T tok, (getTile s T).GenerateToken = some tok ∨
    (getTile s T).EvalAttributesToken = some tok → tok < s.numTokens
  gridAllocated : ∀ e ∈ s.Grid.Tiles, e.2 < s.tiles.length
  indexAllocated : ∀ e ∈ s.Grid.TilesByComponent, e.2 < s.tiles.length

/-- What every operation other than a cycle and a generate-all request leaves as it is:
invalid tokens stay invalid, and the generate-all callback and its broadcasts are untouched. -/
structure StepFrame (s s2 : State) : Prop where
  invalid : ∀ tok, tok ∈ s.invalidTokens → tok ∈ s2.invalidTokens
  broadcasts : generateAllBroadcasts s2 = generateAllBroadcasts s
  callback : s2.GenerateAllCallbackProxy = s.GenerateAllCallbackProxy

/-- The generate-all callback that is pending after an operation other than a cycle. -/
def callbackAfter (s : State) : Op → Option CallbackId
  | Op.generateAll cb => cb
  | Op.setMaterialReplacementAsset _ => none
  | Op.setInstanceReplacementAsset _ => none
  | _ => s.GenerateAllCallbackProxy

/-- A sequence of calls of `FGrid::Register`, one per requester with its own flag;
`FGrid::RegisterAll` is the case of one flag for all. -/
def registerEach (s : State) (regs : List (ComponentId × Bool)) : State :=
  regs.foldl (fun acc e => FGrid.Register acc e.1 e.2) s

/-- What the grid of `s` looks like when the requesters `done` have been registered, one after
the other, into the empty grid of `s0`: keys and tiles of the tile map are pairwise different and
allocated, the coordinate of every registered requester has a tile, every tile holds the
requesters of its coordinate in registration order, is marked when one of them asked for it, and
the reverse index leads from a requester to the tile of its coordinate. -/
structure Registered (s0 s : State) (done : List (ComponentId × Bool)) : Prop where
  components : s.components = s0.components
  GridDimension : s.GridDimension = s0.GridDimension
  keys : (s.Grid.Tiles.map Prod.fst).Nodup
  values : (gridTiles s).Nodup
  allocated : ∀ e ∈ s.Grid.Tiles, e.2 < s.tiles.length
  covered : ∀ d ∈ done, AVitruvioBatchActor.GetPosition s0 d.1 ∈ s.Grid.Tiles.map Prod.fst
  tile : ∀ e ∈ s.Grid.Tiles,
    (getTile s e.2).VitruvioComponents =
      (done.filter (fun d => decide (AVitruvioBatchActor.GetPosition s0 d.1 = e.1))).map Prod.fst ∧
    (getTile s e.2).bMarkedForGenerate =
      done.any (fun d => decide (AVitruvioBatchActor.GetPosition s0 d.1 = e.1) && d.2) ∧
    (getTile s e.2).Location = e.1
  index : ∀ d ∈ done, ∃ T, TMapFind s.Grid.TilesByComponent d.1 = some T ∧
    (AVitruvioBatchActor.GetPosition s0 d.1, T) ∈ s.Grid.Tiles

/-- Grid and tiles agree with a set `VC` of registered components: the tiles of the grid are
pairwise different and allocated, every component of `VC` is a member of a tile of the grid that
the reverse index maps it to, no component is a member of two tiles of the grid, and every member
of a tile of the grid is in `VC`. -/
structure GridInv (s : State) (VC : List ComponentId) : Prop where
  values : (gridTiles s).Nodup
  allocated : ∀ e ∈ s.Grid.Tiles, e.2 < s.tiles.length
  registered : ∀ c ∈ VC, ∃ T ∈ gridTiles s,
    TMapFind s.Grid.TilesByComponent c = some T ∧ c ∈ (getTile s T).VitruvioComponents
  unique : ∀ c, ∀ T ∈ gridTiles s, ∀ T2 ∈ gridTiles s,
    c ∈ (getTile s T).VitruvioComponents → c ∈ (getTile s T2).VitruvioComponents → T = T2
  members : ∀ T ∈ gridTiles s, ∀ c ∈ (getTile s T).VitruvioComponents, c ∈ VC

/-- The grid agrees with the components that are registered with the actor. -/
def GridInvariant (s : State) : Prop :=
  GridInv s s.VitruvioComponents

/-- Two states have the same grid, the same registered components and the same members in
every tile. -/
structure MembersFrame (s s2 : State) : Prop where
  Grid : s2.Grid = s.Grid
  VitruvioComponents : s2.VitruvioComponents = s.VitruvioComponents
  numTiles : s2.tiles.length = s.tiles.length
  members : ∀ T, (getTile s2 T).VitruvioComponents = (getTile s T).VitruvioComponents

/-- The model component of a merge when the loop that destroys the old instance components
starts: with the primary mesh of the result assigned when the result has one. -/
def meshAssigned (E : Externals) (s : State) (mc : UGeneratedModelStaticMeshComponent)
    (cr : FConvertedGenerateResult) : UGeneratedModelStaticMeshComponent :=
  match cr.ShapeMesh with
  | some ShapeMesh =>
    E.ApplyMaterialReplacements
      (ResetMaterials { mc with StaticMesh := ShapeMesh.StaticMesh })
      s.MaterialIdentifiers s.MaterialReplacement
  | none => mc

/-- An instance component carries what the merge copies from its instance group: the static
mesh and identifier of the group's mesh, one instance per transform in order, and the group's
override materials at their slot indices. -/
def builtFrom (ch : UGeneratedModelHISMComponent) (Instance : FInstance) : Prop :=
  ch.StaticMesh = Instance.InstanceMesh.StaticMesh ∧
  ch.MeshIdentifier = Instance.InstanceMesh.Identifier ∧
  ch.PerInstance = Instance.Transforms ∧
  ch.OverrideMaterials = Instance.OverrideMaterials.map some

/-- Whether a tile has a component with valid input data. -/
def hasValidComponent (s : State) (T : TileId) : Bool :=
  (getTile s T).VitruvioComponents.any (fun c => (getComponent s c).bHasValidInputData)

/-- What every dispatch step of `ProcessTiles` leaves as it is: the grid, the components, the
queues, the generate-all callback and its broadcasts, the members and marks of every tile;
tokens are only added and model components only created. -/
structure DispatchFrame (s s2 : State) : Prop where
  Grid : s2.Grid = s.Grid
  components : s2.components = s.components
  numTiles : s2.tiles.length = s.tiles.length
  GenerateQueue : s2.GenerateQueue = s.GenerateQueue
  AttributeEvaluationQueue : s2.AttributeEvaluationQueue = s.AttributeEvaluationQueue
  GenerateAllCallbackProxy : s2.GenerateAllCallbackProxy = s.GenerateAllCallbackProxy
  generateAllLog : s2.log.filter isGenerateAll = s.log.filter isGenerateAll
  invalid : ∀ tok, tok ∈ s.invalidTokens → tok ∈ s2.invalidTokens
  numTokens : s.numTokens ≤ s2.numTokens
  batch : TileRel UTile.SameBatch s s2
  model : TileRel UTile.ModelKept s s2

/-! Section: example data. -/

/-- A component at (10, 10) with valid input data. -/
def exampleComponent : UVitruvioComponent :=
  { Location := { X := 10, Y := 10, Z := 0 }, bHasValidInputData := true, Polygon := 1,
    Attributes := 0, RandomSeed := 5, Rpk := 2, bAttributesReady := false }

/-- A generate result without primary mesh and with one evaluated attribute map. -/
def exampleResult : FGenerateResultDescription :=
  { GeneratedModel := none, Instances := [], InstanceMeshes := [], InstanceNames := [],
    EvaluatedAttributes := [41] }

/-- The state of a run, or the default state when a cycle of the run failed. -/
def stateAfter (ops : List Op) : State :=
  (run Externals.plain (State.empty (100, 100)) ops).getD default

/-- One component is registered, a cycle dispatches the generate job of its tile, and the
component is unregistered while the job is in flight. -/
def staleJobState : State :=
  stateAfter [Op.spawn exampleComponent, Op.register 0 true, Op.tick, Op.unregister 0]

/-- The job that is in flight in `staleJobState`. -/
def staleJob : FPendingJob :=
  { Token := 0, Tile := 0, InitialShapeVitruvioComponents := [0],
    InitialShapes := [makeInitialShape exampleComponent] }

/-- A component at (150, 10) with valid input data. -/
def exampleComponentB : UVitruvioComponent :=
  { Location := { X := 150, Y := 10, Z := 0 }, bHasValidInputData := true, Polygon := 3,
    Attributes := 0, RandomSeed := 6, Rpk := 2, bAttributesReady := false }

/-- Two components in two tiles are registered, one cycle dispatches a generate job for each
tile, and both jobs resolve before the next cycle: the generate queue holds two items. -/
def twoResultsState : State :=
  stateAfter [Op.spawn exampleComponent, Op.spawn exampleComponentB, Op.register 0 true,
    Op.register 1 true, Op.tick, Op.resolveGenerate 0 exampleResult,
    Op.resolveGenerate 0 exampleResult]

/-- One component is registered and a cycle has dispatched the generate job of its tile, which
is in flight. -/
def inFlightState : State :=
  stateAfter [Op.spawn exampleComponent, Op.register 0 true, Op.tick]

/-- The tile of `inFlightState` is marked for generate again while its job is in flight. -/
def redispatchState : State :=
  stateAfter [Op.spawn exampleComponent, Op.register 0 true, Op.tick, Op.generate 0 none]

/-- The operations that lead to `generateAllState`. -/
def generateAllOps : List Op :=
  [Op.spawn exampleComponent, Op.spawn exampleComponentB, Op.register 0 true, Op.register 1 true,
    Op.generateAll (some 9), Op.tick, Op.resolveGenerate 0 exampleResult,
    Op.resolveGenerate 0 exampleResult]

/-- Two tiles, a generate-all request with callback 9, one cycle that dispatches both tiles, and
both jobs resolved: two results are queued and both tiles are still generating. -/
def generateAllState : State :=
  stateAfter generateAllOps

/-- A primary mesh with one material slot. -/
def exampleMesh : FVitruvioMesh :=
  { Identifier := "mesh7", StaticMesh := some { Id := 7, Materials := [3] } }

/-- A generate result with a primary mesh and one evaluated attribute map. -/
def meshResult : FGenerateResultDescription :=
  { GeneratedModel := some exampleMesh, Instances := [], InstanceMeshes := [], InstanceNames := [],
    EvaluatedAttributes := [41] }

/-- The component `exampleComponent` after its actor moved to (150, 10). -/
def exampleComponentMoved : UVitruvioComponent :=
  { exampleComponent with Location := { X := 150, Y := 10, Z := 0 } }

/-- A component is registered, its tile is generated with a primary mesh, and the component moves
to another cell by unregister and register. -/
def movedOps : List Op :=
  [Op.spawn exampleComponent, Op.register 0 true, Op.tick, Op.resolveGenerate 0 meshResult,
    Op.tick, Op.edit 0 exampleComponentMoved, Op.unregister 0, Op.register 0 true]

/-- The model component that the merge of `meshResult` leaves on a tile. -/
def generatedModel0 (bDestroyed : Bool) : UGeneratedModelStaticMeshComponent :=
  { Name := "GeneratedModel0", StaticMesh := some { Id := 7, Materials := [3] },
    OverrideMaterials := [some 3], Children := [], bDestroyed := bDestroyed }

/-- A component at (-10, 250). -/
def exampleComponentNegative : UVitruvioComponent :=
  { exampleComponent with Location := { X := -10, Y := 250, Z := 0 } }

/-- The actor with grid dimension (100, 100) and the component at (-10, 250) in the world. -/
def negativeState : State :=
  stateAfter [Op.spawn exampleComponentNegative]

/-- One component is registered with the actor, without a generate request. -/
def registeredState : State :=
  stateAfter [Op.spawn exampleComponent, Op.register 0 false]

/-- A component at (20, 20) with valid input data. -/
def exampleComponentC : UVitruvioComponent :=
  { exampleComponent with Location := { X := 20, Y := 20, Z := 0 }, Polygon := 4 }

/-- The actor with grid dimension (100, 100), an empty grid, and three components in the world:
0 at (10, 10), 1 at (20, 20) and 2 at (150, 10). -/
def threeComponentsState : State :=
  stateAfter [Op.spawn exampleComponent, Op.spawn exampleComponentC, Op.spawn exampleComponentB]

/-- An instance group with two transforms and one override material. -/
def exampleInstanceA : FInstance :=
  { Name := "A", InstanceMesh := { Identifier := "meshA", StaticMesh := some { Id := 11, Materials := [5] } },
    OverrideMaterials := [6], Transforms := [100, 101] }

/-- An instance group with one transform and two override materials. -/
def exampleInstanceB : FInstance :=
  { Name := "B", InstanceMesh := { Identifier := "meshB", StaticMesh := some { Id := 12, Materials := [] } },
    OverrideMaterials := [8, 9], Transforms := [102] }

/-- Externals whose converted result has the two instance groups `exampleInstanceA` and
`exampleInstanceB`, the first of which a replacement rule substitutes. -/
def Externals.replacing : Externals :=
  { BuildGenerateResult := fun d mi umi =>
      ({ ShapeMesh := d.GeneratedModel, Instances := [exampleInstanceA, exampleInstanceB] }, mi, umi),
    ApplyMaterialReplacements := fun mc _ _ => mc,
    ApplyInstanceReplacements := fun mc _ _ nm => ([exampleInstanceA], mc, nm),
    UniqueComponentName := fun n nm => (n, nm) }

/-- One component is registered, a cycle dispatched its tile, and the job resolved without a
primary mesh: its result is queued. -/
def queuedState : State :=
  stateAfter [Op.spawn exampleComponent, Op.register 0 true, Op.tick,
    Op.resolveGenerate 0 exampleResult]

/-- The item that is queued in `queuedState`. -/
def queuedItem : FBatchGenerateQueueItem :=
  { GenerateResultDescription := exampleResult, Tile := 0, VitruvioComponents := [0] }

/-- A first job of a tile resolves with a primary mesh; before its result is merged the tile is
marked again, so the next cycle dispatches a second job (clearing the model component) and then
merges the first result; the second job resolves without a primary mesh and is queued. -/
def staleMeshOps : List Op :=
  [Op.spawn exampleComponent, Op.register 0 true, Op.tick, Op.resolveGenerate 0 meshResult,
    Op.generate 0 none, Op.tick, Op.resolveGenerate 0 exampleResult]

/-- The instance component that the merge builds from `exampleInstanceB`. -/
def exampleChildB : UGeneratedModelHISMComponent :=
  { Name := "B", StaticMesh := some { Id := 12, Materials := [] }, MeshIdentifier := "meshB",
    PerInstance := [102], OverrideMaterials := [some 8, some 9] }

/-- A component whose `x` is the negative double nearest to zero, `-2^-1074`, at `y = 250`. -/
def exampleComponentTiny : UVitruvioComponent :=
  { exampleComponent with Location := { X := -(twoPow (-1074)), Y := 250, Z := 0 } }

/-- The actor with grid dimension (100, 100) and the component at (-2^-1074, 250) in the
world. -/
def tinyState : State :=
  stateAfter [Op.spawn exampleComponentTiny]

/-- A component at (10^12, 250). -/
def exampleComponentFar : UVitruvioComponent :=
  { exampleComponent with Location := { X := 1000000000000, Y := 250, Z := 0 } }

/-- The actor with grid dimension (100, 100) and the component at (10^12, 250) in the world. -/
def farState : State :=
  stateAfter [Op.spawn exampleComponentFar]

/-! Section: lemmas on heaps. -/

theorem length_modifyAt {α : Type} (f : α → α) :
    ∀ (i : Nat) (l : List α), (modifyAt f i l).length = l.length
  | _, [] => by simp [modifyAt]
  | 0, _ :: _ => by simp [modifyAt]
  | n + 1, _ :: xs => by simp [modifyAt, length_modifyAt f n xs]

theorem getElem?_modifyAt {α : Type} (f : α → α) :
    ∀ (i : Nat) (l : List α) (j : Nat),
      (modifyAt f i l)[j]? = if i = j then l[j]?.map f else l[j]?
  | _, [], j => by simp [modifyAt]
  | 0, x :: xs, j => by
    cases j with
    | zero => simp [modifyAt]
    | succ j => simp [modifyAt]
  | n + 1, x :: xs, j => by
    cases j with
    | zero => simp [modifyAt]
    | succ j => simp [modifyAt, getElem?_modifyAt f n xs j]

theorem tileAt_modifyAt (f : UTile → UTile) (T : TileId) (l : List UTile) (T2 : TileId) :
    tileAt (modifyAt f T l) T2 =
      if T = T2 ∧ T2 < l.length then f (tileAt l T2) else tileAt l T2 := by
  simp only [tileAt, List.getD_eq_getElem?_getD, getElem?_modifyAt]
  by_cases h : T = T2
  · subst h
    by_cases h2 : T < l.length
    · simp [h2]
    · simp [h2, List.getElem?_eq_none (Nat.le_of_not_lt h2)]
  · simp [h]

theorem getTile_modifyTile (s : State) (T : TileId) (f : UTile → UTile) (T2 : TileId) :
    getTile (modifyTile s T f) T2 =
      if T = T2 ∧ T2 < s.tiles.length then f (getTile s T2) else getTile s T2 := by
  simp [getTile, modifyTile, tileAt_modifyAt]

theorem getTile_modifyTile_ne (s : State) (T : TileId) (f : UTile → UTile) (T2 : TileId)
    (h : T ≠ T2) : getTile (modifyTile s T f) T2 = getTile s T2 := by
  simp [getTile_modifyTile, h]

theorem getTile_modifyTile_same (s : State) (T : TileId) (f : UTile → UTile)
    (h : T < s.tiles.length) : getTile (modifyTile s T f) T = f (getTile s T) := by
  simp [getTile_modifyTile, h]

/-! Section: initial shapes. -/

theorem GetInitialShapesLoop_eq (s : State) (l : List ComponentId) :
    GetInitialShapesLoop s l =
      (shapesOf s (l.filter (fun c => (getComponent s c).bHasValidInputData)),
        l.filter (fun c => (getComponent s c).bHasValidInputData)) := by
  induction l with
  | nil => rfl
  | cons c rest ih =>
    simp only [GetInitialShapesLoop, ih]
    cases h : (getComponent s c).bHasValidInputData <;> simp [h, shapesOf, List.filter_cons]

theorem GetInitialShapes_eq (s : State) (T : TileId) :
    (getTile s T).GetInitialShapes s = (shapesOf s (validComponents s T), validComponents s T) := by
  simp [UTile.GetInitialShapes, GetInitialShapesLoop_eq, validComponents]

/-! Section: generic lemmas on tile relations and folds. -/

theorem TileRel_refl {R : UTile → UTile → Prop} (hR : ∀ t, R t t) (s : State) : TileRel R s s :=
  fun T => hR (getTile s T)

theorem TileRel_trans {R : UTile → UTile → Prop} (hR : ∀ a b c, R a b → R b c → R a c)
    {s1 s2 s3 : State} (h12 : TileRel R s1 s2) (h23 : TileRel R s2 s3) : TileRel R s1 s3 :=
  fun T => hR _ _ _ (h12 T) (h23 T)

theorem TileRel_of_tiles_eq {R : UTile → UTile → Prop} (hR : ∀ t, R t t) {s s2 : State}
    (h : s2.tiles = s.tiles) : TileRel R s s2 := by
  intro T
  simp only [getTile, h]
  exact hR _

theorem TileRel_modifyTile {R : UTile → UTile → Prop} (hR : ∀ t, R t t) (g : UTile → UTile)
    (hg : ∀ t, R t (g t)) (s : State) (T : TileId) : TileRel R s (modifyTile s T g) := by
  intro T2
  rw [getTile_modifyTile]
  split
  · exact hg _
  · exact hR _

theorem TileRel_foldl {α : Type} {R : UTile → UTile → Prop} (hrefl : ∀ t, R t t)
    (htrans : ∀ a b c, R a b → R b c → R a c) (f : State → α → State)
    (hf : ∀ s x, TileRel R s (f s x)) (L : List α) (s : State) : TileRel R s (L.foldl f s) := by
  induction L generalizing s with
  | nil => exact TileRel_refl hrefl s
  | cons x rest ih => exact TileRel_trans htrans (hf s x) (ih (f s x))

theorem foldl_control {α : Type} (f : State → α → State)
    (hf : ∀ s x, (f s x).control = s.control) (L : List α) (s : State) :
    (L.foldl f s).control = s.control := by
  induction L generalizing s with
  | nil => rfl
  | cons x rest ih => rw [List.foldl_cons, ih, hf]

theorem SameTokens_refl (t : UTile) : UTile.SameTokens t t := ⟨rfl, rfl⟩

theorem SameTokens_trans (a b c : UTile) (h1 : UTile.SameTokens a b)
    (h2 : UTile.SameTokens b c) : UTile.SameTokens a c :=
  ⟨h2.1.trans h1.1, h2.2.trans h1.2⟩

theorem ModelKept_refl (t : UTile) : UTile.ModelKept t t := fun h => h

theorem ModelKept_trans (a b c : UTile) (h1 : UTile.ModelKept a b)
    (h2 : UTile.ModelKept b c) : UTile.ModelKept a c := fun h => h2 (h1 h)

theorem SameBatch_refl (t : UTile) : UTile.SameBatch t t := ⟨rfl, rfl, rfl⟩

theorem SameBatch_trans (a b c : UTile) (h1 : UTile.SameBatch a b)
    (h2 : UTile.SameBatch b c) : UTile.SameBatch a c :=
  ⟨h2.1.trans h1.1, h2.2.1.trans h1.2.1, h2.2.2.trans h1.2.2⟩

theorem modifyTile_control (s : State) (T : TileId) (g : UTile → UTile) :
    (modifyTile s T g).control = s.control := by
  simp [State.control, modifyTile, length_modifyAt]

/-! Section: dispatch. -/

theorem PrepareModelComponent_control (s : State) (T : TileId) :
    (AVitruvioBatchActor.PrepareModelComponent s T).control = s.control := by
  unfold AVitruvioBatchActor.PrepareModelComponent
  split <;> simp [State.control, modifyTile, length_modifyAt, destroyChildren, isGenerateAll]

theorem PrepareModelComponent_tile (s : State) (T : TileId) :
    TileRel UTile.SameButModel s (AVitruvioBatchActor.PrepareModelComponent s T) := by
  intro T2
  unfold AVitruvioBatchActor.PrepareModelComponent
  split <;> simp only [getTile, modifyTile, tileAt_modifyAt, destroyChildren] <;>
    split <;> simp [UTile.SameButModel]

theorem PrepareModelComponent_model (s : State) (T T2 : TileId)
    (h : (getTile s T2).GeneratedModelComponent.isSome = true ∨ (T = T2 ∧ T2 < s.tiles.length)) :
    (getTile (AVitruvioBatchActor.PrepareModelComponent s T) T2).GeneratedModelComponent.isSome
      = true := by
  revert h
  unfold AVitruvioBatchActor.PrepareModelComponent
  split <;> simp only [getTile, modifyTile, tileAt_modifyAt, destroyChildren] <;>
    split <;> simp_all
  all_goals
    rintro (h | ⟨h1, h2⟩)
    · exact h
    · rename_i hn
      exact absurd h2 (Nat.not_lt.mpr (hn h1))

theorem validComponents_congr (s s2 : State) (T : TileId)
    (hc : s2.components = s.components)
    (ht : (getTile s2 T).VitruvioComponents = (getTile s T).VitruvioComponents) :
    validComponents s2 T = validComponents s T := by
  unfold validComponents getComponent
  rw [ht, hc]

theorem shapesOf_congr (s s2 : State) (cs : List ComponentId)
    (hc : s2.components = s.components) : shapesOf s2 cs = shapesOf s cs := by
  unfold shapesOf getComponent
  rw [hc]

theorem shapesOf_isEmpty (s : State) (cs : List ComponentId) :
    (shapesOf s cs).isEmpty = cs.isEmpty := by
  cases cs <;> simp [shapesOf]

theorem control_eq_iff (s s2 : State) :
    s2.control = s.control ↔
      (s2.invalidTokens = s.invalidTokens ∧ s2.numTokens = s.numTokens ∧
       s2.pendingGenerate = s.pendingGenerate ∧ s2.pendingEvaluate = s.pendingEvaluate ∧
       s2.Grid = s.Grid ∧ s2.GenerateQueue = s.GenerateQueue ∧
       s2.AttributeEvaluationQueue = s.AttributeEvaluationQueue ∧
       s2.GenerateAllCallbackProxy = s.GenerateAllCallbackProxy ∧
       s2.components = s.components ∧ s2.tiles.length = s.tiles.length ∧
       s2.log.filter isGenerateAll = s.log.filter isGenerateAll) := by
  simp [State.control]

theorem invalidateIfSet_eq (s : State) (tok : Option TokenId) :
    invalidateIfSet s tok = { s with invalidTokens := tok.toList ++ s.invalidTokens } := by
  cases tok <;> simp [invalidateIfSet, FInvalidationToken.Invalidate]

theorem DispatchGenerate_control (s : State) (T : TileId) :
    (AVitruvioBatchActor.DispatchGenerate s T).control =
      if validComponents s T = [] then s.control
      else { s.control with
        invalidTokens := (getTile s T).GenerateToken.toList ++
          ((getTile s T).EvalAttributesToken.toList ++ s.invalidTokens),
        numTokens := s.numTokens + 1,
        pendingGenerate := s.pendingGenerate ++
          [{ Token := s.numTokens, Tile := T,
             InitialShapeVitruvioComponents := validComponents s T,
             InitialShapes := shapesOf s (validComponents s T) }] } := by
  have hc := PrepareModelComponent_control s T
  have ht := PrepareModelComponent_tile s T T
  obtain ⟨c1, c2, c3, c4, c5, c6, c7, c8, c9, c10, c11⟩ := (control_eq_iff _ _).mp hc
  have hv := validComponents_congr s (AVitruvioBatchActor.PrepareModelComponent s T) T c9 ht.1
  have hg : (tileAt (AVitruvioBatchActor.PrepareModelComponent s T).tiles T).GenerateToken =
      (getTile s T).GenerateToken := ht.2.2.2.2.2.2.1
  have he : (tileAt (AVitruvioBatchActor.PrepareModelComponent s T).tiles T).EvalAttributesToken =
      (getTile s T).EvalAttributesToken := ht.2.2.2.2.2.2.2.1
  clear ht
  unfold AVitruvioBatchActor.DispatchGenerate
  simp only [GetInitialShapes_eq, hv, shapesOf_isEmpty, shapesOf_congr _ _ _ c9]
  simp only [invalidateIfSet_eq, VitruvioModule.NewToken, modifyTile, getTile]
  by_cases hvalid : validComponents s T = []
  · simp [hvalid, hc]
  · have hne : (validComponents s T).isEmpty = false := by
      cases h : validComponents s T with
      | nil => exact absurd h hvalid
      | cons _ _ => rfl
    simp only [hne, hvalid, Bool.not_false, if_true, if_false]
    simp only [State.control, length_modifyAt, hg, he, c1, c2, c3, c4, c5, c6, c7, c8, c9, c10, c11]
    simp [getTile]

theorem DispatchGenerate_tile (s : State) (T T2 : TileId) :
    getTile (AVitruvioBatchActor.DispatchGenerate s T) T2 =
      if validComponents s T ≠ [] ∧ T = T2 ∧ T2 < s.tiles.length then
        { (getTile (AVitruvioBatchActor.PrepareModelComponent s T) T2) with
          GenerateToken := some s.numTokens, bIsGenerating := true }
      else getTile (AVitruvioBatchActor.PrepareModelComponent s T) T2 := by
  have hc := PrepareModelComponent_control s T
  have ht := PrepareModelComponent_tile s T T
  obtain ⟨c1, c2, c3, c4, c5, c6, c7, c8, c9, c10, c11⟩ := (control_eq_iff _ _).mp hc
  have hv := validComponents_congr s (AVitruvioBatchActor.PrepareModelComponent s T) T c9 ht.1
  clear ht
  unfold AVitruvioBatchActor.DispatchGenerate
  simp only [GetInitialShapes_eq, hv, shapesOf_isEmpty, shapesOf_congr _ _ _ c9]
  simp only [invalidateIfSet_eq, VitruvioModule.NewToken, modifyTile, getTile]
  by_cases hvalid : validComponents s T = []
  · simp [hvalid]
  · have hne : (validComponents s T).isEmpty = false := by
      cases h : validComponents s T with
      | nil => exact absurd h hvalid
      | cons _ _ => rfl
    simp only [hne, hvalid, Bool.not_false, if_true, if_false, tileAt_modifyAt, c2, c10]
    simp [hvalid]

theorem DispatchEvaluate_control (s : State) (T : TileId) :
    (AVitruvioBatchActor.DispatchEvaluate s T).control =
      if validComponents s T = [] then s.control
      else { s.control with
        invalidTokens := (getTile s T).EvalAttributesToken.toList ++ s.invalidTokens,
        numTokens := s.numTokens + 1,
        pendingEvaluate := s.pendingEvaluate ++
          [{ Token := s.numTokens, Tile := T,
             InitialShapeVitruvioComponents := validComponents s T,
             InitialShapes := shapesOf s (validComponents s T) }] } := by
  unfold AVitruvioBatchActor.DispatchEvaluate
  simp only [GetInitialShapes_eq, shapesOf_isEmpty]
  simp only [invalidateIfSet_eq, VitruvioModule.NewToken, modifyTile, getTile]
  by_cases hvalid : validComponents s T = []
  · simp [hvalid]
  · have hne : (validComponents s T).isEmpty = false := by
      cases h : validComponents s T with
      | nil => exact absurd h hvalid
      | cons _ _ => rfl
    simp only [hne, hvalid, Bool.not_false, if_true, if_false]
    simp [State.control, length_modifyAt, getTile]

theorem DispatchEvaluate_tile (s : State) (T T2 : TileId) :
    getTile (AVitruvioBatchActor.DispatchEvaluate s T) T2 =
      if validComponents s T ≠ [] ∧ T = T2 ∧ T2 < s.tiles.length then
        { (getTile s T2) with
          EvalAttributesToken := some s.numTokens, bIsEvaluatingAttributes := true }
      else getTile s T2 := by
  unfold AVitruvioBatchActor.DispatchEvaluate
  simp only [GetInitialShapes_eq, shapesOf_isEmpty]
  simp only [invalidateIfSet_eq, VitruvioModule.NewToken, modifyTile, getTile]
  by_cases hvalid : validComponents s T = []
  · simp [hvalid]
  · have hne : (validComponents s T).isEmpty = false := by
      cases h : validComponents s T with
      | nil => exact absurd h hvalid
      | cons _ _ => rfl
    simp only [hne, hvalid, Bool.not_false, if_true, if_false, tileAt_modifyAt]
    simp [hvalid]

theorem UTile.SameButModel.sameBatch {t t2 : UTile} (h : UTile.SameButModel t t2) :
    UTile.SameBatch t t2 := ⟨h.1, h.2.2.1, h.2.2.2.1⟩

theorem UTile.SameButModel.sameTokens {t t2 : UTile} (h : UTile.SameButModel t t2) :
    UTile.SameTokens t t2 := ⟨h.2.2.2.2.2.2.1, h.2.2.2.2.2.2.2.1⟩

theorem foldl_rel {α : Type} (R : State → State → Prop) (hrefl : ∀ s, R s s)
    (htrans : ∀ a b c, R a b → R b c → R a c) (f : State → α → State)
    (hf : ∀ s x, R s (f s x)) (L : List α) (s : State) : R s (L.foldl f s) := by
  induction L generalizing s with
  | nil => exact hrefl s
  | cons x rest ih => exact htrans _ _ _ (hf s x) (ih (f s x))

theorem DispatchFrame_refl (s : State) : DispatchFrame s s :=
  { Grid := rfl, components := rfl, numTiles := rfl, GenerateQueue := rfl,
    AttributeEvaluationQueue := rfl, GenerateAllCallbackProxy := rfl, generateAllLog := rfl,
    invalid := fun _ h => h, numTokens := Nat.le_refl _,
    batch := TileRel_refl SameBatch_refl s, model := TileRel_refl ModelKept_refl s }

theorem DispatchFrame_trans (a b c : State) (h1 : DispatchFrame a b) (h2 : DispatchFrame b c) :
    DispatchFrame a c :=
  { Grid := h2.Grid.trans h1.Grid, components := h2.components.trans h1.components,
    numTiles := h2.numTiles.trans h1.numTiles,
    GenerateQueue := h2.GenerateQueue.trans h1.GenerateQueue,
    AttributeEvaluationQueue := h2.AttributeEvaluationQueue.trans h1.AttributeEvaluationQueue,
    GenerateAllCallbackProxy := h2.GenerateAllCallbackProxy.trans h1.GenerateAllCallbackProxy,
    generateAllLog := h2.generateAllLog.trans h1.generateAllLog,
    invalid := fun tok h => h2.invalid tok (h1.invalid tok h),
    numTokens := Nat.le_trans h1.numTokens h2.numTokens,
    batch := TileRel_trans SameBatch_trans h1.batch h2.batch,
    model := TileRel_trans ModelKept_trans h1.model h2.model }

theorem DispatchGenerate_frame (s : State) (T : TileId) :
    DispatchFrame s (AVitruvioBatchActor.DispatchGenerate s T) := by
  have hc := DispatchGenerate_control s T
  have ht := DispatchGenerate_tile s T
  have hp := PrepareModelComponent_tile s T
  have hm := PrepareModelComponent_model s T
  by_cases hv : validComponents s T = []
  · rw [if_pos hv] at hc
    obtain ⟨c1, c2, c3, c4, c5, c6, c7, c8, c9, c10, c11⟩ := (control_eq_iff _ _).mp hc
    refine ⟨c5, c9, c10, c6, c7, c8, c11, fun tok h => by rw [c1]; exact h, by rw [c2], ?_, ?_⟩
    · intro T2
      rw [ht T2]
      simp only [hv, ne_eq, not_true_eq_false, false_and, if_false]
      exact (hp T2).sameBatch
    · intro T2 h
      rw [ht T2]
      simp only [hv, ne_eq, not_true_eq_false, false_and, if_false]
      exact hm T2 (Or.inl h)
  · rw [if_neg hv] at hc
    simp only [State.control, Control.mk.injEq] at hc
    obtain ⟨c1, c2, c3, c4, c5, c6, c7, c8, c9, c10, c11⟩ := hc
    refine ⟨c5, c9, c10, c6, c7, c8, c11, fun tok h => by rw [c1]; simp [h],
      by rw [c2]; exact Nat.le_succ _, ?_, ?_⟩
    · intro T2
      rw [ht T2]
      have := (hp T2).sameBatch
      split <;> simpa [UTile.SameBatch] using this
    · intro T2 h
      rw [ht T2]
      have := hm T2 (Or.inl h)
      split <;> simpa using this

theorem DispatchEvaluate_frame (s : State) (T : TileId) :
    DispatchFrame s (AVitruvioBatchActor.DispatchEvaluate s T) := by
  have hc := DispatchEvaluate_control s T
  have ht := DispatchEvaluate_tile s T
  by_cases hv : validComponents s T = []
  · rw [if_pos hv] at hc
    obtain ⟨c1, c2, c3, c4, c5, c6, c7, c8, c9, c10, c11⟩ := (control_eq_iff _ _).mp hc
    refine ⟨c5, c9, c10, c6, c7, c8, c11, fun tok h => by rw [c1]; exact h, by rw [c2], ?_, ?_⟩
    · intro T2
      rw [ht T2]
      simp only [hv, ne_eq, not_true_eq_false, false_and, if_false]
      exact SameBatch_refl _
    · intro T2 h
      rw [ht T2]
      simp only [hv, ne_eq, not_true_eq_false, false_and, if_false]
      exact h
  · rw [if_neg hv] at hc
    simp only [State.control, Control.mk.injEq] at hc
    obtain ⟨c1, c2, c3, c4, c5, c6, c7, c8, c9, c10, c11⟩ := hc
    refine ⟨c5, c9, c10, c6, c7, c8, c11, fun tok h => by rw [c1]; simp [h],
      by rw [c2]; exact Nat.le_succ _, ?_, ?_⟩
    · intro T2
      rw [ht T2]
      split <;> simp [UTile.SameBatch]
    · intro T2 h
      rw [ht T2]
      split <;> simpa using h

theorem DispatchFrame.validComponents_eq {s s2 : State} (h : DispatchFrame s s2) (T : TileId) :
    validComponents s2 T = validComponents s T :=
  validComponents_congr s s2 T h.components (h.batch T).1

theorem DispatchFrame.shapesOf_eq {s s2 : State} (h : DispatchFrame s s2) (cs : List ComponentId) :
    shapesOf s2 cs = shapesOf s cs :=
  shapesOf_congr s s2 cs h.components

theorem hasValidComponent_eq (s : State) (T : TileId) :
    hasValidComponent s T = !(validComponents s T).isEmpty := by
  unfold hasValidComponent validComponents
  induction (getTile s T).VitruvioComponents with
  | nil => rfl
  | cons c rest ih =>
    cases h : (getComponent s c).bHasValidInputData <;> simp [List.filter_cons, h, ih]

theorem foldl_DispatchGenerate_frame (L : List TileId) (s : State) :
    DispatchFrame s (L.foldl AVitruvioBatchActor.DispatchGenerate s) :=
  foldl_rel DispatchFrame DispatchFrame_refl DispatchFrame_trans _ DispatchGenerate_frame L s

theorem foldl_DispatchEvaluate_frame (L : List TileId) (s : State) :
    DispatchFrame s (L.foldl AVitruvioBatchActor.DispatchEvaluate s) :=
  foldl_rel DispatchFrame DispatchFrame_refl DispatchFrame_trans _ DispatchEvaluate_frame L s

theorem DispatchGenerate_pending (s : State) (T : TileId) :
    (AVitruvioBatchActor.DispatchGenerate s T).pendingGenerate =
      s.pendingGenerate ++ (if hasValidComponent s T then
        [{ Token := s.numTokens, Tile := T,
           InitialShapeVitruvioComponents := validComponents s T,
           InitialShapes := shapesOf s (validComponents s T) }] else []) ∧
    (AVitruvioBatchActor.DispatchGenerate s T).pendingEvaluate = s.pendingEvaluate := by
  have hc := DispatchGenerate_control s T
  rw [hasValidComponent_eq]
  by_cases hv : validComponents s T = []
  · rw [if_pos hv] at hc
    obtain ⟨c1, c2, c3, c4, c5, c6, c7, c8, c9, c10, c11⟩ := (control_eq_iff _ _).mp hc
    simp [hv, c3, c4]
  · rw [if_neg hv] at hc
    simp only [State.control, Control.mk.injEq] at hc
    obtain ⟨c1, c2, c3, c4, c5, c6, c7, c8, c9, c10, c11⟩ := hc
    have hne : (validComponents s T).isEmpty = false := by
      cases h : validComponents s T with
      | nil => exact absurd h hv
      | cons _ _ => rfl
    simp [hne, c3, c4]

theorem DispatchEvaluate_pending (s : State) (T : TileId) :
    (AVitruvioBatchActor.DispatchEvaluate s T).pendingEvaluate =
      s.pendingEvaluate ++ (if hasValidComponent s T then
        [{ Token := s.numTokens, Tile := T,
           InitialShapeVitruvioComponents := validComponents s T,
           InitialShapes := shapesOf s (validComponents s T) }] else []) ∧
    (AVitruvioBatchActor.DispatchEvaluate s T).pendingGenerate = s.pendingGenerate := by
  have hc := DispatchEvaluate_control s T
  rw [hasValidComponent_eq]
  by_cases hv : validComponents s T = []
  · rw [if_pos hv] at hc
    obtain ⟨c1, c2, c3, c4, c5, c6, c7, c8, c9, c10, c11⟩ := (control_eq_iff _ _).mp hc
    simp [hv, c3, c4]
  · rw [if_neg hv] at hc
    simp only [State.control, Control.mk.injEq] at hc
    obtain ⟨c1, c2, c3, c4, c5, c6, c7, c8, c9, c10, c11⟩ := hc
    have hne : (validComponents s T).isEmpty = false := by
      cases h : validComponents s T with
      | nil => exact absurd h hv
      | cons _ _ => rfl
    simp [hne, c3, c4]

theorem DispatchFrame.hasValidComponent_same {s s2 : State} (h : DispatchFrame s s2) (T : TileId) :
    hasValidComponent s2 T = hasValidComponent s T := by
  rw [hasValidComponent_eq, hasValidComponent_eq, h.validComponents_eq]

/-- The jobs that a dispatch loop over `L` appends: one per tile with a valid component, each
holding the valid components of its tile and their shapes. -/
theorem foldl_DispatchGenerate_pending (L : List TileId) (s : State) :
    ∃ gen : List FPendingJob,
      (L.foldl AVitruvioBatchActor.DispatchGenerate s).pendingGenerate = s.pendingGenerate ++ gen ∧
      (L.foldl AVitruvioBatchActor.DispatchGenerate s).pendingEvaluate = s.pendingEvaluate ∧
      gen.map (fun job => job.Tile) = L.filter (fun T => hasValidComponent s T) ∧
      ∀ job ∈ gen, job.InitialShapeVitruvioComponents = validComponents s job.Tile ∧
        job.InitialShapes = shapesOf s (validComponents s job.Tile) := by
  induction L generalizing s with
  | nil => exact ⟨[], by simp⟩
  | cons T rest ih =>
    obtain ⟨gen, h1, h2, h3, h4⟩ := ih (AVitruvioBatchActor.DispatchGenerate s T)
    have hf := DispatchGenerate_frame s T
    obtain ⟨p1, p2⟩ := DispatchGenerate_pending s T
    have h3b : gen.map (fun job => job.Tile) = rest.filter (fun T => hasValidComponent s T) := by
      rw [h3]
      exact List.filter_congr (fun T2 _ => hf.hasValidComponent_same T2)
    have h4b : ∀ job ∈ gen, job.InitialShapeVitruvioComponents = validComponents s job.Tile ∧
        job.InitialShapes = shapesOf s (validComponents s job.Tile) := by
      intro job hj
      have := h4 job hj
      rw [hf.validComponents_eq, hf.shapesOf_eq] at this
      exact this
    cases hv : hasValidComponent s T
    · refine ⟨gen, ?_, ?_, ?_, h4b⟩
      · rw [List.foldl_cons, h1, p1, hv]; simp
      · rw [List.foldl_cons, h2, p2]
      · simp [List.filter_cons, hv, h3b]
    · refine ⟨dispatchedJob s T :: gen, ?_, ?_, ?_, ?_⟩
      · rw [List.foldl_cons, h1, p1, hv]; simp [dispatchedJob]
      · rw [List.foldl_cons, h2, p2]
      · simp [List.filter_cons, hv, h3b, dispatchedJob]
      · intro job hj
        rcases List.mem_cons.mp hj with h | h
        · subst h; exact ⟨rfl, rfl⟩
        · exact h4b job h

theorem foldl_DispatchEvaluate_pending (L : List TileId) (s : State) :
    ∃ ev : List FPendingJob,
      (L.foldl AVitruvioBatchActor.DispatchEvaluate s).pendingEvaluate = s.pendingEvaluate ++ ev ∧
      (L.foldl AVitruvioBatchActor.DispatchEvaluate s).pendingGenerate = s.pendingGenerate ∧
      ev.map (fun job => job.Tile) = L.filter (fun T => hasValidComponent s T) ∧
      ∀ job ∈ ev, job.InitialShapeVitruvioComponents = validComponents s job.Tile ∧
        job.InitialShapes = shapesOf s (validComponents s job.Tile) := by
  induction L generalizing s with
  | nil => exact ⟨[], by simp⟩
  | cons T rest ih =>
    obtain ⟨gen, h1, h2, h3, h4⟩ := ih (AVitruvioBatchActor.DispatchEvaluate s T)
    have hf := DispatchEvaluate_frame s T
    obtain ⟨p1, p2⟩ := DispatchEvaluate_pending s T
    have h3b : gen.map (fun job => job.Tile) = rest.filter (fun T => hasValidComponent s T) := by
      rw [h3]
      exact List.filter_congr (fun T2 _ => hf.hasValidComponent_same T2)
    have h4b : ∀ job ∈ gen, job.InitialShapeVitruvioComponents = validComponents s job.Tile ∧
        job.InitialShapes = shapesOf s (validComponents s job.Tile) := by
      intro job hj
      have := h4 job hj
      rw [hf.validComponents_eq, hf.shapesOf_eq] at this
      exact this
    cases hv : hasValidComponent s T
    · refine ⟨gen, ?_, ?_, ?_, h4b⟩
      · rw [List.foldl_cons, h1, p1, hv]; simp
      · rw [List.foldl_cons, h2, p2]
      · simp [List.filter_cons, hv, h3b]
    · refine ⟨dispatchedJob s T :: gen, ?_, ?_, ?_, ?_⟩
      · rw [List.foldl_cons, h1, p1, hv]; simp [dispatchedJob]
      · rw [List.foldl_cons, h2, p2]
      · simp [List.filter_cons, hv, h3b, dispatchedJob]
      · intro job hj
        rcases List.mem_cons.mp hj with h | h
        · subst h; exact ⟨rfl, rfl⟩
        · exact h4b job h

/-! Section: folds of one tile function over the grid. -/

theorem tileAt_of_length_le (l : List UTile) (T : TileId) (h : l.length ≤ T) :
    tileAt l T = default := by
  simp [tileAt, List.getElem?_eq_none h]

theorem foldl_modifyTile_control {κ : Type} (g : κ → UTile → UTile) (L : List (κ × TileId))
    (s : State) :
    (L.foldl (fun acc e => modifyTile acc e.2 (g e.1)) s).control = s.control :=
  foldl_control _ (fun s e => modifyTile_control s e.2 (g e.1)) L s

theorem foldl_modifyTile_tileRel {κ : Type} {R : UTile → UTile → Prop} (hrefl : ∀ t, R t t)
    (htrans : ∀ a b c, R a b → R b c → R a c) (g : κ → UTile → UTile)
    (hg : ∀ k t, R t (g k t)) (L : List (κ × TileId)) (s : State) :
    TileRel R s (L.foldl (fun acc e => modifyTile acc e.2 (g e.1)) s) :=
  TileRel_foldl hrefl htrans _ (fun s e => TileRel_modifyTile hrefl (g e.1) (hg e.1) s e.2) L s

theorem foldl_modifyTile_establishes {κ : Type} (g : κ → UTile → UTile) (P : UTile → Prop)
    (hd : P default) (hg : ∀ k t, P (g k t)) (L : List (κ × TileId)) (s : State) (T : TileId)
    (h : T ∈ L.map Prod.snd ∨ P (getTile s T)) :
    P (getTile (L.foldl (fun acc e => modifyTile acc e.2 (g e.1)) s) T) := by
  induction L generalizing s with
  | nil =>
    rcases h with h | h
    · simp at h
    · exact h
  | cons e rest ih =>
    rw [List.foldl_cons]
    apply ih
    have hstep : T = e.2 ∨ P (getTile s T) → P (getTile (modifyTile s e.2 (g e.1)) T) := by
      intro h2
      rw [getTile_modifyTile]
      split
      · exact hg _ _
      · rename_i hn
        rcases h2 with h2 | h2
        · have : s.tiles.length ≤ T := by
            by_contra hlt
            exact hn ⟨h2.symm, Nat.lt_of_not_le hlt⟩
          simp only [getTile, tileAt_of_length_le _ _ this]
          exact hd
        · exact h2
    rcases h with h | h
    · rw [List.map_cons, List.mem_cons] at h
      rcases h with h2 | h2
      · exact Or.inr (hstep (Or.inl h2))
      · exact Or.inl h2
    · exact Or.inr (hstep (Or.inr h))

theorem UnmarkAllForGenerate_control (s : State) :
    (FGrid.UnmarkAllForGenerate s).control = s.control :=
  foldl_modifyTile_control (fun _ => UTile.UnmarkForGenerate) s.Grid.Tiles s

theorem UnmarkAllForAttributeEvaluation_control (s : State) :
    (FGrid.UnmarkAllForAttributeEvaluation s).control = s.control :=
  foldl_modifyTile_control (fun _ => UTile.UnmarkForAttributeEvaluation) s.Grid.Tiles s

theorem UnmarkAllForGenerate_unmarked (s : State) (T : TileId) (h : T ∈ gridTiles s) :
    (getTile (FGrid.UnmarkAllForGenerate s) T).bMarkedForGenerate = false ∧
    (getTile (FGrid.UnmarkAllForGenerate s) T).GenerateCallbackProxies = [] :=
  foldl_modifyTile_establishes (fun _ => UTile.UnmarkForGenerate)
    (fun t => t.bMarkedForGenerate = false ∧ t.GenerateCallbackProxies = []) ⟨rfl, rfl⟩
    (fun _ _ => ⟨rfl, rfl⟩) s.Grid.Tiles s T (Or.inl h)

theorem UnmarkAllForAttributeEvaluation_unmarked (s : State) (T : TileId) (h : T ∈ gridTiles s) :
    (getTile (FGrid.UnmarkAllForAttributeEvaluation s) T).bMarkedForEvaluateAttributes = false ∧
    (getTile (FGrid.UnmarkAllForAttributeEvaluation s) T).EvaluateAttributesCallbackProxies = [] :=
  foldl_modifyTile_establishes (fun _ => UTile.UnmarkForAttributeEvaluation)
    (fun t => t.bMarkedForEvaluateAttributes = false ∧ t.EvaluateAttributesCallbackProxies = [])
    ⟨rfl, rfl⟩ (fun _ _ => ⟨rfl, rfl⟩) s.Grid.Tiles s T (Or.inl h)

theorem foldl_modifyTile_preserves {κ : Type} (g : κ → UTile → UTile) (Q : UTile → Prop)
    (hg : ∀ k t, Q t → Q (g k t)) (L : List (κ × TileId)) (s : State) (T : TileId)
    (h : Q (getTile s T)) :
    Q (getTile (L.foldl (fun acc e => modifyTile acc e.2 (g e.1)) s) T) :=
  foldl_modifyTile_tileRel (R := fun a b => Q a → Q b) (fun _ h => h)
    (fun _ _ _ h1 h2 h => h2 (h1 h)) g hg L s T h

theorem UnmarkAllForAttributeEvaluation_keeps (s : State) (T : TileId)
    (h : (getTile s T).bMarkedForGenerate = false ∧ (getTile s T).GenerateCallbackProxies = []) :
    (getTile (FGrid.UnmarkAllForAttributeEvaluation s) T).bMarkedForGenerate = false ∧
    (getTile (FGrid.UnmarkAllForAttributeEvaluation s) T).GenerateCallbackProxies = [] :=
  foldl_modifyTile_preserves (fun _ => UTile.UnmarkForAttributeEvaluation)
    (fun t => t.bMarkedForGenerate = false ∧ t.GenerateCallbackProxies = [])
    (fun _ _ h => h) s.Grid.Tiles s T h

theorem ProcessTiles_control_eq (s : State) :
    (AVitruvioBatchActor.ProcessTiles s).control =
      (AVitruvioBatchActor.ProcessTilesEvaluate (AVitruvioBatchActor.ProcessTilesGenerate s)).control := by
  unfold AVitruvioBatchActor.ProcessTiles
  simp only [UnmarkAllForAttributeEvaluation_control, UnmarkAllForGenerate_control]

theorem ProcessTilesGenerate_frame (s : State) :
    DispatchFrame s (AVitruvioBatchActor.ProcessTilesGenerate s) :=
  foldl_DispatchGenerate_frame _ s

theorem ProcessTilesEvaluate_frame (s : State) :
    DispatchFrame s (AVitruvioBatchActor.ProcessTilesEvaluate s) :=
  foldl_DispatchEvaluate_frame _ s

theorem DispatchFrame.markedForEvaluation_eq {s s2 : State} (h : DispatchFrame s s2) :
    FGrid.GetTilesMarkedForAttributeEvaluation s2 = FGrid.GetTilesMarkedForAttributeEvaluation s := by
  unfold FGrid.GetTilesMarkedForAttributeEvaluation
  rw [h.Grid]
  exact List.filter_congr (fun T _ => by rw [(h.batch T).2.2])

/-- The jobs that `ProcessTiles` registers. -/
theorem ProcessTiles_pending (s : State) :
    ∃ gen ev : List FPendingJob,
      (AVitruvioBatchActor.ProcessTiles s).pendingGenerate = s.pendingGenerate ++ gen ∧
      (AVitruvioBatchActor.ProcessTiles s).pendingEvaluate = s.pendingEvaluate ++ ev ∧
      gen.map (fun job => job.Tile) =
        (FGrid.GetTilesMarkedForGenerate s).filter (fun T => hasValidComponent s T) ∧
      ev.map (fun job => job.Tile) =
        (FGrid.GetTilesMarkedForAttributeEvaluation s).filter (fun T => hasValidComponent s T) ∧
      ∀ job, job ∈ gen ∨ job ∈ ev →
        job.InitialShapeVitruvioComponents = validComponents s job.Tile ∧
        job.InitialShapes = shapesOf s (validComponents s job.Tile) := by
  obtain ⟨gen, g1, g2, g3, g4⟩ :=
    foldl_DispatchGenerate_pending (FGrid.GetTilesMarkedForGenerate s) s
  have hf := ProcessTilesGenerate_frame s
  obtain ⟨ev, e1, e2, e3, e4⟩ :=
    foldl_DispatchEvaluate_pending
      (FGrid.GetTilesMarkedForAttributeEvaluation (AVitruvioBatchActor.ProcessTilesGenerate s))
      (AVitruvioBatchActor.ProcessTilesGenerate s)
  have hc := ProcessTiles_control_eq s
  have hpg := congrArg Control.pendingGenerate hc
  have hpe := congrArg Control.pendingEvaluate hc
  simp only [State.control] at hpg hpe
  refine ⟨gen, ev, ?_, ?_, g3, ?_, ?_⟩
  · rw [hpg]
    exact e2.trans g1
  · rw [hpe]
    exact e1.trans (by rw [show (AVitruvioBatchActor.ProcessTilesGenerate s).pendingEvaluate
      = s.pendingEvaluate from g2])
  · rw [e3, hf.markedForEvaluation_eq]
    exact List.filter_congr (fun T _ => hf.hasValidComponent_same T)
  · intro job hj
    rcases hj with hj | hj
    · exact g4 job hj
    · have := e4 job hj
      rw [hf.validComponents_eq, hf.shapesOf_eq] at this
      exact this

theorem ProcessTiles_unmarked (s : State) (T : TileId) (h : T ∈ gridTiles s) :
    ((getTile (AVitruvioBatchActor.ProcessTiles s) T).bMarkedForGenerate = false ∧
      (getTile (AVitruvioBatchActor.ProcessTiles s) T).GenerateCallbackProxies = []) ∧
    (getTile (AVitruvioBatchActor.ProcessTiles s) T).bMarkedForEvaluateAttributes = false ∧
    (getTile (AVitruvioBatchActor.ProcessTiles s) T).EvaluateAttributesCallbackProxies = [] := by
  have hf := DispatchFrame_trans _ _ _ (ProcessTilesGenerate_frame s)
    (ProcessTilesEvaluate_frame (AVitruvioBatchActor.ProcessTilesGenerate s))
  have hg1 : T ∈ gridTiles
      (AVitruvioBatchActor.ProcessTilesEvaluate (AVitruvioBatchActor.ProcessTilesGenerate s)) := by
    unfold gridTiles; rw [hf.Grid]; exact h
  have h3 := UnmarkAllForGenerate_unmarked _ T hg1
  have hg2 : T ∈ gridTiles (FGrid.UnmarkAllForGenerate
      (AVitruvioBatchActor.ProcessTilesEvaluate (AVitruvioBatchActor.ProcessTilesGenerate s))) := by
    have := congrArg Control.Grid (UnmarkAllForGenerate_control
      (AVitruvioBatchActor.ProcessTilesEvaluate (AVitruvioBatchActor.ProcessTilesGenerate s)))
    simp only [State.control] at this
    unfold gridTiles; rw [this]; exact hg1
  exact ⟨UnmarkAllForAttributeEvaluation_keeps _ T h3,
    UnmarkAllForAttributeEvaluation_unmarked _ T hg2⟩

theorem ProcessTiles_Grid (s : State) : (AVitruvioBatchActor.ProcessTiles s).Grid = s.Grid := by
  have hf := DispatchFrame_trans _ _ _ (ProcessTilesGenerate_frame s)
    (ProcessTilesEvaluate_frame (AVitruvioBatchActor.ProcessTilesGenerate s))
  have := congrArg Control.Grid (ProcessTiles_control_eq s)
  simp only [State.control] at this
  rw [this, hf.Grid]

/-! Section: drains. -/

theorem UpdateAttributes_control (s : State) (c : ComponentId) (a : AttributeMapId) :
    (UpdateAttributes s c a).control =
      { s.control with components := (UpdateAttributes s c a).components } := by
  simp [UpdateAttributes, State.control, isGenerateAll]

theorem PushEvaluatedAttributes_some (attrs : List AttributeMapId) :
    ∀ (cs : List ComponentId) (i : Nat) (s : State), cs.length + i ≤ attrs.length →
      ∃ s2, PushEvaluatedAttributes attrs cs i s = some s2
  | [], _, s, _ => ⟨s, rfl⟩
  | c :: rest, i, s, h => by
    have hi : i < attrs.length := by simp at h; omega
    simp only [PushEvaluatedAttributes, List.getElem?_eq_getElem hi]
    exact PushEvaluatedAttributes_some attrs rest (i + 1) _ (by simp at h ⊢; omega)

theorem PushEvaluatedAttributes_none (attrs : List AttributeMapId) :
    ∀ (cs : List ComponentId) (i : Nat) (s : State), i ≤ attrs.length →
      attrs.length < cs.length + i → PushEvaluatedAttributes attrs cs i s = none
  | [], _, s, h1, h => by simp at h; omega
  | c :: rest, i, s, _, h => by
    by_cases hi : i < attrs.length
    · simp only [PushEvaluatedAttributes, List.getElem?_eq_getElem hi]
      exact PushEvaluatedAttributes_none attrs rest (i + 1) _ hi (by simp at h ⊢; omega)
    · simp [PushEvaluatedAttributes, List.getElem?_eq_none (Nat.le_of_not_lt hi)]

theorem PushEvaluatedAttributes_spec (attrs : List AttributeMapId) :
    ∀ (cs : List ComponentId) (i : Nat) (s s2 : State),
      PushEvaluatedAttributes attrs cs i s = some s2 →
        s2 = { s with components := s2.components, log := s2.log } ∧
        s2.log = s.log ++ attributePushes cs (attrs.drop i) ∧
        s2.components.length = s.components.length
  | [], _, s, s2, h => by
    simp only [PushEvaluatedAttributes, Option.some.injEq] at h
    subst h
    simp [attributePushes]
  | c :: rest, i, s, s2, h => by
    by_cases hi : i < attrs.length
    · simp only [PushEvaluatedAttributes, List.getElem?_eq_getElem hi] at h
      obtain ⟨h1, h2, h3⟩ := PushEvaluatedAttributes_spec attrs rest (i + 1) _ s2 h
      refine ⟨?_, ?_, ?_⟩
      · rw [h1]
        simp [UpdateAttributes]
      · rw [h2, List.drop_eq_getElem_cons hi]
        simp only [UpdateAttributes, attributePushes, List.zip_cons_cons, List.flatMap_cons,
          List.append_assoc, List.cons_append, List.nil_append]
      · rw [h3]
        simp [UpdateAttributes, length_modifyAt]
    · simp [PushEvaluatedAttributes, List.getElem?_eq_none (Nat.le_of_not_lt hi)] at h

theorem attributePushes_not_generateAll (cs : List ComponentId) (attrs : List AttributeMapId) :
    (attributePushes cs attrs).filter isGenerateAll = [] := by
  simp only [attributePushes, List.filter_eq_nil_iff, List.mem_flatMap]
  rintro e ⟨p, _, hp⟩
  simp at hp
  rcases hp with h | h <;> simp [h, isGenerateAll]

theorem PushEvaluatedAttributes_control (attrs : List AttributeMapId) (cs : List ComponentId)
    (i : Nat) (s s2 : State) (h : PushEvaluatedAttributes attrs cs i s = some s2) :
    s2.control = { s.control with components := s2.components } ∧ s2.tiles = s.tiles := by
  obtain ⟨h1, h2, _⟩ := PushEvaluatedAttributes_spec attrs cs i s s2 h
  have hl : s2.log.filter isGenerateAll = s.log.filter isGenerateAll := by
    rw [h2, List.filter_append, attributePushes_not_generateAll, List.append_nil]
  constructor
  · rw [h1]
    simp only [State.control, Control.mk.injEq, true_and, and_true]
    exact hl
  · rw [h1]

theorem foldl_CreateInstance_log (E : Externals) (Replaced : List FInstance) (L : List FInstance)
    (acc : List Event × UGeneratedModelStaticMeshComponent × List (String × Nat)) :
    ∃ extra, (L.foldl (CreateInstance E Replaced) acc).1 = acc.1 ++ extra ∧
      extra.filter isGenerateAll = [] := by
  induction L generalizing acc with
  | nil => exact ⟨[], by simp⟩
  | cons x rest ih =>
    obtain ⟨extra, h1, h2⟩ := ih (CreateInstance E Replaced acc x)
    rw [List.foldl_cons, h1]
    unfold CreateInstance
    split
    · exact ⟨extra, rfl, h2⟩
    · exact ⟨Event.RegisterComponent (E.UniqueComponentName x.Name acc.2.2).1 :: extra,
        by simp, by simp [isGenerateAll, h2]⟩

theorem fireCallbacks_not_generateAll (proxies : List (ComponentId × CallbackId)) :
    (fireCallbacks proxies).filter isGenerateAll = [] := by
  simp only [fireCallbacks, List.filter_eq_nil_iff, List.mem_flatMap]
  rintro e ⟨p, _, hp⟩
  simp at hp
  rcases hp with h | h | h <;> simp [h, isGenerateAll]

theorem foldl_CreateInstance_log_ext (E : Externals) (Replaced : List FInstance)
    (L : List FInstance) (log0 log : List Event)
    (rest : UGeneratedModelStaticMeshComponent × List (String × Nat))
    (h : ∃ e0, log = log0 ++ e0 ∧ e0.filter isGenerateAll = []) :
    ∃ extra, (L.foldl (CreateInstance E Replaced) (log, rest)).1 = log0 ++ extra ∧
      extra.filter isGenerateAll = [] := by
  obtain ⟨e0, h0, h0b⟩ := h
  obtain ⟨extra, h1, h2⟩ := foldl_CreateInstance_log E Replaced L (log, rest)
  refine ⟨e0 ++ extra, ?_, ?_⟩
  · rw [h1, h0, List.append_assoc]
  · simp [List.filter_append, h2, h0b]

theorem ApplyConvertedResult_log (E : Externals) (s : State)
    (mc : UGeneratedModelStaticMeshComponent) (cr : FConvertedGenerateResult) :
    ∃ extra, (AVitruvioBatchActor.ApplyConvertedResult E s mc cr).1 = s.log ++ extra ∧
      extra.filter isGenerateAll = [] := by
  unfold AVitruvioBatchActor.ApplyConvertedResult
  simp only [destroyChildren]
  apply foldl_CreateInstance_log_ext
  exact ⟨_, rfl, by simp [isGenerateAll]⟩

theorem lt_length_of_model (s : State) (T : TileId)
    (h : (getTile s T).GeneratedModelComponent.isSome = true) : T < s.tiles.length := by
  by_contra hn
  have : getTile s T = default := tileAt_of_length_le _ _ (Nat.le_of_not_lt hn)
  rw [this] at h
  exact absurd h (by decide)

theorem MergeGenerateItem_spec (E : Externals) (s s2 : State) (Item : FBatchGenerateQueueItem)
    (h : AVitruvioBatchActor.MergeGenerateItem E s Item = some s2) :
    ∃ s1 extra,
      PushEvaluatedAttributes Item.GenerateResultDescription.EvaluatedAttributes
        Item.VitruvioComponents 0 s = some s1 ∧
      s2.control = s1.control ∧
      s2.log = s1.log ++ extra ++ fireCallbacks (getTile s Item.Tile).GenerateCallbackProxies ∧
      extra.filter isGenerateAll = [] ∧
      (getTile s Item.Tile).GeneratedModelComponent.isSome = true ∧
      (getTile s2 Item.Tile).bIsGenerating = false ∧
      (getTile s2 Item.Tile).GenerateCallbackProxies = [] ∧
      (∀ T2, UTile.SameTokens (getTile s T2) (getTile s2 T2) ∧
        UTile.ModelKept (getTile s T2) (getTile s2 T2) ∧
        UTile.SameBatch (getTile s T2) (getTile s2 T2) ∧
        (Item.Tile ≠ T2 → getTile s2 T2 = getTile s T2)) := by
  unfold AVitruvioBatchActor.MergeGenerateItem at h
  split at h
  · exact absurd h (by simp)
  · rename_i s1 hpush
    have htiles := (PushEvaluatedAttributes_control _ _ _ _ _ hpush).2
    split at h
    · exact absurd h (by simp)
    · rename_i mc hmc
      simp only [Option.some.injEq] at h
      obtain ⟨extra, hlog, hga⟩ := ApplyConvertedResult_log E
        { s1 with
          MaterialIdentifiers := (E.BuildGenerateResult Item.GenerateResultDescription
            s1.MaterialIdentifiers s1.UniqueMaterialIdentifiers).2.1,
          UniqueMaterialIdentifiers := (E.BuildGenerateResult Item.GenerateResultDescription
            s1.MaterialIdentifiers s1.UniqueMaterialIdentifiers).2.2 } mc
        (E.BuildGenerateResult Item.GenerateResultDescription
            s1.MaterialIdentifiers s1.UniqueMaterialIdentifiers).1
      generalize AVitruvioBatchActor.ApplyConvertedResult E _ mc _ = r at h hlog
      simp only at hlog
      have hsome : (getTile s Item.Tile).GeneratedModelComponent.isSome = true := by
        simp only [getTile, htiles] at hmc
        simp [getTile, hmc]
      have hrange := lt_length_of_model s Item.Tile hsome
      subst h
      refine ⟨s1, extra, hpush, ?_, ?_, hga, hsome, ?_, ?_, ?_⟩
      · simp [State.control, modifyTile, length_modifyAt, List.filter_append, hlog, hga,
          fireCallbacks_not_generateAll]
      · simp [modifyTile, getTile, tileAt_modifyAt, htiles, hlog, hrange]
      · simp [modifyTile, getTile, tileAt_modifyAt, length_modifyAt, htiles, hrange]
      · simp [modifyTile, getTile, tileAt_modifyAt, length_modifyAt, htiles, hrange]
      · intro T2
        simp only [modifyTile, getTile, tileAt_modifyAt, length_modifyAt, htiles]
        by_cases hT : Item.Tile = T2 ∧ T2 < s.tiles.length
        · simp [hT, UTile.SameTokens, UTile.ModelKept, UTile.SameBatch]
        · simp only [hT, if_false]
          refine ⟨SameTokens_refl _, ModelKept_refl _, SameBatch_refl _, ?_⟩
          intro _; trivial

theorem MergeGenerateItem_some (E : Externals) (s : State) (Item : FBatchGenerateQueueItem)
    (hlen : Item.VitruvioComponents.length ≤ Item.GenerateResultDescription.EvaluatedAttributes.length)
    (hmodel : (getTile s Item.Tile).GeneratedModelComponent.isSome = true) :
    ∃ s2, AVitruvioBatchActor.MergeGenerateItem E s Item = some s2 := by
  obtain ⟨s1, hpush⟩ := PushEvaluatedAttributes_some
    Item.GenerateResultDescription.EvaluatedAttributes Item.VitruvioComponents 0 s (by simpa using hlen)
  have htiles := (PushEvaluatedAttributes_control _ _ _ _ _ hpush).2
  unfold AVitruvioBatchActor.MergeGenerateItem
  simp only [hpush]
  have : (getTile s1 Item.Tile).GeneratedModelComponent.isSome = true := by
    simpa [getTile, htiles] using hmodel
  cases hm : (getTile s1 Item.Tile).GeneratedModelComponent with
  | none => rw [hm] at this; exact absurd this (by decide)
  | some mc => exact ⟨_, rfl⟩

theorem CheckAllGenerated_tiles (s : State) :
    (AVitruvioBatchActor.CheckAllGenerated s).tiles = s.tiles := by
  unfold AVitruvioBatchActor.CheckAllGenerated
  cases s.GenerateAllCallbackProxy with
  | none => rfl
  | some cb =>
    dsimp only
    split <;> rfl

theorem CheckAllGenerated_control (s : State) :
    (AVitruvioBatchActor.CheckAllGenerated s).control =
      { s.control with
        GenerateAllCallbackProxy := (AVitruvioBatchActor.CheckAllGenerated s).GenerateAllCallbackProxy,
        generateAllLog := generateAllBroadcasts (AVitruvioBatchActor.CheckAllGenerated s) } := by
  unfold AVitruvioBatchActor.CheckAllGenerated
  cases s.GenerateAllCallbackProxy with
  | none => simp [State.control, generateAllBroadcasts]
  | some cb =>
    dsimp only
    split <;> simp [State.control, generateAllBroadcasts]

/-- The generate-all block: with a pending callback it broadcasts exactly when no tile of the
grid is generating, and then clears the callback. -/
theorem CheckAllGenerated_spec (s : State) :
    (∀ cb, s.GenerateAllCallbackProxy = some cb →
      ((gridTiles s).all (fun T => !(getTile s T).bIsGenerating) = true →
        generateAllBroadcasts (AVitruvioBatchActor.CheckAllGenerated s) =
          generateAllBroadcasts s ++ [Event.GenerateAllCompleted cb] ∧
        (AVitruvioBatchActor.CheckAllGenerated s).GenerateAllCallbackProxy = none) ∧
      ((gridTiles s).all (fun T => !(getTile s T).bIsGenerating) = false →
        AVitruvioBatchActor.CheckAllGenerated s = s)) ∧
    (s.GenerateAllCallbackProxy = none → AVitruvioBatchActor.CheckAllGenerated s = s) := by
  constructor
  · intro cb hcb
    constructor
    · intro hall
      unfold gridTiles at hall
      simp [AVitruvioBatchActor.CheckAllGenerated, hcb, hall, generateAllBroadcasts,
        List.filter_append, isGenerateAll]
    · intro hall
      unfold gridTiles at hall
      simp [AVitruvioBatchActor.CheckAllGenerated, hcb, hall]
  · intro hcb
    simp [AVitruvioBatchActor.CheckAllGenerated, hcb]

theorem ProcessAttributeEvaluationQueue_spec (s s2 : State)
    (h : AVitruvioBatchActor.ProcessAttributeEvaluationQueue s = some s2) :
    s2.control =
      { s.control with
        components := s2.components,
        AttributeEvaluationQueue := s.AttributeEvaluationQueue.tail } ∧
    s2.tiles = s.tiles := by
  unfold AVitruvioBatchActor.ProcessAttributeEvaluationQueue at h
  split at h
  · rename_i Item rest hq
    obtain ⟨h1, h2⟩ := PushEvaluatedAttributes_control _ _ _ _ _ h
    refine ⟨?_, h2⟩
    rw [h1]
    simp [State.control, hq]
  · rename_i hq
    simp only [Option.some.injEq] at h
    subst h
    simp [State.control, hq]

theorem ProcessAttributeEvaluationQueue_some (s : State)
    (h : ∀ Item ∈ s.AttributeEvaluationQueue, Item.VitruvioComponents.length ≤ Item.AttributeMaps.length) :
    ∃ s2, AVitruvioBatchActor.ProcessAttributeEvaluationQueue s = some s2 := by
  unfold AVitruvioBatchActor.ProcessAttributeEvaluationQueue
  split
  · rename_i Item rest hq
    exact PushEvaluatedAttributes_some _ _ _ _ (by simpa using h Item (by simp [hq]))
  · exact ⟨s, rfl⟩

theorem ProcessGenerateQueue_spec (E : Externals) (s s2 : State)
    (h : AVitruvioBatchActor.ProcessGenerateQueue E s = some s2) :
    ∃ m, s2 = AVitruvioBatchActor.CheckAllGenerated m ∧
      m.control =
        { s.control with
          components := m.components,
          GenerateQueue := s.GenerateQueue.tail } ∧
      TileRel UTile.SameTokens s m ∧ TileRel UTile.ModelKept s m ∧ TileRel UTile.SameBatch s m := by
  unfold AVitruvioBatchActor.ProcessGenerateQueue at h
  simp only [Option.map_eq_some'] at h
  obtain ⟨m, hm, rfl⟩ := h
  refine ⟨m, rfl, ?_⟩
  split at hm
  · rename_i Item rest hq
    obtain ⟨s1, extra, hpush, hc, _, _, _, _, _, ht⟩ := MergeGenerateItem_spec E _ m Item hm
    obtain ⟨hc1, _⟩ := PushEvaluatedAttributes_control _ _ _ _ _ hpush
    refine ⟨?_, fun T => ?_, fun T => ?_, fun T => ?_⟩
    · rw [hc, hc1]
      have : m.components = s1.components := congrArg Control.components hc
      simp [State.control, hq, this]
    · exact (ht T).1
    · exact (ht T).2.1
    · exact (ht T).2.2.1
  · rename_i hq
    simp only [Option.some.injEq] at hm
    subst hm
    exact ⟨by simp [State.control, hq], TileRel_refl SameTokens_refl _,
      TileRel_refl ModelKept_refl _, TileRel_refl SameBatch_refl _⟩

theorem ProcessGenerateQueue_some (E : Externals) (s : State)
    (h : ∀ Item ∈ s.GenerateQueue,
      Item.VitruvioComponents.length ≤ Item.GenerateResultDescription.EvaluatedAttributes.length ∧
      (getTile s Item.Tile).GeneratedModelComponent.isSome = true) :
    ∃ s2, AVitruvioBatchActor.ProcessGenerateQueue E s = some s2 := by
  unfold AVitruvioBatchActor.ProcessGenerateQueue
  split
  · rename_i Item rest hq
    obtain ⟨h1, h2⟩ := h Item (by simp [hq])
    obtain ⟨m, hm⟩ := MergeGenerateItem_some E { s with GenerateQueue := rest } Item h1 h2
    exact ⟨_, by rw [hm]; rfl⟩
  · exact ⟨_, rfl⟩

/-! Section: one cycle. -/

theorem UnmarkAllForGenerate_model (s : State) :
    TileRel UTile.ModelKept s (FGrid.UnmarkAllForGenerate s) :=
  foldl_modifyTile_tileRel ModelKept_refl ModelKept_trans
    (fun _ => UTile.UnmarkForGenerate) (fun _ _ h => h) s.Grid.Tiles s

theorem UnmarkAllForAttributeEvaluation_model (s : State) :
    TileRel UTile.ModelKept s (FGrid.UnmarkAllForAttributeEvaluation s) :=
  foldl_modifyTile_tileRel ModelKept_refl ModelKept_trans
    (fun _ => UTile.UnmarkForAttributeEvaluation) (fun _ _ h => h) s.Grid.Tiles s

theorem UnmarkAllForGenerate_tokens (s : State) :
    TileRel UTile.SameTokens s (FGrid.UnmarkAllForGenerate s) :=
  foldl_modifyTile_tileRel SameTokens_refl SameTokens_trans
    (fun _ => UTile.UnmarkForGenerate) (fun _ _ => ⟨rfl, rfl⟩) s.Grid.Tiles s

theorem UnmarkAllForAttributeEvaluation_tokens (s : State) :
    TileRel UTile.SameTokens s (FGrid.UnmarkAllForAttributeEvaluation s) :=
  foldl_modifyTile_tileRel SameTokens_refl SameTokens_trans
    (fun _ => UTile.UnmarkForAttributeEvaluation) (fun _ _ => ⟨rfl, rfl⟩) s.Grid.Tiles s

/-- What `ProcessTiles` leaves as it is. -/
theorem ProcessTiles_frame (s : State) :
    (AVitruvioBatchActor.ProcessTiles s).Grid = s.Grid ∧
    (AVitruvioBatchActor.ProcessTiles s).components = s.components ∧
    (AVitruvioBatchActor.ProcessTiles s).tiles.length = s.tiles.length ∧
    (AVitruvioBatchActor.ProcessTiles s).GenerateQueue = s.GenerateQueue ∧
    (AVitruvioBatchActor.ProcessTiles s).AttributeEvaluationQueue = s.AttributeEvaluationQueue ∧
    (AVitruvioBatchActor.ProcessTiles s).GenerateAllCallbackProxy = s.GenerateAllCallbackProxy ∧
    generateAllBroadcasts (AVitruvioBatchActor.ProcessTiles s) = generateAllBroadcasts s ∧
    (∀ tok, tok ∈ s.invalidTokens → tok ∈ (AVitruvioBatchActor.ProcessTiles s).invalidTokens) ∧
    TileRel UTile.ModelKept s (AVitruvioBatchActor.ProcessTiles s) := by
  have hf := DispatchFrame_trans _ _ _ (ProcessTilesGenerate_frame s)
    (ProcessTilesEvaluate_frame (AVitruvioBatchActor.ProcessTilesGenerate s))
  have hc := ProcessTiles_control_eq s
  obtain ⟨c1, c2, c3, c4, c5, c6, c7, c8, c9, c10, c11⟩ := (control_eq_iff _ _).mp hc
  refine ⟨c5.trans hf.Grid, c9.trans hf.components, c10.trans hf.numTiles,
    c6.trans hf.GenerateQueue, c7.trans hf.AttributeEvaluationQueue,
    c8.trans hf.GenerateAllCallbackProxy, c11.trans hf.generateAllLog, ?_, ?_⟩
  · intro tok h
    rw [c1]
    exact hf.invalid tok h
  · unfold AVitruvioBatchActor.ProcessTiles
    exact TileRel_trans ModelKept_trans hf.model
      (TileRel_trans ModelKept_trans (UnmarkAllForGenerate_model _)
        (UnmarkAllForAttributeEvaluation_model _))

/-- One cycle: the state before the generate-all block, with what the cycle changed. -/
theorem Tick_spec (E : Externals) (s s2 : State) (h : AVitruvioBatchActor.Tick E s = some s2) :
    ∃ m, s2 = AVitruvioBatchActor.CheckAllGenerated m ∧
      m.GenerateQueue = s.GenerateQueue.tail ∧
      m.AttributeEvaluationQueue = s.AttributeEvaluationQueue.tail ∧
      m.Grid = s.Grid ∧ m.tiles.length = s.tiles.length ∧
      m.GenerateAllCallbackProxy = s.GenerateAllCallbackProxy ∧
      generateAllBroadcasts m = generateAllBroadcasts s ∧
      (∀ tok, tok ∈ s.invalidTokens → tok ∈ m.invalidTokens) ∧
      TileRel UTile.ModelKept s m := by
  unfold AVitruvioBatchActor.Tick at h
  simp only [Option.bind_eq_some] at h
  obtain ⟨m1, h1, h2⟩ := h
  obtain ⟨f1, f2, f3, f4, f5, f6, f7, f8, f9⟩ := ProcessTiles_frame s
  obtain ⟨e1, e2⟩ := ProcessAttributeEvaluationQueue_spec _ _ h1
  obtain ⟨m, rfl, g1, _, g3, _⟩ := ProcessGenerateQueue_spec E _ _ h2
  simp only [State.control, Control.mk.injEq] at e1 g1
  obtain ⟨a1, a2, a3, a4, a5, a6, a7, a8, a9, a10, a11⟩ := e1
  obtain ⟨b1, b2, b3, b4, b5, b6, b7, b8, b9, b10, b11⟩ := g1
  refine ⟨m, rfl, ?_, ?_, ?_, ?_, ?_, ?_, ?_, ?_⟩
  · rw [b6, a6, f4]
  · rw [b7, a7, f5]
  · rw [b5, a5, f1]
  · rw [b10, a10, f3]
  · rw [b8, a8, f6]
  · unfold generateAllBroadcasts at f7 ⊢
    rw [b11, a11, f7]
  · intro tok htok
    rw [b1, a1]
    exact f8 tok htok
  · intro T hT
    apply g3 T
    simp only [getTile, e2]
    exact f9 T hT

theorem Tick_some (E : Externals) (s : State) (h : QueuesWellFormed s) :
    ∃ s2, AVitruvioBatchActor.Tick E s = some s2 := by
  obtain ⟨f1, f2, f3, f4, f5, f6, f7, f8, f9⟩ := ProcessTiles_frame s
  obtain ⟨m1, h1⟩ := ProcessAttributeEvaluationQueue_some (AVitruvioBatchActor.ProcessTiles s)
    (by rw [f5]; exact h.2)
  obtain ⟨e1, e2⟩ := ProcessAttributeEvaluationQueue_spec _ _ h1
  have hq : m1.GenerateQueue = s.GenerateQueue := by
    have := congrArg Control.GenerateQueue e1
    simp only [State.control] at this
    rw [this, f4]
  obtain ⟨s2, h2⟩ := ProcessGenerateQueue_some E m1 (by
    intro Item hItem
    rw [hq] at hItem
    refine ⟨(h.1 Item hItem).1, ?_⟩
    simp only [getTile, e2]
    exact f9 Item.Tile (h.1 Item hItem).2)
  exact ⟨s2, by simp [AVitruvioBatchActor.Tick, h1, h2]⟩

theorem Tick_wellFormed (E : Externals) (s s2 : State) (h : QueuesWellFormed s)
    (ht : AVitruvioBatchActor.Tick E s = some s2) : QueuesWellFormed s2 := by
  obtain ⟨m, rfl, q1, q2, _, _, _, _, _, hm⟩ := Tick_spec E s s2 ht
  have hc := CheckAllGenerated_control m
  have hg := congrArg Control.GenerateQueue hc
  have he := congrArg Control.AttributeEvaluationQueue hc
  simp only [State.control] at hg he
  constructor
  · intro Item hItem
    rw [hg, q1] at hItem
    have := h.1 Item (List.mem_of_mem_tail hItem)
    refine ⟨this.1, ?_⟩
    simp only [getTile, CheckAllGenerated_tiles]
    exact hm Item.Tile this.2
  · intro Item hItem
    rw [he, q2] at hItem
    exact h.2 Item (List.mem_of_mem_tail hItem)

theorem Tick_queues (E : Externals) (s s2 : State) (ht : AVitruvioBatchActor.Tick E s = some s2) :
    s2.GenerateQueue = s.GenerateQueue.tail ∧
    s2.AttributeEvaluationQueue = s.AttributeEvaluationQueue.tail := by
  obtain ⟨m, rfl, q1, q2, _⟩ := Tick_spec E s s2 ht
  have hc := CheckAllGenerated_control m
  have hg := congrArg Control.GenerateQueue hc
  have he := congrArg Control.AttributeEvaluationQueue hc
  simp only [State.control] at hg he
  exact ⟨hg.trans q1, he.trans q2⟩

theorem run_replicate_succ (E : Externals) (s : State) (k : Nat) :
    run E s (List.replicate (k + 1) Op.tick) =
      (AVitruvioBatchActor.Tick E s).bind (fun s1 => run E s1 (List.replicate k Op.tick)) := by
  simp [List.replicate_succ, run, step]

theorem run_ticks_queues (E : Externals) (k : Nat) :
    ∀ (s s2 : State), run E s (List.replicate k Op.tick) = some s2 →
      s2.GenerateQueue = s.GenerateQueue.drop k ∧
      s2.AttributeEvaluationQueue = s.AttributeEvaluationQueue.drop k := by
  induction k with
  | zero =>
    intro s s2 h
    simp only [List.replicate_zero, run, Option.some.injEq] at h
    subst h
    simp
  | succ k ih =>
    intro s s2 h
    rw [run_replicate_succ, Option.bind_eq_some] at h
    obtain ⟨s1, h1, h2⟩ := h
    obtain ⟨q1, q2⟩ := Tick_queues E s s1 h1
    obtain ⟨r1, r2⟩ := ih s1 s2 h2
    rw [r1, r2, q1, q2]
    simp [List.drop_tail]

theorem run_ticks_some (E : Externals) (k : Nat) :
    ∀ (s : State), QueuesWellFormed s → ∃ s2, run E s (List.replicate k Op.tick) = some s2 := by
  induction k with
  | zero => intro s _; exact ⟨s, rfl⟩
  | succ k ih =>
    intro s h
    obtain ⟨s1, h1⟩ := Tick_some E s h
    obtain ⟨s2, h2⟩ := ih s1 (Tick_wellFormed E s s1 h h1)
    exact ⟨s2, by rw [run_replicate_succ, h1]; exact h2⟩

theorem drop_eq_of_getElem? {α : Type} (l : List α) (k : Nat) :
    l.drop k = match l[k]? with
      | some x => x :: l.drop (k + 1)
      | none => [] := by
  cases h : l[k]? with
  | none =>
    have := List.getElem?_eq_none_iff.mp h
    simp [List.drop_eq_nil_of_le this]
  | some x =>
    obtain ⟨hk, hx⟩ := List.getElem?_eq_some_iff.mp h
    simp [List.drop_eq_getElem_cons hk, hx]

theorem attributePushes_getElem? (cs : List ComponentId) (attrs : List AttributeMapId) :
    ∀ (i : Nat) (c : ComponentId) (a : AttributeMapId), cs[i]? = some c → attrs[i]? = some a →
      (attributePushes cs attrs)[2 * i]? = some (Event.UpdateUnrealAttributeMap c a) ∧
      (attributePushes cs attrs)[2 * i + 1]? = some (Event.NotifyAttributesChanged c) := by
  induction cs generalizing attrs with
  | nil => intro i c a h; simp at h
  | cons c0 rest ih =>
    intro i c a hc ha
    cases attrs with
    | nil => simp at ha
    | cons a0 arest =>
      cases i with
      | zero =>
        simp only [List.getElem?_cons_zero, Option.some.injEq] at hc ha
        subst hc ha
        simp [attributePushes]
      | succ i =>
        simp only [List.getElem?_cons_succ] at hc ha
        have := ih arest i c a hc ha
        have h2 : 2 * (i + 1) = (2 * i) + 1 + 1 := by ring
        simp only [attributePushes, List.zip_cons_cons, List.flatMap_cons, h2, List.cons_append,
          List.nil_append, List.getElem?_cons_succ]
        exact this

theorem continuation_enqueues (s : State) (job : FPendingJob) :
    (∀ Value, FInvalidationToken.IsInvalid s job.Token = false →
      (AVitruvioBatchActor.GenerateContinuation s job Value).GenerateQueue =
        s.GenerateQueue ++ [FBatchGenerateQueueItem.mk Value job.Tile
          job.InitialShapeVitruvioComponents]) ∧
    (∀ Maps, FInvalidationToken.IsInvalid s job.Token = false →
      (AVitruvioBatchActor.EvaluateContinuation s job Maps).AttributeEvaluationQueue =
        s.AttributeEvaluationQueue ++ [FEvaluateAttributesQueueItem.mk Maps job.Tile
          job.InitialShapeVitruvioComponents]) := by
  constructor
  · intro Value h
    simp [AVitruvioBatchActor.GenerateContinuation, h, modifyTile]
  · intro Maps h
    simp [AVitruvioBatchActor.EvaluateContinuation, h, modifyTile]

theorem CheckAllGenerated_log (s : State) :
    ∃ add, (AVitruvioBatchActor.CheckAllGenerated s).log = s.log ++ add := by
  unfold AVitruvioBatchActor.CheckAllGenerated
  cases s.GenerateAllCallbackProxy with
  | none => exact ⟨[], by simp⟩
  | some cb =>
    dsimp only
    split
    · exact ⟨[Event.GenerateAllCompleted cb], rfl⟩
    · exact ⟨[], by simp⟩

theorem ProcessGenerateQueue_pushes (E : Externals) (s : State) (Item : FBatchGenerateQueueItem)
    (rest : List FBatchGenerateQueueItem) (hq : s.GenerateQueue = Item :: rest)
    (hlen : Item.VitruvioComponents.length ≤ Item.GenerateResultDescription.EvaluatedAttributes.length)
    (hmodel : (getTile s Item.Tile).GeneratedModelComponent.isSome = true) :
    ∃ s2, AVitruvioBatchActor.ProcessGenerateQueue E s = some s2 ∧
      ∃ more, s2.log = s.log ++ attributePushes Item.VitruvioComponents
        Item.GenerateResultDescription.EvaluatedAttributes ++ more := by
  obtain ⟨m, hm⟩ := MergeGenerateItem_some E { s with GenerateQueue := rest } Item hlen hmodel
  obtain ⟨s1, extra, hpush, _, hlog, _⟩ := MergeGenerateItem_spec E _ m Item hm
  obtain ⟨_, hlog1, _⟩ := PushEvaluatedAttributes_spec _ _ _ _ _ hpush
  obtain ⟨add, hadd⟩ := CheckAllGenerated_log m
  refine ⟨AVitruvioBatchActor.CheckAllGenerated m, ?_, ?_⟩
  · unfold AVitruvioBatchActor.ProcessGenerateQueue
    rw [hq]
    simp only [hm, Option.map_some']
  · refine ⟨extra ++ fireCallbacks (getTile s Item.Tile).GenerateCallbackProxies ++ add, ?_⟩
    rw [hadd, hlog, hlog1]
    simp [getTile]

theorem ProcessAttributeEvaluationQueue_pushes (s : State) (Item : FEvaluateAttributesQueueItem)
    (rest : List FEvaluateAttributesQueueItem) (hq : s.AttributeEvaluationQueue = Item :: rest)
    (hlen : Item.VitruvioComponents.length ≤ Item.AttributeMaps.length) :
    ∃ s2, AVitruvioBatchActor.ProcessAttributeEvaluationQueue s = some s2 ∧
      s2.log = s.log ++ attributePushes Item.VitruvioComponents Item.AttributeMaps := by
  obtain ⟨s2, h⟩ := PushEvaluatedAttributes_some Item.AttributeMaps Item.VitruvioComponents 0
    { s with AttributeEvaluationQueue := rest } (by simpa using hlen)
  obtain ⟨_, hlog, _⟩ := PushEvaluatedAttributes_spec _ _ _ _ _ h
  refine ⟨s2, ?_, ?_⟩
  · unfold AVitruvioBatchActor.ProcessAttributeEvaluationQueue
    rw [hq]
    exact h
  · rw [hlog]
    simp

/-! Section: operations that leave the tokens alone. -/

theorem SameTokenState_refl (s : State) : SameTokenState s s :=
  ⟨rfl, rfl, rfl, rfl, TileRel_refl SameTokens_refl s⟩

theorem SameTokenState_trans (a b c : State) (h1 : SameTokenState a b) (h2 : SameTokenState b c) :
    SameTokenState a c :=
  ⟨h2.invalidTokens.trans h1.invalidTokens, h2.numTokens.trans h1.numTokens,
    h2.pendingGenerate.trans h1.pendingGenerate, h2.pendingEvaluate.trans h1.pendingEvaluate,
    TileRel_trans SameTokens_trans h1.tiles h2.tiles⟩

theorem SameTokenState_of_control {s s2 : State} (hc : s2.control = s.control)
    (ht : TileRel UTile.SameTokens s s2) : SameTokenState s s2 := by
  obtain ⟨c1, c2, c3, c4, _⟩ := (control_eq_iff _ _).mp hc
  exact ⟨c1, c2, c3, c4, ht⟩

theorem TokenInvariant_of_same {s s2 : State} (h : TokenInvariant s) (hs : SameTokenState s s2)
    (hg : ∀ e ∈ s2.Grid.Tiles, e.2 < s2.tiles.length)
    (hi : ∀ e ∈ s2.Grid.TilesByComponent, e.2 < s2.tiles.length) : TokenInvariant s2 := by
  have hinv : ∀ tok, FInvalidationToken.IsInvalid s2 tok = FInvalidationToken.IsInvalid s tok := by
    intro tok
    simp [FInvalidationToken.IsInvalid, hs.invalidTokens]
  refine ⟨?_, ?_, ?_, ?_, ?_, ?_, ?_, ?_, hg, hi⟩
  rotate_left 7
  · intro T tok ht
    rw [(hs.tiles T).1, (hs.tiles T).2] at ht
    rw [hs.numTokens]
    exact h.boundStored T tok ht
  · intro job hj hv
    rw [hs.pendingGenerate] at hj
    rw [hinv] at hv
    rw [(hs.tiles job.Tile).1]
    exact h.generate job hj hv
  · intro job hj hv
    rw [hs.pendingEvaluate] at hj
    rw [hinv] at hv
    rw [(hs.tiles job.Tile).2]
    exact h.evaluate job hj hv
  · rw [hs.pendingGenerate]; exact h.nodupGenerate
  · rw [hs.pendingEvaluate]; exact h.nodupEvaluate
  · intro job hj
    rw [hs.pendingGenerate] at hj
    rw [hs.numTokens]
    exact h.boundGenerate job hj
  · intro job hj
    rw [hs.pendingEvaluate] at hj
    rw [hs.numTokens]
    exact h.boundEvaluate job hj
  · intro tok ht
    rw [hs.invalidTokens] at ht
    rw [hs.numTokens]
    exact h.boundInvalid tok ht

theorem MarkForGenerate_tokens (t : UTile) (c : ComponentId) (cb : Option CallbackId) :
    UTile.SameTokens t (t.MarkForGenerate c cb) := by
  cases cb <;> cases h : t.bMarkedForEvaluateAttributes <;>
    simp [UTile.MarkForGenerate, UTile.UnmarkForAttributeEvaluation, UTile.SameTokens, h]

theorem MarkForAttributeEvaluation_tokens (t : UTile) (c : ComponentId) (cb : Option CallbackId) :
    UTile.SameTokens t (t.MarkForAttributeEvaluation c cb) := by
  cases cb <;> simp [UTile.MarkForAttributeEvaluation, UTile.SameTokens]

theorem MarkForGenerate_model (t : UTile) (c : ComponentId) (cb : Option CallbackId) :
    (t.MarkForGenerate c cb).GeneratedModelComponent = t.GeneratedModelComponent := by
  cases cb <;> cases h : t.bMarkedForEvaluateAttributes <;>
    simp [UTile.MarkForGenerate, UTile.UnmarkForAttributeEvaluation, h]

theorem FGrid_MarkForGenerate_same (s : State) (c : ComponentId) (cb : Option CallbackId) :
    (FGrid.MarkForGenerate s c cb).control = s.control ∧
    TileRel UTile.SameTokens s (FGrid.MarkForGenerate s c cb) := by
  unfold FGrid.MarkForGenerate
  split
  · exact ⟨modifyTile_control _ _ _,
      TileRel_modifyTile SameTokens_refl _ (fun t => MarkForGenerate_tokens t c cb) _ _⟩
  · exact ⟨rfl, TileRel_refl SameTokens_refl s⟩

theorem FGrid_MarkForAttributeEvaluation_same (s : State) (c : ComponentId)
    (cb : Option CallbackId) :
    (FGrid.MarkForAttributeEvaluation s c cb).control = s.control ∧
    TileRel UTile.SameTokens s (FGrid.MarkForAttributeEvaluation s c cb) := by
  unfold FGrid.MarkForAttributeEvaluation
  split
  · exact ⟨modifyTile_control _ _ _,
      TileRel_modifyTile SameTokens_refl _ (fun t => MarkForAttributeEvaluation_tokens t c cb) _ _⟩
  · exact ⟨rfl, TileRel_refl SameTokens_refl s⟩

theorem FGrid_MarkAllForGenerate_same (s : State) :
    (FGrid.MarkAllForGenerate s).control = s.control ∧
    TileRel UTile.SameTokens s (FGrid.MarkAllForGenerate s) :=
  ⟨foldl_modifyTile_control (fun c t => t.MarkForGenerate c none) s.Grid.TilesByComponent s,
    foldl_modifyTile_tileRel SameTokens_refl SameTokens_trans
      (fun c t => t.MarkForGenerate c none) (fun c t => MarkForGenerate_tokens t c none)
      s.Grid.TilesByComponent s⟩

theorem FGrid_MarkAllForAttributeEvaluation_same (s : State) :
    (FGrid.MarkAllForAttributeEvaluation s).control = s.control ∧
    TileRel UTile.SameTokens s (FGrid.MarkAllForAttributeEvaluation s) :=
  FGrid_MarkAllForGenerate_same s

theorem tileAt_append (l : List UTile) (t : UTile) (T : Nat) :
    tileAt (l ++ [t]) T = if T = l.length then t else tileAt l T := by
  unfold tileAt
  by_cases h1 : T < l.length
  · simp [List.getElem?_append_left h1, Nat.ne_of_lt h1]
  · by_cases h2 : T = l.length
    · subst h2
      simp
    · have : l.length < T := by omega
      simp [h2, List.getElem?_eq_none (Nat.le_of_not_lt h1),
        List.getElem?_eq_none (show (l ++ [t]).length ≤ T by simp; omega)]

theorem TMapFind_mem {κ ν : Type} [DecidableEq κ] (m : List (κ × ν)) (k : κ) (v : ν)
    (h : TMapFind m k = some v) : (k, v) ∈ m := by
  induction m with
  | nil => simp [TMapFind] at h
  | cons e rest ih =>
    obtain ⟨k0, v0⟩ := e
    simp only [TMapFind] at h
    split at h
    · rename_i hk
      simp only [Option.some.injEq] at h
      subst hk h
      exact List.mem_cons_self _ _
    · exact List.mem_cons_of_mem _ (ih h)

theorem FindOrAddTile_spec (s : State) (Position : FIntPoint) :
    (FGrid.FindOrAddTile s Position).1.control =
      { s.control with
        Grid := (FGrid.FindOrAddTile s Position).1.Grid,
        numTiles := (FGrid.FindOrAddTile s Position).1.tiles.length } ∧
    TileRel UTile.SameTokens s (FGrid.FindOrAddTile s Position).1 ∧
    ((FGrid.FindOrAddTile s Position).1.Grid.TilesByComponent = s.Grid.TilesByComponent) ∧
    s.tiles.length ≤ (FGrid.FindOrAddTile s Position).1.tiles.length ∧
    ((∀ e ∈ s.Grid.Tiles, e.2 < s.tiles.length) →
      (∀ e ∈ (FGrid.FindOrAddTile s Position).1.Grid.Tiles,
        e.2 < (FGrid.FindOrAddTile s Position).1.tiles.length) ∧
      (FGrid.FindOrAddTile s Position).2 < (FGrid.FindOrAddTile s Position).1.tiles.length) := by
  unfold FGrid.FindOrAddTile
  cases hfind : TMapFind s.Grid.Tiles Position with
  | some Tile =>
    refine ⟨by simp [State.control], TileRel_refl SameTokens_refl s, rfl, Nat.le_refl _, ?_⟩
    intro h
    exact ⟨h, h _ (TMapFind_mem _ _ _ hfind)⟩
  | none =>
    refine ⟨by simp [State.control], ?_, rfl, by simp, ?_⟩
    · intro T
      simp only [getTile, tileAt_append]
      split
      · rename_i hT
        subst hT
        simp [tileAt_of_length_le, UTile.SameTokens]
      · exact SameTokens_refl _
    · intro h
      simp only [TMapAdd, hfind, List.length_append, List.length_singleton]
      refine ⟨?_, Nat.lt_succ_self _⟩
      intro e he
      rcases List.mem_append.mp he with he | he
      · exact Nat.lt_succ_of_lt (h e he)
      · simp at he
        subst he
        exact Nat.lt_succ_self _

theorem TMapReplace_mem {κ ν : Type} [DecidableEq κ] (m : List (κ × ν)) (k : κ) (v : ν)
    (e : κ × ν) (h : e ∈ TMapReplace m k v) : e ∈ m ∨ e = (k, v) := by
  induction m with
  | nil => simp [TMapReplace] at h
  | cons e0 rest ih =>
    obtain ⟨k0, v0⟩ := e0
    simp only [TMapReplace] at h
    split at h
    · rename_i hk
      rcases List.mem_cons.mp h with h | h
      · exact Or.inr (by rw [h, hk])
      · exact Or.inl (List.mem_cons_of_mem _ h)
    · rcases List.mem_cons.mp h with h | h
      · exact Or.inl (by rw [h]; exact List.mem_cons_self _ _)
      · rcases ih h with h2 | h2
        · exact Or.inl (List.mem_cons_of_mem _ h2)
        · exact Or.inr h2

theorem TMapAdd_mem {κ ν : Type} [DecidableEq κ] (m : List (κ × ν)) (k : κ) (v : ν)
    (e : κ × ν) (h : e ∈ TMapAdd m k v) : e ∈ m ∨ e = (k, v) := by
  unfold TMapAdd at h
  split at h
  · exact TMapReplace_mem m k v e h
  · rcases List.mem_append.mp h with h | h
    · exact Or.inl h
    · exact Or.inr (by simpa using h)

theorem Add_tokens (t : UTile) (c : ComponentId) : UTile.SameTokens t (t.Add c) := ⟨rfl, rfl⟩

theorem Remove_tokens (t : UTile) (c : ComponentId) : UTile.SameTokens t (t.Remove c) := ⟨rfl, rfl⟩

theorem Register_spec (s : State) (c : ComponentId) (b : Bool) :
    (FGrid.Register s c b).control =
      { s.control with
        Grid := (FGrid.Register s c b).Grid,
        numTiles := (FGrid.Register s c b).tiles.length } ∧
    TileRel UTile.SameTokens s (FGrid.Register s c b) ∧
    ((∀ e ∈ s.Grid.Tiles, e.2 < s.tiles.length) →
      (∀ e ∈ s.Grid.TilesByComponent, e.2 < s.tiles.length) →
      (∀ e ∈ (FGrid.Register s c b).Grid.Tiles, e.2 < (FGrid.Register s c b).tiles.length) ∧
      (∀ e ∈ (FGrid.Register s c b).Grid.TilesByComponent,
        e.2 < (FGrid.Register s c b).tiles.length)) := by
  obtain ⟨f1, f2, f3, f4, f5⟩ := FindOrAddTile_spec s (AVitruvioBatchActor.GetPosition s c)
  unfold FGrid.Register
  rcases hfa : FGrid.FindOrAddTile s (AVitruvioBatchActor.GetPosition s c) with ⟨s1, Tile⟩
  rw [hfa] at f1 f2 f3 f4 f5
  simp only [hfa] at f1 f2 f3 f4 f5 ⊢
  simp only [State.control, Control.mk.injEq] at f1
  obtain ⟨c1, c2, c3, c4, c5, c6, c7, c8, c9, c10, c11⟩ := f1
  split
  · refine ⟨?_, ?_, ?_⟩
    · cases b <;>
        simp [State.control, modifyTile, length_modifyAt, c1, c2, c3, c4, c6, c7, c8, c9, c11]
    · refine TileRel_trans SameTokens_trans f2 ?_
      cases b
      · exact TileRel_trans SameTokens_trans
          (TileRel_modifyTile SameTokens_refl _ (fun t => Add_tokens t c) s1 Tile)
          (TileRel_of_tiles_eq SameTokens_refl rfl)
      · exact TileRel_trans SameTokens_trans
          (TileRel_modifyTile SameTokens_refl _ (fun t => Add_tokens t c) s1 Tile)
          (TileRel_trans SameTokens_trans
            (TileRel_modifyTile SameTokens_refl _ (fun t => MarkForGenerate_tokens t c none) _ Tile)
            (TileRel_of_tiles_eq SameTokens_refl rfl))
    · intro hg hi
      obtain ⟨g1, g2⟩ := f5 hg
      have hlen : ∀ x : State, x.tiles.length = s1.tiles.length →
          (∀ e ∈ s1.Grid.Tiles, e.2 < x.tiles.length) ∧
          (∀ e ∈ TMapAdd s1.Grid.TilesByComponent c Tile, e.2 < x.tiles.length) := by
        intro x hx
        rw [hx]
        refine ⟨g1, ?_⟩
        intro e he
        rcases TMapAdd_mem _ _ _ _ he with he | he
        · rw [f3] at he
          exact Nat.lt_of_lt_of_le (hi e he) f4
        · rw [he]
          exact g2
      cases b
      · exact hlen _ (by simp [modifyTile, length_modifyAt])
      · exact hlen _ (by simp [modifyTile, length_modifyAt])
  · refine ⟨?_, f2, ?_⟩
    · simp [State.control, c1, c2, c3, c4, c6, c7, c8, c9, c11]
    · intro hg hi
      refine ⟨(f5 hg).1, ?_⟩
      intro e he
      rw [f3] at he
      exact Nat.lt_of_lt_of_le (hi e he) f4

theorem ClearTile_same (s : State) (T : TileId) :
    (FGrid.ClearTile s T).control = s.control ∧ TileRel UTile.SameTokens s (FGrid.ClearTile s T) := by
  unfold FGrid.ClearTile
  split
  · split
    · refine ⟨by simp [State.control, modifyTile, length_modifyAt, destroyChildren, isGenerateAll],
        ?_⟩
      intro T2
      simp only [destroyChildren, getTile, modifyTile, tileAt_modifyAt]
      split <;> simp [UTile.SameTokens]
    · exact ⟨rfl, TileRel_refl SameTokens_refl s⟩
  · exact ⟨rfl, TileRel_refl SameTokens_refl s⟩

theorem Clear_spec (s : State) :
    (FGrid.Clear s).control = { s.control with Grid := { Tiles := [], TilesByComponent := [] } } ∧
    TileRel UTile.SameTokens s (FGrid.Clear s) := by
  have h1 : (s.Grid.TilesByComponent.foldl (fun acc e => FGrid.ClearTile acc e.2) s).control
      = s.control :=
    foldl_control _ (fun (s : State) (e : ComponentId × TileId) => (ClearTile_same s e.2).1) _ s
  have h2 : TileRel UTile.SameTokens s
      (s.Grid.TilesByComponent.foldl (fun acc e => FGrid.ClearTile acc e.2) s) :=
    TileRel_foldl SameTokens_refl SameTokens_trans _
      (fun (s : State) (e : ComponentId × TileId) => (ClearTile_same s e.2).2) _ s
  obtain ⟨c1, c2, c3, c4, c5, c6, c7, c8, c9, c10, c11⟩ := (control_eq_iff _ _).mp h1
  unfold FGrid.Clear
  refine ⟨?_, ?_⟩
  · simp [State.control, c1, c2, c3, c4, c6, c7, c8, c9, c10, c11]
  · exact TileRel_trans SameTokens_trans h2 (TileRel_of_tiles_eq SameTokens_refl rfl)

/-! Section: unregistering. -/

theorem isInvalid_iff (s : State) (tok : TokenId) :
    FInvalidationToken.IsInvalid s tok = true ↔ tok ∈ s.invalidTokens := by
  simp [FInvalidationToken.IsInvalid]

theorem isInvalid_false_iff (s : State) (tok : TokenId) :
    FInvalidationToken.IsInvalid s tok = false ↔ tok ∉ s.invalidTokens := by
  simp [FInvalidationToken.IsInvalid]

/-- The effect of `FGrid::Unregister` on a component whose reverse-index entry is tile `T`. -/
theorem Unregister_registered (s : State) (c : ComponentId) (T : TileId)
    (hreg : TMapFind s.Grid.TilesByComponent c = some T) :
    (FGrid.Unregister s c).control =
      { s.control with
        invalidTokens := (getTile s T).GenerateToken.toList ++ s.invalidTokens } ∧
    (∀ T2, getTile (FGrid.Unregister s c) T2 =
      if T = T2 ∧ T2 < s.tiles.length then
        UTile.MarkForGenerate (UTile.Remove { (getTile s T2) with GenerateToken := none } c) c none
      else getTile s T2) := by
  unfold FGrid.Unregister
  simp only [hreg]
  cases htok : (getTile s T).GenerateToken with
  | none =>
    refine ⟨by simp [State.control, modifyTile, length_modifyAt], ?_⟩
    intro T2
    simp only [getTile, modifyTile, tileAt_modifyAt, length_modifyAt]
    by_cases h : T = T2 ∧ T2 < s.tiles.length
    · obtain ⟨h1, h2⟩ := h
      subst h1
      simp only [getTile] at htok
      simp [h2, UTile.Remove, ← htok]
    · simp [h]
  | some tok =>
    refine ⟨by simp [State.control, modifyTile, length_modifyAt, FInvalidationToken.Invalidate], ?_⟩
    intro T2
    simp only [getTile, modifyTile, tileAt_modifyAt, length_modifyAt,
      FInvalidationToken.Invalidate]
    by_cases h : T = T2 ∧ T2 < s.tiles.length
    · simp [h, UTile.Remove]
    · simp [h]

theorem Unregister_unregistered (s : State) (c : ComponentId)
    (hreg : TMapFind s.Grid.TilesByComponent c = none) : FGrid.Unregister s c = s := by
  unfold FGrid.Unregister
  simp only [hreg]

theorem Unregister_tokens (s : State) (c : ComponentId) (T : TileId)
    (hreg : TMapFind s.Grid.TilesByComponent c = some T) (T2 : TileId) :
    (getTile (FGrid.Unregister s c) T2).EvalAttributesToken = (getTile s T2).EvalAttributesToken ∧
    (getTile (FGrid.Unregister s c) T2).GenerateToken =
      if T = T2 then none else (getTile s T2).GenerateToken := by
  rw [(Unregister_registered s c T hreg).2 T2]
  by_cases h : T = T2
  · subst h
    by_cases h2 : T < s.tiles.length
    · simp only [h2, and_self, if_true]
      exact ⟨(MarkForGenerate_tokens _ c none).2, (MarkForGenerate_tokens _ c none).1⟩
    · simp only [h2, and_false, if_false, if_true, true_and]
      simp only [getTile, tileAt_of_length_le _ _ (Nat.le_of_not_lt h2)]
      rfl
  · simp [h]

theorem Unregister_invariant (s : State) (c : ComponentId) (h : TokenInvariant s) :
    TokenInvariant (FGrid.Unregister s c) := by
  cases hreg : TMapFind s.Grid.TilesByComponent c with
  | none => rw [Unregister_unregistered s c hreg]; exact h
  | some T =>
    obtain ⟨hc, _⟩ := Unregister_registered s c T hreg
    have ht := Unregister_tokens s c T hreg
    simp only [State.control, Control.mk.injEq] at hc
    obtain ⟨c1, c2, c3, c4, c5, c6, c7, c8, c9, c10, c11⟩ := hc
    refine ⟨?_, ?_, ?_, ?_, ?_, ?_, ?_, ?_, ?_, ?_⟩
    · intro job hj hv
      rw [c3] at hj
      rw [isInvalid_false_iff, c1, List.mem_append, not_or] at hv
      have hold := h.generate job hj ((isInvalid_false_iff _ _).mpr hv.2)
      rw [(ht job.Tile).2]
      by_cases hT : T = job.Tile
      · subst hT
        rw [hold] at hv
        exact absurd (by simp) hv.1
      · simp [hT, hold]
    · intro job hj hv
      rw [c4] at hj
      rw [isInvalid_false_iff, c1, List.mem_append, not_or] at hv
      rw [(ht job.Tile).1]
      exact h.evaluate job hj ((isInvalid_false_iff _ _).mpr hv.2)
    · rw [c3]; exact h.nodupGenerate
    · rw [c4]; exact h.nodupEvaluate
    · intro job hj; rw [c3] at hj; rw [c2]; exact h.boundGenerate job hj
    · intro job hj; rw [c4] at hj; rw [c2]; exact h.boundEvaluate job hj
    · intro tok htok
      rw [c1, List.mem_append] at htok
      rw [c2]
      rcases htok with htok | htok
      · exact h.boundStored T tok (Or.inl (by simpa [Option.mem_toList] using htok))
      · exact h.boundInvalid tok htok
    · intro T2 tok htok
      rw [c2]
      rw [(ht T2).1, (ht T2).2] at htok
      rcases htok with htok | htok
      · by_cases hT : T = T2
        · simp [hT] at htok
        · simp only [hT, if_false] at htok
          exact h.boundStored T2 tok (Or.inl htok)
      · exact h.boundStored T2 tok (Or.inr htok)
    · intro e he; rw [c5] at he; rw [c10]; exact h.gridAllocated e he
    · intro e he; rw [c5] at he; rw [c10]; exact h.indexAllocated e he

/-! Section: the token invariant under dispatch. -/

theorem mem_gridTiles_lt (s : State) (h : TokenInvariant s) (T : TileId) (hT : T ∈ gridTiles s) :
    T < s.tiles.length := by
  unfold gridTiles GenerateValueArray at hT
  obtain ⟨e, he, rfl⟩ := List.mem_map.mp hT
  exact h.gridAllocated e he

theorem DispatchGenerate_tokens (s : State) (T T2 : TileId) :
    (getTile (AVitruvioBatchActor.DispatchGenerate s T) T2).EvalAttributesToken =
      (getTile s T2).EvalAttributesToken ∧
    (getTile (AVitruvioBatchActor.DispatchGenerate s T) T2).GenerateToken =
      if validComponents s T ≠ [] ∧ T = T2 ∧ T2 < s.tiles.length then some s.numTokens
      else (getTile s T2).GenerateToken := by
  rw [DispatchGenerate_tile]
  have hp := (PrepareModelComponent_tile s T T2).sameTokens
  split
  · exact ⟨hp.2, rfl⟩
  · exact ⟨hp.2, hp.1⟩

theorem DispatchEvaluate_tokens (s : State) (T T2 : TileId) :
    (getTile (AVitruvioBatchActor.DispatchEvaluate s T) T2).GenerateToken =
      (getTile s T2).GenerateToken ∧
    (getTile (AVitruvioBatchActor.DispatchEvaluate s T) T2).EvalAttributesToken =
      if validComponents s T ≠ [] ∧ T = T2 ∧ T2 < s.tiles.length then some s.numTokens
      else (getTile s T2).EvalAttributesToken := by
  rw [DispatchEvaluate_tile]
  split
  · exact ⟨rfl, rfl⟩
  · exact ⟨rfl, rfl⟩

theorem nodup_map_append_fresh (l : List FPendingJob) (n : Nat) (job : FPendingJob)
    (hn : (l.map (fun j => j.Token)).Nodup) (hb : ∀ j ∈ l, j.Token < n) (hj : job.Token = n) :
    ((l ++ [job]).map (fun j => j.Token)).Nodup := by
  rw [List.map_append, List.nodup_append]
  refine ⟨hn, by simp, ?_⟩
  intro a ha hb2
  simp only [List.map_cons, List.map_nil, List.mem_singleton] at hb2
  obtain ⟨j, hjl, rfl⟩ := List.mem_map.mp ha
  have := hb j hjl
  rw [hb2, hj] at this
  exact Nat.lt_irrefl _ this

theorem DispatchGenerate_invariant (s : State) (T : TileId) (hT : T < s.tiles.length)
    (h : TokenInvariant s) : TokenInvariant (AVitruvioBatchActor.DispatchGenerate s T) := by
  have hc := DispatchGenerate_control s T
  have ht := DispatchGenerate_tokens s T
  by_cases hv : validComponents s T = []
  · rw [if_pos hv] at hc
    have hgrid := (control_eq_iff _ _).mp hc
    refine TokenInvariant_of_same h (SameTokenState_of_control hc ?_) ?_ ?_
    · intro T2
      have := ht T2
      simp only [hv, ne_eq, not_true_eq_false, false_and, if_false] at this
      exact ⟨this.2, this.1⟩
    · intro e he
      rw [hgrid.2.2.2.2.1] at he
      rw [hgrid.2.2.2.2.2.2.2.2.2.1]
      exact h.gridAllocated e he
    · intro e he
      rw [hgrid.2.2.2.2.1] at he
      rw [hgrid.2.2.2.2.2.2.2.2.2.1]
      exact h.indexAllocated e he
  · rw [if_neg hv] at hc
    simp only [State.control, Control.mk.injEq] at hc
    obtain ⟨c1, c2, c3, c4, c5, c6, c7, c8, c9, c10, c11⟩ := hc
    simp only [hv, ne_eq, not_false_eq_true, true_and] at ht
    refine ⟨?_, ?_, ?_, ?_, ?_, ?_, ?_, ?_, ?_, ?_⟩
    · intro job hj hvalid
      rw [c3, List.mem_append] at hj
      rw [isInvalid_false_iff, c1, List.mem_append, List.mem_append, not_or, not_or] at hvalid
      rw [(ht job.Tile).2]
      rcases hj with hj | hj
      · have hold := h.generate job hj ((isInvalid_false_iff _ _).mpr hvalid.2.2)
        by_cases hTj : T = job.Tile
        · subst hTj
          rw [hold] at hvalid
          exact absurd (by simp) hvalid.1
        · simp [hTj, hold]
      · simp only [List.mem_singleton] at hj
        subst hj
        simp [hT]
    · intro job hj hvalid
      rw [c4] at hj
      rw [isInvalid_false_iff, c1, List.mem_append, List.mem_append, not_or, not_or] at hvalid
      rw [(ht job.Tile).1]
      exact h.evaluate job hj ((isInvalid_false_iff _ _).mpr hvalid.2.2)
    · rw [c3]
      exact nodup_map_append_fresh _ s.numTokens _ h.nodupGenerate h.boundGenerate rfl
    · rw [c4]; exact h.nodupEvaluate
    · intro job hj
      rw [c3, List.mem_append] at hj
      rw [c2]
      rcases hj with hj | hj
      · exact Nat.lt_succ_of_lt (h.boundGenerate job hj)
      · simp only [List.mem_singleton] at hj
        subst hj
        exact Nat.lt_succ_self _
    · intro job hj
      rw [c4] at hj
      rw [c2]
      exact Nat.lt_succ_of_lt (h.boundEvaluate job hj)
    · intro tok htok
      rw [c1, List.mem_append, List.mem_append] at htok
      rw [c2]
      apply Nat.lt_succ_of_lt
      rcases htok with htok | htok | htok
      · exact h.boundStored T tok (Or.inl (by simpa [Option.mem_toList] using htok))
      · exact h.boundStored T tok (Or.inr (by simpa [Option.mem_toList] using htok))
      · exact h.boundInvalid tok htok
    · intro T2 tok htok
      rw [c2]
      rw [(ht T2).1, (ht T2).2] at htok
      rcases htok with htok | htok
      · split at htok
        · simp only [Option.some.injEq] at htok
          rw [← htok]
          exact Nat.lt_succ_self _
        · exact Nat.lt_succ_of_lt (h.boundStored T2 tok (Or.inl htok))
      · exact Nat.lt_succ_of_lt (h.boundStored T2 tok (Or.inr htok))
    · intro e he; rw [c5] at he; rw [c10]; exact h.gridAllocated e he
    · intro e he; rw [c5] at he; rw [c10]; exact h.indexAllocated e he

theorem DispatchEvaluate_invariant (s : State) (T : TileId) (hT : T < s.tiles.length)
    (h : TokenInvariant s) : TokenInvariant (AVitruvioBatchActor.DispatchEvaluate s T) := by
  have hc := DispatchEvaluate_control s T
  have ht := DispatchEvaluate_tokens s T
  by_cases hv : validComponents s T = []
  · rw [if_pos hv] at hc
    have hgrid := (control_eq_iff _ _).mp hc
    refine TokenInvariant_of_same h (SameTokenState_of_control hc ?_) ?_ ?_
    · intro T2
      have := ht T2
      simp only [hv, ne_eq, not_true_eq_false, false_and, if_false] at this
      exact this
    · intro e he
      rw [hgrid.2.2.2.2.1] at he
      rw [hgrid.2.2.2.2.2.2.2.2.2.1]
      exact h.gridAllocated e he
    · intro e he
      rw [hgrid.2.2.2.2.1] at he
      rw [hgrid.2.2.2.2.2.2.2.2.2.1]
      exact h.indexAllocated e he
  · rw [if_neg hv] at hc
    simp only [State.control, Control.mk.injEq] at hc
    obtain ⟨c1, c2, c3, c4, c5, c6, c7, c8, c9, c10, c11⟩ := hc
    simp only [hv, ne_eq, not_false_eq_true, true_and] at ht
    refine ⟨?_, ?_, ?_, ?_, ?_, ?_, ?_, ?_, ?_, ?_⟩
    · intro job hj hvalid
      rw [c3] at hj
      rw [isInvalid_false_iff, c1, List.mem_append, not_or] at hvalid
      rw [(ht job.Tile).1]
      exact h.generate job hj ((isInvalid_false_iff _ _).mpr hvalid.2)
    · intro job hj hvalid
      rw [c4, List.mem_append] at hj
      rw [isInvalid_false_iff, c1, List.mem_append, not_or] at hvalid
      rw [(ht job.Tile).2]
      rcases hj with hj | hj
      · have hold := h.evaluate job hj ((isInvalid_false_iff _ _).mpr hvalid.2)
        by_cases hTj : T = job.Tile
        · subst hTj
          rw [hold] at hvalid
          exact absurd (by simp) hvalid.1
        · simp [hTj, hold]
      · simp only [List.mem_singleton] at hj
        subst hj
        simp [hT]
    · rw [c3]; exact h.nodupGenerate
    · rw [c4]
      exact nodup_map_append_fresh _ s.numTokens _ h.nodupEvaluate h.boundEvaluate rfl
    · intro job hj
      rw [c3] at hj
      rw [c2]
      exact Nat.lt_succ_of_lt (h.boundGenerate job hj)
    · intro job hj
      rw [c4, List.mem_append] at hj
      rw [c2]
      rcases hj with hj | hj
      · exact Nat.lt_succ_of_lt (h.boundEvaluate job hj)
      · simp only [List.mem_singleton] at hj
        subst hj
        exact Nat.lt_succ_self _
    · intro tok htok
      rw [c1, List.mem_append] at htok
      rw [c2]
      apply Nat.lt_succ_of_lt
      rcases htok with htok | htok
      · exact h.boundStored T tok (Or.inr (by simpa [Option.mem_toList] using htok))
      · exact h.boundInvalid tok htok
    · intro T2 tok htok
      rw [c2]
      rw [(ht T2).1, (ht T2).2] at htok
      rcases htok with htok | htok
      · exact Nat.lt_succ_of_lt (h.boundStored T2 tok (Or.inl htok))
      · split at htok
        · simp only [Option.some.injEq] at htok
          rw [← htok]
          exact Nat.lt_succ_self _
        · exact Nat.lt_succ_of_lt (h.boundStored T2 tok (Or.inr htok))
    · intro e he; rw [c5] at he; rw [c10]; exact h.gridAllocated e he
    · intro e he; rw [c5] at he; rw [c10]; exact h.indexAllocated e he

theorem foldl_DispatchGenerate_invariant (L : List TileId) (s : State)
    (hL : ∀ T ∈ L, T ∈ gridTiles s) (h : TokenInvariant s) :
    TokenInvariant (L.foldl AVitruvioBatchActor.DispatchGenerate s) := by
  induction L generalizing s with
  | nil => exact h
  | cons T rest ih =>
    have hT := mem_gridTiles_lt s h T (hL T (List.mem_cons_self _ _))
    apply ih
    · intro T2 hT2
      unfold gridTiles
      rw [(DispatchGenerate_frame s T).Grid]
      exact hL T2 (List.mem_cons_of_mem _ hT2)
    · exact DispatchGenerate_invariant s T hT h

theorem foldl_DispatchEvaluate_invariant (L : List TileId) (s : State)
    (hL : ∀ T ∈ L, T ∈ gridTiles s) (h : TokenInvariant s) :
    TokenInvariant (L.foldl AVitruvioBatchActor.DispatchEvaluate s) := by
  induction L generalizing s with
  | nil => exact h
  | cons T rest ih =>
    have hT := mem_gridTiles_lt s h T (hL T (List.mem_cons_self _ _))
    apply ih
    · intro T2 hT2
      unfold gridTiles
      rw [(DispatchEvaluate_frame s T).Grid]
      exact hL T2 (List.mem_cons_of_mem _ hT2)
    · exact DispatchEvaluate_invariant s T hT h

theorem same_invariant_of_control {s s2 : State} (h : TokenInvariant s)
    (hc : s2.control = s.control) (ht : TileRel UTile.SameTokens s s2) : TokenInvariant s2 := by
  have hgrid := (control_eq_iff _ _).mp hc
  refine TokenInvariant_of_same h (SameTokenState_of_control hc ht) ?_ ?_
  · intro e he
    rw [hgrid.2.2.2.2.1] at he
    rw [hgrid.2.2.2.2.2.2.2.2.2.1]
    exact h.gridAllocated e he
  · intro e he
    rw [hgrid.2.2.2.2.1] at he
    rw [hgrid.2.2.2.2.2.2.2.2.2.1]
    exact h.indexAllocated e he

theorem ProcessTiles_invariant (s : State) (h : TokenInvariant s) :
    TokenInvariant (AVitruvioBatchActor.ProcessTiles s) := by
  have h1 : TokenInvariant (AVitruvioBatchActor.ProcessTilesGenerate s) :=
    foldl_DispatchGenerate_invariant _ s
      (fun T hT => List.mem_of_mem_filter hT) h
  have h2 : TokenInvariant
      (AVitruvioBatchActor.ProcessTilesEvaluate (AVitruvioBatchActor.ProcessTilesGenerate s)) :=
    foldl_DispatchEvaluate_invariant _ _ (fun T hT => List.mem_of_mem_filter hT) h1
  have h3 := same_invariant_of_control h2 (UnmarkAllForGenerate_control _)
    (UnmarkAllForGenerate_tokens _)
  exact same_invariant_of_control h3 (UnmarkAllForAttributeEvaluation_control _)
    (UnmarkAllForAttributeEvaluation_tokens _)

/-! Section: completion of jobs. -/

theorem TokenInvariant_transfer {s s2 : State} (h : TokenInvariant s)
    (hi : s2.invalidTokens = s.invalidTokens) (hn : s2.numTokens = s.numTokens)
    (hpg : s2.pendingGenerate = s.pendingGenerate) (hpe : s2.pendingEvaluate = s.pendingEvaluate)
    (hgrid : s2.Grid = s.Grid) (hlen : s2.tiles.length = s.tiles.length)
    (ht : TileRel UTile.SameTokens s s2) : TokenInvariant s2 := by
  refine TokenInvariant_of_same h ⟨hi, hn, hpg, hpe, ht⟩ ?_ ?_
  · intro e he; rw [hgrid] at he; rw [hlen]; exact h.gridAllocated e he
  · intro e he; rw [hgrid] at he; rw [hlen]; exact h.indexAllocated e he

theorem token_ne_of_mem_eraseIdx (l : List FPendingJob)
    (hn : (l.map (fun j => j.Token)).Nodup) :
    ∀ (i : Nat) (job j : FPendingJob), l[i]? = some job → j ∈ l.eraseIdx i →
      j.Token ≠ job.Token := by
  induction l with
  | nil => intro i job j h; simp at h
  | cons x xs ih =>
    intro i job j hi hj
    rw [List.map_cons, List.nodup_cons] at hn
    cases i with
    | zero =>
      simp only [List.getElem?_cons_zero, Option.some.injEq] at hi
      simp only [List.eraseIdx_cons_zero] at hj
      subst hi
      intro heq
      exact hn.1 (heq ▸ List.mem_map_of_mem (fun j => j.Token) hj)
    | succ k =>
      simp only [List.getElem?_cons_succ] at hi
      simp only [List.eraseIdx_cons_succ, List.mem_cons] at hj
      rcases hj with hj | hj
      · subst hj
        intro heq
        have hmem : job ∈ xs := List.getElem?_mem hi
        exact hn.1 (heq ▸ List.mem_map_of_mem (fun j => j.Token) hmem)
      · exact ih hn.2 k job j hi hj

theorem nodup_map_eraseIdx (l : List FPendingJob) (i : Nat)
    (hn : (l.map (fun j => j.Token)).Nodup) :
    ((l.eraseIdx i).map (fun j => j.Token)).Nodup :=
  List.Nodup.sublist (List.Sublist.map _ (List.eraseIdx_sublist l i)) hn

theorem mem_of_mem_eraseIdx_job (l : List FPendingJob) (i : Nat) (j : FPendingJob)
    (h : j ∈ l.eraseIdx i) : j ∈ l :=
  (List.eraseIdx_sublist l i).subset h

theorem GenerateContinuation_spec (s : State) (job : FPendingJob)
    (Value : FGenerateResultDescription) :
    (AVitruvioBatchActor.GenerateContinuation s job Value).control =
      { s.control with
        GenerateQueue := (AVitruvioBatchActor.GenerateContinuation s job Value).GenerateQueue } ∧
    (∀ T2, (getTile (AVitruvioBatchActor.GenerateContinuation s job Value) T2).EvalAttributesToken =
        (getTile s T2).EvalAttributesToken ∧
      ((getTile (AVitruvioBatchActor.GenerateContinuation s job Value) T2).GenerateToken =
        (getTile s T2).GenerateToken ∨
       (FInvalidationToken.IsInvalid s job.Token = false ∧ job.Tile = T2 ∧
        (getTile (AVitruvioBatchActor.GenerateContinuation s job Value) T2).GenerateToken = none)) ∧
      UTile.ModelKept (getTile s T2) (getTile (AVitruvioBatchActor.GenerateContinuation s job Value) T2)) := by
  unfold AVitruvioBatchActor.GenerateContinuation
  cases hinv : FInvalidationToken.IsInvalid s job.Token with
  | true => exact ⟨by simp [State.control], fun T2 => ⟨rfl, Or.inl rfl, fun h => h⟩⟩
  | false =>
    refine ⟨by simp [State.control, modifyTile, length_modifyAt], ?_⟩
    intro T2
    simp only [getTile, modifyTile, tileAt_modifyAt, Bool.false_eq_true, if_false]
    by_cases h : job.Tile = T2 ∧ T2 < s.tiles.length
    · simp [h, UTile.ModelKept]
    · simp [h, UTile.ModelKept]

theorem EvaluateContinuation_spec (s : State) (job : FPendingJob) (Maps : List AttributeMapId) :
    (AVitruvioBatchActor.EvaluateContinuation s job Maps).control =
      { s.control with
        AttributeEvaluationQueue :=
          (AVitruvioBatchActor.EvaluateContinuation s job Maps).AttributeEvaluationQueue } ∧
    (∀ T2, (getTile (AVitruvioBatchActor.EvaluateContinuation s job Maps) T2).GenerateToken =
        (getTile s T2).GenerateToken ∧
      ((getTile (AVitruvioBatchActor.EvaluateContinuation s job Maps) T2).EvalAttributesToken =
        (getTile s T2).EvalAttributesToken ∨
       (FInvalidationToken.IsInvalid s job.Token = false ∧ job.Tile = T2 ∧
        (getTile (AVitruvioBatchActor.EvaluateContinuation s job Maps) T2).EvalAttributesToken = none)) ∧
      UTile.ModelKept (getTile s T2) (getTile (AVitruvioBatchActor.EvaluateContinuation s job Maps) T2)) := by
  unfold AVitruvioBatchActor.EvaluateContinuation
  cases hinv : FInvalidationToken.IsInvalid s job.Token with
  | true => exact ⟨by simp [State.control], fun T2 => ⟨rfl, Or.inl rfl, fun h => h⟩⟩
  | false =>
    refine ⟨by simp [State.control, modifyTile, length_modifyAt], ?_⟩
    intro T2
    simp only [getTile, modifyTile, tileAt_modifyAt, Bool.false_eq_true, if_false]
    by_cases h : job.Tile = T2 ∧ T2 < s.tiles.length
    · simp [h, UTile.ModelKept]
    · simp [h, UTile.ModelKept]

theorem resolveGenerate_invariant (s : State) (i : Nat) (Value : FGenerateResultDescription)
    (h : TokenInvariant s) : TokenInvariant (resolveGenerate s i Value) := by
  unfold resolveGenerate
  cases hjob : s.pendingGenerate[i]? with
  | none => exact h
  | some job =>
    simp only
    obtain ⟨hc, ht⟩ := GenerateContinuation_spec
      { s with pendingGenerate := s.pendingGenerate.eraseIdx i } job Value
    simp only [State.control, Control.mk.injEq] at hc
    obtain ⟨c1, c2, c3, c4, c5, c6, c7, c8, c9, c10, c11⟩ := hc
    have hinv : ∀ tok, FInvalidationToken.IsInvalid
        (AVitruvioBatchActor.GenerateContinuation
          { s with pendingGenerate := s.pendingGenerate.eraseIdx i } job Value) tok =
        FInvalidationToken.IsInvalid s tok := by
      intro tok
      simp [FInvalidationToken.IsInvalid, c1]
    have hjmem : job ∈ s.pendingGenerate := List.getElem?_mem hjob
    refine ⟨?_, ?_, ?_, ?_, ?_, ?_, ?_, ?_, ?_, ?_⟩
    · intro j hj hv
      rw [c3] at hj
      rw [hinv] at hv
      have hold := h.generate j (mem_of_mem_eraseIdx_job _ _ _ hj) hv
      rcases (ht j.Tile).2.1 with h1 | ⟨h1, h2, _⟩
      · rw [h1]; exact hold
      · have hjobtok := h.generate job hjmem (by simpa [FInvalidationToken.IsInvalid] using h1)
        have hne := token_ne_of_mem_eraseIdx _ h.nodupGenerate i job j hjob hj
        rw [h2] at hjobtok
        simp only [getTile] at hold hjobtok
        rw [hold] at hjobtok
        exact absurd (Option.some.inj hjobtok) hne
    · intro j hj hv
      rw [c4] at hj
      rw [hinv] at hv
      rw [(ht j.Tile).1]
      exact h.evaluate j hj hv
    · rw [c3]; exact nodup_map_eraseIdx _ _ h.nodupGenerate
    · rw [c4]; exact h.nodupEvaluate
    · intro j hj; rw [c3] at hj; rw [c2]
      exact h.boundGenerate j (mem_of_mem_eraseIdx_job _ _ _ hj)
    · intro j hj; rw [c4] at hj; rw [c2]; exact h.boundEvaluate j hj
    · intro tok htok; rw [c1] at htok; rw [c2]; exact h.boundInvalid tok htok
    · intro T2 tok htok
      rw [c2]
      rw [(ht T2).1] at htok
      rcases htok with htok | htok
      · rcases (ht T2).2.1 with h1 | ⟨_, _, h3⟩
        · rw [h1] at htok
          exact h.boundStored T2 tok (Or.inl htok)
        · rw [h3] at htok
          exact absurd htok (by simp)
      · exact h.boundStored T2 tok (Or.inr htok)
    · intro e he; rw [c5] at he; rw [c10]; exact h.gridAllocated e he
    · intro e he; rw [c5] at he; rw [c10]; exact h.indexAllocated e he

theorem resolveEvaluate_invariant (s : State) (i : Nat) (Maps : List AttributeMapId)
    (h : TokenInvariant s) : TokenInvariant (resolveEvaluate s i Maps) := by
  unfold resolveEvaluate
  cases hjob : s.pendingEvaluate[i]? with
  | none => exact h
  | some job =>
    simp only
    obtain ⟨hc, ht⟩ := EvaluateContinuation_spec
      { s with pendingEvaluate := s.pendingEvaluate.eraseIdx i } job Maps
    simp only [State.control, Control.mk.injEq] at hc
    obtain ⟨c1, c2, c3, c4, c5, c6, c7, c8, c9, c10, c11⟩ := hc
    have hinv : ∀ tok, FInvalidationToken.IsInvalid
        (AVitruvioBatchActor.EvaluateContinuation
          { s with pendingEvaluate := s.pendingEvaluate.eraseIdx i } job Maps) tok =
        FInvalidationToken.IsInvalid s tok := by
      intro tok
      simp [FInvalidationToken.IsInvalid, c1]
    have hjmem : job ∈ s.pendingEvaluate := List.getElem?_mem hjob
    refine ⟨?_, ?_, ?_, ?_, ?_, ?_, ?_, ?_, ?_, ?_⟩
    · intro j hj hv
      rw [c3] at hj
      rw [hinv] at hv
      rw [(ht j.Tile).1]
      exact h.generate j hj hv
    · intro j hj hv
      rw [c4] at hj
      rw [hinv] at hv
      have hold := h.evaluate j (mem_of_mem_eraseIdx_job _ _ _ hj) hv
      rcases (ht j.Tile).2.1 with h1 | ⟨h1, h2, _⟩
      · rw [h1]; exact hold
      · have hjobtok := h.evaluate job hjmem (by simpa [FInvalidationToken.IsInvalid] using h1)
        have hne := token_ne_of_mem_eraseIdx _ h.nodupEvaluate i job j hjob hj
        rw [h2] at hjobtok
        simp only [getTile] at hold hjobtok
        rw [hold] at hjobtok
        exact absurd (Option.some.inj hjobtok) hne
    · rw [c3]; exact h.nodupGenerate
    · rw [c4]; exact nodup_map_eraseIdx _ _ h.nodupEvaluate
    · intro j hj; rw [c3] at hj; rw [c2]; exact h.boundGenerate j hj
    · intro j hj; rw [c4] at hj; rw [c2]
      exact h.boundEvaluate j (mem_of_mem_eraseIdx_job _ _ _ hj)
    · intro tok htok; rw [c1] at htok; rw [c2]; exact h.boundInvalid tok htok
    · intro T2 tok htok
      rw [c2]
      rw [(ht T2).1] at htok
      rcases htok with htok | htok
      · exact h.boundStored T2 tok (Or.inl htok)
      · rcases (ht T2).2.1 with h1 | ⟨_, _, h3⟩
        · rw [h1] at htok
          exact h.boundStored T2 tok (Or.inr htok)
        · rw [h3] at htok
          exact absurd htok (by simp)
    · intro e he; rw [c5] at he; rw [c10]; exact h.gridAllocated e he
    · intro e he; rw [c5] at he; rw [c10]; exact h.indexAllocated e he

/-! Section: steps and runs. -/

theorem StepFrame_of_control {s s2 : State} (hc : s2.control = s.control) : StepFrame s s2 := by
  obtain ⟨c1, c2, c3, c4, c5, c6, c7, c8, c9, c10, c11⟩ := (control_eq_iff _ _).mp hc
  exact ⟨fun tok h => by rw [c1]; exact h, c11, c8⟩

theorem RegisterVitruvioComponent_spec (s : State) (c : ComponentId) (b : Bool) :
    StepFrame s (AVitruvioBatchActor.RegisterVitruvioComponent s c b) ∧
    (TokenInvariant s → TokenInvariant (AVitruvioBatchActor.RegisterVitruvioComponent s c b)) := by
  unfold AVitruvioBatchActor.RegisterVitruvioComponent
  split
  · exact ⟨⟨fun _ h => h, rfl, rfl⟩, fun h => h⟩
  · obtain ⟨hc, ht, ha⟩ := Register_spec
      { s with VitruvioComponents := TSetAdd s.VitruvioComponents c } c b
    simp only [State.control, Control.mk.injEq] at hc
    obtain ⟨c1, c2, c3, c4, c5, c6, c7, c8, c9, c10, c11⟩ := hc
    refine ⟨⟨fun tok h => by rw [c1]; exact h, c11, c8⟩, ?_⟩
    intro h
    obtain ⟨a1, a2⟩ := ha h.gridAllocated h.indexAllocated
    exact TokenInvariant_of_same h ⟨c1, c2, c3, c4, ht⟩ a1 a2

theorem UnregisterVitruvioComponent_spec (s : State) (c : ComponentId) :
    StepFrame s (AVitruvioBatchActor.UnregisterVitruvioComponent s c) ∧
    (TokenInvariant s → TokenInvariant (AVitruvioBatchActor.UnregisterVitruvioComponent s c)) := by
  unfold AVitruvioBatchActor.UnregisterVitruvioComponent
  refine ⟨?_, ?_⟩
  · cases hreg : TMapFind s.Grid.TilesByComponent c with
    | none =>
      have hu := Unregister_unregistered
        { s with VitruvioComponents := TSetRemove s.VitruvioComponents c } c hreg
      rw [hu]
      exact ⟨fun _ h => h, rfl, rfl⟩
    | some T =>
      obtain ⟨hc, _⟩ := Unregister_registered
        { s with VitruvioComponents := TSetRemove s.VitruvioComponents c } c T hreg
      simp only [State.control, Control.mk.injEq] at hc
      obtain ⟨c1, c2, c3, c4, c5, c6, c7, c8, c9, c10, c11⟩ := hc
      exact ⟨fun tok h => by rw [c1]; exact List.mem_append_right _ h, c11, c8⟩
  · intro h
    apply Unregister_invariant
    exact TokenInvariant_transfer h rfl rfl rfl rfl rfl rfl
      (TileRel_of_tiles_eq SameTokens_refl rfl)

theorem UnregisterAllVitruvioComponents_spec (s : State) :
    StepFrame s (AVitruvioBatchActor.UnregisterAllVitruvioComponents s) ∧
    (TokenInvariant s → TokenInvariant (AVitruvioBatchActor.UnregisterAllVitruvioComponents s)) := by
  unfold AVitruvioBatchActor.UnregisterAllVitruvioComponents
  obtain ⟨hc, ht⟩ := Clear_spec s
  simp only [State.control, Control.mk.injEq] at hc
  obtain ⟨c1, c2, c3, c4, c5, c6, c7, c8, c9, c10, c11⟩ := hc
  refine ⟨⟨fun tok h => by simp only [c1]; exact h, c11, c8⟩, ?_⟩
  intro h
  refine TokenInvariant_of_same h ⟨c1, c2, c3, c4, ?_⟩ ?_ ?_
  · exact TileRel_trans SameTokens_trans ht (TileRel_of_tiles_eq SameTokens_refl rfl)
  · intro e he
    simp only [c5] at he
    exact absurd he (List.not_mem_nil _)
  · intro e he
    simp only [c5] at he
    exact absurd he (List.not_mem_nil _)

theorem GenerateAll_spec (s : State) (cb : Option CallbackId) :
    (∀ tok, tok ∈ s.invalidTokens → tok ∈ (AVitruvioBatchActor.GenerateAll s cb).invalidTokens) ∧
    generateAllBroadcasts (AVitruvioBatchActor.GenerateAll s cb) = generateAllBroadcasts s ∧
    (AVitruvioBatchActor.GenerateAll s cb).GenerateAllCallbackProxy = cb ∧
    (TokenInvariant s → TokenInvariant (AVitruvioBatchActor.GenerateAll s cb)) := by
  unfold AVitruvioBatchActor.GenerateAll
  obtain ⟨hc, ht⟩ := FGrid_MarkAllForGenerate_same { s with GenerateAllCallbackProxy := cb }
  obtain ⟨c1, c2, c3, c4, c5, c6, c7, c8, c9, c10, c11⟩ := (control_eq_iff _ _).mp hc
  refine ⟨fun tok h => by rw [c1]; exact h, c11, c8, ?_⟩
  intro h
  exact TokenInvariant_transfer h c1 c2 c3 c4 c5 c10
    (TileRel_trans SameTokens_trans (TileRel_of_tiles_eq SameTokens_refl rfl) ht)

theorem EvaluateAllAttributes_spec (s : State) (cb : Option CallbackId) :
    StepFrame s (AVitruvioBatchActor.EvaluateAllAttributes s cb) ∧
    (TokenInvariant s → TokenInvariant (AVitruvioBatchActor.EvaluateAllAttributes s cb)) := by
  unfold AVitruvioBatchActor.EvaluateAllAttributes
  obtain ⟨hc, ht⟩ := FGrid_MarkAllForAttributeEvaluation_same { s with EvaluateAllCallbackProxy := cb }
  obtain ⟨c1, c2, c3, c4, c5, c6, c7, c8, c9, c10, c11⟩ := (control_eq_iff _ _).mp hc
  refine ⟨⟨fun tok h => by rw [c1]; exact h, c11, c8⟩, ?_⟩
  intro h
  exact TokenInvariant_transfer h c1 c2 c3 c4 c5 c10
    (TileRel_trans SameTokens_trans (TileRel_of_tiles_eq SameTokens_refl rfl) ht)

theorem resolveGenerate_frame (s : State) (i : Nat) (Value : FGenerateResultDescription) :
    StepFrame s (resolveGenerate s i Value) := by
  unfold resolveGenerate
  cases hjob : s.pendingGenerate[i]? with
  | none => exact ⟨fun _ h => h, rfl, rfl⟩
  | some job =>
    simp only
    obtain ⟨hc, _⟩ := GenerateContinuation_spec
      { s with pendingGenerate := s.pendingGenerate.eraseIdx i } job Value
    simp only [State.control, Control.mk.injEq] at hc
    obtain ⟨c1, c2, c3, c4, c5, c6, c7, c8, c9, c10, c11⟩ := hc
    exact ⟨fun tok h => by rw [c1]; exact h, c11, c8⟩

theorem resolveEvaluate_frame (s : State) (i : Nat) (Maps : List AttributeMapId) :
    StepFrame s (resolveEvaluate s i Maps) := by
  unfold resolveEvaluate
  cases hjob : s.pendingEvaluate[i]? with
  | none => exact ⟨fun _ h => h, rfl, rfl⟩
  | some job =>
    simp only
    obtain ⟨hc, _⟩ := EvaluateContinuation_spec
      { s with pendingEvaluate := s.pendingEvaluate.eraseIdx i } job Maps
    simp only [State.control, Control.mk.injEq] at hc
    obtain ⟨c1, c2, c3, c4, c5, c6, c7, c8, c9, c10, c11⟩ := hc
    exact ⟨fun tok h => by rw [c1]; exact h, c11, c8⟩

theorem Tick_invariant (E : Externals) (s s2 : State)
    (ht : AVitruvioBatchActor.Tick E s = some s2) (h : TokenInvariant s) : TokenInvariant s2 := by
  unfold AVitruvioBatchActor.Tick at ht
  simp only [Option.bind_eq_some] at ht
  obtain ⟨m1, h1, h2⟩ := ht
  have i0 := ProcessTiles_invariant s h
  obtain ⟨e1, e2⟩ := ProcessAttributeEvaluationQueue_spec _ _ h1
  simp only [State.control, Control.mk.injEq] at e1
  obtain ⟨a1, a2, a3, a4, a5, a6, a7, a8, a9, a10, a11⟩ := e1
  have i1 : TokenInvariant m1 :=
    TokenInvariant_transfer i0 a1 a2 a3 a4 a5 a10 (TileRel_of_tiles_eq SameTokens_refl e2)
  obtain ⟨m, rfl, g1, g2, _, _⟩ := ProcessGenerateQueue_spec E _ _ h2
  simp only [State.control, Control.mk.injEq] at g1
  obtain ⟨b1, b2, b3, b4, b5, b6, b7, b8, b9, b10, b11⟩ := g1
  have i2 : TokenInvariant m := TokenInvariant_transfer i1 b1 b2 b3 b4 b5 b10 g2
  have hc := CheckAllGenerated_control m
  simp only [State.control, Control.mk.injEq] at hc
  obtain ⟨d1, d2, d3, d4, d5, d6, d7, d8, d9, d10, d11⟩ := hc
  exact TokenInvariant_transfer i2 d1 d2 d3 d4 d5 d10
    (TileRel_of_tiles_eq SameTokens_refl (CheckAllGenerated_tiles m))

theorem step_invariant (E : Externals) (s s2 : State) (op : Op)
    (hs : step E s op = some s2) (h : TokenInvariant s) : TokenInvariant s2 := by
  cases op with
  | spawn c =>
    simp only [step, Option.some.injEq] at hs; subst hs
    exact TokenInvariant_transfer h rfl rfl rfl rfl rfl rfl (TileRel_of_tiles_eq SameTokens_refl rfl)
  | edit c data =>
    simp only [step, Option.some.injEq] at hs; subst hs
    exact TokenInvariant_transfer h rfl rfl rfl rfl rfl rfl (TileRel_of_tiles_eq SameTokens_refl rfl)
  | register c b =>
    simp only [step, Option.some.injEq] at hs; subst hs
    exact (RegisterVitruvioComponent_spec s c b).2 h
  | unregister c =>
    simp only [step, Option.some.injEq] at hs; subst hs
    exact (UnregisterVitruvioComponent_spec s c).2 h
  | unregisterAll =>
    simp only [step, Option.some.injEq] at hs; subst hs
    exact (UnregisterAllVitruvioComponents_spec s).2 h
  | evaluateAttributes c cb =>
    simp only [step, Option.some.injEq] at hs; subst hs
    obtain ⟨hc, ht⟩ := FGrid_MarkForAttributeEvaluation_same s c cb
    exact same_invariant_of_control h hc ht
  | evaluateAllAttributes cb =>
    simp only [step, Option.some.injEq] at hs; subst hs
    exact (EvaluateAllAttributes_spec s cb).2 h
  | generate c cb =>
    simp only [step, Option.some.injEq] at hs; subst hs
    obtain ⟨hc, ht⟩ := FGrid_MarkForGenerate_same s c cb
    exact same_invariant_of_control h hc ht
  | generateAll cb =>
    simp only [step, Option.some.injEq] at hs; subst hs
    exact (GenerateAll_spec s cb).2.2.2 h
  | setMaterialReplacementAsset a =>
    simp only [step, Option.some.injEq] at hs; subst hs
    exact (GenerateAll_spec _ none).2.2.2
      (TokenInvariant_transfer h rfl rfl rfl rfl rfl rfl (TileRel_of_tiles_eq SameTokens_refl rfl))
  | setInstanceReplacementAsset a =>
    simp only [step, Option.some.injEq] at hs; subst hs
    exact (GenerateAll_spec _ none).2.2.2
      (TokenInvariant_transfer h rfl rfl rfl rfl rfl rfl (TileRel_of_tiles_eq SameTokens_refl rfl))
  | tick => exact Tick_invariant E s s2 hs h
  | resolveGenerate i Value =>
    simp only [step, Option.some.injEq] at hs; subst hs
    exact resolveGenerate_invariant s i Value h
  | resolveEvaluate i Maps =>
    simp only [step, Option.some.injEq] at hs; subst hs
    exact resolveEvaluate_invariant s i Maps h

theorem run_invariant (E : Externals) (ops : List Op) :
    ∀ (s s2 : State), run E s ops = some s2 → TokenInvariant s → TokenInvariant s2 := by
  induction ops with
  | nil =>
    intro s s2 h hi
    simp only [run, Option.some.injEq] at h
    subst h
    exact hi
  | cons op rest ih =>
    intro s s2 h hi
    simp only [run, Option.bind_eq_some] at h
    obtain ⟨s1, h1, h2⟩ := h
    exact ih s1 s2 h2 (step_invariant E s s1 op h1 hi)

theorem empty_invariant (GridDimension : ℚ × ℚ) : TokenInvariant (State.empty GridDimension) := by
  refine ⟨?_, ?_, ?_, ?_, ?_, ?_, ?_, ?_, ?_, ?_⟩ <;>
    simp [State.empty, getTile, tileAt]

theorem reachable_invariant (E : Externals) (s : State) (h : Reachable E s) : TokenInvariant s := by
  obtain ⟨G, ops, hrun⟩ := h
  exact run_invariant E ops _ s hrun (empty_invariant G)

/-! Section: invalid tokens and the generate-all callback along runs. -/

theorem StepFrame_refl (s : State) : StepFrame s s := ⟨fun _ h => h, rfl, rfl⟩

theorem CheckAllGenerated_cases (m : State) :
    (∀ tok, tok ∈ m.invalidTokens ↔ tok ∈ (AVitruvioBatchActor.CheckAllGenerated m).invalidTokens) ∧
    (m.GenerateAllCallbackProxy = none →
      (AVitruvioBatchActor.CheckAllGenerated m).GenerateAllCallbackProxy = none ∧
      generateAllBroadcasts (AVitruvioBatchActor.CheckAllGenerated m) = generateAllBroadcasts m) ∧
    (∀ cb, m.GenerateAllCallbackProxy = some cb →
      ((AVitruvioBatchActor.CheckAllGenerated m).GenerateAllCallbackProxy = some cb ∧
        generateAllBroadcasts (AVitruvioBatchActor.CheckAllGenerated m) = generateAllBroadcasts m) ∨
      ((AVitruvioBatchActor.CheckAllGenerated m).GenerateAllCallbackProxy = none ∧
        generateAllBroadcasts (AVitruvioBatchActor.CheckAllGenerated m) =
          generateAllBroadcasts m ++ [Event.GenerateAllCompleted cb])) := by
  have hc := CheckAllGenerated_control m
  simp only [State.control, Control.mk.injEq] at hc
  obtain ⟨d1, -⟩ := hc
  obtain ⟨hsome, hnone⟩ := CheckAllGenerated_spec m
  refine ⟨fun tok => by rw [d1], ?_, ?_⟩
  · intro h
    rw [hnone h]
    exact ⟨h, rfl⟩
  · intro cb h
    obtain ⟨h1, h2⟩ := hsome cb h
    cases hall : (gridTiles m).all (fun T => !(getTile m T).bIsGenerating) with
    | true =>
      right
      exact ⟨(h1 hall).2, (h1 hall).1⟩
    | false =>
      left
      rw [h2 hall]
      exact ⟨h, rfl⟩

theorem Tick_generateAll (E : Externals) (s s2 : State)
    (h : AVitruvioBatchActor.Tick E s = some s2) :
    (∀ tok, tok ∈ s.invalidTokens → tok ∈ s2.invalidTokens) ∧
    (s.GenerateAllCallbackProxy = none →
      s2.GenerateAllCallbackProxy = none ∧ generateAllBroadcasts s2 = generateAllBroadcasts s) ∧
    (∀ cb, s.GenerateAllCallbackProxy = some cb →
      (s2.GenerateAllCallbackProxy = some cb ∧ generateAllBroadcasts s2 = generateAllBroadcasts s) ∨
      (s2.GenerateAllCallbackProxy = none ∧
        generateAllBroadcasts s2 = generateAllBroadcasts s ++ [Event.GenerateAllCompleted cb])) := by
  obtain ⟨m, rfl, -, -, -, -, hcb, hb, hinv, -⟩ := Tick_spec E s s2 h
  obtain ⟨k1, k2, k3⟩ := CheckAllGenerated_cases m
  refine ⟨fun tok ht => (k1 tok).mp (hinv tok ht), ?_, ?_⟩
  · intro hn
    rw [← hb]
    exact k2 (hcb.trans hn)
  · intro cb hs
    rw [← hb]
    exact k3 cb (hcb.trans hs)

theorem step_effect (E : Externals) (s s2 : State) (op : Op) (hs : step E s op = some s2)
    (hop : op ≠ Op.tick) :
    (∀ tok, tok ∈ s.invalidTokens → tok ∈ s2.invalidTokens) ∧
    generateAllBroadcasts s2 = generateAllBroadcasts s ∧
    s2.GenerateAllCallbackProxy = callbackAfter s op := by
  have frame : ∀ {t : State}, StepFrame s t →
      (∀ tok, tok ∈ s.invalidTokens → tok ∈ t.invalidTokens) ∧
      generateAllBroadcasts t = generateAllBroadcasts s ∧
      t.GenerateAllCallbackProxy = s.GenerateAllCallbackProxy :=
    fun f => ⟨f.invalid, f.broadcasts, f.callback⟩
  cases op with
  | spawn c =>
    simp only [step, Option.some.injEq] at hs; subst hs
    exact ⟨fun _ h => h, rfl, rfl⟩
  | edit c data =>
    simp only [step, Option.some.injEq] at hs; subst hs
    exact ⟨fun _ h => h, rfl, rfl⟩
  | register c b =>
    simp only [step, Option.some.injEq] at hs; subst hs
    exact frame (RegisterVitruvioComponent_spec s c b).1
  | unregister c =>
    simp only [step, Option.some.injEq] at hs; subst hs
    exact frame (UnregisterVitruvioComponent_spec s c).1
  | unregisterAll =>
    simp only [step, Option.some.injEq] at hs; subst hs
    exact frame (UnregisterAllVitruvioComponents_spec s).1
  | evaluateAttributes c cb =>
    simp only [step, Option.some.injEq] at hs; subst hs
    exact frame (StepFrame_of_control (FGrid_MarkForAttributeEvaluation_same s c cb).1)
  | evaluateAllAttributes cb =>
    simp only [step, Option.some.injEq] at hs; subst hs
    exact frame (EvaluateAllAttributes_spec s cb).1
  | generate c cb =>
    simp only [step, Option.some.injEq] at hs; subst hs
    exact frame (StepFrame_of_control (FGrid_MarkForGenerate_same s c cb).1)
  | generateAll cb =>
    simp only [step, Option.some.injEq] at hs; subst hs
    obtain ⟨g1, g2, g3, -⟩ := GenerateAll_spec s cb
    exact ⟨g1, g2, g3⟩
  | setMaterialReplacementAsset a =>
    simp only [step, Option.some.injEq] at hs; subst hs
    obtain ⟨g1, g2, g3, -⟩ := GenerateAll_spec { s with MaterialReplacement := a } none
    exact ⟨g1, g2, g3⟩
  | setInstanceReplacementAsset a =>
    simp only [step, Option.some.injEq] at hs; subst hs
    obtain ⟨g1, g2, g3, -⟩ := GenerateAll_spec { s with InstanceReplacement := a } none
    exact ⟨g1, g2, g3⟩
  | tick => exact absurd rfl hop
  | resolveGenerate i Value =>
    simp only [step, Option.some.injEq] at hs; subst hs
    exact frame (resolveGenerate_frame s i Value)
  | resolveEvaluate i Maps =>
    simp only [step, Option.some.injEq] at hs; subst hs
    exact frame (resolveEvaluate_frame s i Maps)

theorem step_invalid_mono (E : Externals) (s s2 : State) (op : Op)
    (hs : step E s op = some s2) : ∀ tok, tok ∈ s.invalidTokens → tok ∈ s2.invalidTokens := by
  by_cases hop : op = Op.tick
  · subst hop
    exact (Tick_generateAll E s s2 hs).1
  · exact (step_effect E s s2 op hs hop).1

theorem run_invalid_mono (E : Externals) (ops : List Op) :
    ∀ (s s2 : State), run E s ops = some s2 →
      ∀ tok, tok ∈ s.invalidTokens → tok ∈ s2.invalidTokens := by
  induction ops with
  | nil =>
    intro s s2 h tok ht
    simp only [run, Option.some.injEq] at h
    subst h
    exact ht
  | cons op rest ih =>
    intro s s2 h tok ht
    simp only [run, Option.bind_eq_some] at h
    obtain ⟨s1, h1, h2⟩ := h
    exact ih s1 s2 h2 tok (step_invalid_mono E s s1 op h1 tok ht)

theorem callbackAfter_cases (s : State) (op : Op) (hop : requestsGenerateAllCallback op = false) :
    callbackAfter s op = s.GenerateAllCallbackProxy ∨ callbackAfter s op = none := by
  cases op with
  | generateAll cb =>
    cases cb with
    | none => exact Or.inr rfl
    | some cb => simp [requestsGenerateAllCallback] at hop
  | setMaterialReplacementAsset a => exact Or.inr rfl
  | setInstanceReplacementAsset a => exact Or.inr rfl
  | _ => exact Or.inl rfl

theorem step_generateAll (E : Externals) (s s2 : State) (op : Op)
    (hs : step E s op = some s2) (hop : requestsGenerateAllCallback op = false) :
    (s.GenerateAllCallbackProxy = none →
      s2.GenerateAllCallbackProxy = none ∧ generateAllBroadcasts s2 = generateAllBroadcasts s) ∧
    (∀ cb, s.GenerateAllCallbackProxy = some cb →
      ((s2.GenerateAllCallbackProxy = some cb ∨ s2.GenerateAllCallbackProxy = none) ∧
        generateAllBroadcasts s2 = generateAllBroadcasts s) ∨
      (s2.GenerateAllCallbackProxy = none ∧
        generateAllBroadcasts s2 = generateAllBroadcasts s ++ [Event.GenerateAllCompleted cb])) := by
  by_cases ht : op = Op.tick
  · subst ht
    obtain ⟨-, t2, t3⟩ := Tick_generateAll E s s2 hs
    refine ⟨t2, fun cb hcb => ?_⟩
    rcases t3 cb hcb with h | h
    · exact Or.inl ⟨Or.inl h.1, h.2⟩
    · exact Or.inr h
  · obtain ⟨-, e2, e3⟩ := step_effect E s s2 op hs ht
    rcases callbackAfter_cases s op hop with h | h
    · rw [h] at e3
      exact ⟨fun hn => ⟨e3.trans hn, e2⟩, fun cb hcb => Or.inl ⟨Or.inl (e3.trans hcb), e2⟩⟩
    · rw [h] at e3
      exact ⟨fun _ => ⟨e3, e2⟩, fun cb _ => Or.inl ⟨Or.inr e3, e2⟩⟩

theorem run_generateAll (E : Externals) (ops : List Op) :
    ∀ (s s2 : State), (∀ op ∈ ops, requestsGenerateAllCallback op = false) →
      run E s ops = some s2 →
      (s.GenerateAllCallbackProxy = none → generateAllBroadcasts s2 = generateAllBroadcasts s) ∧
      (∀ cb, s.GenerateAllCallbackProxy = some cb →
        generateAllBroadcasts s2 = generateAllBroadcasts s ∨
        generateAllBroadcasts s2 = generateAllBroadcasts s ++ [Event.GenerateAllCompleted cb]) := by
  induction ops with
  | nil =>
    intro s s2 _ h
    simp only [run, Option.some.injEq] at h
    subst h
    exact ⟨fun _ => rfl, fun _ _ => Or.inl rfl⟩
  | cons op rest ih =>
    intro s s2 hops h
    simp only [run, Option.bind_eq_some] at h
    obtain ⟨s1, h1, h2⟩ := h
    obtain ⟨i1, i2⟩ := ih s1 s2 (fun o ho => hops o (List.mem_cons_of_mem _ ho)) h2
    obtain ⟨g1, g2⟩ := step_generateAll E s s1 op h1 (hops op (List.mem_cons_self _ _))
    refine ⟨fun hn => ?_, fun cb hcb => ?_⟩
    · obtain ⟨a, b⟩ := g1 hn
      rw [i1 a, b]
    · rcases g2 cb hcb with ⟨a | a, b⟩ | ⟨a, b⟩
      · rw [← b]
        exact i2 cb a
      · left
        rw [i1 a, b]
      · right
        rw [i1 a, b]

/-! Section: superseded jobs. -/

theorem index_unique_of_token (l : List FPendingJob)
    (hn : (l.map (fun job => job.Token)).Nodup) (i j : Nat) (a b : FPendingJob)
    (ha : l[i]? = some a) (hb : l[j]? = some b) (ht : a.Token = b.Token) : i = j := by
  have hi : (l.map (fun job => job.Token))[i]? = some a.Token := by
    rw [List.getElem?_map, ha]; rfl
  have hj : (l.map (fun job => job.Token))[j]? = some a.Token := by
    rw [List.getElem?_map, hb, ht]; rfl
  have hne := List.nodup_iff_getElem?_ne_getElem?.mp hn
  have hjl : j < (l.map (fun job => job.Token)).length := by
    by_contra hc
    rw [List.getElem?_eq_none (Nat.le_of_not_lt hc)] at hj
    exact Option.noConfusion hj
  have hil : i < (l.map (fun job => job.Token)).length := by
    by_contra hc
    rw [List.getElem?_eq_none (Nat.le_of_not_lt hc)] at hi
    exact Option.noConfusion hi
  rcases Nat.lt_trichotomy i j with h | h | h
  · exact absurd (hi.trans hj.symm) (hne i j h hjl)
  · exact h
  · exact absurd (hj.trans hi.symm) (hne j i h hil)

theorem DispatchGenerate_supersedes (s : State) (h : TokenInvariant s) (job : FPendingJob)
    (hj : job ∈ s.pendingGenerate) (hv : hasValidComponent s job.Tile = true)
    (hT : job.Tile < s.tiles.length) :
    job.Token ∈ (AVitruvioBatchActor.DispatchGenerate s job.Tile).invalidTokens ∧
    (getTile (AVitruvioBatchActor.DispatchGenerate s job.Tile) job.Tile).GenerateToken =
      some s.numTokens ∧
    s.numTokens ∉ (AVitruvioBatchActor.DispatchGenerate s job.Tile).invalidTokens ∧
    (AVitruvioBatchActor.DispatchGenerate s job.Tile).pendingGenerate =
      s.pendingGenerate ++
        [{ Token := s.numTokens, Tile := job.Tile,
           InitialShapeVitruvioComponents := validComponents s job.Tile,
           InitialShapes := shapesOf s (validComponents s job.Tile) }] := by
  have hne : validComponents s job.Tile ≠ [] := by
    rw [hasValidComponent_eq] at hv
    intro hc
    rw [hc] at hv
    exact Bool.noConfusion hv
  have hc := DispatchGenerate_control s job.Tile
  rw [if_neg hne] at hc
  simp only [State.control, Control.mk.injEq] at hc
  obtain ⟨c1, c2, c3, -⟩ := hc
  refine ⟨?_, ?_, ?_, c3⟩
  · rw [c1]
    by_cases hinv : job.Token ∈ s.invalidTokens
    · exact List.mem_append_right _ (List.mem_append_right _ hinv)
    · have hst := h.generate job hj ((isInvalid_false_iff s job.Token).mpr hinv)
      rw [hst]
      exact List.mem_append_left _ (List.mem_singleton.mpr rfl)
  · have := (DispatchGenerate_tokens s job.Tile job.Tile).2
    rw [this, if_pos ⟨hne, rfl, hT⟩]
  · rw [c1]
    intro hmem
    rcases List.mem_append.mp hmem with h1 | h1
    · have : (getTile s job.Tile).GenerateToken = some s.numTokens := by
        cases hg : (getTile s job.Tile).GenerateToken with
        | none => rw [hg] at h1; exact absurd h1 (List.not_mem_nil _)
        | some t =>
          rw [hg] at h1
          rw [List.mem_singleton.mp h1]
      exact absurd (h.boundStored job.Tile s.numTokens (Or.inl this)) (Nat.lt_irrefl _)
    · rcases List.mem_append.mp h1 with h2 | h2
      · have : (getTile s job.Tile).EvalAttributesToken = some s.numTokens := by
          cases hg : (getTile s job.Tile).EvalAttributesToken with
          | none => rw [hg] at h2; exact absurd h2 (List.not_mem_nil _)
          | some t =>
            rw [hg] at h2
            rw [List.mem_singleton.mp h2]
        exact absurd (h.boundStored job.Tile s.numTokens (Or.inr this)) (Nat.lt_irrefl _)
      · exact absurd (h.boundInvalid s.numTokens h2) (Nat.lt_irrefl _)

theorem foldl_DispatchGenerate_supersedes (job : FPendingJob) :
    ∀ (L : List TileId) (s : State), (∀ T ∈ L, T ∈ gridTiles s) → TokenInvariant s →
      job ∈ s.pendingGenerate → job.Tile ∈ L → hasValidComponent s job.Tile = true →
      job.Token ∈ (L.foldl AVitruvioBatchActor.DispatchGenerate s).invalidTokens := by
  intro L
  induction L with
  | nil =>
    intro s _ _ _ hm _
    exact absurd hm (List.not_mem_nil _)
  | cons T L ih =>
    intro s hL h hj hm hv
    have hTg : T ∈ gridTiles s := hL T (List.mem_cons_self _ _)
    have hTl : T < s.tiles.length := mem_gridTiles_lt s h T hTg
    have hf := DispatchGenerate_frame s T
    simp only [List.foldl_cons]
    by_cases hin : job.Tile ∈ L
    · refine ih _ ?_ (DispatchGenerate_invariant s T hTl h) ?_ hin ?_
      · intro T2 hT2
        have := hL T2 (List.mem_cons_of_mem _ hT2)
        unfold gridTiles at this ⊢
        rw [hf.Grid]
        exact this
      · rw [(DispatchGenerate_pending s T).1]
        exact List.mem_append_left _ hj
      · rw [hf.hasValidComponent_same]
        exact hv
    · have hTe : job.Tile = T := by
        rcases List.mem_cons.mp hm with h1 | h1
        · exact h1
        · exact absurd h1 hin
      subst hTe
      exact (foldl_DispatchGenerate_frame L _).invalid _
        (DispatchGenerate_supersedes s h job hj hv hTl).1

theorem ProcessTiles_supersedes (s : State) (h : TokenInvariant s) (job : FPendingJob)
    (hj : job ∈ s.pendingGenerate) (hm : job.Tile ∈ FGrid.GetTilesMarkedForGenerate s)
    (hv : hasValidComponent s job.Tile = true) :
    job.Token ∈ (AVitruvioBatchActor.ProcessTiles s).invalidTokens := by
  have h1 : job.Token ∈ (AVitruvioBatchActor.ProcessTilesGenerate s).invalidTokens := by
    unfold AVitruvioBatchActor.ProcessTilesGenerate
    refine foldl_DispatchGenerate_supersedes job _ s ?_ h hj hm hv
    intro T hT
    unfold FGrid.GetTilesMarkedForGenerate at hT
    exact (List.mem_filter.mp hT).1
  have h2 := (ProcessTilesEvaluate_frame (AVitruvioBatchActor.ProcessTilesGenerate s)).invalid _ h1
  have e1 := UnmarkAllForGenerate_control
    (AVitruvioBatchActor.ProcessTilesEvaluate (AVitruvioBatchActor.ProcessTilesGenerate s))
  have e2 := UnmarkAllForAttributeEvaluation_control (FGrid.UnmarkAllForGenerate
    (AVitruvioBatchActor.ProcessTilesEvaluate (AVitruvioBatchActor.ProcessTilesGenerate s)))
  simp only [State.control, Control.mk.injEq] at e1 e2
  unfold AVitruvioBatchActor.ProcessTiles
  simp only
  rw [e2.1, e1.1]
  exact h2

theorem Tick_invalid (E : Externals) (s s2 : State)
    (ht : AVitruvioBatchActor.Tick E s = some s2) :
    s2.invalidTokens = (AVitruvioBatchActor.ProcessTiles s).invalidTokens := by
  unfold AVitruvioBatchActor.Tick at ht
  simp only [Option.bind_eq_some] at ht
  obtain ⟨m1, h1, h2⟩ := ht
  obtain ⟨e1, -⟩ := ProcessAttributeEvaluationQueue_spec _ _ h1
  simp only [State.control, Control.mk.injEq] at e1
  obtain ⟨m, rfl, g1, -⟩ := ProcessGenerateQueue_spec E _ _ h2
  simp only [State.control, Control.mk.injEq] at g1
  have hc := CheckAllGenerated_control m
  simp only [State.control, Control.mk.injEq] at hc
  rw [hc.1, g1.1, e1.1]

theorem reachable_run (E : Externals) (s s2 : State) (ops : List Op) (h : Reachable E s)
    (hr : run E s ops = some s2) : Reachable E s2 := by
  obtain ⟨G, ops0, h0⟩ := h
  refine ⟨G, ops0 ++ ops, ?_⟩
  have key : ∀ (l : List Op) (a : State), run E a (l ++ ops) = (run E a l).bind (fun b => run E b ops) := by
    intro l
    induction l with
    | nil => intro a; simp [run]
    | cons op rest ih =>
      intro a
      simp only [List.cons_append, run]
      cases step E a op with
      | none => rfl
      | some a1 => simp [ih a1]
  rw [key, h0]
  exact hr

theorem continuation_dropped_after (E : Externals) (s s2 : State) (ops : List Op)
    (job : FPendingJob) (hinv : job.Token ∈ s.invalidTokens) (hr : run E s ops = some s2)
    (Value : FGenerateResultDescription) :
    FInvalidationToken.IsInvalid s2 job.Token = true ∧
    AVitruvioBatchActor.GenerateContinuation s2 job Value = s2 := by
  have h2 : FInvalidationToken.IsInvalid s2 job.Token = true :=
    (isInvalid_iff s2 job.Token).mpr (run_invalid_mono E ops s s2 hr job.Token hinv)
  refine ⟨h2, ?_⟩
  simp [AVitruvioBatchActor.GenerateContinuation, h2]

theorem run_eq_some_stateAfter (ops : List Op)
    (h : (run Externals.plain (State.empty (100, 100)) ops).isSome = true) :
    run Externals.plain (State.empty (100, 100)) ops = some (stateAfter ops) := by
  unfold stateAfter
  cases hr : run Externals.plain (State.empty (100, 100)) ops with
  | none => rw [hr] at h; exact Bool.noConfusion h
  | some a => rfl

theorem UnregisterVitruvioComponent_tile (s : State) (r : ComponentId) (T : TileId)
    (hreg : TMapFind s.Grid.TilesByComponent r = some T) :
    (AVitruvioBatchActor.UnregisterVitruvioComponent s r).invalidTokens =
      (getTile s T).GenerateToken.toList ++ s.invalidTokens ∧
    (∀ T2, getTile (AVitruvioBatchActor.UnregisterVitruvioComponent s r) T2 =
      if T = T2 ∧ T2 < s.tiles.length then
        UTile.MarkForGenerate (UTile.Remove { (getTile s T2) with GenerateToken := none } r) r none
      else getTile s T2) := by
  unfold AVitruvioBatchActor.UnregisterVitruvioComponent
  obtain ⟨hc, ht⟩ := Unregister_registered
    { s with VitruvioComponents := TSetRemove s.VitruvioComponents r } r T hreg
  simp only [State.control, Control.mk.injEq] at hc
  exact ⟨hc.1, ht⟩

/-! Section: tile coordinates and repeated registration. -/

theorem twoPow_eq (e : ℤ) : twoPow e = (2 : ℚ) ^ e := by
  unfold twoPow
  split
  · rename_i h
    rw [Nat.one_shiftLeft]
    push_cast
    conv_rhs => rw [← Int.toNat_of_nonneg h]
    rw [zpow_natCast]
  · rename_i h
    rw [Nat.one_shiftLeft]
    push_cast
    have h2 : e = -(((-e).toNat : ℕ) : ℤ) := by
      rw [Int.toNat_of_nonneg (by omega)]; omega
    conv_rhs => rw [h2]
    rw [zpow_neg, zpow_natCast, one_div]

theorem twoPow_pos (e : ℤ) : 0 < twoPow e := by
  rw [twoPow_eq]; positivity

theorem twoPow_add (a b : ℤ) : twoPow (a + b) = twoPow a * twoPow b := by
  rw [twoPow_eq, twoPow_eq, twoPow_eq, zpow_add₀ (by norm_num)]

theorem twoPow_le_twoPow {a b : ℤ} (h : a ≤ b) : twoPow a ≤ twoPow b := by
  rw [twoPow_eq, twoPow_eq]
  exact zpow_le_zpow_right₀ (by norm_num) h

theorem floorLog2_spec : ∀ (fuel n : Nat), 1 ≤ n → n ≤ fuel →
    2 ^ floorLog2 fuel n ≤ n ∧ n < 2 ^ (floorLog2 fuel n + 1)
  | 0, n, h1, hf => by omega
  | fuel + 1, n, h1, hf => by
    unfold floorLog2
    split
    · rename_i h2
      have ih := floorLog2_spec fuel (n / 2) (by omega) (by omega)
      constructor
      · rw [pow_succ]; omega
      · rw [pow_succ]; omega
    · simp; omega

theorem binade_spec (q : ℚ) (hq : q ≠ 0) :
    twoPow (binade q) ≤ |q| ∧ |q| < twoPow (binade q + 1) := by
  have hn : 1 ≤ q.num.natAbs := by
    have : q.num ≠ 0 := Rat.num_ne_zero.mpr hq
    omega
  have hd : 1 ≤ q.den := q.den_pos
  obtain ⟨n1, n2⟩ := floorLog2_spec q.num.natAbs q.num.natAbs hn le_rfl
  obtain ⟨d1, d2⟩ := floorLog2_spec q.den q.den hd le_rfl
  have habs : |q| = (q.num.natAbs : ℚ) / (q.den : ℚ) := by
    conv_lhs => rw [← Rat.num_div_den q]
    rw [abs_div, Nat.abs_cast, Nat.cast_natAbs, Int.cast_abs]
  have hdp : (0 : ℚ) < q.den := by exact_mod_cast hd
  unfold binade
  simp only
  generalize floorLog2 q.num.natAbs q.num.natAbs = a at n1 n2
  generalize floorLog2 q.den q.den = b at d1 d2
  have n1q : (2 : ℚ) ^ a ≤ q.num.natAbs := by exact_mod_cast n1
  have n2q : (q.num.natAbs : ℚ) < 2 ^ (a + 1) := by exact_mod_cast n2
  have d1q : (2 : ℚ) ^ b ≤ q.den := by exact_mod_cast d1
  have d2q : (q.den : ℚ) < 2 ^ (b + 1) := by exact_mod_cast d2
  have e1 : ∀ k : ℤ, (2 : ℚ) ^ ((a : ℤ) - b + k) = 2 ^ a / 2 ^ b * 2 ^ k := by
    intro k
    rw [zpow_add₀ (by norm_num), zpow_sub₀ (by norm_num), zpow_natCast, zpow_natCast]
  have hb : (0 : ℚ) < 2 ^ b := by positivity
  have ha : (0 : ℚ) < 2 ^ a := by positivity
  split
  · rename_i h
    refine ⟨h, ?_⟩
    rw [twoPow_eq, e1 1, habs, zpow_one, div_mul_eq_mul_div, div_lt_div_iff₀ hdp hb]
    calc (q.num.natAbs : ℚ) * 2 ^ b < 2 ^ (a + 1) * 2 ^ b := by
          apply mul_lt_mul_of_pos_right n2q hb
      _ ≤ 2 ^ (a + 1) * q.den := by
          apply mul_le_mul_of_nonneg_left d1q (by positivity)
      _ = 2 ^ a * 2 * q.den := by rw [pow_succ]
  · rename_i h
    have h2 := lt_of_not_le h
    constructor
    · have : (a : ℤ) - b - 1 = (a : ℤ) - b + (-1) := by ring
      rw [this, twoPow_eq, e1 (-1), habs, div_mul_eq_mul_div, div_le_div_iff₀ hb hdp]
      have h3 : (2 : ℚ) ^ (-1 : ℤ) = 1 / 2 := by norm_num
      rw [h3]
      have : (2 : ℚ) ^ a * (1 / 2) * q.den ≤ 2 ^ a * (1 / 2) * 2 ^ (b + 1) := by
        apply mul_le_mul_of_nonneg_left (le_of_lt d2q) (by positivity)
      calc (2 : ℚ) ^ a * (1 / 2) * q.den ≤ 2 ^ a * (1 / 2) * 2 ^ (b + 1) := this
        _ = 2 ^ a * 2 ^ b := by rw [pow_succ]; ring
        _ ≤ q.num.natAbs * 2 ^ b := by
          apply mul_le_mul_of_nonneg_right n1q (le_of_lt hb)
    · have : (a : ℤ) - b - 1 + 1 = (a : ℤ) - b := by ring
      rw [this]
      exact h2

theorem le_roundTiesToEven (r : ℚ) (m : ℤ) (h : (m : ℚ) ≤ r) : m ≤ roundTiesToEven r := by
  have := Int.le_floor.mpr h
  unfold roundTiesToEven
  split_ifs <;> omega

theorem roundTiesToEven_le (r : ℚ) (m : ℤ) (h : r ≤ (m : ℚ)) : roundTiesToEven r ≤ m := by
  unfold roundTiesToEven
  rcases eq_or_lt_of_le h with h1 | h1
  · subst h1
    simp
  · have := Int.floor_lt.mpr h1
    split_ifs <;> omega

theorem roundTiesToEven_near (r : ℚ) : |(roundTiesToEven r : ℚ) - r| ≤ 1 / 2 := by
  have h1 := Int.floor_le r
  have h2 := Int.lt_floor_add_one r
  unfold roundTiesToEven
  rw [abs_le]
  split_ifs with a b c
  · constructor <;> linarith
  · push_cast; constructor <;> linarith
  · constructor <;> linarith
  · push_cast; constructor <;> linarith

theorem ulp_pos (q : ℚ) : 0 < ulp q := twoPow_pos _

theorem le_round_of_grid (q : ℚ) (m : ℤ) (h : (m : ℚ) * ulp q ≤ q) :
    (m : ℚ) * ulp q ≤ (roundTiesToEven (q / ulp q) : ℚ) * ulp q := by
  have h1 : (m : ℚ) ≤ q / ulp q := (le_div_iff₀ (ulp_pos q)).mpr h
  have h2 := le_roundTiesToEven _ m h1
  exact mul_le_mul_of_nonneg_right (by exact_mod_cast h2) (le_of_lt (ulp_pos q))

theorem round_le_of_grid (q : ℚ) (m : ℤ) (h : q ≤ (m : ℚ) * ulp q) :
    (roundTiesToEven (q / ulp q) : ℚ) * ulp q ≤ (m : ℚ) * ulp q := by
  have h1 : q / ulp q ≤ (m : ℚ) := (div_le_iff₀ (ulp_pos q)).mpr h
  have h2 := roundTiesToEven_le _ m h1
  exact mul_le_mul_of_nonneg_right (by exact_mod_cast h2) (le_of_lt (ulp_pos q))

/-- An integer of magnitude at most `2^52` is a whole multiple of the unit in the last place of
every `q` whose binade is at most 52. -/
theorem int_on_grid (q : ℚ) (k : ℤ) (he : max (binade q) (-1022) ≤ 52) :
    ∃ m : ℤ, (m : ℚ) * ulp q = k := by
  refine ⟨k * 2 ^ (52 - max (binade q) (-1022)).toNat, ?_⟩
  unfold ulp
  rw [twoPow_eq]
  push_cast
  have h1 : ((2 : ℚ) ^ (52 - max (binade q) (-1022)).toNat) =
      (2 : ℚ) ^ (52 - max (binade q) (-1022)) := by
    rw [← zpow_natCast, Int.toNat_of_nonneg (by omega)]
  rw [h1, mul_assoc, ← zpow_add₀ (by norm_num)]
  have : 52 - max (binade q) (-1022) + (max (binade q) (-1022) - 52) = 0 := by ring
  rw [this, zpow_zero, mul_one]

theorem twoPow_binade_eq (q : ℚ) : twoPow (max (binade q) (-1022)) = 2 ^ 52 * ulp q := by
  unfold ulp
  rw [twoPow_eq, twoPow_eq]
  have : max (binade q) (-1022) = 52 + (max (binade q) (-1022) - 52) := by ring
  conv_lhs => rw [this]
  rw [zpow_add₀ (by norm_num)]
  norm_num

theorem le_round (q : ℚ) (hq : q ≠ 0) (k : ℤ) (hk1 : -2 ^ 52 ≤ k) (hk2 : k ≤ 2 ^ 52)
    (h : (k : ℚ) ≤ q) : (k : ℚ) ≤ (roundTiesToEven (q / ulp q) : ℚ) * ulp q := by
  by_cases he : max (binade q) (-1022) ≤ 52
  · obtain ⟨m, hm⟩ := int_on_grid q k he
    rw [← hm]
    apply le_round_of_grid
    rw [hm]; exact h
  · have he2 : 53 ≤ max (binade q) (-1022) := by omega
    have hb : max (binade q) (-1022) = binade q := by
      rcases max_cases (binade q) (-1022) with ⟨a, _⟩ | ⟨a, _⟩
      · exact a
      · omega
    have h1 := (binade_spec q hq).1
    rw [← hb] at h1
    have h53 : (2 : ℚ) ^ 53 ≤ twoPow (max (binade q) (-1022)) := by
      have := twoPow_le_twoPow he2
      rw [twoPow_eq 53] at this
      exact_mod_cast this
    have hkq : (k : ℚ) ≤ 2 ^ 52 := by exact_mod_cast hk2
    have hkq1 : -(2 : ℚ) ^ 52 ≤ k := by exact_mod_cast hk1
    rcases lt_or_gt_of_ne hq with hneg | hpos
    · rw [abs_of_neg hneg] at h1
      have : (2 : ℚ) ^ 52 < 2 ^ 53 := by norm_num
      linarith
    · rw [abs_of_pos hpos, twoPow_binade_eq] at h1
      have h2 := le_round_of_grid q (2 ^ 52) (by push_cast; exact h1)
      push_cast at h2
      rw [twoPow_binade_eq] at h53
      have : (2 : ℚ) ^ 52 < 2 ^ 53 := by norm_num
      linarith

theorem round_le (q : ℚ) (hq : q ≠ 0) (k : ℤ) (hk1 : -2 ^ 52 ≤ k) (hk2 : k ≤ 2 ^ 52)
    (h : q ≤ (k : ℚ)) : (roundTiesToEven (q / ulp q) : ℚ) * ulp q ≤ (k : ℚ) := by
  by_cases he : max (binade q) (-1022) ≤ 52
  · obtain ⟨m, hm⟩ := int_on_grid q k he
    rw [← hm]
    apply round_le_of_grid
    rw [hm]; exact h
  · have he2 : 53 ≤ max (binade q) (-1022) := by omega
    have hb : max (binade q) (-1022) = binade q := by
      rcases max_cases (binade q) (-1022) with ⟨a, _⟩ | ⟨a, _⟩
      · exact a
      · omega
    have h1 := (binade_spec q hq).1
    rw [← hb] at h1
    have h53 : (2 : ℚ) ^ 53 ≤ twoPow (max (binade q) (-1022)) := by
      have := twoPow_le_twoPow he2
      rw [twoPow_eq 53] at this
      exact_mod_cast this
    have hkq : (k : ℚ) ≤ 2 ^ 52 := by exact_mod_cast hk2
    have hkq1 : -(2 : ℚ) ^ 52 ≤ k := by exact_mod_cast hk1
    rcases lt_or_gt_of_ne hq with hneg | hpos
    · rw [abs_of_neg hneg, twoPow_binade_eq] at h1
      have h2 := round_le_of_grid q (-(2 ^ 52)) (by push_cast; linarith)
      push_cast at h2
      rw [twoPow_binade_eq] at h53
      have : (2 : ℚ) ^ 52 < 2 ^ 53 := by norm_num
      linarith
    · rw [abs_of_pos hpos] at h1
      have : (2 : ℚ) ^ 52 < 2 ^ 53 := by norm_num
      linarith

theorem twoPow_1024 : (2 : ℚ) ^ 52 < twoPow 1024 := by
  have h := twoPow_le_twoPow (show (53 : ℤ) ≤ 1024 by norm_num)
  rw [twoPow_eq 53] at h
  have h2 : (2 : ℚ) ^ 53 ≤ twoPow 1024 := by exact_mod_cast h
  have : (2 : ℚ) ^ 52 < 2 ^ 53 := by norm_num
  linarith

/-- Rounding to double keeps a quotient between the whole numbers that enclose it, as long as
these are of magnitude at most `2^52`; in particular the result is finite. -/
theorem roundDouble_between (q : ℚ) (lo hi : ℤ) (hlo : -2 ^ 52 ≤ lo) (hhi : hi ≤ 2 ^ 52)
    (h1 : (lo : ℚ) ≤ q) (h2 : q ≤ (hi : ℚ)) :
    ∃ v, roundDouble q = some v ∧ (lo : ℚ) ≤ v ∧ v ≤ (hi : ℚ) ∧ |v - q| ≤ ulp q / 2 := by
  have hlh : lo ≤ hi := by exact_mod_cast h1.trans h2
  by_cases hq : q = 0
  · subst hq
    refine ⟨0, by simp [roundDouble], h1, h2, ?_⟩
    simp only [sub_zero, abs_zero]
    exact le_of_lt (half_pos (ulp_pos 0))
  · have a1 := le_round q hq lo hlo (by omega) h1
    have a2 := round_le q hq hi (by omega) hhi h2
    have hhq : ((hi : ℤ) : ℚ) ≤ 2 ^ 52 := by exact_mod_cast hhi
    have hlq : -(2 : ℚ) ^ 52 ≤ ((lo : ℤ) : ℚ) := by exact_mod_cast hlo
    have hfin : |(roundTiesToEven (q / ulp q) : ℚ) * ulp q| < twoPow 1024 := by
      apply lt_of_le_of_lt _ twoPow_1024
      rw [abs_le]
      constructor <;> linarith
    refine ⟨(roundTiesToEven (q / ulp q) : ℚ) * ulp q, ?_, a1, a2, ?_⟩
    · unfold roundDouble
      rw [if_neg hq, if_pos hfin]
    · have h3 := roundTiesToEven_near (q / ulp q)
      have h4 : (roundTiesToEven (q / ulp q) : ℚ) * ulp q - q =
          ((roundTiesToEven (q / ulp q) : ℚ) - q / ulp q) * ulp q := by
        field_simp [ne_of_gt (ulp_pos q)]
      rw [h4, abs_mul, abs_of_pos (ulp_pos q)]
      calc |(roundTiesToEven (q / ulp q) : ℚ) - q / ulp q| * ulp q ≤ 1 / 2 * ulp q :=
            mul_le_mul_of_nonneg_right h3 (le_of_lt (ulp_pos q))
        _ = ulp q / 2 := by ring

/-- A negative quotient of magnitude at least the least positive double rounds to a negative
double. -/
theorem roundDouble_neg (q : ℚ) (v : ℚ) (h : q ≤ -(twoPow (-1074)))
    (hv : roundDouble q = some v) : v ≤ -(twoPow (-1074)) := by
  have hneg : q < 0 := lt_of_le_of_lt h (neg_lt_zero.mpr (twoPow_pos _))
  have hq : q ≠ 0 := ne_of_lt hneg
  unfold roundDouble at hv
  rw [if_neg hq] at hv
  split at hv
  · simp only [Option.some.injEq] at hv
    subst hv
    have hu : twoPow (-1074) ≤ ulp q := by
      unfold ulp
      apply twoPow_le_twoPow
      have := le_max_right (binade q) (-1022)
      omega
    have hqu : q ≤ ((-1 : ℤ) : ℚ) * ulp q := by
      push_cast
      rcases max_cases (binade q) (-1022) with ⟨a, _⟩ | ⟨a, _⟩
      · have h1 := (binade_spec q hq).1
        rw [abs_of_neg hneg] at h1
        have : ulp q ≤ twoPow (binade q) := by
          unfold ulp
          apply twoPow_le_twoPow
          rw [a]; omega
        linarith
      · have : ulp q = twoPow (-1074) := by
          unfold ulp
          rw [a]; norm_num
        rw [this]; linarith
    have := round_le_of_grid q (-1) hqu
    push_cast at this
    linarith
  · simp at hv

theorem staticCastInt_floor (v : ℚ) (h1 : -(2 : ℚ) ^ 31 ≤ v) (h2 : v < 2 ^ 31) :
    staticCastInt (FMath.Floor (some v)) = Int.floor v := by
  have e : (2 : ℚ) ^ 31 = 2147483648 := by norm_num
  rw [e] at h1 h2
  have a1 : (-2147483648 : ℤ) ≤ Int.floor v := Int.le_floor.mpr (by push_cast; exact h1)
  have a2 : Int.floor v < (2147483648 : ℤ) := Int.floor_lt.mpr (by push_cast; exact h2)
  simp only [FMath.Floor, Option.map_some', staticCastInt, Int.floor_intCast, Int.ceil_intCast,
    ite_self]
  rw [if_pos ⟨a1, a2⟩]

/-- On a tie the result is the even neighbour. -/
theorem roundTiesToEven_tie (r : ℚ) (h : r - Int.floor r = 1 / 2) :
    roundTiesToEven r % 2 = 0 := by
  unfold roundTiesToEven
  rw [h]
  simp only [lt_self_iff_false, if_false]
  split_ifs with c
  · exact c
  · omega

theorem roundTiesToEven_intCast (n : ℤ) : roundTiesToEven (n : ℚ) = n :=
  le_antisymm (roundTiesToEven_le _ n le_rfl) (le_roundTiesToEven _ n le_rfl)

/-- A double is returned as it is: a number `m * 2^e` with `|m| < 2^53`, `-1074 ≤ e` and of
magnitude below `2^1024` is a fixed point of `roundDouble`. -/
theorem roundDouble_of_double (m e : ℤ) (hm : |m| < 2 ^ 53) (he : -1074 ≤ e)
    (hfin : |(m : ℚ) * twoPow e| < twoPow 1024) :
    roundDouble ((m : ℚ) * twoPow e) = some ((m : ℚ) * twoPow e) := by
  by_cases hq : (m : ℚ) * twoPow e = 0
  · rw [hq]; simp [roundDouble]
  · have hb := (binade_spec _ hq).1
    have hlt : |(m : ℚ) * twoPow e| < twoPow (53 + e) := by
      rw [abs_mul, abs_of_pos (twoPow_pos e), twoPow_add]
      apply mul_lt_mul_of_pos_right _ (twoPow_pos e)
      rw [twoPow_eq]
      have : ((|m| : ℤ) : ℚ) < ((2 ^ 53 : ℤ) : ℚ) := by exact_mod_cast hm
      push_cast at this
      exact_mod_cast this
    have hbin : binade ((m : ℚ) * twoPow e) < 53 + e := by
      by_contra hcon
      have := twoPow_le_twoPow (not_lt.mp hcon)
      linarith
    have hE : max (binade ((m : ℚ) * twoPow e)) (-1022) - 52 ≤ e := by
      rcases max_cases (binade ((m : ℚ) * twoPow e)) (-1022) with ⟨a, _⟩ | ⟨a, _⟩ <;> omega
    obtain ⟨k, hk⟩ : ∃ k : ℕ, e = max (binade ((m : ℚ) * twoPow e)) (-1022) - 52 + k :=
      ⟨(e - (max (binade ((m : ℚ) * twoPow e)) (-1022) - 52)).toNat, by
        rw [Int.toNat_of_nonneg (by omega)]; ring⟩
    have hu : twoPow e = ((2 ^ k : ℤ) : ℚ) * ulp ((m : ℚ) * twoPow e) := by
      conv_lhs => rw [hk]
      rw [twoPow_add, mul_comm]
      congr 1
      rw [twoPow_eq, zpow_natCast]
      push_cast
      rfl
    have hdiv : (m : ℚ) * twoPow e / ulp ((m : ℚ) * twoPow e) = ((m * 2 ^ k : ℤ) : ℚ) := by
      rw [div_eq_iff (ne_of_gt (ulp_pos _))]
      conv_lhs => rw [hu]
      push_cast
      ring
    have hv : (roundTiesToEven ((m : ℚ) * twoPow e / ulp ((m : ℚ) * twoPow e)) : ℚ) *
        ulp ((m : ℚ) * twoPow e) = (m : ℚ) * twoPow e := by
      rw [hdiv, roundTiesToEven_intCast]
      conv_rhs => rw [hu]
      push_cast
      ring
    unfold roundDouble
    rw [if_neg hq, hv, if_pos hfin]

/-- One axis of `GetPosition`: for a positive dimension `d` and a position `x` in the cell
`[i*d, (i+1)*d)` with `i` and `i + 1` in the range of `int`, the quotient computed in double
precision is a finite `v` with `i ≤ v ≤ i + 1`, within half a unit in the last place of `x / d`,
and the coordinate is the floor of `v`. -/
theorem GetPosition_axis (x d : ℚ) (hd : 0 < d) (i : ℤ) (hi1 : -2 ^ 31 ≤ i) (hi2 : i + 1 < 2 ^ 31)
    (h1 : (i : ℚ) * d ≤ x) (h2 : x < ((i : ℚ) + 1) * d) :
    ∃ v, divDouble x d = some v ∧
      staticCastInt (FMath.Floor (divDouble x d)) = Int.floor v ∧
      (i : ℚ) ≤ v ∧ v ≤ (i : ℚ) + 1 ∧ |v - x / d| ≤ ulp (x / d) / 2 := by
  have q1 : ((i : ℤ) : ℚ) ≤ x / d := (le_div_iff₀ hd).mpr h1
  have q2 : x / d ≤ ((i + 1 : ℤ) : ℚ) := by
    push_cast
    exact le_of_lt ((div_lt_iff₀ hd).mpr h2)
  obtain ⟨v, hv, b1, b2, b3⟩ := roundDouble_between (x / d) i (i + 1) (by omega) (by omega) q1 q2
  have hdiv : divDouble x d = some v := by
    unfold divDouble
    rw [if_neg (ne_of_gt hd), hv]
  push_cast at b2
  have hi1q : -(2 : ℚ) ^ 31 ≤ (i : ℚ) := by exact_mod_cast hi1
  have hi2q : (i : ℚ) + 1 < 2 ^ 31 := by exact_mod_cast hi2
  refine ⟨v, hdiv, ?_, b1, b2, b3⟩
  rw [hdiv]
  exact staticCastInt_floor v (by linarith) (by linarith)

/-- The floor of a number between `i` and `i + 1` is `i` or `i + 1`, and it is `i` exactly when
the number is below `i + 1`. -/
theorem floor_between (v : ℚ) (i : ℤ) (h1 : (i : ℚ) ≤ v) (h2 : v ≤ (i : ℚ) + 1) :
    (Int.floor v = i ∨ Int.floor v = i + 1) ∧ (Int.floor v = i ↔ v < (i : ℚ) + 1) ∧
    (Int.floor v = i + 1 ↔ v = (i : ℚ) + 1) := by
  have a1 : i ≤ Int.floor v := Int.le_floor.mpr h1
  have a2 : Int.floor v ≤ i + 1 := by
    have := Int.floor_le v
    have h3 : ((Int.floor v : ℤ) : ℚ) ≤ ((i + 1 : ℤ) : ℚ) := by push_cast; linarith
    exact_mod_cast h3
  have a3 : Int.floor v = i ↔ v < (i : ℚ) + 1 := by
    rw [Int.floor_eq_iff]
    exact ⟨fun h => h.2, fun h => ⟨h1, h⟩⟩
  have a4 : Int.floor v = i + 1 ↔ v = (i : ℚ) + 1 := by
    constructor
    · intro h
      have := Int.floor_le v
      rw [h] at this
      push_cast at this
      linarith
    · intro h
      rw [h]
      have : ((i : ℚ) + 1) = ((i + 1 : ℤ) : ℚ) := by push_cast; rfl
      rw [this, Int.floor_intCast]
  refine ⟨?_, a3, a4⟩
  omega

theorem modifyAt_of_length_le {α : Type} (f : α → α) :
    ∀ (i : Nat) (l : List α), l.length ≤ i → modifyAt f i l = l
  | _, [], _ => by simp [modifyAt]
  | 0, x :: xs, h => by simp at h
  | n + 1, x :: xs, h => by
    simp only [modifyAt, List.cons.injEq, true_and]
    exact modifyAt_of_length_le f n xs (by simpa using h)

theorem modifyTile_of_length_le (s : State) (T : TileId) (f : UTile → UTile)
    (h : s.tiles.length ≤ T) : modifyTile s T f = s := by
  unfold modifyTile
  rw [modifyAt_of_length_le f T s.tiles h]

theorem TMapFind_TMapReplace_self {κ ν : Type} [DecidableEq κ] (m : List (κ × ν)) (k : κ)
    (v w : ν) (h : TMapFind m k = some w) : TMapFind (TMapReplace m k v) k = some v := by
  induction m with
  | nil => simp [TMapFind] at h
  | cons e rest ih =>
    obtain ⟨k1, v1⟩ := e
    by_cases hk : k1 = k
    · simp [TMapReplace, TMapFind, hk]
    · simp only [TMapFind, hk, if_false] at h
      simp [TMapReplace, TMapFind, hk, ih h]

theorem TMapFind_TMapAdd_self {κ ν : Type} [DecidableEq κ] (m : List (κ × ν)) (k : κ) (v : ν) :
    TMapFind (TMapAdd m k v) k = some v := by
  unfold TMapAdd
  cases h : TMapFind m k with
  | some w => exact TMapFind_TMapReplace_self m k v w h
  | none =>
    simp only
    induction m with
    | nil => simp [TMapFind]
    | cons e rest ih =>
      obtain ⟨k1, v1⟩ := e
      by_cases hk : k1 = k
      · simp [TMapFind, hk] at h
      · simp only [TMapFind, hk, if_false] at h
        simp [TMapFind, hk, ih h]

theorem TMapReplace_same {κ ν : Type} [DecidableEq κ] (m : List (κ × ν)) (k : κ) (v : ν)
    (h : TMapFind m k = some v) : TMapReplace m k v = m := by
  induction m with
  | nil => rfl
  | cons e rest ih =>
    obtain ⟨k1, v1⟩ := e
    by_cases hk : k1 = k
    · simp only [TMapFind, hk, if_true, Option.some.injEq] at h
      simp [TMapReplace, hk, h]
    · simp only [TMapFind, hk, if_false] at h
      simp [TMapReplace, hk, ih h]

theorem TMapAdd_idem {κ ν : Type} [DecidableEq κ] (m : List (κ × ν)) (k : κ) (v : ν) :
    TMapAdd (TMapAdd m k v) k v = TMapAdd m k v := by
  have h := TMapFind_TMapAdd_self m k v
  have hr : TMapAdd (TMapAdd m k v) k v = TMapReplace (TMapAdd m k v) k v := by
    generalize TMapAdd m k v = m2 at h ⊢
    unfold TMapAdd
    rw [h]
  rw [hr]
  exact TMapReplace_same _ k v h

theorem Register_of_contains (s : State) (r : ComponentId) (b : Bool) (T : TileId)
    (hfind : TMapFind s.Grid.Tiles (AVitruvioBatchActor.GetPosition s r) = some T)
    (hc : (getTile s T).Contains r = true) : FGrid.Register s r b = s := by
  unfold FGrid.Register FGrid.FindOrAddTile
  simp [hfind, hc]

theorem Register_of_not_contains (s : State) (r : ComponentId) (b : Bool) (T : TileId)
    (hfind : TMapFind s.Grid.Tiles (AVitruvioBatchActor.GetPosition s r) = some T)
    (hc : (getTile s T).Contains r = false) :
    FGrid.Register s r b =
      { (if b then modifyTile (modifyTile s T (fun t => t.Add r)) T
            (fun t => t.MarkForGenerate r none)
          else modifyTile s T (fun t => t.Add r)) with
        Grid := { s.Grid with TilesByComponent := TMapAdd s.Grid.TilesByComponent r T } } := by
  unfold FGrid.Register FGrid.FindOrAddTile
  cases b <;> simp [hfind, hc, modifyTile]

theorem GetPosition_congr (s s2 : State) (r : ComponentId) (hc : s2.components = s.components)
    (hg : s2.GridDimension = s.GridDimension) :
    AVitruvioBatchActor.GetPosition s2 r = AVitruvioBatchActor.GetPosition s r := by
  simp [AVitruvioBatchActor.GetPosition, getComponent, hc, hg]

theorem FindOrAddTile_find (s : State) (P : FIntPoint) :
    TMapFind (FGrid.FindOrAddTile s P).1.Grid.Tiles P = some (FGrid.FindOrAddTile s P).2 ∧
    (FGrid.FindOrAddTile s P).1.components = s.components ∧
    (FGrid.FindOrAddTile s P).1.GridDimension = s.GridDimension := by
  unfold FGrid.FindOrAddTile
  cases h : TMapFind s.Grid.Tiles P with
  | some T => exact ⟨h, rfl, rfl⟩
  | none => exact ⟨TMapFind_TMapAdd_self _ _ _, rfl, rfl⟩

theorem FindOrAddTile_of_find (s : State) (P : FIntPoint) (T : TileId)
    (h : TMapFind s.Grid.Tiles P = some T) : FGrid.FindOrAddTile s P = (s, T) := by
  unfold FGrid.FindOrAddTile
  rw [h]

theorem Register_FindOrAddTile (s : State) (r : ComponentId) (b : Bool) :
    FGrid.Register s r b =
      FGrid.Register (FGrid.FindOrAddTile s (AVitruvioBatchActor.GetPosition s r)).1 r b := by
  obtain ⟨h1, h2, h3⟩ := FindOrAddTile_find s (AVitruvioBatchActor.GetPosition s r)
  have hp := GetPosition_congr s _ r h2 h3
  conv_rhs => unfold FGrid.Register
  conv_lhs => unfold FGrid.Register
  simp only [hp]
  have : FGrid.FindOrAddTile (FGrid.FindOrAddTile s (AVitruvioBatchActor.GetPosition s r)).1
      (AVitruvioBatchActor.GetPosition s r) =
      FGrid.FindOrAddTile s (AVitruvioBatchActor.GetPosition s r) :=
    FindOrAddTile_of_find _ _ _ h1
  rw [this]

theorem Register_idem_found (s : State) (r : ComponentId) (b b2 : Bool) (T : TileId)
    (hfind : TMapFind s.Grid.Tiles (AVitruvioBatchActor.GetPosition s r) = some T) :
    FGrid.Register (FGrid.Register s r b) r b2 = FGrid.Register s r b := by
  cases hc : (getTile s T).Contains r with
  | true =>
    rw [Register_of_contains s r b T hfind hc]
    exact Register_of_contains s r b2 T hfind hc
  | false =>
    by_cases hT : T < s.tiles.length
    · have hs := Register_of_not_contains s r b T hfind hc
      have hcomp : (FGrid.Register s r b).components = s.components := by
        rw [hs]; cases b <;> rfl
      have hgd : (FGrid.Register s r b).GridDimension = s.GridDimension := by
        rw [hs]; cases b <;> rfl
      have htiles : (FGrid.Register s r b).Grid.Tiles = s.Grid.Tiles := by
        rw [hs]
      have hmem : (getTile (FGrid.Register s r b) T).Contains r = true := by
        rw [hs]
        cases b
        · simp [getTile, modifyTile, tileAt_modifyAt, hT, UTile.Contains, UTile.Add,
            TSetContains, TSetAdd]
          split <;> simp_all
        · simp [getTile, modifyTile, tileAt_modifyAt, hT, length_modifyAt, UTile.Contains,
            UTile.Add, TSetContains, TSetAdd, UTile.MarkForGenerate]
          split <;> split <;> simp_all [UTile.UnmarkForAttributeEvaluation]
      apply Register_of_contains _ r b2 T _ hmem
      rw [GetPosition_congr s _ r hcomp hgd, htiles]
      exact hfind
    · have hle : s.tiles.length ≤ T := Nat.le_of_not_lt hT
      have hs : FGrid.Register s r b =
          { s with Grid := { s.Grid with
              TilesByComponent := TMapAdd s.Grid.TilesByComponent r T } } := by
        rw [Register_of_not_contains s r b T hfind hc]
        cases b
        · simp only [Bool.false_eq_true, if_false]
          rw [modifyTile_of_length_le s T _ hle]
        · simp only [if_true]
          rw [modifyTile_of_length_le s T _ hle, modifyTile_of_length_le s T _ hle]
      rw [hs]
      obtain ⟨s2, hs2⟩ : ∃ s2 : State, s2 = { s with Grid := { s.Grid with
          TilesByComponent := TMapAdd s.Grid.TilesByComponent r T } } := ⟨_, rfl⟩
      rw [← hs2]
      have e1 : s2.tiles = s.tiles := by rw [hs2]
      have e2 : s2.Grid.Tiles = s.Grid.Tiles := by rw [hs2]
      have e3 : s2.components = s.components := by rw [hs2]
      have e4 : s2.GridDimension = s.GridDimension := by rw [hs2]
      have hfind2 : TMapFind s2.Grid.Tiles (AVitruvioBatchActor.GetPosition s2 r) = some T := by
        rw [GetPosition_congr s s2 r e3 e4, e2]
        exact hfind
      have hc2 : (getTile s2 T).Contains r = false := by
        simp only [getTile, e1]
        exact hc
      have hle2 : s2.tiles.length ≤ T := by rw [e1]; exact hle
      rw [Register_of_not_contains s2 r b2 T hfind2 hc2]
      have key : ({ s2 with Grid := { s2.Grid with
          TilesByComponent := TMapAdd s2.Grid.TilesByComponent r T } } : State) = s2 := by
        rw [hs2]
        simp [TMapAdd_idem]
      cases b2
      · simp only [Bool.false_eq_true, if_false]
        rw [modifyTile_of_length_le s2 T _ hle2]
        exact key
      · simp only [if_true]
        rw [modifyTile_of_length_le s2 T _ hle2, modifyTile_of_length_le s2 T _ hle2]
        exact key

theorem Register_idem (s : State) (r : ComponentId) (b b2 : Bool) :
    FGrid.Register (FGrid.Register s r b) r b2 = FGrid.Register s r b := by
  obtain ⟨h1, h2, h3⟩ := FindOrAddTile_find s (AVitruvioBatchActor.GetPosition s r)
  rw [Register_FindOrAddTile s r b]
  apply Register_idem_found _ r b b2 (FGrid.FindOrAddTile s (AVitruvioBatchActor.GetPosition s r)).2
  rw [GetPosition_congr s _ r h2 h3]
  exact h1

theorem Register_VitruvioComponents (s : State) (r : ComponentId) (b : Bool) :
    (FGrid.Register s r b).VitruvioComponents = s.VitruvioComponents := by
  obtain ⟨h1, h2, h3⟩ := FindOrAddTile_find s (AVitruvioBatchActor.GetPosition s r)
  have hv : (FGrid.FindOrAddTile s (AVitruvioBatchActor.GetPosition s r)).1.VitruvioComponents =
      s.VitruvioComponents := by
    unfold FGrid.FindOrAddTile
    split <;> rfl
  rw [Register_FindOrAddTile s r b, ← hv]
  have hf : TMapFind (FGrid.FindOrAddTile s (AVitruvioBatchActor.GetPosition s r)).1.Grid.Tiles
      (AVitruvioBatchActor.GetPosition
        (FGrid.FindOrAddTile s (AVitruvioBatchActor.GetPosition s r)).1 r) =
      some (FGrid.FindOrAddTile s (AVitruvioBatchActor.GetPosition s r)).2 := by
    rw [GetPosition_congr s _ r h2 h3]
    exact h1
  cases hc : (getTile (FGrid.FindOrAddTile s (AVitruvioBatchActor.GetPosition s r)).1
      (FGrid.FindOrAddTile s (AVitruvioBatchActor.GetPosition s r)).2).Contains r with
  | true => rw [Register_of_contains _ r b _ hf hc]
  | false =>
    rw [Register_of_not_contains _ r b _ hf hc]
    cases b <;> rfl

/-! Section: registration into an empty grid. -/

theorem TMapFind_eq_none_iff {κ ν : Type} [DecidableEq κ] (m : List (κ × ν)) (k : κ) :
    TMapFind m k = none ↔ k ∉ m.map Prod.fst := by
  induction m with
  | nil => simp [TMapFind]
  | cons e rest ih =>
    obtain ⟨k1, v1⟩ := e
    by_cases hk : k1 = k
    · simp [TMapFind, hk]
    · have hk2 : ¬ k = k1 := fun h => hk h.symm
      simp [TMapFind, hk, hk2, ih]

theorem TMapAdd_of_none {κ ν : Type} [DecidableEq κ] (m : List (κ × ν)) (k : κ) (v : ν)
    (h : TMapFind m k = none) : TMapAdd m k v = m ++ [(k, v)] := by
  unfold TMapAdd
  rw [h]

theorem TMapFind_TMapReplace_ne {κ ν : Type} [DecidableEq κ] (m : List (κ × ν)) (k k2 : κ)
    (v : ν) (h : k2 ≠ k) : TMapFind (TMapReplace m k v) k2 = TMapFind m k2 := by
  induction m with
  | nil => rfl
  | cons e rest ih =>
    obtain ⟨k1, v1⟩ := e
    by_cases hk : k1 = k
    · have : ¬ k1 = k2 := fun h2 => h (h2.symm.trans hk)
      have h3 : ¬ k = k2 := fun h2 => h h2.symm
      simp [TMapReplace, TMapFind, hk, h3]
    · by_cases hk2 : k1 = k2
      · subst hk2
        simp [TMapReplace, TMapFind, hk]
      · simp [TMapReplace, TMapFind, hk, hk2, ih]

theorem TMapFind_append_ne {κ ν : Type} [DecidableEq κ] (m : List (κ × ν)) (k k2 : κ)
    (v : ν) (h : k2 ≠ k) : TMapFind (m ++ [(k, v)]) k2 = TMapFind m k2 := by
  induction m with
  | nil =>
    have h3 : ¬ k = k2 := fun h2 => h h2.symm
    simp [TMapFind, h3]
  | cons e rest ih =>
    obtain ⟨k1, v1⟩ := e
    by_cases hk2 : k1 = k2
    · simp [TMapFind, hk2]
    · simp [TMapFind, hk2, ih]

theorem TMapFind_TMapAdd_ne {κ ν : Type} [DecidableEq κ] (m : List (κ × ν)) (k k2 : κ)
    (v : ν) (h : k2 ≠ k) : TMapFind (TMapAdd m k v) k2 = TMapFind m k2 := by
  unfold TMapAdd
  cases TMapFind m k with
  | some w => exact TMapFind_TMapReplace_ne m k k2 v h
  | none => exact TMapFind_append_ne m k k2 v h

theorem default_tile_fields :
    (default : UTile).VitruvioComponents = [] ∧ (default : UTile).bMarkedForGenerate = false := by
  exact ⟨rfl, rfl⟩

theorem filter_coordinate_nil (s0 s : State) (done : List (ComponentId × Bool)) (P : FIntPoint)
    (hcov : ∀ d ∈ done, AVitruvioBatchActor.GetPosition s0 d.1 ∈ s.Grid.Tiles.map Prod.fst)
    (hP : P ∉ s.Grid.Tiles.map Prod.fst) :
    done.filter (fun d => decide (AVitruvioBatchActor.GetPosition s0 d.1 = P)) = [] ∧
    done.any (fun d => decide (AVitruvioBatchActor.GetPosition s0 d.1 = P) && d.2) = false := by
  have hne : ∀ d ∈ done, AVitruvioBatchActor.GetPosition s0 d.1 ≠ P := by
    intro d hd heq
    exact hP (heq ▸ hcov d hd)
  constructor
  · rw [List.filter_eq_nil_iff]
    intro d hd
    simp [hne d hd]
  · rw [List.any_eq_false]
    intro d hd
    simp [hne d hd]

theorem FindOrAddTile_registered (s0 s : State) (done : List (ComponentId × Bool))
    (P : FIntPoint) (h : Registered s0 s done) :
    Registered s0 (FGrid.FindOrAddTile s P).1 done := by
  unfold FGrid.FindOrAddTile
  cases hfind : TMapFind s.Grid.Tiles P with
  | some T => exact h
  | none =>
    have hP : P ∉ s.Grid.Tiles.map Prod.fst := (TMapFind_eq_none_iff _ _).mp hfind
    have hL : s.tiles.length ∉ gridTiles s := by
      intro hm
      unfold gridTiles GenerateValueArray at hm
      obtain ⟨e, he, heq⟩ := List.mem_map.mp hm
      have hlt := h.allocated e he
      rw [heq] at hlt
      exact Nat.lt_irrefl _ hlt
    obtain ⟨f1, f2⟩ := filter_coordinate_nil s0 s done P h.covered hP
    simp only [TMapAdd_of_none _ _ _ hfind]
    refine ⟨h.components, h.GridDimension, ?_, ?_, ?_, ?_, ?_, ?_⟩
    · simp only [List.map_append, List.map_cons, List.map_nil]
      exact List.Nodup.append h.keys (List.nodup_singleton _)
        (fun a ha hb => hP (by rw [List.mem_singleton.mp hb] at ha; exact ha))
    · simp only [gridTiles, GenerateValueArray, List.map_append, List.map_cons, List.map_nil]
      exact List.Nodup.append h.values (List.nodup_singleton _)
        (fun a ha hb => hL (by rw [List.mem_singleton.mp hb] at ha; exact ha))
    · intro e he
      simp only [List.length_append, List.length_singleton]
      rcases List.mem_append.mp he with h1 | h1
      · exact Nat.lt_succ_of_lt (h.allocated e h1)
      · rw [List.mem_singleton.mp h1]
        exact Nat.lt_succ_self _
    · intro d hd
      simp only [List.map_append]
      exact List.mem_append_left _ (h.covered d hd)
    · intro e he
      rcases List.mem_append.mp he with h1 | h1
      · have hlt := h.allocated e h1
        have hne : ¬ e.2 = s.tiles.length := Nat.ne_of_lt hlt
        simp only [getTile, tileAt_append, hne, if_false]
        exact h.tile e h1
      · rw [List.mem_singleton.mp h1]
        have hnew : tileAt (s.tiles ++ [{ (default : UTile) with Location := P }])
            s.tiles.length = { (default : UTile) with Location := P } := by
          rw [tileAt_append, if_pos rfl]
        refine ⟨?_, ?_, ?_⟩
        · show (tileAt (s.tiles ++ [{ (default : UTile) with Location := P }])
            s.tiles.length).VitruvioComponents = _
          rw [hnew, f1]
          rfl
        · show (tileAt (s.tiles ++ [{ (default : UTile) with Location := P }])
            s.tiles.length).bMarkedForGenerate = _
          rw [hnew, f2]
          rfl
        · show (tileAt (s.tiles ++ [{ (default : UTile) with Location := P }])
            s.tiles.length).Location = _
          rw [hnew]
    · intro d hd
      obtain ⟨T, t1, t2⟩ := h.index d hd
      exact ⟨T, t1, List.mem_append_left _ t2⟩

theorem MarkForGenerate_members (t : UTile) (c : ComponentId) :
    (t.MarkForGenerate c none).VitruvioComponents = t.VitruvioComponents ∧
    (t.MarkForGenerate c none).bMarkedForGenerate = true ∧
    (t.MarkForGenerate c none).Location = t.Location := by
  unfold UTile.MarkForGenerate
  cases t.bMarkedForEvaluateAttributes <;> exact ⟨rfl, rfl, rfl⟩

theorem Register_found_tile (s : State) (c : ComponentId) (b : Bool) (T : TileId)
    (hfind : TMapFind s.Grid.Tiles (AVitruvioBatchActor.GetPosition s c) = some T)
    (hc : (getTile s T).Contains c = false) :
    (FGrid.Register s c b).Grid.Tiles = s.Grid.Tiles ∧
    (FGrid.Register s c b).Grid.TilesByComponent = TMapAdd s.Grid.TilesByComponent c T ∧
    (FGrid.Register s c b).components = s.components ∧
    (FGrid.Register s c b).GridDimension = s.GridDimension ∧
    (FGrid.Register s c b).tiles.length = s.tiles.length ∧
    (∀ T2, (getTile (FGrid.Register s c b) T2).VitruvioComponents =
        (if T = T2 ∧ T2 < s.tiles.length then (getTile s T2).VitruvioComponents ++ [c]
          else (getTile s T2).VitruvioComponents) ∧
      (getTile (FGrid.Register s c b) T2).bMarkedForGenerate =
        (if T = T2 ∧ T2 < s.tiles.length then ((getTile s T2).bMarkedForGenerate || b)
          else (getTile s T2).bMarkedForGenerate) ∧
      (getTile (FGrid.Register s c b) T2).Location = (getTile s T2).Location) := by
  rw [Register_of_not_contains s c b T hfind hc]
  have hnot : c ∉ (getTile s T).VitruvioComponents := by
    simpa [UTile.Contains, TSetContains] using hc
  cases b
  · refine ⟨rfl, rfl, rfl, rfl, by simp [modifyTile, length_modifyAt], ?_⟩
    intro T2
    simp only [Bool.false_eq_true, if_false, getTile, modifyTile, tileAt_modifyAt]
    by_cases h2 : T = T2 ∧ T2 < s.tiles.length
    · obtain ⟨rfl, h3⟩ := h2
      have hnot2 : c ∉ (tileAt s.tiles T).VitruvioComponents := hnot
      simp [h3, UTile.Add, TSetAdd, hnot2]
    · simp [h2]
  · refine ⟨rfl, rfl, rfl, rfl, by simp [modifyTile, length_modifyAt], ?_⟩
    intro T2
    simp only [if_true, getTile, modifyTile, tileAt_modifyAt, length_modifyAt]
    by_cases h2 : T = T2 ∧ T2 < s.tiles.length
    · obtain ⟨rfl, h3⟩ := h2
      have hnot2 : c ∉ (tileAt s.tiles T).VitruvioComponents := hnot
      have hm := MarkForGenerate_members ((tileAt s.tiles T).Add c) c
      simp only [h3, and_self, if_true]
      refine ⟨?_, ?_, ?_⟩
      · rw [hm.1]
        simp [UTile.Add, TSetAdd, hnot2]
      · rw [hm.2.1]
        simp
      · rw [hm.2.2]
        rfl
    · simp [h2]

theorem Register_found_registered (s0 s : State) (done : List (ComponentId × Bool))
    (c : ComponentId) (b : Bool) (T : TileId) (h : Registered s0 s done)
    (hnew : c ∉ done.map Prod.fst)
    (hfind : TMapFind s.Grid.Tiles (AVitruvioBatchActor.GetPosition s c) = some T) :
    Registered s0 (FGrid.Register s c b) (done ++ [(c, b)]) := by
  have hpos : AVitruvioBatchActor.GetPosition s c = AVitruvioBatchActor.GetPosition s0 c :=
    GetPosition_congr s0 s c h.components h.GridDimension
  have hmemT : (AVitruvioBatchActor.GetPosition s0 c, T) ∈ s.Grid.Tiles := by
    rw [← hpos]
    exact TMapFind_mem _ _ _ hfind
  have hTlt : T < s.tiles.length := h.allocated _ hmemT
  have hc : (getTile s T).Contains c = false := by
    have hm := (h.tile _ hmemT).1
    simp only [UTile.Contains, TSetContains, decide_eq_false_iff_not]
    intro hin
    rw [hm] at hin
    obtain ⟨d, hd, hdc⟩ := List.mem_map.mp hin
    exact hnew (List.mem_map.mpr ⟨d, (List.mem_filter.mp hd).1, hdc⟩)
  obtain ⟨r1, r2, r3, r4, r5, r6⟩ := Register_found_tile s c b T hfind hc
  refine ⟨r3.trans h.components, r4.trans h.GridDimension, ?_, ?_, ?_, ?_, ?_, ?_⟩
  · rw [r1]; exact h.keys
  · unfold gridTiles; rw [r1]; exact h.values
  · intro e he
    rw [r1] at he
    rw [r5]
    exact h.allocated e he
  · intro d hd
    rw [r1]
    rcases List.mem_append.mp hd with h1 | h1
    · exact h.covered d h1
    · rw [List.mem_singleton.mp h1]
      exact List.mem_map.mpr ⟨_, hmemT, rfl⟩
  · intro e he
    rw [r1] at he
    obtain ⟨t1, t2, t3⟩ := h.tile e he
    obtain ⟨m1, m2, m3⟩ := r6 e.2
    rw [m1, m2, m3, List.filter_append, List.map_append, List.any_append]
    by_cases hT2 : T = e.2
    · have he1 : e.1 = AVitruvioBatchActor.GetPosition s0 c := by
        have := List.inj_on_of_nodup_map h.values he hmemT hT2.symm
        rw [this]
      have hlt : e.2 < s.tiles.length := h.allocated e he
      rw [if_pos ⟨hT2, hlt⟩, if_pos ⟨hT2, hlt⟩, t1, t2]
      refine ⟨?_, ?_, t3⟩
      · simp [he1]
      · simp [he1]
    · have hne : ¬ AVitruvioBatchActor.GetPosition s0 c = e.1 := by
        intro heq
        have he2 : e = (AVitruvioBatchActor.GetPosition s0 c, T) :=
          List.inj_on_of_nodup_map h.keys he hmemT heq.symm
        exact hT2 (by rw [he2])
      rw [if_neg (fun hh => hT2 hh.1), if_neg (fun hh => hT2 hh.1), t1, t2]
      refine ⟨?_, ?_, t3⟩
      · simp [hne]
      · simp [hne]
  · intro d hd
    rw [r1, r2]
    rcases List.mem_append.mp hd with h1 | h1
    · obtain ⟨T2, i1, i2⟩ := h.index d h1
      have hne : d.1 ≠ c := by
        intro heq
        exact hnew (List.mem_map.mpr ⟨d, h1, heq⟩)
      exact ⟨T2, by rw [TMapFind_TMapAdd_ne _ _ _ _ hne]; exact i1, i2⟩
    · rw [List.mem_singleton.mp h1]
      exact ⟨T, TMapFind_TMapAdd_self _ _ _, hmemT⟩

theorem Register_registered (s0 s : State) (done : List (ComponentId × Bool))
    (c : ComponentId) (b : Bool) (h : Registered s0 s done) (hnew : c ∉ done.map Prod.fst) :
    Registered s0 (FGrid.Register s c b) (done ++ [(c, b)]) ∧
    (∀ e ∈ (FGrid.Register s c b).Grid.Tiles,
      e ∈ s.Grid.Tiles ∨ e.1 = AVitruvioBatchActor.GetPosition s0 c) := by
  have hpos : AVitruvioBatchActor.GetPosition s c = AVitruvioBatchActor.GetPosition s0 c :=
    GetPosition_congr s0 s c h.components h.GridDimension
  obtain ⟨f1, f2, f3⟩ := FindOrAddTile_find s (AVitruvioBatchActor.GetPosition s c)
  have h1 := FindOrAddTile_registered s0 s done (AVitruvioBatchActor.GetPosition s c) h
  have hfind : TMapFind (FGrid.FindOrAddTile s (AVitruvioBatchActor.GetPosition s c)).1.Grid.Tiles
      (AVitruvioBatchActor.GetPosition
        (FGrid.FindOrAddTile s (AVitruvioBatchActor.GetPosition s c)).1 c) =
      some (FGrid.FindOrAddTile s (AVitruvioBatchActor.GetPosition s c)).2 := by
    rw [GetPosition_congr s _ c f2 f3]
    exact f1
  have hreg := Register_found_registered s0 _ done c b _ h1 hnew hfind
  rw [← Register_FindOrAddTile s c b] at hreg
  refine ⟨hreg, ?_⟩
  intro e he
  have htiles : (FGrid.Register s c b).Grid.Tiles =
      (FGrid.FindOrAddTile s (AVitruvioBatchActor.GetPosition s c)).1.Grid.Tiles := by
    rw [Register_FindOrAddTile s c b]
    cases hc : (getTile (FGrid.FindOrAddTile s (AVitruvioBatchActor.GetPosition s c)).1
        (FGrid.FindOrAddTile s (AVitruvioBatchActor.GetPosition s c)).2).Contains c with
    | true => rw [Register_of_contains _ c b _ hfind hc]
    | false => exact (Register_found_tile _ c b _ hfind hc).1
  rw [htiles] at he
  unfold FGrid.FindOrAddTile at he
  cases hf : TMapFind s.Grid.Tiles (AVitruvioBatchActor.GetPosition s c) with
  | some T =>
    rw [hf] at he
    exact Or.inl he
  | none =>
    rw [hf] at he
    rcases TMapAdd_mem _ _ _ e he with h2 | h2
    · exact Or.inl h2
    · right
      rw [h2, hpos]

theorem registerEach_registered (s0 : State)
    (hempty : s0.Grid = { Tiles := [], TilesByComponent := [] }) :
    ∀ regs : List (ComponentId × Bool), (regs.map Prod.fst).Nodup →
      Registered s0 (registerEach s0 regs) regs ∧
      (∀ e ∈ (registerEach s0 regs).Grid.Tiles,
        ∃ d ∈ regs, AVitruvioBatchActor.GetPosition s0 d.1 = e.1) := by
  intro regs
  induction regs using List.reverseRecOn with
  | nil =>
    intro _
    refine ⟨⟨rfl, rfl, ?_, ?_, ?_, ?_, ?_, ?_⟩, ?_⟩ <;>
      simp [registerEach, gridTiles, GenerateValueArray, hempty]
  | append_singleton init e ih =>
    intro hn
    rw [List.map_append] at hn
    obtain ⟨i1, i2⟩ := ih hn.of_append_left
    have hnew : e.1 ∉ init.map Prod.fst := by
      intro hin
      exact (List.nodup_append.mp hn).2.2 hin (by simp)
    have hstep : registerEach s0 (init ++ [e]) =
        FGrid.Register (registerEach s0 init) e.1 e.2 := by
      simp [registerEach, List.foldl_append]
    obtain ⟨k1, k2⟩ := Register_registered s0 _ init e.1 e.2 i1 hnew
    rw [hstep]
    refine ⟨k1, ?_⟩
    intro x hx
    rcases k2 x hx with h1 | h1
    · obtain ⟨d, hd, hdx⟩ := i2 x h1
      exact ⟨d, List.mem_append_left _ hd, hdx⟩
    · exact ⟨e, List.mem_append_right _ (List.mem_singleton.mpr rfl), h1.symm⟩

/-! Section: the grid and the registered components. -/

theorem GridInv_of_frame {s s2 : State} {VC : List ComponentId}
    (hg : s2.Grid = s.Grid) (hl : s2.tiles.length = s.tiles.length)
    (hm : ∀ T, (getTile s2 T).VitruvioComponents = (getTile s T).VitruvioComponents)
    (h : GridInv s VC) : GridInv s2 VC := by
  have hgt : gridTiles s2 = gridTiles s := by unfold gridTiles; rw [hg]
  refine ⟨?_, ?_, ?_, ?_, ?_⟩
  · rw [hgt]; exact h.values
  · intro e he
    rw [hg] at he
    rw [hl]
    exact h.allocated e he
  · intro c hc
    obtain ⟨T, t1, t2, t3⟩ := h.registered c hc
    exact ⟨T, by rw [hgt]; exact t1, by rw [hg]; exact t2, by rw [hm]; exact t3⟩
  · intro c T hT T2 hT2 m1 m2
    rw [hgt] at hT hT2
    rw [hm] at m1 m2
    exact h.unique c T hT T2 hT2 m1 m2
  · intro T hT c hc
    rw [hgt] at hT
    rw [hm] at hc
    exact h.members T hT c hc

theorem FindOrAddTile_none (s : State) (P : FIntPoint)
    (hfind : TMapFind s.Grid.Tiles P = none) :
    (FGrid.FindOrAddTile s P).1.Grid.Tiles = s.Grid.Tiles ++ [(P, s.tiles.length)] ∧
    (FGrid.FindOrAddTile s P).1.Grid.TilesByComponent = s.Grid.TilesByComponent ∧
    (FGrid.FindOrAddTile s P).1.tiles =
      s.tiles ++ [{ (default : UTile) with Location := P }] := by
  unfold FGrid.FindOrAddTile
  rw [hfind]
  simp [TMapAdd_of_none _ _ _ hfind]

theorem FindOrAddTile_gridInv (s : State) (VC : List ComponentId) (P : FIntPoint)
    (h : GridInv s VC) : GridInv (FGrid.FindOrAddTile s P).1 VC := by
  cases hfind : TMapFind s.Grid.Tiles P with
  | some T =>
    rw [FindOrAddTile_of_find s P T hfind]
    exact h
  | none =>
    obtain ⟨g1, g2, g3⟩ := FindOrAddTile_none s P hfind
    generalize (FGrid.FindOrAddTile s P).1 = s1 at g1 g2 g3 ⊢
    have hL : s.tiles.length ∉ gridTiles s := by
      intro hm
      unfold gridTiles GenerateValueArray at hm
      obtain ⟨e, he, heq⟩ := List.mem_map.mp hm
      have hlt := h.allocated e he
      rw [heq] at hlt
      exact Nat.lt_irrefl _ hlt
    have hgl : gridTiles s1 = gridTiles s ++ [s.tiles.length] := by
      simp [gridTiles, GenerateValueArray, g1]
    have hgt : ∀ T, T ∈ gridTiles s1 ↔ T ∈ gridTiles s ∨ T = s.tiles.length := by
      intro T
      rw [hgl]
      simp
    have hold : ∀ T, T ∈ gridTiles s → getTile s1 T = getTile s T := by
      intro T hT
      have hne : ¬ T = s.tiles.length := fun heq => hL (heq ▸ hT)
      simp only [getTile, g3, tileAt_append, hne, if_false]
    have hnew : (getTile s1 s.tiles.length).VitruvioComponents = [] := by
      simp only [getTile, g3, tileAt_append, if_true]
      rfl
    refine ⟨?_, ?_, ?_, ?_, ?_⟩
    · rw [hgl]
      exact List.Nodup.append h.values (List.nodup_singleton _)
        (fun a ha hb => hL (by rw [List.mem_singleton.mp hb] at ha; exact ha))
    · intro e he
      rw [g1] at he
      rw [g3]
      simp only [List.length_append, List.length_singleton]
      rcases List.mem_append.mp he with h1 | h1
      · exact Nat.lt_succ_of_lt (h.allocated e h1)
      · rw [List.mem_singleton.mp h1]
        exact Nat.lt_succ_self _
    · intro c hc
      obtain ⟨T, t1, t2, t3⟩ := h.registered c hc
      exact ⟨T, (hgt T).mpr (Or.inl t1), by rw [g2]; exact t2, by rw [hold T t1]; exact t3⟩
    · intro c T hT T2 hT2 m1 m2
      rcases (hgt T).mp hT with a | a
      · rcases (hgt T2).mp hT2 with b | b
        · rw [hold T a] at m1
          rw [hold T2 b] at m2
          exact h.unique c T a T2 b m1 m2
        · rw [b, hnew] at m2
          exact absurd m2 (List.not_mem_nil _)
      · rw [a, hnew] at m1
        exact absurd m1 (List.not_mem_nil _)
    · intro T hT c hc
      rcases (hgt T).mp hT with a | a
      · rw [hold T a] at hc
        exact h.members T a c hc
      · rw [a, hnew] at hc
        exact absurd hc (List.not_mem_nil _)

theorem Register_found_gridInv (s : State) (VC : List ComponentId) (c : ComponentId) (b : Bool)
    (T : TileId) (h : GridInv s VC) (hnew : c ∉ VC)
    (hfind : TMapFind s.Grid.Tiles (AVitruvioBatchActor.GetPosition s c) = some T) :
    GridInv (FGrid.Register s c b) (VC ++ [c]) ∧
    TMapFind (FGrid.Register s c b).Grid.Tiles
      (AVitruvioBatchActor.GetPosition (FGrid.Register s c b) c) = some T ∧
    c ∈ (getTile (FGrid.Register s c b) T).VitruvioComponents ∧
    TMapFind (FGrid.Register s c b).Grid.TilesByComponent c = some T := by
  have hmemT : (AVitruvioBatchActor.GetPosition s c, T) ∈ s.Grid.Tiles :=
    TMapFind_mem _ _ _ hfind
  have hTg : T ∈ gridTiles s := List.mem_map.mpr ⟨_, hmemT, rfl⟩
  have hTlt : T < s.tiles.length := h.allocated _ hmemT
  have hnotin : c ∉ (getTile s T).VitruvioComponents := fun hin => hnew (h.members T hTg c hin)
  have hc : (getTile s T).Contains c = false := by
    simpa [UTile.Contains, TSetContains] using hnotin
  obtain ⟨r1, r2, r3, r4, r5, r6⟩ := Register_found_tile s c b T hfind hc
  have hgt : gridTiles (FGrid.Register s c b) = gridTiles s := by unfold gridTiles; rw [r1]
  have hsame : ∀ T2, T2 ≠ T → (getTile (FGrid.Register s c b) T2).VitruvioComponents =
      (getTile s T2).VitruvioComponents := by
    intro T2 hne
    rw [(r6 T2).1, if_neg (fun hh => hne hh.1.symm)]
  have hT : (getTile (FGrid.Register s c b) T).VitruvioComponents =
      (getTile s T).VitruvioComponents ++ [c] := by
    rw [(r6 T).1, if_pos ⟨rfl, hTlt⟩]
  have hgrow : ∀ T2 c2, c2 ∈ (getTile s T2).VitruvioComponents →
      c2 ∈ (getTile (FGrid.Register s c b) T2).VitruvioComponents := by
    intro T2 c2 hin
    by_cases hne : T2 = T
    · rw [hne, hT]
      rw [hne] at hin
      exact List.mem_append_left _ hin
    · rw [hsame T2 hne]
      exact hin
  have hback : ∀ T2 c2, c2 ∈ (getTile (FGrid.Register s c b) T2).VitruvioComponents →
      c2 ∈ (getTile s T2).VitruvioComponents ∨ (c2 = c ∧ T2 = T) := by
    intro T2 c2 hin
    by_cases hne : T2 = T
    · rw [hne, hT] at hin
      rcases List.mem_append.mp hin with a | a
      · exact Or.inl (hne ▸ a)
      · exact Or.inr ⟨List.mem_singleton.mp a, hne⟩
    · rw [hsame T2 hne] at hin
      exact Or.inl hin
  refine ⟨⟨?_, ?_, ?_, ?_, ?_⟩, ?_, ?_, ?_⟩
  · rw [hgt]; exact h.values
  · intro e he
    rw [r1] at he
    rw [r5]
    exact h.allocated e he
  · intro c2 hc2
    rw [hgt, r2]
    rcases List.mem_append.mp hc2 with a | a
    · obtain ⟨T2, t1, t2, t3⟩ := h.registered c2 a
      have hne : c2 ≠ c := fun heq => hnew (heq ▸ a)
      exact ⟨T2, t1, by rw [TMapFind_TMapAdd_ne _ _ _ _ hne]; exact t2, hgrow T2 c2 t3⟩
    · rw [List.mem_singleton.mp a]
      exact ⟨T, hTg, TMapFind_TMapAdd_self _ _ _, by rw [hT]; simp⟩
  · intro c2 T1 hT1 T2 hT2 m1 m2
    rw [hgt] at hT1 hT2
    rcases hback T1 c2 m1 with a | ⟨a1, a2⟩
    · rcases hback T2 c2 m2 with b | ⟨b1, b2⟩
      · exact h.unique c2 T1 hT1 T2 hT2 a b
      · exact absurd (h.members T1 hT1 c2 a) (b1 ▸ hnew)
    · rcases hback T2 c2 m2 with b | ⟨b1, b2⟩
      · exact absurd (h.members T2 hT2 c2 b) (a1 ▸ hnew)
      · rw [a2, b2]
  · intro T2 hT2 c2 hc2
    rw [hgt] at hT2
    rcases hback T2 c2 hc2 with a | ⟨a1, a2⟩
    · exact List.mem_append_left _ (h.members T2 hT2 c2 a)
    · rw [a1]; simp
  · rw [r1, GetPosition_congr s _ c r3 r4]
    exact hfind
  · rw [hT]; simp
  · rw [r2]
    exact TMapFind_TMapAdd_self _ _ _

theorem Register_gridInv (s : State) (VC : List ComponentId) (c : ComponentId) (b : Bool)
    (h : GridInv s VC) (hnew : c ∉ VC) :
    GridInv (FGrid.Register s c b) (VC ++ [c]) ∧
    ∃ T, TMapFind (FGrid.Register s c b).Grid.Tiles
        (AVitruvioBatchActor.GetPosition (FGrid.Register s c b) c) = some T ∧
      c ∈ (getTile (FGrid.Register s c b) T).VitruvioComponents ∧
      TMapFind (FGrid.Register s c b).Grid.TilesByComponent c = some T := by
  obtain ⟨f1, f2, f3⟩ := FindOrAddTile_find s (AVitruvioBatchActor.GetPosition s c)
  have h1 := FindOrAddTile_gridInv s VC (AVitruvioBatchActor.GetPosition s c) h
  have hfind : TMapFind (FGrid.FindOrAddTile s (AVitruvioBatchActor.GetPosition s c)).1.Grid.Tiles
      (AVitruvioBatchActor.GetPosition
        (FGrid.FindOrAddTile s (AVitruvioBatchActor.GetPosition s c)).1 c) =
      some (FGrid.FindOrAddTile s (AVitruvioBatchActor.GetPosition s c)).2 := by
    rw [GetPosition_congr s _ c f2 f3]
    exact f1
  have hreg := Register_found_gridInv _ VC c b _ h1 hnew hfind
  rw [← Register_FindOrAddTile s c b] at hreg
  exact ⟨hreg.1, _, hreg.2⟩

theorem Unregister_VitruvioComponents (s : State) (c : ComponentId) :
    (FGrid.Unregister s c).VitruvioComponents = s.VitruvioComponents := by
  unfold FGrid.Unregister
  cases TMapFind s.Grid.TilesByComponent c with
  | none => rfl
  | some T =>
    simp only
    cases (getTile s T).GenerateToken <;> rfl

theorem Unregister_gridInv (s : State) (VC : List ComponentId) (c : ComponentId)
    (h : GridInv s VC) : GridInv (FGrid.Unregister s c) (TSetRemove VC c) := by
  have hmemVC : ∀ c2, c2 ∈ TSetRemove VC c ↔ c2 ∈ VC ∧ c2 ≠ c := by
    intro c2
    simp [TSetRemove]
  cases hreg : TMapFind s.Grid.TilesByComponent c with
  | none =>
    rw [Unregister_unregistered s c hreg]
    have hout : c ∉ VC := by
      intro hin
      obtain ⟨T, -, t2, -⟩ := h.registered c hin
      rw [hreg] at t2
      exact Option.noConfusion t2
    refine ⟨h.values, h.allocated, ?_, h.unique, ?_⟩
    · intro c2 hc2
      exact h.registered c2 ((hmemVC c2).mp hc2).1
    · intro T hT c2 hc2
      have hin := h.members T hT c2 hc2
      exact (hmemVC c2).mpr ⟨hin, fun heq => hout (heq ▸ hin)⟩
  | some T =>
    obtain ⟨hc, ht⟩ := Unregister_registered s c T hreg
    simp only [State.control, Control.mk.injEq] at hc
    obtain ⟨-, -, -, -, c5, -, -, -, -, c10, -⟩ := hc
    have hgt : gridTiles (FGrid.Unregister s c) = gridTiles s := by unfold gridTiles; rw [c5]
    have hmem : ∀ T2, (getTile (FGrid.Unregister s c) T2).VitruvioComponents =
        if T = T2 ∧ T2 < s.tiles.length then
          (getTile s T2).VitruvioComponents.filter (fun x => decide (x ≠ c))
        else (getTile s T2).VitruvioComponents := by
      intro T2
      rw [ht T2]
      by_cases hh : T = T2 ∧ T2 < s.tiles.length
      · rw [if_pos hh, if_pos hh, (MarkForGenerate_members _ c).1]
        rfl
      · rw [if_neg hh, if_neg hh]
    have hsub : ∀ T2 c2, c2 ∈ (getTile (FGrid.Unregister s c) T2).VitruvioComponents →
        c2 ∈ (getTile s T2).VitruvioComponents := by
      intro T2 c2 hin
      rw [hmem T2] at hin
      split at hin
      · exact (List.mem_filter.mp hin).1
      · exact hin
    refine ⟨?_, ?_, ?_, ?_, ?_⟩
    · rw [hgt]; exact h.values
    · intro e he
      rw [c5] at he
      rw [c10]
      exact h.allocated e he
    · intro c2 hc2
      obtain ⟨hin, hne⟩ := (hmemVC c2).mp hc2
      obtain ⟨T2, t1, t2, t3⟩ := h.registered c2 hin
      refine ⟨T2, by rw [hgt]; exact t1, by rw [c5]; exact t2, ?_⟩
      rw [hmem T2]
      split
      · exact List.mem_filter.mpr ⟨t3, by simpa using hne⟩
      · exact t3
    · intro c2 T1 hT1 T2 hT2 m1 m2
      rw [hgt] at hT1 hT2
      exact h.unique c2 T1 hT1 T2 hT2 (hsub T1 c2 m1) (hsub T2 c2 m2)
    · intro T2 hT2 c2 hc2
      rw [hgt] at hT2
      have hold := hsub T2 c2 hc2
      have hin := h.members T2 hT2 c2 hold
      refine (hmemVC c2).mpr ⟨hin, ?_⟩
      intro heq
      subst heq
      obtain ⟨T0, t1, t2, t3⟩ := h.registered c2 hin
      rw [hreg] at t2
      have hT0 : T = T0 := Option.some.inj t2
      subst hT0
      have hTT : T2 = T := h.unique c2 T2 hT2 T t1 hold t3
      subst hTT
      rw [hmem T2] at hc2
      have hlt : T2 < s.tiles.length := by
        obtain ⟨e, he, heq⟩ := List.mem_map.mp hT2
        rw [← heq]
        exact h.allocated e he
      rw [if_pos ⟨rfl, hlt⟩] at hc2
      have := (List.mem_filter.mp hc2).2
      simp at this

theorem Clear_gridInv (s : State) : GridInv (FGrid.Clear s) [] := by
  have hg : (FGrid.Clear s).Grid = { Tiles := [], TilesByComponent := [] } := by
    unfold FGrid.Clear
    rfl
  have hgt : gridTiles (FGrid.Clear s) = [] := by
    unfold gridTiles GenerateValueArray
    rw [hg]
    rfl
  refine ⟨?_, ?_, ?_, ?_, ?_⟩
  · rw [hgt]; exact List.nodup_nil
  · intro e he
    rw [hg] at he
    exact absurd he (List.not_mem_nil _)
  · intro c hc
    exact absurd hc (List.not_mem_nil _)
  · intro c T hT
    rw [hgt] at hT
    exact absurd hT (List.not_mem_nil _)
  · intro T hT
    rw [hgt] at hT
    exact absurd hT (List.not_mem_nil _)

theorem MembersFrame_refl (s : State) : MembersFrame s s := ⟨rfl, rfl, rfl, fun _ => rfl⟩

theorem MembersFrame_trans (a b c : State) (h1 : MembersFrame a b) (h2 : MembersFrame b c) :
    MembersFrame a c :=
  ⟨h2.Grid.trans h1.Grid, h2.VitruvioComponents.trans h1.VitruvioComponents,
    h2.numTiles.trans h1.numTiles, fun T => (h2.members T).trans (h1.members T)⟩

theorem GridInvariant_of_frame {s s2 : State} (hf : MembersFrame s s2) (h : GridInvariant s) :
    GridInvariant s2 := by
  unfold GridInvariant at h ⊢
  rw [hf.VitruvioComponents]
  exact GridInv_of_frame hf.Grid hf.numTiles hf.members h

theorem modifyTile_membersFrame (s : State) (T : TileId) (f : UTile → UTile)
    (hf : ∀ t, (f t).VitruvioComponents = t.VitruvioComponents) :
    MembersFrame s (modifyTile s T f) := by
  refine ⟨rfl, rfl, by simp [modifyTile, length_modifyAt], ?_⟩
  intro T2
  rw [getTile_modifyTile]
  split
  · exact hf _
  · rfl

theorem Mark_members (t : UTile) (c : ComponentId) (cb : Option CallbackId) :
    (t.MarkForGenerate c cb).VitruvioComponents = t.VitruvioComponents ∧
    (t.MarkForAttributeEvaluation c cb).VitruvioComponents = t.VitruvioComponents := by
  unfold UTile.MarkForGenerate UTile.MarkForAttributeEvaluation
  cases cb <;> cases t.bMarkedForEvaluateAttributes <;> exact ⟨rfl, rfl⟩

theorem FGrid_marks_membersFrame (s : State) (c : ComponentId) (cb : Option CallbackId) :
    MembersFrame s (FGrid.MarkForGenerate s c cb) ∧
    MembersFrame s (FGrid.MarkForAttributeEvaluation s c cb) ∧
    MembersFrame s (FGrid.MarkAllForGenerate s) ∧
    MembersFrame s (FGrid.MarkAllForAttributeEvaluation s) ∧
    MembersFrame s (FGrid.UnmarkAllForGenerate s) ∧
    MembersFrame s (FGrid.UnmarkAllForAttributeEvaluation s) := by
  refine ⟨?_, ?_, ?_, ?_, ?_, ?_⟩
  · unfold FGrid.MarkForGenerate
    split
    · exact modifyTile_membersFrame _ _ _ (fun t => (Mark_members t c cb).1)
    · exact MembersFrame_refl s
  · unfold FGrid.MarkForAttributeEvaluation
    split
    · exact modifyTile_membersFrame _ _ _ (fun t => (Mark_members t c cb).2)
    · exact MembersFrame_refl s
  · exact foldl_rel MembersFrame MembersFrame_refl MembersFrame_trans _
      (fun (a : State) (e : ComponentId × TileId) =>
        modifyTile_membersFrame a e.2 _ (fun t => (Mark_members t e.1 none).1)) _ s
  · exact foldl_rel MembersFrame MembersFrame_refl MembersFrame_trans _
      (fun (a : State) (e : ComponentId × TileId) =>
        modifyTile_membersFrame a e.2 _ (fun t => (Mark_members t e.1 none).1)) _ s
  · exact foldl_rel MembersFrame MembersFrame_refl MembersFrame_trans
      (fun (a : State) (e : FIntPoint × TileId) => modifyTile a e.2 UTile.UnmarkForGenerate)
      (fun (a : State) (e : FIntPoint × TileId) =>
        modifyTile_membersFrame a e.2 UTile.UnmarkForGenerate (fun _ => rfl)) _ s
  · exact foldl_rel MembersFrame MembersFrame_refl MembersFrame_trans
      (fun (a : State) (e : FIntPoint × TileId) =>
        modifyTile a e.2 UTile.UnmarkForAttributeEvaluation)
      (fun (a : State) (e : FIntPoint × TileId) =>
        modifyTile_membersFrame a e.2 UTile.UnmarkForAttributeEvaluation (fun _ => rfl)) _ s

theorem PrepareModelComponent_membersFrame (s : State) (T : TileId) :
    MembersFrame s (AVitruvioBatchActor.PrepareModelComponent s T) := by
  have hc := PrepareModelComponent_control s T
  simp only [State.control, Control.mk.injEq] at hc
  obtain ⟨-, -, -, -, c5, -, -, -, -, c10, -⟩ := hc
  refine ⟨c5, ?_, c10, fun T2 => (PrepareModelComponent_tile s T T2).1⟩
  unfold AVitruvioBatchActor.PrepareModelComponent
  split <;> simp [modifyTile, destroyChildren]

theorem Dispatch_membersFrame (s : State) (T : TileId) :
    MembersFrame s (AVitruvioBatchActor.DispatchGenerate s T) ∧
    MembersFrame s (AVitruvioBatchActor.DispatchEvaluate s T) := by
  constructor
  · have hp := PrepareModelComponent_membersFrame s T
    have hf := DispatchGenerate_frame s T
    refine ⟨hf.Grid, ?_, hf.numTiles, fun T2 => (hf.batch T2).1⟩
    unfold AVitruvioBatchActor.DispatchGenerate
    simp only
    split
    · simp only [invalidateIfSet_eq, VitruvioModule.NewToken, modifyTile]
      exact hp.VitruvioComponents
    · exact hp.VitruvioComponents
  · have hf := DispatchEvaluate_frame s T
    refine ⟨hf.Grid, ?_, hf.numTiles, fun T2 => (hf.batch T2).1⟩
    unfold AVitruvioBatchActor.DispatchEvaluate
    simp only
    split
    · simp only [invalidateIfSet_eq, VitruvioModule.NewToken, modifyTile]
    · rfl

theorem ProcessTiles_membersFrame (s : State) :
    MembersFrame s (AVitruvioBatchActor.ProcessTiles s) := by
  unfold AVitruvioBatchActor.ProcessTiles
  have h1 : MembersFrame s (AVitruvioBatchActor.ProcessTilesGenerate s) :=
    foldl_rel MembersFrame MembersFrame_refl MembersFrame_trans _
      (fun a T => (Dispatch_membersFrame a T).1) _ s
  have h2 : MembersFrame (AVitruvioBatchActor.ProcessTilesGenerate s)
      (AVitruvioBatchActor.ProcessTilesEvaluate (AVitruvioBatchActor.ProcessTilesGenerate s)) :=
    foldl_rel MembersFrame MembersFrame_refl MembersFrame_trans _
      (fun a T => (Dispatch_membersFrame a T).2) _ _
  have h3 := (FGrid_marks_membersFrame (AVitruvioBatchActor.ProcessTilesEvaluate
    (AVitruvioBatchActor.ProcessTilesGenerate s)) 0 none).2.2.2.2.1
  have h4 := (FGrid_marks_membersFrame (FGrid.UnmarkAllForGenerate
    (AVitruvioBatchActor.ProcessTilesEvaluate
      (AVitruvioBatchActor.ProcessTilesGenerate s))) 0 none).2.2.2.2.2
  exact MembersFrame_trans _ _ _ (MembersFrame_trans _ _ _ (MembersFrame_trans _ _ _ h1 h2) h3) h4

theorem PushEvaluatedAttributes_membersFrame (attrs : List AttributeMapId)
    (cs : List ComponentId) (i : Nat) (s s2 : State)
    (h : PushEvaluatedAttributes attrs cs i s = some s2) : MembersFrame s s2 := by
  obtain ⟨h1, -⟩ := PushEvaluatedAttributes_spec attrs cs i s s2 h
  rw [h1]
  exact ⟨rfl, rfl, rfl, fun _ => rfl⟩

theorem MergeGenerateItem_membersFrame (E : Externals) (s s2 : State)
    (Item : FBatchGenerateQueueItem)
    (h : AVitruvioBatchActor.MergeGenerateItem E s Item = some s2) : MembersFrame s s2 := by
  obtain ⟨s1, extra, hpush, hc, -, -, -, -, -, ht⟩ := MergeGenerateItem_spec E s s2 Item h
  have hp := PushEvaluatedAttributes_membersFrame _ _ _ _ _ hpush
  simp only [State.control, Control.mk.injEq] at hc
  obtain ⟨-, -, -, -, c5, -, -, -, -, c10, -⟩ := hc
  refine ⟨c5.trans hp.Grid, ?_, c10.trans hp.numTiles, fun T => (ht T).2.2.1.1⟩
  unfold AVitruvioBatchActor.MergeGenerateItem at h
  rw [hpush] at h
  simp only at h
  split at h
  · exact absurd h (by simp)
  · simp only [Option.some.injEq] at h
    rw [← h]
    exact hp.VitruvioComponents

theorem CheckAllGenerated_membersFrame (s : State) :
    MembersFrame s (AVitruvioBatchActor.CheckAllGenerated s) := by
  unfold AVitruvioBatchActor.CheckAllGenerated
  cases s.GenerateAllCallbackProxy with
  | none => exact MembersFrame_refl s
  | some cb =>
    dsimp only
    split
    · exact ⟨rfl, rfl, rfl, fun _ => rfl⟩
    · exact MembersFrame_refl s

theorem ProcessGenerateQueue_membersFrame (E : Externals) (s s2 : State)
    (h : AVitruvioBatchActor.ProcessGenerateQueue E s = some s2) : MembersFrame s s2 := by
  unfold AVitruvioBatchActor.ProcessGenerateQueue at h
  simp only [Option.map_eq_some'] at h
  obtain ⟨m, hm, rfl⟩ := h
  refine MembersFrame_trans _ _ _ ?_ (CheckAllGenerated_membersFrame m)
  split at hm
  · have h1 := MergeGenerateItem_membersFrame E _ m _ hm
    exact ⟨h1.Grid, h1.VitruvioComponents, h1.numTiles, h1.members⟩
  · simp only [Option.some.injEq] at hm
    rw [← hm]
    exact MembersFrame_refl s

theorem ProcessAttributeEvaluationQueue_membersFrame (s s2 : State)
    (h : AVitruvioBatchActor.ProcessAttributeEvaluationQueue s = some s2) :
    MembersFrame s s2 := by
  unfold AVitruvioBatchActor.ProcessAttributeEvaluationQueue at h
  split at h
  · have h1 := PushEvaluatedAttributes_membersFrame _ _ _ _ _ h
    exact ⟨h1.Grid, h1.VitruvioComponents, h1.numTiles, h1.members⟩
  · simp only [Option.some.injEq] at h
    rw [← h]
    exact MembersFrame_refl s

theorem Tick_membersFrame (E : Externals) (s s2 : State)
    (h : AVitruvioBatchActor.Tick E s = some s2) : MembersFrame s s2 := by
  unfold AVitruvioBatchActor.Tick at h
  simp only [Option.bind_eq_some] at h
  obtain ⟨m1, h1, h2⟩ := h
  exact MembersFrame_trans _ _ _
    (MembersFrame_trans _ _ _ (ProcessTiles_membersFrame s)
      (ProcessAttributeEvaluationQueue_membersFrame _ _ h1))
    (ProcessGenerateQueue_membersFrame E _ _ h2)

theorem Continuation_membersFrame (s : State) (job : FPendingJob)
    (Value : FGenerateResultDescription) (Maps : List AttributeMapId) :
    MembersFrame s (AVitruvioBatchActor.GenerateContinuation s job Value) ∧
    MembersFrame s (AVitruvioBatchActor.EvaluateContinuation s job Maps) := by
  constructor
  · unfold AVitruvioBatchActor.GenerateContinuation
    split
    · exact MembersFrame_refl s
    · have h1 := modifyTile_membersFrame s job.Tile
        (fun t => { t with GenerateToken := none }) (fun _ => rfl)
      exact ⟨h1.Grid, h1.VitruvioComponents, h1.numTiles, h1.members⟩
  · unfold AVitruvioBatchActor.EvaluateContinuation
    split
    · exact MembersFrame_refl s
    · have h1 := modifyTile_membersFrame s job.Tile
        (fun t => { t with EvalAttributesToken := none }) (fun _ => rfl)
      exact ⟨h1.Grid, h1.VitruvioComponents, h1.numTiles, h1.members⟩

theorem resolve_membersFrame (s : State) (i : Nat) (Value : FGenerateResultDescription)
    (Maps : List AttributeMapId) :
    MembersFrame s (resolveGenerate s i Value) ∧ MembersFrame s (resolveEvaluate s i Maps) := by
  constructor
  · unfold resolveGenerate
    split
    · rename_i job _
      have h1 := (Continuation_membersFrame
        { s with pendingGenerate := s.pendingGenerate.eraseIdx i } job Value Maps).1
      exact ⟨h1.Grid, h1.VitruvioComponents, h1.numTiles, h1.members⟩
    · exact MembersFrame_refl s
  · unfold resolveEvaluate
    split
    · rename_i job _
      have h1 := (Continuation_membersFrame
        { s with pendingEvaluate := s.pendingEvaluate.eraseIdx i } job Value Maps).2
      exact ⟨h1.Grid, h1.VitruvioComponents, h1.numTiles, h1.members⟩
    · exact MembersFrame_refl s

theorem RegisterVitruvioComponent_gridInvariant (s : State) (c : ComponentId) (b : Bool)
    (h : GridInvariant s) :
    GridInvariant (AVitruvioBatchActor.RegisterVitruvioComponent s c b) ∧
    (c ∉ s.VitruvioComponents →
      ∃ T, TMapFind (AVitruvioBatchActor.RegisterVitruvioComponent s c b).Grid.Tiles
          (AVitruvioBatchActor.GetPosition
            (AVitruvioBatchActor.RegisterVitruvioComponent s c b) c) = some T ∧
        c ∈ (getTile (AVitruvioBatchActor.RegisterVitruvioComponent s c b) T).VitruvioComponents ∧
        TMapFind (AVitruvioBatchActor.RegisterVitruvioComponent s c b).Grid.TilesByComponent c =
          some T) := by
  unfold AVitruvioBatchActor.RegisterVitruvioComponent
  by_cases hc : TSetContains s.VitruvioComponents c = true
  · rw [if_pos hc]
    refine ⟨h, fun hn => ?_⟩
    exact absurd (by simpa [TSetContains] using hc) hn
  · rw [if_neg hc]
    have hn : c ∉ s.VitruvioComponents := by simpa [TSetContains] using hc
    have h0 : GridInv { s with VitruvioComponents := TSetAdd s.VitruvioComponents c }
        s.VitruvioComponents :=
      ⟨h.values, h.allocated, h.registered, h.unique, h.members⟩
    obtain ⟨k1, k2⟩ := Register_gridInv _ _ c b h0 hn
    refine ⟨?_, fun _ => k2⟩
    have hadd : TSetAdd s.VitruvioComponents c = s.VitruvioComponents ++ [c] := by
      simp [TSetAdd, hn]
    have e : (FGrid.Register { s with VitruvioComponents := TSetAdd s.VitruvioComponents c }
        c b).VitruvioComponents = s.VitruvioComponents ++ [c] :=
      (Register_VitruvioComponents _ c b).trans hadd
    unfold GridInvariant
    rw [e]
    exact k1

theorem UnregisterVitruvioComponent_gridInvariant (s : State) (c : ComponentId)
    (h : GridInvariant s) :
    GridInvariant (AVitruvioBatchActor.UnregisterVitruvioComponent s c) ∧
    c ∉ (AVitruvioBatchActor.UnregisterVitruvioComponent s c).VitruvioComponents := by
  unfold AVitruvioBatchActor.UnregisterVitruvioComponent
  have h0 : GridInv { s with VitruvioComponents := TSetRemove s.VitruvioComponents c }
      s.VitruvioComponents :=
    ⟨h.values, h.allocated, h.registered, h.unique, h.members⟩
  have k := Unregister_gridInv _ _ c h0
  constructor
  · unfold GridInvariant
    rw [Unregister_VitruvioComponents]
    exact k
  · rw [Unregister_VitruvioComponents]
    simp [TSetRemove]

theorem UnregisterAllVitruvioComponents_gridInvariant (s : State) :
    GridInvariant (AVitruvioBatchActor.UnregisterAllVitruvioComponents s) := by
  have k := Clear_gridInv s
  exact ⟨k.values, k.allocated, k.registered, k.unique, k.members⟩

theorem step_gridInvariant (E : Externals) (s s2 : State) (op : Op)
    (hs : step E s op = some s2) (h : GridInvariant s) : GridInvariant s2 := by
  cases op with
  | spawn c =>
    simp only [step, Option.some.injEq] at hs; subst hs
    exact ⟨h.values, h.allocated, h.registered, h.unique, h.members⟩
  | edit c data =>
    simp only [step, Option.some.injEq] at hs; subst hs
    exact ⟨h.values, h.allocated, h.registered, h.unique, h.members⟩
  | register c b =>
    simp only [step, Option.some.injEq] at hs; subst hs
    exact (RegisterVitruvioComponent_gridInvariant s c b h).1
  | unregister c =>
    simp only [step, Option.some.injEq] at hs; subst hs
    exact (UnregisterVitruvioComponent_gridInvariant s c h).1
  | unregisterAll =>
    simp only [step, Option.some.injEq] at hs; subst hs
    exact UnregisterAllVitruvioComponents_gridInvariant s
  | evaluateAttributes c cb =>
    simp only [step, Option.some.injEq] at hs; subst hs
    exact GridInvariant_of_frame (FGrid_marks_membersFrame s c cb).2.1 h
  | evaluateAllAttributes cb =>
    simp only [step, Option.some.injEq] at hs; subst hs
    have h1 := (FGrid_marks_membersFrame { s with EvaluateAllCallbackProxy := cb } 0 none).2.2.2.1
    exact GridInvariant_of_frame
      (⟨h1.Grid, h1.VitruvioComponents, h1.numTiles, h1.members⟩ : MembersFrame s _) h
  | generate c cb =>
    simp only [step, Option.some.injEq] at hs; subst hs
    exact GridInvariant_of_frame (FGrid_marks_membersFrame s c cb).1 h
  | generateAll cb =>
    simp only [step, Option.some.injEq] at hs; subst hs
    have h1 := (FGrid_marks_membersFrame { s with GenerateAllCallbackProxy := cb } 0 none).2.2.1
    exact GridInvariant_of_frame
      (⟨h1.Grid, h1.VitruvioComponents, h1.numTiles, h1.members⟩ : MembersFrame s _) h
  | setMaterialReplacementAsset a =>
    simp only [step, Option.some.injEq] at hs; subst hs
    have h1 := (FGrid_marks_membersFrame
      { { s with MaterialReplacement := a } with GenerateAllCallbackProxy := none } 0 none).2.2.1
    exact GridInvariant_of_frame
      (⟨h1.Grid, h1.VitruvioComponents, h1.numTiles, h1.members⟩ : MembersFrame s _) h
  | setInstanceReplacementAsset a =>
    simp only [step, Option.some.injEq] at hs; subst hs
    have h1 := (FGrid_marks_membersFrame
      { { s with InstanceReplacement := a } with GenerateAllCallbackProxy := none } 0 none).2.2.1
    exact GridInvariant_of_frame
      (⟨h1.Grid, h1.VitruvioComponents, h1.numTiles, h1.members⟩ : MembersFrame s _) h
  | tick => exact GridInvariant_of_frame (Tick_membersFrame E s s2 hs) h
  | resolveGenerate i Value =>
    simp only [step, Option.some.injEq] at hs; subst hs
    exact GridInvariant_of_frame (resolve_membersFrame s i Value []).1 h
  | resolveEvaluate i Maps =>
    simp only [step, Option.some.injEq] at hs; subst hs
    exact GridInvariant_of_frame (resolve_membersFrame s i default Maps).2 h

theorem run_gridInvariant (E : Externals) (ops : List Op) :
    ∀ (s s2 : State), run E s ops = some s2 → GridInvariant s → GridInvariant s2 := by
  induction ops with
  | nil =>
    intro s s2 h hi
    simp only [run, Option.some.injEq] at h
    subst h
    exact hi
  | cons op rest ih =>
    intro s s2 h hi
    simp only [run, Option.bind_eq_some] at h
    obtain ⟨s1, h1, h2⟩ := h
    exact ih s1 s2 h2 (step_gridInvariant E s s1 op h1 hi)

theorem reachable_gridInvariant (E : Externals) (s : State) (h : Reachable E s) :
    GridInvariant s := by
  obtain ⟨G, ops, hrun⟩ := h
  refine run_gridInvariant E ops _ s hrun ?_
  refine ⟨?_, ?_, ?_, ?_, ?_⟩ <;> simp [State.empty, gridTiles, GenerateValueArray]

theorem move_lands_in_new_tile (E : Externals) (s : State) (c : ComponentId)
    (data : UVitruvioComponent) (b : Bool) (ops : List Op) (h : GridInvariant s)
    (hops : ops = [Op.unregister c, Op.edit c data, Op.register c b] ∨
      ops = [Op.edit c data, Op.unregister c, Op.register c b]) :
    ∃ s2 T, run E s ops = some s2 ∧
      TMapFind s2.Grid.Tiles (AVitruvioBatchActor.GetPosition s2 c) = some T ∧
      c ∈ (getTile s2 T).VitruvioComponents ∧
      TMapFind s2.Grid.TilesByComponent c = some T ∧
      (∀ T2 ∈ gridTiles s2, c ∈ (getTile s2 T2).VitruvioComponents → T2 = T) ∧
      c ∈ s2.VitruvioComponents := by
  have key : ∀ s1 : State, GridInvariant s1 → c ∉ s1.VitruvioComponents →
      ∃ T, TMapFind (AVitruvioBatchActor.RegisterVitruvioComponent s1 c b).Grid.Tiles
          (AVitruvioBatchActor.GetPosition
            (AVitruvioBatchActor.RegisterVitruvioComponent s1 c b) c) = some T ∧
        c ∈ (getTile (AVitruvioBatchActor.RegisterVitruvioComponent s1 c b) T).VitruvioComponents ∧
        TMapFind (AVitruvioBatchActor.RegisterVitruvioComponent s1 c b).Grid.TilesByComponent c =
          some T ∧
        (∀ T2 ∈ gridTiles (AVitruvioBatchActor.RegisterVitruvioComponent s1 c b),
          c ∈ (getTile (AVitruvioBatchActor.RegisterVitruvioComponent s1 c b) T2).VitruvioComponents →
          T2 = T) ∧
        c ∈ (AVitruvioBatchActor.RegisterVitruvioComponent s1 c b).VitruvioComponents := by
    intro s1 h1 hn
    obtain ⟨k1, k2⟩ := RegisterVitruvioComponent_gridInvariant s1 c b h1
    obtain ⟨T, t1, t2, t3⟩ := k2 hn
    have hT : T ∈ gridTiles (AVitruvioBatchActor.RegisterVitruvioComponent s1 c b) :=
      List.mem_map.mpr ⟨_, TMapFind_mem _ _ _ t1, rfl⟩
    exact ⟨T, t1, t2, t3, fun T2 hT2 hm => k1.unique c T2 hT2 T hT hm t2, k1.members T hT c t2⟩
  rcases hops with rfl | rfl
  · obtain ⟨u1, u2⟩ := UnregisterVitruvioComponent_gridInvariant s c h
    have e1 : GridInvariant { AVitruvioBatchActor.UnregisterVitruvioComponent s c with
        components := modifyAt (fun _ => data) c
          (AVitruvioBatchActor.UnregisterVitruvioComponent s c).components } :=
      ⟨u1.values, u1.allocated, u1.registered, u1.unique, u1.members⟩
    obtain ⟨T, k⟩ := key _ e1 u2
    exact ⟨_, T, rfl, k⟩
  · have e1 : GridInvariant { s with components := modifyAt (fun _ => data) c s.components } :=
      ⟨h.values, h.allocated, h.registered, h.unique, h.members⟩
    obtain ⟨u1, u2⟩ := UnregisterVitruvioComponent_gridInvariant _ c e1
    obtain ⟨T, k⟩ := key _ u1 u2
    exact ⟨_, T, rfl, k⟩

/-! Section: the merge of a generate result into the model component. -/

theorem foldl_append_singleton {α : Type} (l init : List α) :
    l.foldl (fun acc t => acc ++ [t]) init = init ++ l := by
  induction l generalizing init with
  | nil => simp
  | cons x rest ih => simp [ih]

theorem SetMaterial_append (slots : List (Option MaterialId)) (m : Option MaterialId) :
    SetMaterial slots slots.length m = slots ++ [m] := by
  unfold SetMaterial
  have : slots.length + 1 - slots.length = 1 := by omega
  rw [this]
  simp

theorem foldl_SetMaterial (l : List MaterialId) :
    ∀ k, k ≤ l.length →
      (List.range k).foldl (fun acc MaterialIndex => SetMaterial acc MaterialIndex l[MaterialIndex]?)
        [] = (l.take k).map some := by
  intro k
  induction k with
  | zero => intro _; simp
  | succ n ih =>
    intro hk
    have hn : n < l.length := hk
    rw [List.range_succ, List.foldl_append, ih (Nat.le_of_lt hn)]
    simp only [List.foldl_cons, List.foldl_nil]
    have hlen : ((l.take n).map some).length = n := by
      simp [Nat.min_eq_left (Nat.le_of_lt hn)]
    have h1 := SetMaterial_append ((l.take n).map some) l[n]?
    rw [hlen] at h1
    have ht : l.take (n + 1) = l.take n ++ [l[n]] := by
      rw [List.take_succ, List.getElem?_eq_getElem hn]
      rfl
    rw [h1, List.getElem?_eq_getElem hn, ht, List.map_append]
    rfl

theorem MakeInstancedComponent_spec (UniqueName : String) (Instance : FInstance) :
    (MakeInstancedComponent UniqueName Instance).Name = UniqueName ∧
    (MakeInstancedComponent UniqueName Instance).StaticMesh = Instance.InstanceMesh.StaticMesh ∧
    (MakeInstancedComponent UniqueName Instance).MeshIdentifier =
      Instance.InstanceMesh.Identifier ∧
    (MakeInstancedComponent UniqueName Instance).PerInstance = Instance.Transforms ∧
    (MakeInstancedComponent UniqueName Instance).OverrideMaterials =
      Instance.OverrideMaterials.map some := by
  refine ⟨rfl, rfl, rfl, ?_, ?_⟩
  · simp [MakeInstancedComponent, foldl_append_singleton]
  · simp only [MakeInstancedComponent]
    rw [foldl_SetMaterial _ _ (Nat.le_refl _), List.take_length]

theorem foldl_CreateInstance_children (E : Externals) (Replaced : List FInstance)
    (L : List FInstance)
    (acc : List Event × UGeneratedModelStaticMeshComponent × List (String × Nat)) :
    ∃ created : List UGeneratedModelHISMComponent,
      (L.foldl (CreateInstance E Replaced) acc).1 =
        acc.1 ++ created.map (fun ch => Event.RegisterComponent ch.Name) ∧
      (L.foldl (CreateInstance E Replaced) acc).2.1 =
        { acc.2.1 with Children := acc.2.1.Children ++ created } ∧
      List.Forall₂ (fun ch Instance =>
          ch.StaticMesh = Instance.InstanceMesh.StaticMesh ∧
          ch.MeshIdentifier = Instance.InstanceMesh.Identifier ∧
          ch.PerInstance = Instance.Transforms ∧
          ch.OverrideMaterials = Instance.OverrideMaterials.map some)
        created (L.filter (fun Instance => decide (Instance ∉ Replaced))) := by
  induction L generalizing acc with
  | nil => exact ⟨[], by simp, by simp, by simp⟩
  | cons x rest ih =>
    obtain ⟨created, h1, h2, h3⟩ := ih (CreateInstance E Replaced acc x)
    rw [List.foldl_cons, h1, h2]
    by_cases hx : x ∈ Replaced
    · have hc : CreateInstance E Replaced acc x = acc := by
        unfold CreateInstance
        rw [if_pos hx]
      rw [hc]
      refine ⟨created, rfl, rfl, ?_⟩
      simpa [List.filter_cons, hx] using h3
    · have hc : CreateInstance E Replaced acc x =
          (acc.1 ++ [Event.RegisterComponent (E.UniqueComponentName x.Name acc.2.2).1],
            { acc.2.1 with Children := acc.2.1.Children ++
                [MakeInstancedComponent (E.UniqueComponentName x.Name acc.2.2).1 x] },
            (E.UniqueComponentName x.Name acc.2.2).2) := by
        unfold CreateInstance
        rw [if_neg hx]
      rw [hc]
      obtain ⟨m1, m2, m3, m4, m5⟩ :=
        MakeInstancedComponent_spec (E.UniqueComponentName x.Name acc.2.2).1 x
      refine ⟨MakeInstancedComponent (E.UniqueComponentName x.Name acc.2.2).1 x :: created,
        ?_, ?_, ?_⟩
      · simp [m1]
      · simp
      · simp only [List.filter_cons, hx, not_false_eq_true, decide_True, if_true]
        exact List.Forall₂.cons ⟨m2, m3, m4, m5⟩ h3

theorem foldl_slots_keeps (mesh : UStaticMesh) (L : List Nat) :
    ∀ mc : UGeneratedModelStaticMeshComponent,
      (L.foldl (fun acc MaterialIndex =>
          { acc with OverrideMaterials :=
              SetMaterial acc.OverrideMaterials MaterialIndex mesh.Materials[MaterialIndex]? })
        mc).Children = mc.Children ∧
      (L.foldl (fun acc MaterialIndex =>
          { acc with OverrideMaterials :=
              SetMaterial acc.OverrideMaterials MaterialIndex mesh.Materials[MaterialIndex]? })
        mc).StaticMesh = mc.StaticMesh := by
  induction L with
  | nil => intro mc; exact ⟨rfl, rfl⟩
  | cons i rest ih =>
    intro mc
    simp only [List.foldl_cons]
    exact ih _

theorem ResetMaterials_keeps (mc : UGeneratedModelStaticMeshComponent) :
    (ResetMaterials mc).Children = mc.Children ∧
    (ResetMaterials mc).StaticMesh = mc.StaticMesh := by
  unfold ResetMaterials
  split
  · exact foldl_slots_keeps _ _ mc
  · exact ⟨rfl, rfl⟩

theorem ApplyConvertedResult_spec (E : Externals) (s : State)
    (mc : UGeneratedModelStaticMeshComponent) (cr : FConvertedGenerateResult) :
    ∃ created : List UGeneratedModelHISMComponent,
      (AVitruvioBatchActor.ApplyConvertedResult E s mc cr).1 =
        s.log ++ (meshAssigned E s mc cr).Children.map (fun ch => Event.DestroyComponent ch.Name)
          ++ created.map (fun ch => Event.RegisterComponent ch.Name) ∧
      (AVitruvioBatchActor.ApplyConvertedResult E s mc cr).2 =
        { (E.ApplyInstanceReplacements { meshAssigned E s mc cr with Children := [] }
            cr.Instances s.InstanceReplacement []).2.1 with
          Children :=
            (E.ApplyInstanceReplacements { meshAssigned E s mc cr with Children := [] }
              cr.Instances s.InstanceReplacement []).2.1.Children ++ created } ∧
      List.Forall₂ builtFrom created
        (cr.Instances.filter (fun Instance => decide (Instance ∉
          (E.ApplyInstanceReplacements { meshAssigned E s mc cr with Children := [] }
            cr.Instances s.InstanceReplacement []).1))) := by
  obtain ⟨created, h1, h2, h3⟩ := foldl_CreateInstance_children E
    (E.ApplyInstanceReplacements { meshAssigned E s mc cr with Children := [] }
      cr.Instances s.InstanceReplacement []).1 cr.Instances
    (s.log ++ (meshAssigned E s mc cr).Children.map (fun ch => Event.DestroyComponent ch.Name),
      (E.ApplyInstanceReplacements { meshAssigned E s mc cr with Children := [] }
        cr.Instances s.InstanceReplacement []).2.1,
      (E.ApplyInstanceReplacements { meshAssigned E s mc cr with Children := [] }
        cr.Instances s.InstanceReplacement []).2.2)
  refine ⟨created, ?_, ?_, h3⟩
  · unfold AVitruvioBatchActor.ApplyConvertedResult
    exact h1
  · unfold AVitruvioBatchActor.ApplyConvertedResult
    exact h2

theorem MergeGenerateItem_model (E : Externals) (s s2 : State) (Item : FBatchGenerateQueueItem)
    (h : AVitruvioBatchActor.MergeGenerateItem E s Item = some s2) :
    ∃ (s1 : State) (mc : UGeneratedModelStaticMeshComponent),
      PushEvaluatedAttributes Item.GenerateResultDescription.EvaluatedAttributes
        Item.VitruvioComponents 0 s = some s1 ∧
      (getTile s Item.Tile).GeneratedModelComponent = some mc ∧
      (getTile s2 Item.Tile).GeneratedModelComponent =
        some (AVitruvioBatchActor.ApplyConvertedResult E
          { s1 with
            MaterialIdentifiers := (E.BuildGenerateResult Item.GenerateResultDescription
              s1.MaterialIdentifiers s1.UniqueMaterialIdentifiers).2.1,
            UniqueMaterialIdentifiers := (E.BuildGenerateResult Item.GenerateResultDescription
              s1.MaterialIdentifiers s1.UniqueMaterialIdentifiers).2.2 } mc
          (E.BuildGenerateResult Item.GenerateResultDescription
            s1.MaterialIdentifiers s1.UniqueMaterialIdentifiers).1).2 ∧
      s2.log =
        (AVitruvioBatchActor.ApplyConvertedResult E
          { s1 with
            MaterialIdentifiers := (E.BuildGenerateResult Item.GenerateResultDescription
              s1.MaterialIdentifiers s1.UniqueMaterialIdentifiers).2.1,
            UniqueMaterialIdentifiers := (E.BuildGenerateResult Item.GenerateResultDescription
              s1.MaterialIdentifiers s1.UniqueMaterialIdentifiers).2.2 } mc
          (E.BuildGenerateResult Item.GenerateResultDescription
            s1.MaterialIdentifiers s1.UniqueMaterialIdentifiers).1).1 ++
          fireCallbacks (getTile s Item.Tile).GenerateCallbackProxies := by
  unfold AVitruvioBatchActor.MergeGenerateItem at h
  split at h
  · exact absurd h (by simp)
  · rename_i s1 hpush
    have htiles := (PushEvaluatedAttributes_control _ _ _ _ _ hpush).2
    split at h
    · exact absurd h (by simp)
    · rename_i mc hmc
      simp only [Option.some.injEq] at h
      have hmc0 : (getTile s Item.Tile).GeneratedModelComponent = some mc := by
        simp only [getTile, htiles] at hmc
        simp [getTile, hmc]
      have hrange := lt_length_of_model s Item.Tile (by rw [hmc0]; rfl)
      subst h
      refine ⟨s1, mc, hpush, hmc0, ?_, ?_⟩
      · simp [modifyTile, getTile, tileAt_modifyAt, length_modifyAt, htiles, hrange]
      · simp [modifyTile, getTile, tileAt_modifyAt, length_modifyAt, htiles, hrange]

theorem MergeGenerateItem_children (E : Externals) (s s2 : State)
    (Item : FBatchGenerateQueueItem)
    (h : AVitruvioBatchActor.MergeGenerateItem E s Item = some s2) :
    ∃ (cr : FConvertedGenerateResult) (mc m1 : UGeneratedModelStaticMeshComponent)
      (created : List UGeneratedModelHISMComponent),
      cr = (E.BuildGenerateResult Item.GenerateResultDescription s.MaterialIdentifiers
        s.UniqueMaterialIdentifiers).1 ∧
      (getTile s Item.Tile).GeneratedModelComponent = some mc ∧
      (cr.ShapeMesh = none → m1 = mc) ∧
      ((∀ m mi a, (E.ApplyMaterialReplacements m mi a).Children = m.Children) →
        m1.Children = mc.Children) ∧
      (getTile s2 Item.Tile).GeneratedModelComponent =
        some { (E.ApplyInstanceReplacements { m1 with Children := [] }
            cr.Instances s.InstanceReplacement []).2.1 with
          Children :=
            (E.ApplyInstanceReplacements { m1 with Children := [] }
              cr.Instances s.InstanceReplacement []).2.1.Children ++ created } ∧
      s2.log = s.log ++ attributePushes Item.VitruvioComponents
            Item.GenerateResultDescription.EvaluatedAttributes
          ++ m1.Children.map (fun ch => Event.DestroyComponent ch.Name)
          ++ created.map (fun ch => Event.RegisterComponent ch.Name)
          ++ fireCallbacks (getTile s Item.Tile).GenerateCallbackProxies ∧
      List.Forall₂ builtFrom created
        (cr.Instances.filter (fun Instance => decide (Instance ∉
          (E.ApplyInstanceReplacements { m1 with Children := [] }
            cr.Instances s.InstanceReplacement []).1))) := by
  obtain ⟨s1, mc, hpush, hmc, hmodel, hlog⟩ := MergeGenerateItem_model E s s2 Item h
  obtain ⟨e1, e2, -⟩ := PushEvaluatedAttributes_spec _ _ _ _ _ hpush
  have i1 : s1.MaterialIdentifiers = s.MaterialIdentifiers := by rw [e1]
  have i2 : s1.UniqueMaterialIdentifiers = s.UniqueMaterialIdentifiers := by rw [e1]
  have i3 : s1.InstanceReplacement = s.InstanceReplacement := by rw [e1]
  rw [i1, i2] at hmodel hlog
  obtain ⟨created, a1, a2, a3⟩ := ApplyConvertedResult_spec E
    { s1 with
      MaterialIdentifiers := (E.BuildGenerateResult Item.GenerateResultDescription
        s.MaterialIdentifiers s.UniqueMaterialIdentifiers).2.1,
      UniqueMaterialIdentifiers := (E.BuildGenerateResult Item.GenerateResultDescription
        s.MaterialIdentifiers s.UniqueMaterialIdentifiers).2.2 } mc
    (E.BuildGenerateResult Item.GenerateResultDescription
      s.MaterialIdentifiers s.UniqueMaterialIdentifiers).1
  have hm1 : ((E.BuildGenerateResult Item.GenerateResultDescription s.MaterialIdentifiers
        s.UniqueMaterialIdentifiers).1.ShapeMesh = none →
      meshAssigned E
        { s1 with
          MaterialIdentifiers := (E.BuildGenerateResult Item.GenerateResultDescription
            s.MaterialIdentifiers s.UniqueMaterialIdentifiers).2.1,
          UniqueMaterialIdentifiers := (E.BuildGenerateResult Item.GenerateResultDescription
            s.MaterialIdentifiers s.UniqueMaterialIdentifiers).2.2 } mc
        (E.BuildGenerateResult Item.GenerateResultDescription
          s.MaterialIdentifiers s.UniqueMaterialIdentifiers).1 = mc) ∧
      ((∀ m mi a, (E.ApplyMaterialReplacements m mi a).Children = m.Children) →
      (meshAssigned E
        { s1 with
          MaterialIdentifiers := (E.BuildGenerateResult Item.GenerateResultDescription
            s.MaterialIdentifiers s.UniqueMaterialIdentifiers).2.1,
          UniqueMaterialIdentifiers := (E.BuildGenerateResult Item.GenerateResultDescription
            s.MaterialIdentifiers s.UniqueMaterialIdentifiers).2.2 } mc
        (E.BuildGenerateResult Item.GenerateResultDescription
          s.MaterialIdentifiers s.UniqueMaterialIdentifiers).1).Children = mc.Children) := by
    constructor
    · intro hn
      unfold meshAssigned
      rw [hn]
    · intro hE
      unfold meshAssigned
      split
      · rw [hE, (ResetMaterials_keeps _).1]
      · rfl
  rw [a1] at hlog
  rw [a2] at hmodel
  generalize meshAssigned E _ mc _ = m1 at hlog hmodel a3 hm1
  simp only [i3] at hmodel a3
  refine ⟨_, mc, m1, created, rfl, hmc, hm1.1, hm1.2, hmodel, ?_, a3⟩
  rw [hlog]
  simp only [e2, List.drop_zero, List.append_assoc]

theorem PrepareModelComponent_clears (s : State) (T : TileId) (hT : T < s.tiles.length) :
    ∃ mc, (getTile (AVitruvioBatchActor.PrepareModelComponent s T) T).GeneratedModelComponent =
        some mc ∧ mc.StaticMesh = none ∧ mc.Children = [] := by
  unfold AVitruvioBatchActor.PrepareModelComponent
  split
  · simp [destroyChildren, getTile, modifyTile, tileAt_modifyAt, hT]
  · simp [getTile, modifyTile, tileAt_modifyAt, hT]

theorem DispatchGenerate_clears (s : State) (T : TileId) (hT : T < s.tiles.length) :
    ∃ mc, (getTile (AVitruvioBatchActor.DispatchGenerate s T) T).GeneratedModelComponent =
        some mc ∧ mc.StaticMesh = none ∧ mc.Children = [] := by
  obtain ⟨mc, h1, h2, h3⟩ := PrepareModelComponent_clears s T hT
  refine ⟨mc, ?_, h2, h3⟩
  rw [DispatchGenerate_tile]
  split
  · exact h1
  · exact h1

/-! Section: the claims. -/

/-- C10: marking a tile for generate leaves it marked for generate and not marked for attribute
evaluation, whatever its marks were before; marking a tile for attribute evaluation sets the
evaluation mark and leaves the generate mark as it was. -/
theorem markForGenerate_supersedes_evaluation (t : UTile) (c : ComponentId)
    (cb : Option CallbackId) :
    (t.MarkForGenerate c cb).bMarkedForGenerate = true ∧
    (t.MarkForGenerate c cb).bMarkedForEvaluateAttributes = false ∧
    (t.MarkForAttributeEvaluation c cb).bMarkedForEvaluateAttributes = true ∧
    (t.MarkForAttributeEvaluation c cb).bMarkedForGenerate = t.bMarkedForGenerate := by
  refine ⟨?_, ?_, ?_, ?_⟩
  · cases cb <;> simp [UTile.MarkForGenerate]
  · cases cb <;> cases h : t.bMarkedForEvaluateAttributes <;>
      simp [UTile.MarkForGenerate, UTile.UnmarkForAttributeEvaluation, h]
  · cases cb <;> simp [UTile.MarkForAttributeEvaluation]
  · cases cb <;> simp [UTile.MarkForAttributeEvaluation]

/-- C1: when the token of a generate or evaluate job is already invalid, its completion handler
returns the state it was given (queues, tiles with their tokens, flags, model components and
callback lists, and the log of effects are all as before), and resolving such a pending job only
takes it off the pending list. -/
theorem stale_completion_is_dropped (s : State) (job : FPendingJob)
    (Value : FGenerateResultDescription) (Maps : List AttributeMapId)
    (h : FInvalidationToken.IsInvalid s job.Token = true) :
    AVitruvioBatchActor.GenerateContinuation s job Value = s ∧
    AVitruvioBatchActor.EvaluateContinuation s job Maps = s ∧
    (∀ i, s.pendingGenerate[i]? = some job →
      resolveGenerate s i Value = { s with pendingGenerate := s.pendingGenerate.eraseIdx i }) ∧
    (∀ i, s.pendingEvaluate[i]? = some job →
      resolveEvaluate s i Maps = { s with pendingEvaluate := s.pendingEvaluate.eraseIdx i }) := by
  have hmem : job.Token ∈ s.invalidTokens := by
    simpa [FInvalidationToken.IsInvalid] using h
  refine ⟨?_, ?_, ?_, ?_⟩
  · simp [AVitruvioBatchActor.GenerateContinuation, h]
  · simp [AVitruvioBatchActor.EvaluateContinuation, h]
  · intro i hi
    simp [resolveGenerate, hi, AVitruvioBatchActor.GenerateContinuation,
      FInvalidationToken.IsInvalid, hmem]
  · intro i hi
    simp [resolveEvaluate, hi, AVitruvioBatchActor.EvaluateContinuation,
      FInvalidationToken.IsInvalid, hmem]

/-- C1 at the job that is in flight when its component is unregistered. -/
theorem stale_completion_is_dropped_witness :
    FInvalidationToken.IsInvalid staleJobState staleJob.Token = true ∧
    staleJobState.pendingGenerate[0]? = some staleJob ∧
    (AVitruvioBatchActor.GenerateContinuation staleJobState staleJob exampleResult = staleJobState ∧
    AVitruvioBatchActor.EvaluateContinuation staleJobState staleJob [41] = staleJobState ∧
    (∀ i, staleJobState.pendingGenerate[i]? = some staleJob →
      resolveGenerate staleJobState i exampleResult =
        { staleJobState with pendingGenerate := staleJobState.pendingGenerate.eraseIdx i }) ∧
    (∀ i, staleJobState.pendingEvaluate[i]? = some staleJob →
      resolveEvaluate staleJobState i [41] =
        { staleJobState with pendingEvaluate := staleJobState.pendingEvaluate.eraseIdx i })) :=
  ⟨by decide, by decide,
    stale_completion_is_dropped staleJobState staleJob exampleResult [41] (by decide)⟩

/-- C4, evaluated on the code: a callback passed to `Generate` is queued on the tile, but the
cycle that dispatches the tile empties the tile's callback list (`UnmarkForGenerate`), so the
cycle that merges the result of that job broadcasts nothing for it; a callback passed to
`EvaluateAttributes` is emptied in the same way and the evaluation drain has no broadcast. -/
theorem callback_dropped_by_dispatch_cycle :
    (getTile (stateAfter [Op.spawn exampleComponent, Op.register 0 true,
        Op.generate 0 (some 7)]) 0).GenerateCallbackProxies = [(0, 7)] ∧
    (getTile (stateAfter [Op.spawn exampleComponent, Op.register 0 true,
        Op.generate 0 (some 7), Op.tick]) 0).GenerateCallbackProxies = [] ∧
    (stateAfter [Op.spawn exampleComponent, Op.register 0 true,
        Op.generate 0 (some 7), Op.tick]).pendingGenerate = [staleJob] ∧
    (run Externals.plain (State.empty (100, 100))
        [Op.spawn exampleComponent, Op.register 0 true, Op.generate 0 (some 7), Op.tick,
          Op.resolveGenerate 0 exampleResult, Op.tick]).map
        (fun s => (s.log, s.GenerateQueue, (getTile s 0).GenerateCallbackProxies)) =
      some ([Event.UpdateUnrealAttributeMap 0 41, Event.NotifyAttributesChanged 0], [], []) ∧
    (getTile (stateAfter [Op.spawn exampleComponent, Op.register 0 false,
        Op.evaluateAttributes 0 (some 8)]) 0).EvaluateAttributesCallbackProxies = [(0, 8)] ∧
    (run Externals.plain (State.empty (100, 100))
        [Op.spawn exampleComponent, Op.register 0 false, Op.evaluateAttributes 0 (some 8), Op.tick,
          Op.resolveEvaluate 0 [42], Op.tick]).map
        (fun s => (s.log, s.AttributeEvaluationQueue,
          (getTile s 0).EvaluateAttributesCallbackProxies)) =
      some ([Event.UpdateUnrealAttributeMap 0 42, Event.NotifyAttributesChanged 0], [], []) := by
  refine ⟨by decide, by decide, by decide, by decide, by decide, by decide⟩

/-- C9, evaluated on the code: `MarkAllForAttributeEvaluation` is the same function as
`MarkAllForGenerate`; on a grid with one unmarked tile, `EvaluateAllAttributes` leaves the tile
marked for generate and not marked for attribute evaluation, as `GenerateAll` does. -/
theorem markAllForAttributeEvaluation_marks_generate :
    (∀ s : State, FGrid.MarkAllForAttributeEvaluation s = FGrid.MarkAllForGenerate s) ∧
    (getTile (stateAfter [Op.spawn exampleComponent, Op.register 0 false]) 0).bMarkedForGenerate
      = false ∧
    (getTile (stateAfter [Op.spawn exampleComponent, Op.register 0 false]) 0).bMarkedForEvaluateAttributes
      = false ∧
    (getTile (stateAfter [Op.spawn exampleComponent, Op.register 0 false,
        Op.evaluateAllAttributes none]) 0).bMarkedForEvaluateAttributes = false ∧
    (getTile (stateAfter [Op.spawn exampleComponent, Op.register 0 false,
        Op.evaluateAllAttributes none]) 0).bMarkedForGenerate = true ∧
    (getTile (stateAfter [Op.spawn exampleComponent, Op.register 0 false,
        Op.generateAll none]) 0).bMarkedForGenerate = true := by
  refine ⟨fun _ => rfl, by decide, by decide, by decide, by decide, by decide⟩

/-- C5: after `ProcessTiles` no tile of the grid is marked for generate or for attribute
evaluation, whether or not a job was dispatched for it, and the jobs registered by the call are,
in grid order, one generate job for each tile that was marked for generate at the start and has a
component with valid input data, and one evaluation job for each tile that was marked for
attribute evaluation at the start and has such a component; a marked tile without valid component
gets no job. -/
theorem processTiles_sweeps_and_dispatches (s : State) :
    (AVitruvioBatchActor.ProcessTiles s).Grid = s.Grid ∧
    (∀ T ∈ gridTiles (AVitruvioBatchActor.ProcessTiles s),
      (getTile (AVitruvioBatchActor.ProcessTiles s) T).bMarkedForGenerate = false ∧
      (getTile (AVitruvioBatchActor.ProcessTiles s) T).bMarkedForEvaluateAttributes = false) ∧
    ∃ gen ev : List FPendingJob,
      (AVitruvioBatchActor.ProcessTiles s).pendingGenerate = s.pendingGenerate ++ gen ∧
      (AVitruvioBatchActor.ProcessTiles s).pendingEvaluate = s.pendingEvaluate ++ ev ∧
      gen.map (fun job => job.Tile) = (gridTiles s).filter
        (fun T => (getTile s T).bMarkedForGenerate && hasValidComponent s T) ∧
      ev.map (fun job => job.Tile) = (gridTiles s).filter
        (fun T => (getTile s T).bMarkedForEvaluateAttributes && hasValidComponent s T) := by
  refine ⟨ProcessTiles_Grid s, ?_, ?_⟩
  · intro T hT
    have hT2 : T ∈ gridTiles s := by
      unfold gridTiles at hT ⊢
      rw [ProcessTiles_Grid] at hT
      exact hT
    have := ProcessTiles_unmarked s T hT2
    exact ⟨this.1.1, this.2.1⟩
  · obtain ⟨gen, ev, h1, h2, h3, h4, _⟩ := ProcessTiles_pending s
    refine ⟨gen, ev, h1, h2, ?_, ?_⟩
    · rw [h3]
      simp [FGrid.GetTilesMarkedForGenerate, gridTiles, List.filter_filter, Bool.and_comm]
    · rw [h4]
      simp [FGrid.GetTilesMarkedForAttributeEvaluation, gridTiles, List.filter_filter, Bool.and_comm]

/-- C6: a cycle takes at most one item from each result queue, always the oldest. After `k`
cycles in which nothing is enqueued, both queues are the original queues without their first `k`
items (empty once `k` reaches the length), and the next cycle hands exactly item `k` of the
original evaluation queue to the attribute loop and item `k` of the original generate queue to
the merge; when every queued item can be merged, the `k` cycles do run to the end. -/
theorem drains_one_item_per_cycle (E : Externals) (s : State) (k : Nat) :
    (∀ s2, run E s (List.replicate k Op.tick) = some s2 →
      s2.GenerateQueue = s.GenerateQueue.drop k ∧
      s2.AttributeEvaluationQueue = s.AttributeEvaluationQueue.drop k ∧
      AVitruvioBatchActor.ProcessAttributeEvaluationQueue (AVitruvioBatchActor.ProcessTiles s2) =
        (match s.AttributeEvaluationQueue[k]? with
          | some Item =>
            PushEvaluatedAttributes Item.AttributeMaps Item.VitruvioComponents 0
              { AVitruvioBatchActor.ProcessTiles s2 with
                AttributeEvaluationQueue := s.AttributeEvaluationQueue.drop (k + 1) }
          | none => some (AVitruvioBatchActor.ProcessTiles s2)) ∧
      (∀ m, AVitruvioBatchActor.ProcessAttributeEvaluationQueue
            (AVitruvioBatchActor.ProcessTiles s2) = some m →
        AVitruvioBatchActor.Tick E s2 =
          (match s.GenerateQueue[k]? with
            | some Item =>
              AVitruvioBatchActor.MergeGenerateItem E
                { m with GenerateQueue := s.GenerateQueue.drop (k + 1) } Item
            | none => some m).map AVitruvioBatchActor.CheckAllGenerated)) ∧
    (QueuesWellFormed s → ∃ s2, run E s (List.replicate k Op.tick) = some s2) := by
  refine ⟨?_, run_ticks_some E k s⟩
  intro s2 h
  obtain ⟨q1, q2⟩ := run_ticks_queues E k s s2 h
  obtain ⟨f1, f2, f3, f4, f5, f6, f7, f8, f9⟩ := ProcessTiles_frame s2
  refine ⟨q1, q2, ?_, ?_⟩
  · unfold AVitruvioBatchActor.ProcessAttributeEvaluationQueue
    rw [f5, q2, drop_eq_of_getElem?]
    cases s.AttributeEvaluationQueue[k]? <;> rfl
  · intro m hm
    obtain ⟨e1, _⟩ := ProcessAttributeEvaluationQueue_spec _ _ hm
    have hq : m.GenerateQueue = s.GenerateQueue.drop k := by
      have := congrArg Control.GenerateQueue e1
      simp only [State.control] at this
      rw [this, f4, q1]
    unfold AVitruvioBatchActor.Tick
    rw [hm, Option.some_bind]
    unfold AVitruvioBatchActor.ProcessGenerateQueue
    rw [hq, drop_eq_of_getElem?]
    cases s.GenerateQueue[k]? <;> rfl

/-- C6 at two tiles whose jobs both resolved before the next cycle: the two results are merged
in two cycles, the first cycle leaving the second result in the queue. -/
theorem drains_one_item_per_cycle_witness :
    QueuesWellFormed twoResultsState ∧
    twoResultsState.GenerateQueue.map (fun Item => Item.Tile) = [0, 1] ∧
    (∃ s2, run Externals.plain twoResultsState (List.replicate 1 Op.tick) = some s2 ∧
      s2.GenerateQueue.map (fun Item => Item.Tile) = [1]) ∧
    (∃ s2, run Externals.plain twoResultsState (List.replicate 2 Op.tick) = some s2 ∧
      s2.GenerateQueue = []) := by
  have hwf : QueuesWellFormed twoResultsState := by
    unfold QueuesWellFormed
    with_unfolding_all decide
  refine ⟨hwf, by with_unfolding_all decide, ?_, ?_⟩
  · obtain ⟨s2, h⟩ := (drains_one_item_per_cycle Externals.plain twoResultsState 1).2 hwf
    refine ⟨s2, h, ?_⟩
    rw [((drains_one_item_per_cycle Externals.plain twoResultsState 1).1 s2 h).1]
    with_unfolding_all decide
  · obtain ⟨s2, h⟩ := (drains_one_item_per_cycle Externals.plain twoResultsState 2).2 hwf
    refine ⟨s2, h, ?_⟩
    rw [((drains_one_item_per_cycle Externals.plain twoResultsState 2).1 s2 h).1]
    with_unfolding_all decide

/-- C7: the requester list of a batch and its initial shapes are built in the same loop: the
requesters are the tile's components with valid input data at dispatch, in tile order, and the
shapes are one per requester in the same order; the job dispatched by `ProcessTiles` captures
that list, the completion handler copies it into the queue item, and when the item has as many
attribute maps as requesters both drains run their attribute loop to the end, the i-th requester
getting the i-th map followed by its notification. -/
theorem requesters_match_shapes_and_attributes (E : Externals) (s : State) :
    (∀ T, (getTile s T).GetInitialShapes s =
      (shapesOf s (validComponents s T), validComponents s T)) ∧
    (∃ gen ev : List FPendingJob,
      (AVitruvioBatchActor.ProcessTiles s).pendingGenerate = s.pendingGenerate ++ gen ∧
      (AVitruvioBatchActor.ProcessTiles s).pendingEvaluate = s.pendingEvaluate ++ ev ∧
      ∀ job, job ∈ gen ∨ job ∈ ev →
        job.InitialShapeVitruvioComponents = validComponents s job.Tile ∧
        job.InitialShapes = shapesOf s job.InitialShapeVitruvioComponents ∧
        job.InitialShapes.length = job.InitialShapeVitruvioComponents.length) ∧
    (∀ job Value, FInvalidationToken.IsInvalid s job.Token = false →
      (AVitruvioBatchActor.GenerateContinuation s job Value).GenerateQueue =
        s.GenerateQueue ++ [FBatchGenerateQueueItem.mk Value job.Tile
          job.InitialShapeVitruvioComponents]) ∧
    (∀ job Maps, FInvalidationToken.IsInvalid s job.Token = false →
      (AVitruvioBatchActor.EvaluateContinuation s job Maps).AttributeEvaluationQueue =
        s.AttributeEvaluationQueue ++ [FEvaluateAttributesQueueItem.mk Maps job.Tile
          job.InitialShapeVitruvioComponents]) ∧
    (∀ Item rest, s.GenerateQueue = Item :: rest →
      Item.GenerateResultDescription.EvaluatedAttributes.length = Item.VitruvioComponents.length →
      (getTile s Item.Tile).GeneratedModelComponent.isSome = true →
      ∃ s2, AVitruvioBatchActor.ProcessGenerateQueue E s = some s2 ∧
        ∃ more, s2.log = s.log ++ attributePushes Item.VitruvioComponents
          Item.GenerateResultDescription.EvaluatedAttributes ++ more) ∧
    (∀ Item rest, s.AttributeEvaluationQueue = Item :: rest →
      Item.AttributeMaps.length = Item.VitruvioComponents.length →
      ∃ s2, AVitruvioBatchActor.ProcessAttributeEvaluationQueue s = some s2 ∧
        s2.log = s.log ++ attributePushes Item.VitruvioComponents Item.AttributeMaps) ∧
    (∀ (cs : List ComponentId) (attrs : List AttributeMapId) (i : Nat) (c : ComponentId)
        (a : AttributeMapId), cs[i]? = some c → attrs[i]? = some a →
      (attributePushes cs attrs)[2 * i]? = some (Event.UpdateUnrealAttributeMap c a) ∧
      (attributePushes cs attrs)[2 * i + 1]? = some (Event.NotifyAttributesChanged c)) := by
  refine ⟨GetInitialShapes_eq s, ?_, fun job => (continuation_enqueues s job).1,
    fun job => (continuation_enqueues s job).2, ?_, ?_, attributePushes_getElem?⟩
  · obtain ⟨gen, ev, h1, h2, _, _, h5⟩ := ProcessTiles_pending s
    refine ⟨gen, ev, h1, h2, ?_⟩
    intro job hj
    obtain ⟨j1, j2⟩ := h5 job hj
    refine ⟨j1, by rw [j2, j1], ?_⟩
    rw [j2, j1]
    simp [shapesOf]
  · intro Item rest hq hlen hmodel
    exact ProcessGenerateQueue_pushes E s Item rest hq (Nat.le_of_eq hlen.symm) hmodel
  · intro Item rest hq hlen
    exact ProcessAttributeEvaluationQueue_pushes s Item rest hq (Nat.le_of_eq hlen.symm)

/-- C7 at the first queued result of `twoResultsState`: its requester list is component 0, the
result has one attribute map, and the drain gives map 41 to component 0 and notifies it. -/
theorem requesters_match_shapes_and_attributes_witness :
    twoResultsState.GenerateQueue =
      [FBatchGenerateQueueItem.mk exampleResult 0 [0], FBatchGenerateQueueItem.mk exampleResult 1 [1]] ∧
    validComponents twoResultsState 0 = [0] ∧
    ∃ s2, AVitruvioBatchActor.ProcessGenerateQueue Externals.plain twoResultsState = some s2 ∧
      ∃ more, s2.log = twoResultsState.log ++
        [Event.UpdateUnrealAttributeMap 0 41, Event.NotifyAttributesChanged 0] ++ more :=
  ⟨by with_unfolding_all decide, by with_unfolding_all decide,
    (requesters_match_shapes_and_attributes Externals.plain twoResultsState).2.2.2.2.1
      (FBatchGenerateQueueItem.mk exampleResult 0 [0])
      [FBatchGenerateQueueItem.mk exampleResult 1 [1]]
      (by with_unfolding_all decide) (by decide) (by with_unfolding_all decide)⟩

/-- C8: with a generate-all callback `cb` pending, `ProcessGenerateQueue` broadcasts it exactly
when, after the merge of that call, no tile of the grid has `bIsGenerating` set; the broadcast
clears the pending callback and otherwise the callback stays pending with no broadcast; the call
returns whenever the queued items can be merged; and along any run without a further generate-all
request that carries a callback, the generate-all broadcasts grow by nothing or by the single
broadcast of `cb`. -/
theorem generateAll_callback_fires_when_idle_at_most_once (E : Externals) (s : State)
    (cb : CallbackId) (hcb : s.GenerateAllCallbackProxy = some cb) :
    (∀ s2, AVitruvioBatchActor.ProcessGenerateQueue E s = some s2 →
      ((gridTiles s2).all (fun T => !(getTile s2 T).bIsGenerating) = true →
        generateAllBroadcasts s2 = generateAllBroadcasts s ++ [Event.GenerateAllCompleted cb] ∧
        s2.GenerateAllCallbackProxy = none) ∧
      ((gridTiles s2).all (fun T => !(getTile s2 T).bIsGenerating) = false →
        generateAllBroadcasts s2 = generateAllBroadcasts s ∧
        s2.GenerateAllCallbackProxy = some cb)) ∧
    (QueuesWellFormed s → ∃ s2, AVitruvioBatchActor.ProcessGenerateQueue E s = some s2) ∧
    (∀ ops s2, (∀ op ∈ ops, requestsGenerateAllCallback op = false) → run E s ops = some s2 →
      generateAllBroadcasts s2 = generateAllBroadcasts s ∨
      generateAllBroadcasts s2 = generateAllBroadcasts s ++ [Event.GenerateAllCompleted cb]) := by
  refine ⟨?_, fun hwf => ProcessGenerateQueue_some E s hwf.1, ?_⟩
  · intro s2 h2
    obtain ⟨m, rfl, g1, -⟩ := ProcessGenerateQueue_spec E s s2 h2
    simp only [State.control, Control.mk.injEq] at g1
    obtain ⟨b1, b2, b3, b4, b5, b6, b7, b8, b9, b10, b11⟩ := g1
    have hc := CheckAllGenerated_control m
    simp only [State.control, Control.mk.injEq] at hc
    obtain ⟨d1, d2, d3, d4, d5, -⟩ := hc
    have hall : (gridTiles (AVitruvioBatchActor.CheckAllGenerated m)).all
          (fun T => !(getTile (AVitruvioBatchActor.CheckAllGenerated m) T).bIsGenerating) =
        (gridTiles m).all (fun T => !(getTile m T).bIsGenerating) := by
      simp only [gridTiles, getTile, CheckAllGenerated_tiles, d5]
    have hb : generateAllBroadcasts m = generateAllBroadcasts s := b11
    obtain ⟨k1, k2⟩ := (CheckAllGenerated_spec m).1 cb (b8.trans hcb)
    rw [hall, ← hb]
    refine ⟨fun ht => k1 ht, fun hf => ?_⟩
    rw [k2 hf]
    exact ⟨rfl, b8.trans hcb⟩
  · intro ops s2 hops hr
    exact (run_generateAll E ops s s2 hops hr).2 cb hcb

/-- C8 at two tiles whose results are both queued: the first drain merges one tile and does not
broadcast, since the other tile is still generating, and the run of three cycles broadcasts the
callback once. -/
theorem generateAll_callback_fires_when_idle_at_most_once_witness :
    generateAllState.GenerateAllCallbackProxy = some 9 ∧
    QueuesWellFormed generateAllState ∧
    (∃ s2, AVitruvioBatchActor.ProcessGenerateQueue Externals.plain generateAllState = some s2 ∧
      (gridTiles s2).all (fun T => !(getTile s2 T).bIsGenerating) = false ∧
      generateAllBroadcasts s2 = generateAllBroadcasts generateAllState ∧
      s2.GenerateAllCallbackProxy = some 9) ∧
    generateAllBroadcasts generateAllState = [] ∧
    generateAllBroadcasts (stateAfter (generateAllOps ++ [Op.tick, Op.tick, Op.tick])) =
      [Event.GenerateAllCompleted 9] := by
  have hcb : generateAllState.GenerateAllCallbackProxy = some 9 := by with_unfolding_all decide
  have hwf : QueuesWellFormed generateAllState := by
    unfold QueuesWellFormed
    with_unfolding_all decide
  refine ⟨hcb, hwf, ?_, by with_unfolding_all decide, by with_unfolding_all decide⟩
  obtain ⟨s2, h2⟩ :=
    (generateAll_callback_fires_when_idle_at_most_once Externals.plain generateAllState 9 hcb).2.1 hwf
  have hbusy : (gridTiles s2).all (fun T => !(getTile s2 T).bIsGenerating) = false := by
    have : some s2 = AVitruvioBatchActor.ProcessGenerateQueue Externals.plain generateAllState :=
      h2.symm
    have hd : (AVitruvioBatchActor.ProcessGenerateQueue Externals.plain generateAllState).map
        (fun a => (gridTiles a).all (fun T => !(getTile a T).bIsGenerating)) = some false := by
      with_unfolding_all decide
    rw [← this] at hd
    simpa using hd
  exact ⟨s2, h2, hbusy,
    ((generateAll_callback_fires_when_idle_at_most_once Externals.plain generateAllState 9 hcb).1
      s2 h2).2 hbusy⟩

/-- C2: in every reachable state, a pending generate (evaluate) job whose token is not invalid
has its token stored as the generate (evaluate) token of its tile, and two pending jobs of one
kind for the same tile with tokens that are not invalid are the same job; in particular, when a
tile with a pending generate job is dispatched again, the dispatch invalidates the token of the
pending job, stores a fresh token that is not invalid on the tile and appends the job that
carries it, and after the cycle `ProcessTiles` and in every later state of a run the token of
the first job is invalid, so that its completion handler returns the state unchanged. -/
theorem at_most_one_live_token_per_tile_and_kind (E : Externals) (s : State)
    (h : Reachable E s) :
    (∀ job ∈ s.pendingGenerate, FInvalidationToken.IsInvalid s job.Token = false →
      (getTile s job.Tile).GenerateToken = some job.Token) ∧
    (∀ job ∈ s.pendingEvaluate, FInvalidationToken.IsInvalid s job.Token = false →
      (getTile s job.Tile).EvalAttributesToken = some job.Token) ∧
    (∀ (i j : Nat) (a b : FPendingJob), s.pendingGenerate[i]? = some a → s.pendingGenerate[j]? = some b →
      FInvalidationToken.IsInvalid s a.Token = false →
      FInvalidationToken.IsInvalid s b.Token = false → a.Tile = b.Tile → i = j) ∧
    (∀ (i j : Nat) (a b : FPendingJob), s.pendingEvaluate[i]? = some a → s.pendingEvaluate[j]? = some b →
      FInvalidationToken.IsInvalid s a.Token = false →
      FInvalidationToken.IsInvalid s b.Token = false → a.Tile = b.Tile → i = j) ∧
    (∀ job ∈ s.pendingGenerate, job.Tile ∈ FGrid.GetTilesMarkedForGenerate s →
      hasValidComponent s job.Tile = true →
      (FInvalidationToken.IsInvalid (AVitruvioBatchActor.DispatchGenerate s job.Tile) job.Token
          = true ∧
        (getTile (AVitruvioBatchActor.DispatchGenerate s job.Tile) job.Tile).GenerateToken =
          some s.numTokens ∧
        FInvalidationToken.IsInvalid (AVitruvioBatchActor.DispatchGenerate s job.Tile) s.numTokens
          = false ∧
        (AVitruvioBatchActor.DispatchGenerate s job.Tile).pendingGenerate =
          s.pendingGenerate ++
            [{ Token := s.numTokens, Tile := job.Tile,
               InitialShapeVitruvioComponents := validComponents s job.Tile,
               InitialShapes := shapesOf s (validComponents s job.Tile) }]) ∧
      FInvalidationToken.IsInvalid (AVitruvioBatchActor.ProcessTiles s) job.Token = true ∧
      (∀ ops s2, run E s (Op.tick :: ops) = some s2 → ∀ Value,
        FInvalidationToken.IsInvalid s2 job.Token = true ∧
        AVitruvioBatchActor.GenerateContinuation s2 job Value = s2)) := by
  have hi := reachable_invariant E s h
  refine ⟨hi.generate, hi.evaluate, ?_, ?_, ?_⟩
  · intro i j a b ha hb va vb hab
    have sa := hi.generate a (List.getElem?_mem ha) va
    have sb := hi.generate b (List.getElem?_mem hb) vb
    rw [hab, sb] at sa
    exact index_unique_of_token _ hi.nodupGenerate i j a b ha hb (Option.some.inj sa).symm
  · intro i j a b ha hb va vb hab
    have sa := hi.evaluate a (List.getElem?_mem ha) va
    have sb := hi.evaluate b (List.getElem?_mem hb) vb
    rw [hab, sb] at sa
    exact index_unique_of_token _ hi.nodupEvaluate i j a b ha hb (Option.some.inj sa).symm
  · intro job hj hm hv
    have hg : job.Tile ∈ gridTiles s := by
      unfold FGrid.GetTilesMarkedForGenerate at hm
      exact (List.mem_filter.mp hm).1
    obtain ⟨d1, d2, d3, d4⟩ :=
      DispatchGenerate_supersedes s hi job hj hv (mem_gridTiles_lt s hi _ hg)
    have hp := ProcessTiles_supersedes s hi job hj hm hv
    refine ⟨⟨(isInvalid_iff _ _).mpr d1, d2, (isInvalid_false_iff _ _).mpr d3, d4⟩,
      (isInvalid_iff _ _).mpr hp, ?_⟩
    intro ops s2 hr Value
    simp only [run, Option.bind_eq_some] at hr
    obtain ⟨s1, h1, h2⟩ := hr
    have ht : AVitruvioBatchActor.Tick E s = some s1 := h1
    have hinv : job.Token ∈ s1.invalidTokens := by
      rw [Tick_invalid E s s1 ht]
      exact hp
    exact continuation_dropped_after E s1 s2 ops job hinv h2 Value

/-- C2 at a tile that is marked for generate again while its job is in flight: the cycle
invalidates the token of the first job, and when the first job then resolves nothing is queued. -/
theorem at_most_one_live_token_per_tile_and_kind_witness :
    Reachable Externals.plain redispatchState ∧
    staleJob ∈ redispatchState.pendingGenerate ∧
    FInvalidationToken.IsInvalid redispatchState staleJob.Token = false ∧
    (getTile redispatchState staleJob.Tile).GenerateToken = some staleJob.Token ∧
    FInvalidationToken.IsInvalid (AVitruvioBatchActor.ProcessTiles redispatchState) staleJob.Token
      = true ∧
    (∃ s2, run Externals.plain redispatchState [Op.tick, Op.resolveGenerate 0 exampleResult]
        = some s2 ∧
      FInvalidationToken.IsInvalid s2 staleJob.Token = true ∧
      AVitruvioBatchActor.GenerateContinuation s2 staleJob exampleResult = s2) := by
  have hr : Reachable Externals.plain redispatchState :=
    ⟨(100, 100), _, run_eq_some_stateAfter _ (by with_unfolding_all decide)⟩
  have hj : staleJob ∈ redispatchState.pendingGenerate := by with_unfolding_all decide
  have hv : FInvalidationToken.IsInvalid redispatchState staleJob.Token = false := by
    with_unfolding_all decide
  obtain ⟨c1, -, -, -, c5⟩ :=
    at_most_one_live_token_per_tile_and_kind Externals.plain redispatchState hr
  obtain ⟨-, e2, e3⟩ := c5 staleJob hj (by with_unfolding_all decide) (by with_unfolding_all decide)
  refine ⟨hr, hj, hv, c1 staleJob hj hv, e2, ?_⟩
  cases hrun : run Externals.plain redispatchState [Op.tick, Op.resolveGenerate 0 exampleResult] with
  | none =>
    have : (run Externals.plain redispatchState
        [Op.tick, Op.resolveGenerate 0 exampleResult]).isSome = true := by
      with_unfolding_all decide
    rw [hrun] at this
    exact Bool.noConfusion this
  | some s2 => exact ⟨s2, rfl, e3 _ s2 hrun exampleResult⟩

/-- C3: when `r` is registered in the grid with tile `T`, after `UnregisterVitruvioComponent`
the generate token that `T` stored is invalid and `T` stores no generate token, `r` is not a
member of `T` and the other members are as before, `T` is marked for generate, and every other
tile is unchanged; consequently, for a generate job that carries the token `T` stored, and in a
reachable state for every pending generate job of `T`, the completion handler returns the state
unchanged (no model component modified, nothing queued, nothing broadcast) in the state after
the unregistration and in every later state of a run; and the completion handler of an evaluate
job, in any state, leaves the log of effects, the model components and the callback lists of all
tiles as they are. -/
theorem unregister_invalidates_token_and_marks_tile (E : Externals) (s : State)
    (r : ComponentId) (T : TileId) (hreg : TMapFind s.Grid.TilesByComponent r = some T)
    (hT : T < s.tiles.length) :
    (∀ tok, (getTile s T).GenerateToken = some tok →
      FInvalidationToken.IsInvalid (AVitruvioBatchActor.UnregisterVitruvioComponent s r) tok
        = true) ∧
    (getTile (AVitruvioBatchActor.UnregisterVitruvioComponent s r) T).GenerateToken = none ∧
    r ∉ (getTile (AVitruvioBatchActor.UnregisterVitruvioComponent s r) T).VitruvioComponents ∧
    (getTile (AVitruvioBatchActor.UnregisterVitruvioComponent s r) T).VitruvioComponents =
      (getTile s T).VitruvioComponents.filter (fun c => decide (c ≠ r)) ∧
    (getTile (AVitruvioBatchActor.UnregisterVitruvioComponent s r) T).bMarkedForGenerate = true ∧
    (∀ T2, T2 ≠ T →
      getTile (AVitruvioBatchActor.UnregisterVitruvioComponent s r) T2 = getTile s T2) ∧
    (∀ job : FPendingJob, (getTile s T).GenerateToken = some job.Token ∨
        (Reachable E s ∧ job ∈ s.pendingGenerate ∧ job.Tile = T) →
      ∀ ops s2, run E (AVitruvioBatchActor.UnregisterVitruvioComponent s r) ops = some s2 →
        ∀ Value, FInvalidationToken.IsInvalid s2 job.Token = true ∧
          AVitruvioBatchActor.GenerateContinuation s2 job Value = s2) ∧
    (∀ (job : FPendingJob) (s2 : State) (Maps : List AttributeMapId) (T2 : TileId),
      (AVitruvioBatchActor.EvaluateContinuation s2 job Maps).log = s2.log ∧
      (getTile (AVitruvioBatchActor.EvaluateContinuation s2 job Maps) T2).GeneratedModelComponent =
        (getTile s2 T2).GeneratedModelComponent ∧
      (getTile (AVitruvioBatchActor.EvaluateContinuation s2 job Maps) T2).GenerateCallbackProxies =
        (getTile s2 T2).GenerateCallbackProxies ∧
      (getTile (AVitruvioBatchActor.EvaluateContinuation s2 job Maps) T2).EvaluateAttributesCallbackProxies =
        (getTile s2 T2).EvaluateAttributesCallbackProxies) := by
  obtain ⟨hinv, htile⟩ := UnregisterVitruvioComponent_tile s r T hreg
  have hTile := htile T
  rw [if_pos ⟨rfl, hT⟩] at hTile
  have hmem : ∀ tok, (getTile s T).GenerateToken = some tok →
      tok ∈ (AVitruvioBatchActor.UnregisterVitruvioComponent s r).invalidTokens := by
    intro tok htok
    rw [hinv, htok]
    exact List.mem_append_left _ (List.mem_singleton.mpr rfl)
  refine ⟨fun tok htok => (isInvalid_iff _ _).mpr (hmem tok htok), ?_, ?_, ?_, ?_, ?_, ?_, ?_⟩
  · rw [hTile]
    cases hm : (getTile s T).bMarkedForEvaluateAttributes <;>
      simp [UTile.MarkForGenerate, UTile.Remove, UTile.UnmarkForAttributeEvaluation, hm]
  · rw [hTile]
    cases hm : (getTile s T).bMarkedForEvaluateAttributes <;>
      simp [UTile.MarkForGenerate, UTile.Remove, UTile.UnmarkForAttributeEvaluation, hm,
        TSetRemove]
  · rw [hTile]
    cases hm : (getTile s T).bMarkedForEvaluateAttributes <;>
      simp [UTile.MarkForGenerate, UTile.Remove, UTile.UnmarkForAttributeEvaluation, hm,
        TSetRemove]
  · rw [hTile]
    cases hm : (getTile s T).bMarkedForEvaluateAttributes <;>
      simp [UTile.MarkForGenerate, UTile.Remove, UTile.UnmarkForAttributeEvaluation, hm]
  · intro T2 hne
    rw [htile T2, if_neg (fun hc => hne hc.1.symm)]
  · intro job hjob ops s2 hr Value
    have hin : job.Token ∈ (AVitruvioBatchActor.UnregisterVitruvioComponent s r).invalidTokens := by
      rcases hjob with hst | ⟨hre, hj, hjt⟩
      · exact hmem _ hst
      · by_cases hold : job.Token ∈ s.invalidTokens
        · rw [hinv]
          exact List.mem_append_right _ hold
        · have hst := (reachable_invariant E s hre).generate job hj
            ((isInvalid_false_iff s job.Token).mpr hold)
          rw [hjt] at hst
          exact hmem _ hst
    exact continuation_dropped_after E _ s2 ops job hin hr Value
  · intro job s2 Maps T2
    unfold AVitruvioBatchActor.EvaluateContinuation
    split
    · exact ⟨rfl, rfl, rfl, rfl⟩
    · refine ⟨rfl, ?_, ?_, ?_⟩ <;>
      · simp only [getTile, modifyTile, tileAt_modifyAt]
        split <;> rfl

/-- C3 at a component that is unregistered while the generate job of its tile is in flight: the
token of the job is invalid afterwards, and when the job resolves and a cycle runs, nothing is
queued and no effect is logged. -/
theorem unregister_invalidates_token_and_marks_tile_witness :
    TMapFind inFlightState.Grid.TilesByComponent 0 = some 0 ∧
    0 < inFlightState.tiles.length ∧
    (getTile inFlightState 0).GenerateToken = some staleJob.Token ∧
    (getTile inFlightState 0).VitruvioComponents = [0] ∧
    FInvalidationToken.IsInvalid (AVitruvioBatchActor.UnregisterVitruvioComponent inFlightState 0)
      staleJob.Token = true ∧
    (getTile (AVitruvioBatchActor.UnregisterVitruvioComponent inFlightState 0) 0).GenerateToken
      = none ∧
    (getTile (AVitruvioBatchActor.UnregisterVitruvioComponent inFlightState 0) 0).VitruvioComponents
      = [] ∧
    (getTile (AVitruvioBatchActor.UnregisterVitruvioComponent inFlightState 0) 0).bMarkedForGenerate
      = true ∧
    AVitruvioBatchActor.GenerateContinuation
      (AVitruvioBatchActor.UnregisterVitruvioComponent inFlightState 0) staleJob exampleResult =
      AVitruvioBatchActor.UnregisterVitruvioComponent inFlightState 0 := by
  have hreg : TMapFind inFlightState.Grid.TilesByComponent 0 = some 0 := by
    with_unfolding_all decide
  have hT : 0 < inFlightState.tiles.length := by with_unfolding_all decide
  have htok : (getTile inFlightState 0).GenerateToken = some staleJob.Token := by
    with_unfolding_all decide
  have hmem : (getTile inFlightState 0).VitruvioComponents = [0] := by with_unfolding_all decide
  obtain ⟨u1, u2, -, u4, u5, -, u7, -⟩ :=
    unregister_invalidates_token_and_marks_tile Externals.plain inFlightState 0 0 hreg hT
  refine ⟨hreg, hT, htok, hmem, u1 _ htok, u2, ?_, u5, (u7 staleJob (Or.inl htok) [] _ rfl
    exampleResult).2⟩
  rw [u4, hmem]
  rfl

/-- C15, evaluated on the code: `FGrid::Clear` walks the reverse index `TilesByComponent`, not
the tile map. After a component moved to another cell by unregister and register, its reverse
index entry points to the new tile, so the old tile (still in the tile map, without members,
with the model component of its last merge) is not visited: the call empties both maps but the
model component of the old tile is not destroyed and no `DestroyComponent` is issued for it. -/
theorem clear_skips_tile_without_index_entry :
    gridTiles (stateAfter movedOps) = [0, 1] ∧
    (stateAfter movedOps).Grid.TilesByComponent = [(0, 1)] ∧
    (getTile (stateAfter movedOps) 0).VitruvioComponents = [] ∧
    (getTile (stateAfter movedOps) 0).GeneratedModelComponent = some (generatedModel0 false) ∧
    (stateAfter (movedOps ++ [Op.unregisterAll])).Grid = { Tiles := [], TilesByComponent := [] } ∧
    (getTile (stateAfter (movedOps ++ [Op.unregisterAll])) 0).GeneratedModelComponent =
      some (generatedModel0 false) ∧
    Event.DestroyComponent "GeneratedModel0" ∉ (stateAfter (movedOps ++ [Op.unregisterAll])).log ∧
    (run Externals.plain (State.empty (100, 100)) (movedOps ++ [Op.unregisterAll])).isSome = true := by
  refine ⟨?_, ?_, ?_, ?_, ?_, ?_, ?_, ?_⟩ <;> with_unfolding_all decide

/-- C18, evaluated on the code: `FGrid::Clear` invalidates no token. A generate job that is in
flight when `UnregisterAllVitruvioComponents` is called keeps a valid token; when it completes
its result is queued, and the next cycle pushes its attributes to the component and assigns its
mesh to the model component that the clear destroyed. An evaluate job in flight is queued and
pushed in the same way. -/
theorem clear_keeps_jobs_in_flight_valid :
    (stateAfter [Op.spawn exampleComponent, Op.register 0 true, Op.tick,
      Op.unregisterAll]).pendingGenerate = [staleJob] ∧
    FInvalidationToken.IsInvalid (stateAfter [Op.spawn exampleComponent, Op.register 0 true,
      Op.tick, Op.unregisterAll]) staleJob.Token = false ∧
    (run Externals.plain (State.empty (100, 100))
        [Op.spawn exampleComponent, Op.register 0 true, Op.tick, Op.unregisterAll,
          Op.resolveGenerate 0 meshResult, Op.tick]).map
        (fun s => (s.log, (getTile s 0).GeneratedModelComponent)) =
      some ([Event.DestroyComponent "GeneratedModel0", Event.UpdateUnrealAttributeMap 0 41,
        Event.NotifyAttributesChanged 0], some (generatedModel0 true)) ∧
    (run Externals.plain (State.empty (100, 100))
        [Op.spawn exampleComponent, Op.register 0 false, Op.evaluateAttributes 0 none, Op.tick,
          Op.unregisterAll, Op.resolveEvaluate 0 [42], Op.tick]).map (fun s => s.log) =
      some [Event.UpdateUnrealAttributeMap 0 42, Event.NotifyAttributesChanged 0] := by
  refine ⟨?_, ?_, ?_, ?_⟩ <;> with_unfolding_all decide

/-- C19, evaluated on the code: `FGrid::Unregister` invalidates and resets the generate token of
the tile but leaves `bIsGenerating` set. When the unregistered component was the only one of its
tile, no job is dispatched for the tile again, so the tile stays flagged as generating with no
token and no queued result, and a generate-all callback requested afterwards is still pending
and not broadcast after further cycles. -/
theorem unregister_leaves_tile_generating :
    gridTiles (stateAfter [Op.spawn exampleComponent, Op.register 0 true, Op.tick,
      Op.unregister 0]) = [0] ∧
    (getTile (stateAfter [Op.spawn exampleComponent, Op.register 0 true, Op.tick,
      Op.unregister 0]) 0).bIsGenerating = true ∧
    (getTile (stateAfter [Op.spawn exampleComponent, Op.register 0 true, Op.tick,
      Op.unregister 0]) 0).GenerateToken = none ∧
    (stateAfter [Op.spawn exampleComponent, Op.register 0 true, Op.tick,
      Op.unregister 0]).GenerateQueue = [] ∧
    (run Externals.plain (State.empty (100, 100))
        [Op.spawn exampleComponent, Op.register 0 true, Op.tick, Op.unregister 0,
          Op.generateAll (some 9), Op.tick, Op.resolveGenerate 0 meshResult, Op.tick, Op.tick,
          Op.tick]).map
        (fun s => (s.GenerateAllCallbackProxy, generateAllBroadcasts s,
          (getTile s 0).bIsGenerating)) =
      some (some 9, [], true) ∧
    (run Externals.plain (State.empty (100, 100))
        [Op.spawn exampleComponent, Op.register 0 true, Op.tick, Op.unregister 0,
          Op.generateAll (some 9), Op.tick, Op.resolveGenerate 0 meshResult, Op.tick, Op.tick,
          Op.tick]).map
        (fun s => (s.pendingGenerate, s.GenerateQueue)) = some ([], []) := by
  refine ⟨?_, ?_, ?_, ?_, ?_, ?_⟩ <;> with_unfolding_all decide

/-- C20, evaluated on the code: `FGrid::Unregister` invalidates only the generate token stored
on the tile. A generate result that is already queued when the component is unregistered is
merged by the next cycle: the component gets its attributes and its notification and the mesh is
assigned to its former tile. An evaluate job in flight keeps a valid token: when it completes
after the unregistration, the next cycle pushes its attributes to the component. -/
theorem results_applied_after_unregister :
    (run Externals.plain (State.empty (100, 100))
        [Op.spawn exampleComponent, Op.register 0 true, Op.tick,
          Op.resolveGenerate 0 meshResult, Op.unregister 0]).map
        (fun s => (s.VitruvioComponents, (getTile s 0).VitruvioComponents,
          s.GenerateQueue.map (fun Item => (Item.Tile, Item.VitruvioComponents)))) =
      some ([], [], [(0, [0])]) ∧
    (run Externals.plain (State.empty (100, 100))
        [Op.spawn exampleComponent, Op.register 0 true, Op.tick,
          Op.resolveGenerate 0 meshResult, Op.unregister 0, Op.tick]).map
        (fun s => (s.log, (getTile s 0).GeneratedModelComponent)) =
      some ([Event.UpdateUnrealAttributeMap 0 41, Event.NotifyAttributesChanged 0],
        some (generatedModel0 false)) ∧
    (run Externals.plain (State.empty (100, 100))
        [Op.spawn exampleComponent, Op.register 0 false, Op.evaluateAttributes 0 none, Op.tick,
          Op.unregister 0]).map
        (fun s => (s.VitruvioComponents, s.pendingEvaluate.map (fun job => job.Token),
          s.invalidTokens)) =
      some ([], [0], []) ∧
    (run Externals.plain (State.empty (100, 100))
        [Op.spawn exampleComponent, Op.register 0 false, Op.evaluateAttributes 0 none, Op.tick,
          Op.unregister 0, Op.resolveEvaluate 0 [42], Op.tick]).map (fun s => s.log) =
      some [Event.UpdateUnrealAttributeMap 0 42, Event.NotifyAttributesChanged 0] := by
  refine ⟨?_, ?_, ?_, ?_⟩ <;> with_unfolding_all decide

/-- C14, the claim as stated fails: with grid dimension (100, 100) the position
`(-2^-1074, 250)` is negative in `x` and lies in the cell `[-100, 0) x [200, 300)` of index
`(-1, 2)`, but `GetPosition` returns `(0, 2)`, because the division rounds the quotient
`x / 100` to a zero; and the position `(10^12, 250)` lies in the cell of index `(10^10, 2)`,
but `GetPosition` returns `(-2^31, 2)`, because `10^10` does not fit an `int`. -/
theorem tiny_negative_position_maps_to_zero :
    (0 < tinyState.GridDimension.1 ∧ 0 < tinyState.GridDimension.2) ∧
    (getComponent tinyState 0).Location.X < 0 ∧
    (((-1 : ℤ) : ℚ) * tinyState.GridDimension.1 ≤ (getComponent tinyState 0).Location.X ∧
      (getComponent tinyState 0).Location.X < (((-1 : ℤ) : ℚ) + 1) * tinyState.GridDimension.1) ∧
    (((2 : ℤ) : ℚ) * tinyState.GridDimension.2 ≤ (getComponent tinyState 0).Location.Y ∧
      (getComponent tinyState 0).Location.Y < (((2 : ℤ) : ℚ) + 1) * tinyState.GridDimension.2) ∧
    AVitruvioBatchActor.GetPosition tinyState 0 = { X := 0, Y := 2 } ∧
    (0 < farState.GridDimension.1 ∧ 0 < farState.GridDimension.2) ∧
    (((10000000000 : ℤ) : ℚ) * farState.GridDimension.1 ≤ (getComponent farState 0).Location.X ∧
      (getComponent farState 0).Location.X <
        (((10000000000 : ℤ) : ℚ) + 1) * farState.GridDimension.1) ∧
    ((AVitruvioBatchActor.GetPosition farState 0).X = -2147483648 ∧
      (AVitruvioBatchActor.GetPosition farState 0).Y = 2) := by
  refine ⟨⟨?_, ?_⟩, ?_, ⟨?_, ?_⟩, ⟨?_, ?_⟩, ?_, ⟨?_, ?_⟩, ⟨?_, ?_⟩, ⟨?_, ?_⟩⟩ <;>
    set_option maxRecDepth 20000 in with_unfolding_all decide

/-- C14 as amended: let the grid dimension have positive components and let the position of a
component lie in the cell `[i*dx, (i+1)*dx) x [j*dy, (j+1)*dy)`, with `i`, `i + 1`, `j` and
`j + 1` in the range of a 32-bit `int`. Then the two double divisions of `GetPosition` return
finite quotients `qx` and `qy`, each within half a unit in the last place of the exact
quotient, and the coordinate is `(floor qx, floor qy)` with the floor rounding toward negative
infinity. Per axis it is `i` or `i + 1` (`j` or `j + 1`), and `i + 1` exactly when the double
quotient is `i + 1`; the coordinate is `(i, j)` exactly when neither double quotient was rounded
up to `i + 1` or `j + 1`, and on an axis where the exact quotient is itself a double (`m * 2^e`
with `|m| < 2^53` and `-1074 ≤ e`) it is `i` (`j`). On either axis a position whose exact quotient is at most `-2^-1074`
gets a negative coordinate, and a second component in the same cell gets the same coordinate
`(i, j)` when the double quotients of neither component were rounded up to `i + 1` or
`j + 1`. -/
theorem tile_coordinate_is_floor_of_double_quotient (s : State) (c : ComponentId) (i j : ℤ)
    (hx : 0 < s.GridDimension.1) (hy : 0 < s.GridDimension.2)
    (hi : -2 ^ 31 ≤ i ∧ i + 1 < 2 ^ 31) (hj : -2 ^ 31 ≤ j ∧ j + 1 < 2 ^ 31)
    (hcx : (i : ℚ) * s.GridDimension.1 ≤ (getComponent s c).Location.X ∧
      (getComponent s c).Location.X < ((i : ℚ) + 1) * s.GridDimension.1)
    (hcy : (j : ℚ) * s.GridDimension.2 ≤ (getComponent s c).Location.Y ∧
      (getComponent s c).Location.Y < ((j : ℚ) + 1) * s.GridDimension.2) :
    ∃ qx qy : ℚ,
      divDouble (getComponent s c).Location.X s.GridDimension.1 = some qx ∧
      divDouble (getComponent s c).Location.Y s.GridDimension.2 = some qy ∧
      |qx - (getComponent s c).Location.X / s.GridDimension.1| ≤
        ulp ((getComponent s c).Location.X / s.GridDimension.1) / 2 ∧
      |qy - (getComponent s c).Location.Y / s.GridDimension.2| ≤
        ulp ((getComponent s c).Location.Y / s.GridDimension.2) / 2 ∧
      AVitruvioBatchActor.GetPosition s c = { X := Int.floor qx, Y := Int.floor qy } ∧
      ((AVitruvioBatchActor.GetPosition s c).X = i ∨
        (AVitruvioBatchActor.GetPosition s c).X = i + 1) ∧
      ((AVitruvioBatchActor.GetPosition s c).Y = j ∨
        (AVitruvioBatchActor.GetPosition s c).Y = j + 1) ∧
      ((AVitruvioBatchActor.GetPosition s c).X = i + 1 ↔ qx = (i : ℚ) + 1) ∧
      ((AVitruvioBatchActor.GetPosition s c).Y = j + 1 ↔ qy = (j : ℚ) + 1) ∧
      (AVitruvioBatchActor.GetPosition s c = { X := i, Y := j } ↔
        qx ≠ (i : ℚ) + 1 ∧ qy ≠ (j : ℚ) + 1) ∧
      (∀ m e : ℤ, |m| < 2 ^ 53 → -1074 ≤ e →
        (getComponent s c).Location.X / s.GridDimension.1 = (m : ℚ) * twoPow e →
        (AVitruvioBatchActor.GetPosition s c).X = i) ∧
      (∀ m e : ℤ, |m| < 2 ^ 53 → -1074 ≤ e →
        (getComponent s c).Location.Y / s.GridDimension.2 = (m : ℚ) * twoPow e →
        (AVitruvioBatchActor.GetPosition s c).Y = j) ∧
      ((getComponent s c).Location.X / s.GridDimension.1 ≤ -(twoPow (-1074)) →
        (AVitruvioBatchActor.GetPosition s c).X ≤ -1) ∧
      ((getComponent s c).Location.Y / s.GridDimension.2 ≤ -(twoPow (-1074)) →
        (AVitruvioBatchActor.GetPosition s c).Y ≤ -1) ∧
      (∀ c2 : ComponentId,
        ((i : ℚ) * s.GridDimension.1 ≤ (getComponent s c2).Location.X ∧
          (getComponent s c2).Location.X < ((i : ℚ) + 1) * s.GridDimension.1) →
        ((j : ℚ) * s.GridDimension.2 ≤ (getComponent s c2).Location.Y ∧
          (getComponent s c2).Location.Y < ((j : ℚ) + 1) * s.GridDimension.2) →
        qx ≠ (i : ℚ) + 1 → qy ≠ (j : ℚ) + 1 →
        divDouble (getComponent s c2).Location.X s.GridDimension.1 ≠ some ((i : ℚ) + 1) →
        divDouble (getComponent s c2).Location.Y s.GridDimension.2 ≠ some ((j : ℚ) + 1) →
        AVitruvioBatchActor.GetPosition s c = AVitruvioBatchActor.GetPosition s c2 ∧
        AVitruvioBatchActor.GetPosition s c = { X := i, Y := j }) := by
  obtain ⟨qx, a1, a2, a3, a4, a5⟩ := GetPosition_axis (getComponent s c).Location.X
    s.GridDimension.1 hx i hi.1 hi.2 hcx.1 hcx.2
  obtain ⟨qy, b1, b2, b3, b4, b5⟩ := GetPosition_axis (getComponent s c).Location.Y
    s.GridDimension.2 hy j hj.1 hj.2 hcy.1 hcy.2
  obtain ⟨fx1, fx2, fx3⟩ := floor_between qx i a3 a4
  obtain ⟨fy1, fy2, fy3⟩ := floor_between qy j b3 b4
  have hP : AVitruvioBatchActor.GetPosition s c = { X := Int.floor qx, Y := Int.floor qy } := by
    simp only [AVitruvioBatchActor.GetPosition, a2, b2]
  have hX : (AVitruvioBatchActor.GetPosition s c).X = Int.floor qx := by rw [hP]
  have hY : (AVitruvioBatchActor.GetPosition s c).Y = Int.floor qy := by rw [hP]
  have hij : AVitruvioBatchActor.GetPosition s c = { X := i, Y := j } ↔
      qx ≠ (i : ℚ) + 1 ∧ qy ≠ (j : ℚ) + 1 := by
    rw [hP, FIntPoint.mk.injEq, fx2, fy2]
    constructor
    · rintro ⟨u1, u2⟩
      exact ⟨ne_of_lt u1, ne_of_lt u2⟩
    · rintro ⟨u1, u2⟩
      exact ⟨lt_of_le_of_ne a4 u1, lt_of_le_of_ne b4 u2⟩
  have hneg : ∀ (x d v : ℚ), 0 < d → divDouble x d = some v → x / d ≤ -(twoPow (-1074)) →
      Int.floor v ≤ -1 := by
    intro x d v hd hdiv hq
    have hv : v ≤ -(twoPow (-1074)) := by
      apply roundDouble_neg _ v hq
      unfold divDouble at hdiv
      rw [if_neg (ne_of_gt hd)] at hdiv
      exact hdiv
    have hlt : v < ((0 : ℤ) : ℚ) := by
      have := twoPow_pos (-1074)
      push_cast
      linarith
    have := Int.floor_lt.mpr hlt
    omega
  have hexact : ∀ (x d v : ℚ) (k m e : ℤ), 0 < d → -2 ^ 31 ≤ k → k + 1 < 2 ^ 31 →
      (k : ℚ) * d ≤ x → x < ((k : ℚ) + 1) * d → divDouble x d = some v →
      |m| < 2 ^ 53 → -1074 ≤ e → x / d = (m : ℚ) * twoPow e → v < (k : ℚ) + 1 := by
    intro x d v k m e hd hk1 hk2 hc1 hc2 hdiv hm he hq
    have q1 : (k : ℚ) ≤ x / d := (le_div_iff₀ hd).mpr hc1
    have q2 : x / d < (k : ℚ) + 1 := (div_lt_iff₀ hd).mpr hc2
    have hk1q : -(2 : ℚ) ^ 31 ≤ (k : ℚ) := by exact_mod_cast hk1
    have hk2q : (k : ℚ) + 1 < 2 ^ 31 := by exact_mod_cast hk2
    have hfin : |(m : ℚ) * twoPow e| < twoPow 1024 := by
      rw [← hq]
      apply lt_trans _ twoPow_1024
      rw [abs_lt]
      constructor <;> norm_num <;> linarith
    have hr := roundDouble_of_double m e hm he hfin
    unfold divDouble at hdiv
    rw [if_neg (ne_of_gt hd), hq, hr] at hdiv
    simp only [Option.some.injEq] at hdiv
    rw [← hdiv, ← hq]
    exact q2
  refine ⟨qx, qy, a1, b1, a5, b5, hP, ?_, ?_, ?_, ?_, hij, ?_, ?_, ?_, ?_, ?_⟩
  · rw [hX]; exact fx1
  · rw [hY]; exact fy1
  · rw [hX]; exact fx3
  · rw [hY]; exact fy3
  · intro m e hm he hq
    rw [hX]
    exact fx2.mpr (hexact _ _ qx i m e hx hi.1 hi.2 hcx.1 hcx.2 a1 hm he hq)
  · intro m e hm he hq
    rw [hY]
    exact fy2.mpr (hexact _ _ qy j m e hy hj.1 hj.2 hcy.1 hcy.2 b1 hm he hq)
  · intro hq
    rw [hX]
    exact hneg _ _ qx hx a1 hq
  · intro hq
    rw [hY]
    exact hneg _ _ qy hy b1 hq
  · intro c2 c2x c2y nx ny n2x n2y
    obtain ⟨rx, d1, d2, d3, d4, -⟩ := GetPosition_axis (getComponent s c2).Location.X
      s.GridDimension.1 hx i hi.1 hi.2 c2x.1 c2x.2
    obtain ⟨ry, e1, e2, e3, e4, -⟩ := GetPosition_axis (getComponent s c2).Location.Y
      s.GridDimension.2 hy j hj.1 hj.2 c2y.1 c2y.2
    have hrx : rx < (i : ℚ) + 1 :=
      lt_of_le_of_ne d4 (fun h => n2x (by rw [d1, h]))
    have hry : ry < (j : ℚ) + 1 :=
      lt_of_le_of_ne e4 (fun h => n2y (by rw [e1, h]))
    have hP2 : AVitruvioBatchActor.GetPosition s c2 = { X := i, Y := j } := by
      simp only [AVitruvioBatchActor.GetPosition, d2, e2, FIntPoint.mk.injEq]
      exact ⟨(floor_between rx i d3 d4).2.1.mpr hrx, (floor_between ry j e3 e4).2.1.mpr hry⟩
    have hP1 := hij.mpr ⟨nx, ny⟩
    exact ⟨hP1.trans hP2.symm, hP1⟩

/-- C14 as amended, at the position (-10, 250) with grid dimension (100, 100), in the cell of
index (-1, 2): the coordinate is (-1, 2), and its `x` is negative. -/
theorem tile_coordinate_is_floor_of_double_quotient_witness :
    (0 < negativeState.GridDimension.1 ∧ 0 < negativeState.GridDimension.2) ∧
    (getComponent negativeState 0).Location = { X := -10, Y := 250, Z := 0 } ∧
    AVitruvioBatchActor.GetPosition negativeState 0 = { X := -1, Y := 2 } ∧
    (AVitruvioBatchActor.GetPosition negativeState 0).X ≤ -1 := by
  have hx : 0 < negativeState.GridDimension.1 := by with_unfolding_all decide
  have hy : 0 < negativeState.GridDimension.2 := by with_unfolding_all decide
  have hloc : (getComponent negativeState 0).Location = { X := -10, Y := 250, Z := 0 } := by
    with_unfolding_all decide
  have g1 : negativeState.GridDimension.1 = 100 := by with_unfolding_all decide
  have g2 : negativeState.GridDimension.2 = 100 := by with_unfolding_all decide
  obtain ⟨qx, qy, -, -, -, -, -, -, -, -, -, -, -, -, k, -, -⟩ :=
    tile_coordinate_is_floor_of_double_quotient negativeState 0 (-1) 2 hx hy
      (by norm_num) (by norm_num)
      (by rw [hloc, g1]; norm_num) (by rw [hloc, g2]; norm_num)
  refine ⟨⟨hx, hy⟩, hloc, by with_unfolding_all decide, k ?_⟩
  rw [hloc, g1]
  have h : twoPow (-1074) ≤ twoPow (-4) := twoPow_le_twoPow (by norm_num)
  have h0 : twoPow (-4) = 1 / 16 := by with_unfolding_all decide
  rw [h0] at h
  norm_num
  linarith

/-- C12: registering a requester that is already registered changes nothing.
`RegisterVitruvioComponent` returns the state it was given when the component is in the actor's
set; `FGrid::Register` returns the state it was given when the tile at the component's
coordinate exists and contains the component; and in every state, for either flag value on
either call, a second `FGrid::Register` or `RegisterVitruvioComponent` of the same component
right after the first returns the state the first one produced (the tile map, the members and
marks of every tile and the reverse index are parts of that state). -/
theorem register_twice_is_noop (s : State) (r : ComponentId) (b b2 : Bool) :
    (TSetContains s.VitruvioComponents r = true →
      AVitruvioBatchActor.RegisterVitruvioComponent s r b = s) ∧
    (∀ T, TMapFind s.Grid.Tiles (AVitruvioBatchActor.GetPosition s r) = some T →
      (getTile s T).Contains r = true → FGrid.Register s r b = s) ∧
    FGrid.Register (FGrid.Register s r b) r b2 = FGrid.Register s r b ∧
    AVitruvioBatchActor.RegisterVitruvioComponent
        (AVitruvioBatchActor.RegisterVitruvioComponent s r b) r b2 =
      AVitruvioBatchActor.RegisterVitruvioComponent s r b := by
  have first : ∀ (t : State) (f : Bool), TSetContains t.VitruvioComponents r = true →
      AVitruvioBatchActor.RegisterVitruvioComponent t r f = t := by
    intro t f h
    unfold AVitruvioBatchActor.RegisterVitruvioComponent
    rw [if_pos h]
  refine ⟨first s b, fun T hf hc => Register_of_contains s r b T hf hc, Register_idem s r b b2, ?_⟩
  apply first
  unfold AVitruvioBatchActor.RegisterVitruvioComponent
  by_cases h : TSetContains s.VitruvioComponents r = true
  · rw [if_pos h]
    exact h
  · rw [if_neg h, Register_VitruvioComponents]
    simp only [TSetContains, TSetAdd, decide_eq_true_eq]
    split
    · assumption
    · exact List.mem_append_right _ (List.mem_singleton.mpr rfl)

/-- C12 at a registered component: registering it again, with the flag set, leaves the state
with its one tile, the tile's member and its marks as they are. -/
theorem register_twice_is_noop_witness :
    TSetContains registeredState.VitruvioComponents 0 = true ∧
    (getTile registeredState 0).VitruvioComponents = [0] ∧
    (getTile registeredState 0).bMarkedForGenerate = false ∧
    AVitruvioBatchActor.RegisterVitruvioComponent registeredState 0 true = registeredState ∧
    FGrid.Register registeredState 0 true = registeredState := by
  have h1 : TSetContains registeredState.VitruvioComponents 0 = true := by
    with_unfolding_all decide
  obtain ⟨k1, k2, -, -⟩ := register_twice_is_noop registeredState 0 true true
  exact ⟨h1, by with_unfolding_all decide, by with_unfolding_all decide, k1 h1,
    k2 0 (by with_unfolding_all decide) (by with_unfolding_all decide)⟩

/-- C13: registering distinct requesters, each with its own flag, into an empty grid gives a tile
map whose keys are exactly the tile coordinates of the requesters, each once (so the number of
tiles is the number of distinct coordinates and no tile exists for an unused coordinate), with
pairwise different tiles; the tile of a coordinate holds exactly the requesters with that
coordinate, in registration order, is marked for generate exactly when one of them was registered
with the flag set, and the reverse index maps each requester to the tile of its coordinate.
`FGrid::RegisterAll` is the case of one flag for all requesters. -/
theorem registration_builds_one_tile_per_coordinate (s0 : State)
    (regs : List (ComponentId × Bool))
    (hempty : s0.Grid = { Tiles := [], TilesByComponent := [] })
    (hdistinct : (regs.map Prod.fst).Nodup) :
    (∀ P, P ∈ (registerEach s0 regs).Grid.Tiles.map Prod.fst ↔
      ∃ d ∈ regs, AVitruvioBatchActor.GetPosition s0 d.1 = P) ∧
    ((registerEach s0 regs).Grid.Tiles.map Prod.fst).Nodup ∧
    (gridTiles (registerEach s0 regs)).Nodup ∧
    (registerEach s0 regs).Grid.Tiles.length =
      ((regs.map (fun d => AVitruvioBatchActor.GetPosition s0 d.1)).dedup).length ∧
    (∀ e ∈ (registerEach s0 regs).Grid.Tiles,
      (getTile (registerEach s0 regs) e.2).VitruvioComponents =
        (regs.filter (fun d => decide (AVitruvioBatchActor.GetPosition s0 d.1 = e.1))).map
          Prod.fst ∧
      (getTile (registerEach s0 regs) e.2).bMarkedForGenerate =
        regs.any (fun d => decide (AVitruvioBatchActor.GetPosition s0 d.1 = e.1) && d.2) ∧
      (getTile (registerEach s0 regs) e.2).Location = e.1) ∧
    (∀ d ∈ regs, ∃ T, TMapFind (registerEach s0 regs).Grid.TilesByComponent d.1 = some T ∧
      (AVitruvioBatchActor.GetPosition s0 d.1, T) ∈ (registerEach s0 regs).Grid.Tiles) ∧
    (∀ (cs : List ComponentId) (b : Bool),
      FGrid.RegisterAll s0 cs b = registerEach s0 (cs.map (fun c => (c, b)))) := by
  obtain ⟨hr, hused⟩ := registerEach_registered s0 hempty regs hdistinct
  have hkeys : ∀ P, P ∈ (registerEach s0 regs).Grid.Tiles.map Prod.fst ↔
      ∃ d ∈ regs, AVitruvioBatchActor.GetPosition s0 d.1 = P := by
    intro P
    constructor
    · intro hP
      obtain ⟨e, he, heq⟩ := List.mem_map.mp hP
      obtain ⟨d, hd, hdx⟩ := hused e he
      exact ⟨d, hd, hdx.trans heq⟩
    · rintro ⟨d, hd, rfl⟩
      exact hr.covered d hd
  refine ⟨hkeys, hr.keys, hr.values, ?_, hr.tile, hr.index, ?_⟩
  · have hperm : ((registerEach s0 regs).Grid.Tiles.map Prod.fst).Perm
        ((regs.map (fun d => AVitruvioBatchActor.GetPosition s0 d.1)).dedup) := by
      rw [List.perm_ext_iff_of_nodup hr.keys (List.nodup_dedup _)]
      intro P
      rw [hkeys P, List.mem_dedup, List.mem_map]
    rw [← hperm.length_eq, List.length_map]
  · intro cs b
    simp [FGrid.RegisterAll, registerEach, List.foldl_map]

/-- C13 at grid dimension 100 and requesters at (10, 10), (20, 20) and (150, 10), the first
registered with the flag set: two tiles, the tile at (0, 0) with the two requesters 0 and 1 and
marked for generate, the tile at (1, 0) with requester 2 and not marked. -/
theorem registration_builds_one_tile_per_coordinate_witness :
    threeComponentsState.Grid = { Tiles := [], TilesByComponent := [] } ∧
    ([((0 : ComponentId), true), (1, false), (2, false)].map Prod.fst).Nodup ∧
    (registerEach threeComponentsState [(0, true), (1, false), (2, false)]).Grid.Tiles =
      [({ X := 0, Y := 0 }, 0), ({ X := 1, Y := 0 }, 1)] ∧
    (registerEach threeComponentsState [(0, true), (1, false), (2, false)]).Grid.Tiles.length
      = 2 ∧
    (getTile (registerEach threeComponentsState [(0, true), (1, false), (2, false)])
      0).VitruvioComponents = [0, 1] ∧
    (getTile (registerEach threeComponentsState [(0, true), (1, false), (2, false)])
      1).VitruvioComponents = [2] ∧
    (getTile (registerEach threeComponentsState [(0, true), (1, false), (2, false)])
      0).bMarkedForGenerate = true ∧
    (getTile (registerEach threeComponentsState [(0, true), (1, false), (2, false)])
      1).bMarkedForGenerate = false := by
  have hempty : threeComponentsState.Grid = { Tiles := [], TilesByComponent := [] } := by
    with_unfolding_all decide
  have hd : ([((0 : ComponentId), true), (1, false), (2, false)].map Prod.fst).Nodup := by
    decide
  have htiles : (registerEach threeComponentsState
      [(0, true), (1, false), (2, false)]).Grid.Tiles =
      [({ X := 0, Y := 0 }, 0), ({ X := 1, Y := 0 }, 1)] := by
    with_unfolding_all decide
  obtain ⟨-, -, -, k4, k5, -, -⟩ := registration_builds_one_tile_per_coordinate
    threeComponentsState [(0, true), (1, false), (2, false)] hempty hd
  have m0 := k5 ({ X := 0, Y := 0 }, 0) (by rw [htiles]; simp)
  have m1 := k5 ({ X := 1, Y := 0 }, 1) (by rw [htiles]; simp)
  refine ⟨hempty, hd, htiles, ?_, ?_, ?_, ?_, ?_⟩
  · rw [htiles]; rfl
  · rw [m0.1]; with_unfolding_all decide
  · rw [m1.1]; with_unfolding_all decide
  · rw [m0.2.1]; with_unfolding_all decide
  · rw [m1.2.1]; with_unfolding_all decide

/-- C11: in every state the batch actor can reach (by registering, unregistering and clearing,
interleaved with position changes, marks, cycles and job completions), every component registered
with the actor is a member of exactly one tile of the grid and the reverse index maps it to that
tile, a component that is not registered is a member of no tile of the grid, and the tiles of
the grid are pairwise different; in particular after a move done as unregister, position change,
register (or, as the move handler does, position change, unregister, register) the component is
registered and a member of the tile found at its new coordinate and of no other tile. -/
theorem registered_requester_in_exactly_one_tile (E : Externals) (s : State)
    (h : Reachable E s) :
    (∀ c ∈ s.VitruvioComponents, ∃ T ∈ gridTiles s,
      c ∈ (getTile s T).VitruvioComponents ∧ TMapFind s.Grid.TilesByComponent c = some T ∧
      ∀ T2 ∈ gridTiles s, c ∈ (getTile s T2).VitruvioComponents → T2 = T) ∧
    (∀ c, c ∉ s.VitruvioComponents →
      ∀ T ∈ gridTiles s, c ∉ (getTile s T).VitruvioComponents) ∧
    (gridTiles s).Nodup ∧
    (∀ (c : ComponentId) (data : UVitruvioComponent) (b : Bool) (ops : List Op),
      (ops = [Op.unregister c, Op.edit c data, Op.register c b] ∨
        ops = [Op.edit c data, Op.unregister c, Op.register c b]) →
      ∃ s2 T, run E s ops = some s2 ∧
        TMapFind s2.Grid.Tiles (AVitruvioBatchActor.GetPosition s2 c) = some T ∧
        c ∈ (getTile s2 T).VitruvioComponents ∧
        TMapFind s2.Grid.TilesByComponent c = some T ∧
        (∀ T2 ∈ gridTiles s2, c ∈ (getTile s2 T2).VitruvioComponents → T2 = T) ∧
        c ∈ s2.VitruvioComponents) := by
  have hi := reachable_gridInvariant E s h
  refine ⟨?_, ?_, hi.values, ?_⟩
  · intro c hc
    obtain ⟨T, t1, t2, t3⟩ := hi.registered c hc
    exact ⟨T, t1, t3, t2, fun T2 hT2 hm => hi.unique c T2 hT2 T t1 hm t3⟩
  · intro c hc T hT hm
    exact hc (hi.members T hT c hm)
  · intro c data b ops hops
    exact move_lands_in_new_tile E s c data b ops hi hops

/-- C11 at a component registered at (10, 10) that moves to (150, 10): before the move it is a
member of tile 0 only, after the move of tile 1 only, which is the tile at coordinate (1, 0). -/
theorem registered_requester_in_exactly_one_tile_witness :
    Reachable Externals.plain registeredState ∧
    registeredState.VitruvioComponents = [0] ∧
    (∃ T ∈ gridTiles registeredState,
      0 ∈ (getTile registeredState T).VitruvioComponents ∧
      TMapFind registeredState.Grid.TilesByComponent 0 = some T ∧
      ∀ T2 ∈ gridTiles registeredState,
        0 ∈ (getTile registeredState T2).VitruvioComponents → T2 = T) ∧
    (run Externals.plain registeredState
        [Op.unregister 0, Op.edit 0 exampleComponentMoved, Op.register 0 true]).map
        (fun s2 => (s2.Grid, (getTile s2 0).VitruvioComponents,
          (getTile s2 1).VitruvioComponents)) =
      some ({ Tiles := [({ X := 0, Y := 0 }, 0), ({ X := 1, Y := 0 }, 1)],
              TilesByComponent := [(0, 1)] }, [], [0]) := by
  have hr : Reachable Externals.plain registeredState :=
    ⟨(100, 100), _, run_eq_some_stateAfter _ (by with_unfolding_all decide)⟩
  have hv : registeredState.VitruvioComponents = [0] := by with_unfolding_all decide
  obtain ⟨k1, -, -, -⟩ := registered_requester_in_exactly_one_tile Externals.plain
    registeredState hr
  exact ⟨hr, hv, k1 0 (by rw [hv]; simp), by with_unfolding_all decide⟩

/-- C17: when a generate result is merged into a tile, the log of effects continues with the
attribute pushes, then one `DestroyComponent` for each instance component the model component
has when the destroy loop starts (the components it had before the merge, when the result has no
primary mesh or when applying material replacements keeps the children), then one registration
for each created instance component, then the tile callbacks; the created components are, in
order and one to one, the instance groups of the converted result that are not in the set the
instance replacement returned, none for a group in that set, each carrying the static mesh and
identifier of the group's mesh, one instance per transform in order, and the override materials
at their slot indices; they are attached after what the instance replacement attached. -/
theorem merge_replaces_instance_components (E : Externals) (s s2 : State)
    (Item : FBatchGenerateQueueItem)
    (h : AVitruvioBatchActor.MergeGenerateItem E s Item = some s2) :
    ∃ (cr : FConvertedGenerateResult) (mc mcAfter : UGeneratedModelStaticMeshComponent)
      (previous attached created : List UGeneratedModelHISMComponent)
      (Replaced : List FInstance),
      cr = (E.BuildGenerateResult Item.GenerateResultDescription s.MaterialIdentifiers
        s.UniqueMaterialIdentifiers).1 ∧
      (getTile s Item.Tile).GeneratedModelComponent = some mc ∧
      (getTile s2 Item.Tile).GeneratedModelComponent = some mcAfter ∧
      ((cr.ShapeMesh = none ∨
          ∀ m mi a, (E.ApplyMaterialReplacements m mi a).Children = m.Children) →
        previous = mc.Children) ∧
      (∃ m1 : UGeneratedModelStaticMeshComponent, m1.Children = [] ∧
        Replaced = (E.ApplyInstanceReplacements m1 cr.Instances s.InstanceReplacement []).1 ∧
        attached =
          (E.ApplyInstanceReplacements m1 cr.Instances s.InstanceReplacement []).2.1.Children) ∧
      s2.log = s.log ++ attributePushes Item.VitruvioComponents
            Item.GenerateResultDescription.EvaluatedAttributes
          ++ previous.map (fun ch => Event.DestroyComponent ch.Name)
          ++ created.map (fun ch => Event.RegisterComponent ch.Name)
          ++ fireCallbacks (getTile s Item.Tile).GenerateCallbackProxies ∧
      mcAfter.Children = attached ++ created ∧
      List.Forall₂ builtFrom created
        (cr.Instances.filter (fun Instance => decide (Instance ∉ Replaced))) ∧
      created.length =
        (cr.Instances.filter (fun Instance => decide (Instance ∉ Replaced))).length := by
  obtain ⟨cr, mc, m1, created, h1, h2, h3, h4, h5, h6, h7⟩ :=
    MergeGenerateItem_children E s s2 Item h
  refine ⟨cr, mc, _, m1.Children, _, created, _, h1, h2, h5, ?_,
    ⟨{ m1 with Children := [] }, rfl, rfl, rfl⟩, h6, rfl, h7, h7.length_eq⟩
  rintro (hn | hE)
  · rw [h3 hn]
  · exact h4 hE

/-- C17 at a result with the two instance groups A and B, of which A is substituted: the merge
creates the one instance component of B, with the mesh identifier, the transform and the two
override materials of B. -/
theorem merge_replaces_instance_components_witness :
    ∃ s2, AVitruvioBatchActor.MergeGenerateItem Externals.replacing queuedState queuedItem =
        some s2 ∧
      (∃ (mcAfter : UGeneratedModelStaticMeshComponent)
          (created : List UGeneratedModelHISMComponent),
        (getTile s2 queuedItem.Tile).GeneratedModelComponent = some mcAfter ∧
        created.length = 1 ∧ mcAfter.Children = created) ∧
      (getTile s2 0).GeneratedModelComponent.map (fun m => m.Children) =
        some [exampleChildB] := by
  cases hm : AVitruvioBatchActor.MergeGenerateItem Externals.replacing queuedState queuedItem with
  | none =>
    have : (AVitruvioBatchActor.MergeGenerateItem Externals.replacing queuedState
        queuedItem).isSome = true := by with_unfolding_all decide
    rw [hm] at this
    exact Bool.noConfusion this
  | some s2 =>
    have hd : (AVitruvioBatchActor.MergeGenerateItem Externals.replacing queuedState
        queuedItem).map (fun a => (getTile a 0).GeneratedModelComponent.map (fun m => m.Children)) =
        some (some [exampleChildB]) := by with_unfolding_all decide
    rw [hm] at hd
    obtain ⟨cr, mc, mcAfter, previous, attached, created, Replaced, k1, k2, k3, k4, k5, k6, k7,
      k8, k9⟩ := merge_replaces_instance_components Externals.replacing queuedState s2 queuedItem hm
    obtain ⟨m1, -, r1, r2⟩ := k5
    have hrep : Replaced = [exampleInstanceA] := r1
    have hatt : attached = m1.Children := r2
    refine ⟨s2, rfl, ⟨mcAfter, created, k3, ?_, ?_⟩, by simpa using hd⟩
    · rw [k9, k1, hrep]
      with_unfolding_all decide
    · have hc : (getTile s2 0).GeneratedModelComponent.map (fun m => m.Children) =
          some [exampleChildB] := by simpa using hd
      have hq : queuedItem.Tile = 0 := rfl
      rw [hq] at k3
      rw [k3] at hc
      simp only [Option.map_some', Option.some.injEq] at hc
      have hlen : created.length = 1 := by
        rw [k9, k1, hrep]
        with_unfolding_all decide
      rw [k7] at hc
      have hal : attached.length = 0 := by
        have := congrArg List.length hc
        simp only [List.length_append, List.length_singleton] at this
        omega
      rw [k7, List.length_eq_zero.mp hal, List.nil_append]

/-- C16, the code departs from the claim: the merge of a result without primary mesh does not
clear the mesh of the model component. In the run `staleMeshOps` the first job of the tile
resolves with mesh 7 and its result is queued; the tile is marked again, and the next cycle
dispatches the second job (which clears the model component) and then merges the queued first
result, assigning mesh 7. The second job resolves without a primary mesh; before its merge the
queue holds that one item for tile 0 and the tile has mesh 7, and after the cycle that merges it
(the cycle returns and the queue is empty) the tile still has mesh 7. -/
theorem merge_without_mesh_keeps_assigned_mesh :
    (run Externals.plain (State.empty (100, 100)) (staleMeshOps ++ [Op.tick])).isSome = true ∧
    (stateAfter staleMeshOps).GenerateQueue.map
        (fun Item => (Item.Tile, Item.GenerateResultDescription.GeneratedModel)) = [(0, none)] ∧
    (getTile (stateAfter staleMeshOps) 0).GeneratedModelComponent =
      some (generatedModel0 false) ∧
    (stateAfter (staleMeshOps ++ [Op.tick])).GenerateQueue = [] ∧
    (getTile (stateAfter (staleMeshOps ++ [Op.tick])) 0).GeneratedModelComponent =
      some (generatedModel0 false) ∧
    (generatedModel0 false).StaticMesh ≠ none := by
  refine ⟨?_, ?_, ?_, ?_, ?_, ?_⟩ <;> with_unfolding_all decide

end Vitruvio
